import Mathlib

/-!
# rvares.c : response decoding, suffix search, send path and reset of the asynchronous DNS resolver

Shallow embedding of `RvRtsp_win/RvRtspClient/common/ares/rvares.c`.

Conventions of the embedding.

* A message buffer is a `List Nat` of octets, a pointer into it is a `Nat`
  offset from `msgBody`.  Reading an octet that is not in the list yields `0`.
* A C string is the list of its characters before the terminating NUL.
* `RvStatus`, `RvInt` are `Int`; `RvUint8/16/32`, `RvSize_t` are `Nat`.
* Collaborators that are not part of `rvares.c` (the name expander, the cache,
  the allocator, the user callback, the status constants of the missing
  headers) are fields of `Env`.  The cache and the user callback may answer
  differently every time they are called: they receive the events that have
  happened so far.
* Collaborators of the suffix search are fields of `SearchEnv`, those of
  `RvAresSendQueryEx` and `rvAresResetServers2` fields of `SendEnv`, those of
  `RvAresConfigure`, `RvAresSetParams` and `RvAresCancelQuery` fields of
  `ConfigEnv`.  The exception slot of the thread is an `Option Int`: `none`
  when no slot is installed.
-/

set_option maxRecDepth 100000

namespace RvAres

/-! ## Constants of the wire format (arpa/nameser.h, ares_dns.h) -/

/-- C string: the characters before the terminating NUL. -/
abbrev Name := List Nat

/-- The status `RV_OK`. -/
def RV_OK : Int := 0

/-- The status `ARES_SUCCESS`. -/
def ARES_SUCCESS : Int := 0

/-- Modelled from the spec: `HFIXEDSZ` of the absent headers, the "12-byte header". -/
def HFIXEDSZ : Nat := 12

/-- Modelled from the spec: `QFIXEDSZ`, the octets of "QTYPE(u16) + QCLASS(u16)". -/
def QFIXEDSZ : Nat := 4

/-- Modelled from the spec: `RRFIXEDSZ`, the octets of "TYPE + CLASS + TTL(u32) +
RDLENGTH(u16)". -/
def RRFIXEDSZ : Nat := 10

/-- Record type A (value given in the comment above `gsRecordDecodersRegistry`). -/
def T_A : Int := 1

/-- Record type CNAME of RFC 1035. -/
def T_CNAME : Int := 5

/-- Record type SOA of RFC 1035. -/
def T_SOA : Nat := 6

/-- Record type AAAA (value given in the comment above `gsRecordDecodersRegistry`). -/
def T_AAAA : Int := 28

/-- Record type SRV (value given in the comment above `gsRecordDecodersRegistry`). -/
def T_SRV : Int := 33

/-- Record type NAPTR (value given in the comment above `gsRecordDecodersRegistry`). -/
def T_NAPTR : Int := 35

/-- Class IN of RFC 1035. -/
def C_IN : Nat := 1

/-- Response code NXDOMAIN of RFC 1035. -/
def NXDOMAIN : Nat := 3

/-- Modelled from the spec: `RV_DNS_MAX_NAME_LEN` of the absent rvares.h; names are
"bounded to 255 octets + terminator". -/
def RV_DNS_MAX_NAME_LEN : Nat := 255

/-- Octet at offset `p` of buffer `m` (`0` outside the buffer). -/
def byteAt (m : List Nat) (p : Nat) : Nat := m.getD p 0

/-- Modelled from the spec: `DNS__16BIT` of the absent ares_dns.h, a big-endian
fixed-width reader. -/
def DNS__16BIT (m : List Nat) (p : Nat) : Nat := byteAt m p * 256 + byteAt m (p + 1)

/-- Modelled from the spec: `DNS__32BIT` of the absent ares_dns.h, a big-endian
fixed-width reader. -/
def DNS__32BIT (m : List Nat) (p : Nat) : Nat :=
  byteAt m p * 16777216 + byteAt m (p + 1) * 65536 + byteAt m (p + 2) * 256 + byteAt m (p + 3)

/-- Modelled from the spec: `DNS_HEADER_RCODE` of the absent ares_dns.h; the header is
"ID, flags/opcode/rcode, QDCOUNT, ANCOUNT, NSCOUNT, ARCOUNT big-endian", the response code
being the low four bits of the fourth octet. -/
def DNS_HEADER_RCODE (h : List Nat) : Nat := byteAt h 3 % 16

/-- Modelled from the spec: QDCOUNT, the third big-endian 16-bit field of the header. -/
def DNS_HEADER_QDCOUNT (h : List Nat) : Nat := DNS__16BIT h 4

/-- Modelled from the spec: ANCOUNT, the fourth big-endian 16-bit field of the header. -/
def DNS_HEADER_ANCOUNT (h : List Nat) : Nat := DNS__16BIT h 6

/-- Modelled from the spec: NSCOUNT, the fifth big-endian 16-bit field of the header. -/
def DNS_HEADER_NSCOUNT (h : List Nat) : Nat := DNS__16BIT h 8

/-- Modelled from the spec: question is "compressed name + QTYPE(u16) + QCLASS(u16)". -/
def DNS_QUESTION_TYPE (m : List Nat) (q : Nat) : Nat := DNS__16BIT m q

/-- Modelled from the spec: TYPE field of a resource record, which is "compressed name +
TYPE + CLASS + TTL(u32) + RDLENGTH(u16) + RDATA". -/
def DNS_RR_TYPE (m : List Nat) (r : Nat) : Nat := DNS__16BIT m r

/-- Modelled from the spec: CLASS field of a resource record. -/
def DNS_RR_CLASS (m : List Nat) (r : Nat) : Nat := DNS__16BIT m (r + 2)

/-- Modelled from the spec: TTL field of a resource record. -/
def DNS_RR_TTL (m : List Nat) (r : Nat) : Nat := DNS__32BIT m (r + 4)

/-- Modelled from the spec: RDLENGTH field of a resource record. -/
def DNS_RR_LEN (m : List Nat) (r : Nat) : Nat := DNS__16BIT m (r + 8)

/-- `memcpy`-style read of `n` octets starting at offset `p`. -/
def readBytes (m : List Nat) (p : Nat) : Nat → List Nat
  | 0 => []
  | n + 1 => byteAt m p :: readBytes m (p + 1) n

/-- Store the octets `bs` at offset `p` of buffer `m`. -/
def writeBytes (m : List Nat) (p : Nat) (bs : List Nat) : List Nat :=
  m.take p ++ bs ++ m.drop (p + bs.length)

/-- The C string that starts at offset `p` of buffer `m` (what `strcpy` copies from there). -/
def cString (m : List Nat) (p : Nat) : Name := (m.drop p).takeWhile (fun c => c != 0)

/-- ASCII `tolower`. -/
def tolower (c : Nat) : Nat := if 65 ≤ c ∧ c ≤ 90 then c + 32 else c

/-- Modelled from the spec: `RvStrncasecmp` of the absent rvstrutils.h; names are "compared
case-insensitively".  Compares at most `n` characters of two NUL-terminated strings held
in byte lists (the end of a list reads as NUL) and returns `0` when they agree. -/
def RvStrncasecmp : List Nat → List Nat → Nat → Int
  | _, _, 0 => 0
  | s1, s2, n + 1 =>
    let c1 := s1.headD 0
    let c2 := s2.headD 0
    if tolower c1 ≠ tolower c2 then (tolower c1 : Int) - (tolower c2 : Int)
    else if c1 = 0 then 0
    else RvStrncasecmp s1.tail s2.tail n

/-! ## Decoded record -/

/-- The `data` union of `RvDnsData`, tagged with the member written last. -/
inductive RvDnsDataUnion where
  | zeroed
  | hostAddressIpv4 (octets : List Nat)
  | hostAddressIpv6 (octets : List Nat)
  | dnsSrvData (priority weight port : Nat) (targetName : Name)
  | dnsNaptrData (order preference : Nat) (flags service regexp replacement : Name)
  | dnsCnameData (aliasName : Name)
  | status (s : Int)
  deriving DecidableEq, Repr

structure RvDnsData where
  dataType : Int
  queryType : Int
  recordNumber : Nat
  ownerName : Name
  ttl : Nat
  data : RvDnsDataUnion
  deriving DecidableEq, Repr

/-- The callback and context handed to `ares_query`: `rvDnsCallback` with the context of the
user, or `rvDnsSearchCallback` with the search-query block. -/
inductive QueryCallback where
  | rvDnsCallback (context : Nat)
  | rvDnsSearchCallback
  deriving DecidableEq, Repr

/-- What `RvAresConfigure`, `RvAresSetParams` and `RvAresCancelQuery` do to the lock and to
the resolver: `RvLockGet` with its status, `RvLockRelease`, `ares__close_sockets` for server
`i`, `ares_cancel_queries`, `ares_configure` and `ares_set_options` with the mask handed in
and the status returned, `RvAresCacheCltCancelQuery` and `ares_cancel_query` with the id and
the status returned. -/
inductive EngineOp where
  | lockGet (ret : Int)
  | lockRelease
  | closeSockets (i : Nat)
  | cancelQueries
  | configure (configType : Nat) (ret : Int)
  | setOptions (optmask : Nat) (ret : Int)
  | cacheCancel (queryId : Nat) (ret : Int)
  | cancelQuery (queryId : Nat) (ret : Int)
  deriving DecidableEq, Repr

/-- What the engine does to its collaborators, in the order it does it.  `query` is a call
of `ares_query` for `name` with the status it returned, `cacheFind` a call of
`RvAresCacheCltFind` with the mask handed in and the status it returned, `engine` one of the
operations on the lock and the resolver. -/
inductive Event where
  | startCaching
  | cacheRecord (d : RvDnsData) (ret : Int)
  | finishCaching
  | callback (context : Nat) (queryId : Nat) (d : RvDnsData) (ret : Int)
  | query (name : Name) (dnsclass : Nat) (queryType : Int) (callback : QueryCallback)
      (queryId : Nat) (ret : Int)
  | cacheFind (queryType : Int) (name : Name) (domainMask : Nat) (queryId : Nat) (ret : Int)
  | engine (op : EngineOp)
  deriving DecidableEq, Repr

/-- Type of the user callback `RvDnsNewRecordCB`: it sees what happened so far, the
context, the query id and the record, and returns a status. -/
abbrev RvDnsNewRecordCB := List Event → Nat → Nat → RvDnsData → Int

/-- Collaborators and constants that `rvares.c` takes from elsewhere. -/
structure Env where
  /-- `ares_expand_name(src, msg, msgLen, out, outCap)`: return value (negative on failure)
  and the content of `out` afterwards. -/
  ares_expand_name : Nat → List Nat → Nat → Name → Nat → Int × Name
  /-- `ares_expand_string(src, out, outCap)`, `src` given as offset into the message. -/
  ares_expand_string : Nat → List Nat → Name → Nat → Int × Name
  /-- `ares_enc_length(src, msg, msgLen)`. -/
  ares_enc_length : Nat → List Nat → Nat → Int
  /-- Status of `RvMemoryAlloc` for a block of the given size. -/
  RvMemoryAlloc : Nat → Int
  /-- Status of `RvAresCacheCltRecord` for a record, given what happened so far. -/
  RvAresCacheCltRecord : List Event → RvDnsData → Int
  /-- `RvErrorGetCode(status) == RV_ERROR_DESTRUCTED`. -/
  isDestructed : Int → Bool
  /-- `RV_NET_TYPE & RV_NET_IPV6`. -/
  RV_NET_IPV6 : Bool
  RV_DNS_ERROR_RTNOTSUPP : Int
  RV_DNS_ERROR_RMALFORMED : Int
  RV_DNS_ERROR_RTUNEXPECTED : Int
  ARES_ENODATA : Int
  ARES_ENOTFOUND : Int
  RV_DNS_HOST_IPV4_TYPE : Int
  RV_DNS_HOST_IPV6_TYPE : Int
  RV_DNS_SRV_TYPE : Int
  RV_DNS_NAPTR_TYPE : Int
  RV_DNS_CNAME_TYPE : Int
  RV_DNS_STATUS_TYPE : Int
  RV_DNS_ENDOFLIST_TYPE : Int
  RV_DNS_UNDEFINED : Int
  sizeofFlags : Nat
  sizeofService : Nat
  sizeofRegexp : Nat

/-! ## RvCnameChain -/

structure RvCnameChain where
  chainSize : Nat
  bufSize : Nat
  /-- Content of the buffer `buf` points to. -/
  buf : List Nat
  /-- Offset `nextFree - buf`. -/
  nextFree : Nat
  /-- `buf != defaultBuf`. -/
  onHeap : Bool
  deriving DecidableEq, Repr

def RvCnameChainConstruct : RvCnameChain :=
  { chainSize := 0, bufSize := 512, buf := List.replicate 512 0, nextFree := 0, onHeap := false }

/-- Loop of `RvCnameFind`: `k` entries left to visit, `cur` the offset of the current one. -/
def RvCnameFind.loop (buf : List Nat) (name : Name) (nameSize : Nat) : Nat → Nat → Option Nat
  | 0, _ => none
  | k + 1, cur =>
    let curSize := byteAt buf (cur + 1)
    if curSize = nameSize ∧ RvStrncasecmp (buf.drop (cur + 2)) name curSize = 0 then some cur
    else RvCnameFind.loop buf name nameSize k (cur + curSize + 3)

/-- Offset of the entry holding `name`, `none` for the null pointer. -/
def RvCnameFind (self : RvCnameChain) (name : Name) (nameSize : Nat) : Option Nat :=
  RvCnameFind.loop self.buf name nameSize self.chainSize 0

def RvCnameChainFindNxdomain.loop (buf : List Nat) : Nat → Nat → Option (Nat × Nat)
  | 0, _ => none
  | k + 1, cur =>
    if byteAt buf cur = 0 then some (cur + 2, byteAt buf (cur + 1))
    else RvCnameChainFindNxdomain.loop buf k (cur + byteAt buf (cur + 1) + 3)

/-- Find an entry that never appeared as owner: offset of its name in `buf` and the value
stored through `pSize`; `none` for the null pointer. -/
def RvCnameChainFindNxdomain (self : RvCnameChain) : Option (Nat × Nat) :=
  RvCnameChainFindNxdomain.loop self.buf self.chainSize 0

/-- The name `RvCnameChainFindNxdomain` points to, as `strcpy` reads it. -/
def RvCnameChainFindNxdomain.name (self : RvCnameChain) : Option Name :=
  (RvCnameChainFindNxdomain self).map (fun r => cString self.buf r.1)

def RvCnameChainAddEntry (E : Env) (self : RvCnameChain) (name : Name) (nameSize : Nat)
    (isOwner : Bool) : Int × RvCnameChain :=
  let spaceLeft := self.bufSize - self.nextFree
  let spaceNeeded := nameSize + 3
  let grow : Int × RvCnameChain :=
    if spaceLeft < spaceNeeded then
      let newSize := self.bufSize * 2
      let s := E.RvMemoryAlloc newSize
      if s ≠ RV_OK then (s, self)
      else
        (RV_OK, { self with
                    bufSize := newSize
                    buf := readBytes self.buf 0 self.bufSize ++
                             List.replicate (newSize - self.bufSize) 0
                    onHeap := true })
    else (RV_OK, self)
  if grow.1 ≠ RV_OK then grow
  else
    let self := grow.2
    let entry := self.nextFree
    let buf := writeBytes self.buf entry
      ([if isOwner then 1 else 0, nameSize % 256] ++ name ++ [0])
    (RV_OK, { self with buf := buf, nextFree := entry + 2 + nameSize + 1,
                        chainSize := self.chainSize + 1 })

def RvCnameChainAdd (E : Env) (self : RvCnameChain) (owner aliasName : Name) : Int × RvCnameChain :=
  let nameSize := owner.length
  let r : Int × RvCnameChain :=
    match RvCnameFind self owner nameSize with
    | none => RvCnameChainAddEntry E self owner nameSize true
    | some entry => (RV_OK, { self with buf := writeBytes self.buf entry [1] })
  if r.1 ≠ RV_OK then r
  else
    let self := r.2
    let nameSize := aliasName.length
    match RvCnameFind self aliasName nameSize with
    | some _ => (RV_OK, self)
    | none => RvCnameChainAddEntry E self aliasName nameSize false

/-! ## Decode context and record decoders -/

structure RvDecodeCtx where
  msgBody : List Nat
  msgLen : Nat
  /-- Offset `msgCur - msgBody`. -/
  msgCur : Nat
  chain : RvCnameChain
  deriving DecidableEq, Repr

def RvDecodeCtxConstruct (msg : List Nat) (msgLen : Nat) : RvDecodeCtx :=
  { msgBody := msg, msgLen := msgLen, msgCur := 0, chain := RvCnameChainConstruct }

/-- Type of the type-specific decoders: status, the record and the context afterwards. -/
abbrev RvDnsRecordDecoder := RvDnsData → RvDecodeCtx → Int × RvDnsData × RvDecodeCtx

def rvDnsDecodeARecord (_E : Env) : RvDnsRecordDecoder := fun dnsData ctx =>
  (RV_OK, { dnsData with data := .hostAddressIpv4 (readBytes ctx.msgBody ctx.msgCur 4) }, ctx)

def rvDnsDecodeAAAARecord (_E : Env) : RvDnsRecordDecoder := fun dnsData ctx =>
  (RV_OK, { dnsData with data := .hostAddressIpv6 (readBytes ctx.msgBody ctx.msgCur 16) }, ctx)

def rvDnsDecodeSRVRecord (E : Env) : RvDnsRecordDecoder := fun dnsData ctx =>
  let body := ctx.msgCur
  let priority := DNS__16BIT ctx.msgBody body
  let weight := DNS__16BIT ctx.msgBody (body + 2)
  let port := DNS__16BIT ctx.msgBody (body + 4)
  let r := E.ares_expand_name (body + 6) ctx.msgBody ctx.msgLen [] (RV_DNS_MAX_NAME_LEN + 1)
  let dnsData := { dnsData with data := .dnsSrvData priority weight port r.2 }
  if r.1 < 0 then (E.RV_DNS_ERROR_RMALFORMED, dnsData, ctx)
  else (RV_OK, dnsData, ctx)

def rvDnsDecodeNAPTRRecord (E : Env) : RvDnsRecordDecoder := fun dnsData ctx =>
  let body := ctx.msgCur
  let order := DNS__16BIT ctx.msgBody body
  let preference := DNS__16BIT ctx.msgBody (body + 2)
  let body := body + 4
  let fl := E.ares_expand_string body ctx.msgBody [] E.sizeofFlags
  if fl.1 < 0 then
    (E.RV_DNS_ERROR_RMALFORMED,
      { dnsData with data := .dnsNaptrData order preference fl.2 [] [] [] }, ctx)
  else
  let body := body + fl.1.toNat
  let sv := E.ares_expand_string body ctx.msgBody [] E.sizeofService
  if sv.1 < 0 then
    (E.RV_DNS_ERROR_RMALFORMED,
      { dnsData with data := .dnsNaptrData order preference fl.2 sv.2 [] [] }, ctx)
  else
  let body := body + sv.1.toNat
  let re := E.ares_expand_string body ctx.msgBody [] E.sizeofRegexp
  if re.1 < 0 then
    (E.RV_DNS_ERROR_RMALFORMED,
      { dnsData with data := .dnsNaptrData order preference fl.2 sv.2 re.2 [] }, ctx)
  else
  let body := body + re.1.toNat
  let rp := E.ares_expand_name body ctx.msgBody ctx.msgLen [] (RV_DNS_MAX_NAME_LEN + 1)
  let dnsData := { dnsData with data := .dnsNaptrData order preference fl.2 sv.2 re.2 rp.2 }
  if rp.1 < 0 then (E.RV_DNS_ERROR_RMALFORMED, dnsData, ctx)
  else (RV_OK, dnsData, ctx)

def rvDnsDecodeCNAMERecord (E : Env) : RvDnsRecordDecoder := fun dnsData ctx =>
  let body := ctx.msgCur
  let r := E.ares_expand_name body ctx.msgBody ctx.msgLen [] (RV_DNS_MAX_NAME_LEN + 1)
  let dnsData := { dnsData with data := .dnsCnameData r.2 }
  if r.1 < 0 then (E.RV_DNS_ERROR_RMALFORMED, dnsData, ctx)
  else
    let a := RvCnameChainAdd E ctx.chain dnsData.ownerName r.2
    (a.1, dnsData, { ctx with chain := a.2 })

structure RvDnsRecordDecoderEntry where
  dnsRecordType : Int
  internRecordType : Int
  /-- Function pointer, `none` for the null pointer. -/
  recordDecoder : Option RvDnsRecordDecoder

def gsRecordDecodersRegistry (E : Env) : List RvDnsRecordDecoderEntry :=
  [⟨T_A, E.RV_DNS_HOST_IPV4_TYPE, some (rvDnsDecodeARecord E)⟩] ++
  (if E.RV_NET_IPV6 then [⟨T_AAAA, E.RV_DNS_HOST_IPV6_TYPE, some (rvDnsDecodeAAAARecord E)⟩]
   else []) ++
  [⟨T_SRV, E.RV_DNS_SRV_TYPE, some (rvDnsDecodeSRVRecord E)⟩,
   ⟨T_NAPTR, E.RV_DNS_NAPTR_TYPE, some (rvDnsDecodeNAPTRRecord E)⟩,
   ⟨T_CNAME, E.RV_DNS_CNAME_TYPE, some (rvDnsDecodeCNAMERecord E)⟩,
   ⟨-1, E.RV_DNS_UNDEFINED, none⟩]

/-- The search loop of `rvDnsDecodeRecord` over the registry: the decoder of the first entry
that has the wanted type or a null decoder. -/
def findDecoder (type : Int) : List RvDnsRecordDecoderEntry → Option RvDnsRecordDecoder
  | [] => none
  | e :: rest =>
    match e.recordDecoder with
    | none => none
    | some d => if e.dnsRecordType ≠ type then findDecoder type rest else some d

def rvDnsDecodeRecord (E : Env) (data : RvDnsData) (ctx : RvDecodeCtx) :
    Int × RvDnsData × RvDecodeCtx :=
  let body := ctx.msgCur
  let r := E.ares_expand_name body ctx.msgBody ctx.msgLen data.ownerName
    (RV_DNS_MAX_NAME_LEN + 1)
  let data := { data with ownerName := r.2 }
  if r.1 < 0 then (E.RV_DNS_ERROR_RMALFORMED, data, ctx)
  else
    let body := body + r.1.toNat
    let type : Int := DNS_RR_TYPE ctx.msgBody body
    let dataLen := DNS_RR_LEN ctx.msgBody body
    let data := { data with ttl := DNS_RR_TTL ctx.msgBody body, dataType := type }
    let ctx := { ctx with msgCur := body + RRFIXEDSZ }
    let res : Int × RvDnsData × RvDecodeCtx :=
      match findDecoder type (gsRecordDecodersRegistry E) with
      | some decoder => decoder data ctx
      | none => (E.RV_DNS_ERROR_RTNOTSUPP, data, ctx)
    (res.1, res.2.1, { res.2.2 with msgCur := res.2.2.msgCur + dataLen })

def rvDnsDecode (E : Env) (queryType : Int) (ctx : RvDecodeCtx) (dnsData : RvDnsData) :
    Int × RvDnsData × RvDecodeCtx :=
  let dnsData := { dnsData with queryType := queryType }
  let r := rvDnsDecodeRecord E dnsData ctx
  let status := r.1
  let dnsData := r.2.1
  let ctx := r.2.2
  if status ≠ RV_OK then
    (status, { dnsData with dataType := E.RV_DNS_STATUS_TYPE, data := .status status }, ctx)
  else if dnsData.dataType ≠ queryType ∧ dnsData.dataType ≠ E.RV_DNS_CNAME_TYPE then
    (E.RV_DNS_ERROR_RTUNEXPECTED,
      { dnsData with dataType := E.RV_DNS_STATUS_TYPE,
                     data := .status E.RV_DNS_ERROR_RTUNEXPECTED }, ctx)
  else (RV_OK, dnsData, ctx)

/-- Loop of `rvDnsFindNxdomainTTL` with `k` authority records left: `none` when the function
leaves through one of its `return 0`, otherwise the TTL and the cursor at the loop exit. -/
def rvDnsFindNxdomainTTL.loop (E : Env) (msgBody : List Nat) (msgLen : Nat) :
    Nat → Nat → Option (Nat × Nat)
  | 0, msgCur => some (0, msgCur)
  | k + 1, msgCur =>
    let nameLen := E.ares_enc_length msgCur msgBody msgLen
    if nameLen < 0 then none
    else
      let msgCur := msgCur + nameLen.toNat
      if msgCur + 10 > msgLen then none
      else
        let recType := DNS_RR_TYPE msgBody msgCur
        let recClass := DNS_RR_CLASS msgBody msgCur
        if recType = T_SOA ∧ recClass = C_IN then
          let soaTTL := DNS_RR_TTL msgBody msgCur
          let rdlen := DNS_RR_LEN msgBody msgCur
          let msgCur := msgCur + (10 + rdlen)
          if msgCur > msgLen then none
          else
            let msgCur := msgCur - 4
            let minTTL := DNS__32BIT msgBody msgCur
            some (min soaTTL minTTL, msgCur)
        else
          let rdlen := DNS_RR_LEN msgBody msgCur
          rvDnsFindNxdomainTTL.loop E msgBody msgLen k (msgCur + (rdlen + 10))

/-- Returns the TTL and the context (whose cursor is stored only at the normal exit). -/
def rvDnsFindNxdomainTTL (E : Env) (ctx : RvDecodeCtx) : Nat × RvDecodeCtx :=
  let nAuth := DNS_HEADER_NSCOUNT ctx.msgBody
  match rvDnsFindNxdomainTTL.loop E ctx.msgBody ctx.msgLen nAuth ctx.msgCur with
  | none => (0, ctx)
  | some (ttl, msgCur) => (ttl, { ctx with msgCur := msgCur })

/-- Loop of `rvDnsSkipQuestions`: `none` for `return RV_FALSE`, otherwise the cursor, the
query type and the name at the loop exit. -/
def rvDnsSkipQuestions.loop (E : Env) (msgBody : List Nat) (msgSize : Nat) (nameLen : Nat) :
    Nat → Nat → Int → Name → Option (Nat × Int × Name)
  | 0, msgCur, queryType, name => some (msgCur, queryType, name)
  | qdcount + 1, msgCur, _, name =>
    let r := E.ares_expand_name msgCur msgBody msgSize name nameLen
    if r.1 < 0 then none
    else
      let msgCur := msgCur + r.1.toNat
      let queryType : Int := DNS_QUESTION_TYPE msgBody msgCur
      rvDnsSkipQuestions.loop E msgBody msgSize nameLen qdcount (msgCur + QFIXEDSZ) queryType r.2

/-- `none` for `RV_FALSE`; otherwise the context with the cursor behind the questions, the
type and the owner name of the last question. -/
def rvDnsSkipQuestions (E : Env) (decodeCtx : RvDecodeCtx) (queryType : Int) (name : Name)
    (nameLen : Nat) : Option (RvDecodeCtx × Int × Name) :=
  let qdcount := DNS_HEADER_QDCOUNT decodeCtx.msgBody
  match rvDnsSkipQuestions.loop E decodeCtx.msgBody decodeCtx.msgLen nameLen qdcount
      decodeCtx.msgCur queryType name with
  | none => none
  | some (msgCur, qt, nm) => some ({ decodeCtx with msgCur := msgCur }, qt, nm)

/-! ## The response pipeline -/

/-- The part of `RvDnsEngine` the pipeline uses: the default record callback. -/
structure RvDnsEngine where
  newRecordCB : RvDnsNewRecordCB

/-- Locals of `rvDnsTreatNxdomain` that live across its answer loop. -/
structure TreatNxdomainLoop where
  decodeCtx : RvDecodeCtx
  dnsData : RvDnsData
  s : Int
  trace : List Event

/-- Answer loop of `rvDnsTreatNxdomain` with `k` iterations left. -/
def rvDnsTreatNxdomain.loop (E : Env) (qtype : Int) : Nat → TreatNxdomainLoop → TreatNxdomainLoop
  | 0, st => st
  | k + 1, st =>
    let r := rvDnsDecode E qtype st.decodeCtx st.dnsData
    if r.1 ≠ RV_OK then { st with decodeCtx := r.2.2, dnsData := r.2.1, s := r.1 }
    else
      let s := E.RvAresCacheCltRecord st.trace r.2.1
      let st : TreatNxdomainLoop :=
        { decodeCtx := r.2.2, dnsData := r.2.1, s := s,
          trace := st.trace ++ [Event.cacheRecord r.2.1 s] }
      if s ≠ RV_OK then st else rvDnsTreatNxdomain.loop E qtype k st

/-- The function `rvDnsTreatNxdomain`; `dnsData0` and `qtype0` are the contents of the
uninitialised locals `dnsData` and `qtype`.  Returns the events after the call. -/
def rvDnsTreatNxdomain (E : Env) (abuf : List Nat) (alen : Nat) (dnsData0 : RvDnsData)
    (qtype0 : Int) (trace : List Event) : List Event :=
  let decodeCtx := RvDecodeCtxConstruct abuf alen
  let decodeCtx := { decodeCtx with msgCur := decodeCtx.msgCur + HFIXEDSZ }
  let rcode := DNS_HEADER_RCODE abuf
  match rvDnsSkipQuestions E decodeCtx qtype0 dnsData0.ownerName (RV_DNS_MAX_NAME_LEN + 1) with
  | none => trace
  | some (decodeCtx, qtype, ownerName) =>
    let dnsData := { dnsData0 with ownerName := ownerName }
    let ancount := DNS_HEADER_ANCOUNT abuf
    let dnsData := { dnsData with recordNumber := 0 }
    let trace := trace ++ [Event.startCaching]
    let st := rvDnsTreatNxdomain.loop E qtype ancount
      { decodeCtx := decodeCtx, dnsData := dnsData, s := RV_OK, trace := trace }
    let trace :=
      if st.s = RV_OK then
        let name := RvCnameChainFindNxdomain.name st.decodeCtx.chain
        let t := rvDnsFindNxdomainTTL E st.decodeCtx
        let dnsData := { st.dnsData with
          ttl := t.1
          dataType := E.RV_DNS_STATUS_TYPE
          queryType := qtype
          data := .status (if rcode = NXDOMAIN then E.ARES_ENOTFOUND else E.ARES_ENODATA) }
        let dnsData :=
          match name with
          | some n => { dnsData with ownerName := n }
          | none => dnsData
        st.trace ++ [Event.cacheRecord dnsData (E.RvAresCacheCltRecord st.trace dnsData)]
      else st.trace
    trace ++ [Event.finishCaching]

/-- Locals of `rvDnsCallback` that live across its answer loop; `broke` records that the
loop was left through `break`. -/
structure CallbackLoop where
  decodeCtx : RvDecodeCtx
  dnsData : RvDnsData
  continueCaching : Bool
  continueCallbacks : Bool
  status : Int
  broke : Bool
  trace : List Event

/-- One iteration of the answer loop of `rvDnsCallback`. -/
def rvDnsCallback.body (E : Env) (newRecordCB : RvDnsNewRecordCB) (context queryId : Nat)
    (queryType : Int) (st : CallbackLoop) : CallbackLoop :=
  let r := rvDnsDecode E queryType st.decodeCtx st.dnsData
  let status := r.1
  let dnsData := r.2.1
  if status = RV_OK then
    let cached : Bool × List Event :=
      if st.continueCaching then
        let s := E.RvAresCacheCltRecord st.trace dnsData
        (if s ≠ RV_OK then false else true, st.trace ++ [Event.cacheRecord dnsData s])
      else (false, st.trace)
    if dnsData.dataType = queryType ∧ st.continueCallbacks = true then
      let dnsData := { dnsData with recordNumber := dnsData.recordNumber + 1 }
      let status := newRecordCB cached.2 context queryId dnsData
      { decodeCtx := r.2.2, dnsData := dnsData, continueCaching := cached.1,
        continueCallbacks := if E.isDestructed status then false else st.continueCallbacks,
        status := status, broke := false,
        trace := cached.2 ++ [Event.callback context queryId dnsData status] }
    else
      { decodeCtx := r.2.2, dnsData := dnsData, continueCaching := cached.1,
        continueCallbacks := st.continueCallbacks, status := status, broke := false,
        trace := cached.2 }
  else if status = E.RV_DNS_ERROR_RTNOTSUPP then
    { st with decodeCtx := r.2.2, dnsData := dnsData, status := RV_OK, broke := false }
  else
    { st with decodeCtx := r.2.2, dnsData := dnsData, status := status, broke := true,
              trace := st.trace ++
                [Event.callback context queryId dnsData
                  (newRecordCB st.trace context queryId dnsData)] }

/-- Answer loop of `rvDnsCallback` with `k` iterations left. -/
def rvDnsCallback.loop (E : Env) (newRecordCB : RvDnsNewRecordCB) (context queryId : Nat)
    (queryType : Int) : Nat → CallbackLoop → CallbackLoop
  | 0, st => st
  | k + 1, st =>
    let st := rvDnsCallback.body E newRecordCB context queryId queryType st
    if st.broke then st else rvDnsCallback.loop E newRecordCB context queryId queryType k st

/-- The record `memset(&dnsData, 0, sizeof(dnsData))` leaves. -/
def zeroDnsData : RvDnsData :=
  { dataType := 0, queryType := 0, recordNumber := 0, ownerName := [], ttl := 0,
    data := .zeroed }

/-- What `rvDnsCallback` leaves behind: the events and the per-thread exception slot. -/
structure CallbackResult where
  trace : List Event
  tls : Option Int
  deriving DecidableEq, Repr

/-- State of the loop of `rvDnsCallback` before its first iteration. -/
def rvDnsCallback.init (decodeCtx : RvDecodeCtx) (trace : List Event) : CallbackLoop :=
  { decodeCtx := decodeCtx, dnsData := { zeroDnsData with recordNumber := 0 },
    continueCaching := true, continueCallbacks := true, status := RV_OK, broke := false,
    trace := trace ++ [Event.startCaching] }

/-- What `rvDnsCallback` does after its answer loop (lines 955-973). -/
def rvDnsCallback.finish (E : Env) (newRecordCB : RvDnsNewRecordCB) (context queryId : Nat)
    (queryType : Int) (queryName : Name) (st : CallbackLoop) : List Event :=
  let trace :=
    if st.status = RV_OK then
      let r : RvDnsData × List Event :=
        if st.dnsData.recordNumber = 0 then
          let name := RvCnameChainFindNxdomain.name st.decodeCtx.chain
          let t := rvDnsFindNxdomainTTL E st.decodeCtx
          let dnsData := { st.dnsData with
            ttl := t.1
            dataType := E.RV_DNS_STATUS_TYPE
            data := .status E.ARES_ENODATA
            queryType := queryType
            ownerName := match name with
              | some n => n
              | none => queryName }
          (dnsData,
            st.trace ++ [Event.cacheRecord dnsData (E.RvAresCacheCltRecord st.trace dnsData)])
        else ({ st.dnsData with dataType := E.RV_DNS_ENDOFLIST_TYPE }, st.trace)
      r.2 ++ [Event.callback context queryId r.1 (newRecordCB r.2 context queryId r.1)]
    else st.trace
  trace ++ [Event.finishCaching]

/-- The function `rvDnsCallback`.  `newRecordCB = none` is the null callback; `queryName0`
is the content of the uninitialised local `queryName`; `tls` is the per-thread exception
slot (`none` when no slot is installed) and `trace` the events so far. -/
def rvDnsCallback (E : Env) (dnsEngine : RvDnsEngine) (newRecordCB : Option RvDnsNewRecordCB)
    (context : Nat) (queryStatus : Int) (queryId : Nat) (queryResults : List Nat) (alen : Nat)
    (queryName0 : Name) (tls : Option Int) (trace : List Event) : CallbackResult :=
  let newRecordCB : RvDnsNewRecordCB :=
    match newRecordCB with
    | none => dnsEngine.newRecordCB
    | some cb => cb
  let dnsData := zeroDnsData
  if queryStatus ≠ ARES_SUCCESS then
    match tls with
    | some _ => { trace := trace, tls := some queryStatus }
    | none =>
      let dnsData := { dnsData with
        dataType := E.RV_DNS_STATUS_TYPE
        data := .status queryStatus
        queryType := 0
        ttl := 4294967295 }
      { trace := trace ++
          [Event.callback context queryId dnsData (newRecordCB trace context queryId dnsData)],
        tls := none }
  else
    let decodeCtx := RvDecodeCtxConstruct queryResults alen
    let decodeCtx := { decodeCtx with msgCur := decodeCtx.msgCur + HFIXEDSZ }
    match rvDnsSkipQuestions E decodeCtx 0 queryName0 (RV_DNS_MAX_NAME_LEN + 1) with
    | none => { trace := trace, tls := tls }
    | some (decodeCtx, queryType, queryName) =>
      let ancount := DNS_HEADER_ANCOUNT queryResults
      let st := rvDnsCallback.loop E newRecordCB context queryId queryType ancount
        (rvDnsCallback.init decodeCtx trace)
      { trace := rvDnsCallback.finish E newRecordCB context queryId queryType queryName st,
        tls := tls }

/-! ## Observations on the events -/

/-- The records handed to the user callback, in order. -/
def callbacksOf : List Event → List RvDnsData
  | [] => []
  | Event.callback _ _ d _ :: rest => d :: callbacksOf rest
  | _ :: rest => callbacksOf rest

/-- The records handed to the cache, in order. -/
def cacheWritesOf : List Event → List RvDnsData
  | [] => []
  | Event.cacheRecord d _ :: rest => d :: cacheWritesOf rest
  | _ :: rest => cacheWritesOf rest

/-- A terminating record: end of list, or status-only. -/
def isTerminator (E : Env) (d : RvDnsData) : Bool :=
  d.dataType == E.RV_DNS_ENDOFLIST_TYPE || d.dataType == E.RV_DNS_STATUS_TYPE

/-- Walk over `k` answer records with `rvDnsDecode` alone: status, record and context after
each of them. -/
def decodeAnswers (E : Env) (queryType : Int) :
    Nat → RvDecodeCtx → RvDnsData → List (Int × RvDnsData × RvDecodeCtx)
  | 0, _, _ => []
  | k + 1, ctx, d =>
    let r := rvDnsDecode E queryType ctx d
    r :: decodeAnswers E queryType k r.2.2 r.2.1

/-- The answer records of the question's type among decoded ones. -/
def matchingAnswers (queryType : Int) (ds : List (Int × RvDnsData × RvDecodeCtx)) :
    List RvDnsData :=
  (ds.filter (fun r => r.1 = RV_OK ∧ r.2.1.dataType = queryType)).map (fun r => r.2.1)

/-- Number the records `n+1, n+2, ...`. -/
def numberFrom : Nat → List RvDnsData → List RvDnsData
  | _, [] => []
  | n, d :: rest => { d with recordNumber := n + 1 } :: numberFrom (n + 1) rest

/-! ## A concrete environment for examples -/

/-- Expands an uncompressed name at the head of `bs` (at most `fuel` labels): the encoded
length and the labels joined by dots. -/
def sampleExpand : Nat → List Nat → Option (Nat × Name)
  | 0, _ => none
  | _ + 1, [] => none
  | fuel + 1, l :: rest =>
    if l = 0 then some (1, [])
    else if rest.length < l then none
    else
      match sampleExpand fuel (rest.drop l) with
      | none => none
      | some (n, nm) => some (n + 1 + l, if nm = [] then rest.take l else rest.take l ++ 46 :: nm)

/-- An environment with an expander for uncompressed names, an allocator and a cache that
never fail, and the given answers of the cache. -/
def sampleEnv (cache : List Event → RvDnsData → Int) : Env :=
  { ares_expand_name := fun src msg _ out _ =>
      match sampleExpand 16 (msg.drop src) with
      | some (n, nm) => ((n : Int), nm)
      | none => (-1, out)
    ares_expand_string := fun src msg _ _ =>
      ((byteAt msg src + 1 : Nat), readBytes msg (src + 1) (byteAt msg src))
    ares_enc_length := fun src msg _ =>
      match sampleExpand 16 (msg.drop src) with
      | some (n, _) => (n : Int)
      | none => -1
    RvMemoryAlloc := fun _ => 0
    RvAresCacheCltRecord := cache
    isDestructed := fun s => s == -6
    RV_NET_IPV6 := true
    RV_DNS_ERROR_RTNOTSUPP := -7
    RV_DNS_ERROR_RMALFORMED := -8
    RV_DNS_ERROR_RTUNEXPECTED := -9
    ARES_ENODATA := 1
    ARES_ENOTFOUND := 4
    RV_DNS_HOST_IPV4_TYPE := 1
    RV_DNS_HOST_IPV6_TYPE := 28
    RV_DNS_SRV_TYPE := 33
    RV_DNS_NAPTR_TYPE := 35
    RV_DNS_CNAME_TYPE := 5
    RV_DNS_STATUS_TYPE := 36
    RV_DNS_ENDOFLIST_TYPE := 37
    RV_DNS_UNDEFINED := -1
    sizeofFlags := 256
    sizeofService := 256
    sizeofRegexp := 256 }

/-- A cache that accepts every record. -/
def cacheOk : List Event → RvDnsData → Int := fun _ _ => 0

/-- A user callback that returns `RV_OK`. -/
def cbOk : RvDnsNewRecordCB := fun _ _ _ _ => 0

/-- A user callback that returns the given status every time. -/
def cbConst (s : Int) : RvDnsNewRecordCB := fun _ _ _ _ => s

/-- The name `h.ex` in wire form. -/
def wireHEx : List Nat := [1, 104, 2, 101, 120, 0]

/-- Header of a response with the given RCODE and section counts. -/
def sampleHeader (rcode qd an ns : Nat) : List Nat :=
  [0, 7, 129, 128 + rcode, 0, qd, 0, an, 0, ns, 0, 0]

/-- Resource record in wire form. -/
def sampleRR (name : List Nat) (type ttl : Nat) (rdata : List Nat) : List Nat :=
  name ++ [0, type, 0, 1, ttl / 16777216 % 256, ttl / 65536 % 256, ttl / 256 % 256, ttl % 256,
           rdata.length / 256 % 256, rdata.length % 256] ++ rdata

/-- Response to the question `h.ex A` with one A record 192.0.2.7, TTL 60. -/
def msgOneA : List Nat :=
  sampleHeader 0 1 1 0 ++ (wireHEx ++ [0, 1, 0, 1]) ++ sampleRR wireHEx 1 60 [192, 0, 2, 7]

/-- The decode context `rvDnsCallback` and `rvDnsTreatNxdomain` hold when they call
`rvDnsSkipQuestions`: cursor behind the fixed header, empty CNAME chain. -/
def headerCtx (msg : List Nat) (msgLen : Nat) : RvDecodeCtx :=
  { RvDecodeCtxConstruct msg msgLen with msgCur := (RvDecodeCtxConstruct msg msgLen).msgCur + HFIXEDSZ }

/-- The callback `rvDnsCallback` uses: the one of the query, or the default of the engine
when the query has none. -/
def userCallback (dnsEngine : RvDnsEngine) (newRecordCB : Option RvDnsNewRecordCB) :
    RvDnsNewRecordCB :=
  match newRecordCB with
  | none => dnsEngine.newRecordCB
  | some cb => cb

/-- The decode context after the decoded records `ds`, starting from `ctx`. -/
def ctxAfter (ctx : RvDecodeCtx) : List (Int × RvDnsData × RvDecodeCtx) → RvDecodeCtx
  | [] => ctx
  | r :: rest => ctxAfter r.2.2 rest

/-- Overwrite the record number in a result of `rvDnsDecode`. -/
def setRecordNumber (n : Nat) (r : Int × RvDnsData × RvDecodeCtx) :
    Int × RvDnsData × RvDecodeCtx :=
  (r.1, { r.2.1 with recordNumber := n }, r.2.2)

/-- A decoder that neither reads nor writes the record number. -/
def KeepsRecordNumber (dec : RvDnsRecordDecoder) : Prop :=
  ∀ (dt qt : Int) (rn : Nat) (ow : Name) (tt : Nat) (da : RvDnsDataUnion) (ctx : RvDecodeCtx)
    (n : Nat),
    dec ⟨dt, qt, n, ow, tt, da⟩ ctx =
      ((dec ⟨dt, qt, rn, ow, tt, da⟩ ctx).1,
        { (dec ⟨dt, qt, rn, ow, tt, da⟩ ctx).2.1 with recordNumber := n },
        (dec ⟨dt, qt, rn, ow, tt, da⟩ ctx).2.2)

/-- Response to `h.ex A` with two A records, 192.0.2.7 and 192.0.2.8. -/
def msgTwoA : List Nat :=
  sampleHeader 0 1 2 0 ++ (wireHEx ++ [0, 1, 0, 1]) ++ sampleRR wireHEx 1 60 [192, 0, 2, 7] ++
    sampleRR wireHEx 1 60 [192, 0, 2, 8]

/-- Response to `h.ex A` with the A record 192.0.2.7 followed by a TXT record (type 16, for
which there is no decoder). -/
def msgAThenTxt : List Nat :=
  sampleHeader 0 1 2 0 ++ (wireHEx ++ [0, 1, 0, 1]) ++ sampleRR wireHEx 1 60 [192, 0, 2, 7] ++
    sampleRR wireHEx 16 60 [1, 120]

/-- Response to `h.ex A` with the single record `h.ex CNAME b`. -/
def msgOneCname : List Nat :=
  sampleHeader 0 1 1 0 ++ (wireHEx ++ [0, 1, 0, 1]) ++ sampleRR wireHEx 5 60 [1, 98, 0]

/-- A response that announces one question and ends after the header. -/
def msgNoQuestion : List Nat := sampleHeader 0 1 0 0

/-- A cache that rejects every record. -/
def cacheFull : List Event → RvDnsData → Int := fun _ _ => -2

/-- The decoded A record 192.0.2.7 of the sample responses, as handed to the callback. -/
def recA7 : RvDnsData := ⟨1, 1, 1, [104, 46, 101, 120], 60, .hostAddressIpv4 [192, 0, 2, 7]⟩

/-- Response to `h.ex A` with the A record 192.0.2.7 followed by an SRV record, whose type is
not the question's. -/
def msgAThenSrv : List Nat :=
  sampleHeader 0 1 2 0 ++ (wireHEx ++ [0, 1, 0, 1]) ++ sampleRR wireHEx 1 60 [192, 0, 2, 7] ++
    sampleRR wireHEx 33 60 [0, 0, 0, 0, 0, 80, 1, 98, 0]

/-! ## Authority section, as the spec describes it -/

/-- One resource record of the authority section: length of its encoded owner name, TYPE,
CLASS, TTL and RDATA. -/
structure AuthRecord where
  nameLen : Nat
  type : Nat
  cls : Nat
  ttl : Nat
  rdata : List Nat
  deriving DecidableEq, Repr

/-- The records `recs` lie in the message one after the other from offset `cur` on, each
within the first `msgLen` octets: `ares_enc_length` gives the length of the owner name,
behind which come TYPE, CLASS, TTL, RDLENGTH and RDLENGTH octets of RDATA. -/
def authLayout (E : Env) (msg : List Nat) (msgLen : Nat) : Nat → List AuthRecord → Bool
  | _, [] => true
  | cur, r :: rest =>
    decide (E.ares_enc_length cur msg msgLen = (r.nameLen : Int)) &&
    decide (DNS_RR_TYPE msg (cur + r.nameLen) = r.type) &&
    decide (DNS_RR_CLASS msg (cur + r.nameLen) = r.cls) &&
    decide (DNS_RR_TTL msg (cur + r.nameLen) = r.ttl) &&
    decide (DNS_RR_LEN msg (cur + r.nameLen) = r.rdata.length) &&
    decide (readBytes msg (cur + r.nameLen + 10) r.rdata.length = r.rdata) &&
    decide (cur + r.nameLen + 10 + r.rdata.length ≤ msgLen) &&
    authLayout E msg msgLen (cur + r.nameLen + 10 + r.rdata.length) rest

/-- The negative TTL in the spec's words: "`min(SOA_record_TTL, SOA.MINIMUM)` drawn from the
first SOA record in the authority section (class IN). If no such record exists, TTL is 0",
MINIMUM being the last four RDATA octets read big-endian. -/
def specNegativeTTL (recs : List AuthRecord) : Nat :=
  match recs.find? (fun r => decide (r.type = T_SOA ∧ r.cls = C_IN)) with
  | some r => min r.ttl (DNS__32BIT r.rdata (r.rdata.length - 4))
  | none => 0

/-- RDATA of the sample SOA record: MNAME `ns`, RNAME `r`, SERIAL 1, REFRESH 2, RETRY 3,
EXPIRE 4, MINIMUM 120. -/
def sampleSoaRdata : List Nat :=
  [2, 110, 115, 0, 1, 114, 0, 0, 0, 0, 1, 0, 0, 0, 2, 0, 0, 0, 3, 0, 0, 0, 4, 0, 0, 0, 120]

/-- NXDOMAIN response to `www.a A` with the answers `www.a CNAME b`, `b CNAME c` and the
authority record `a SOA` with record TTL 600 and MINIMUM 120. -/
def msgNxdomain : List Nat :=
  sampleHeader 3 1 2 1 ++ ([3, 119, 119, 119, 1, 97, 0] ++ [0, 1, 0, 1]) ++
    sampleRR [3, 119, 119, 119, 1, 97, 0] 5 60 [1, 98, 0] ++
    sampleRR [1, 98, 0] 5 60 [1, 99, 0] ++
    sampleRR [1, 97, 0] 6 600 sampleSoaRdata

/-! ## The CNAME chain, entry by entry -/

/-- An entry of the chain: the owner flag and the name. -/
abbrev ChainEntry := Bool × Name

/-- The octets of one entry in `buf`: `isOwner`, `size`, `name[size + 1]`. -/
def entryBytes (e : ChainEntry) : List Nat :=
  (if e.1 then 1 else 0) :: (e.2.length % 256) :: (e.2 ++ [0])

/-- The octets of consecutive entries. -/
def chainBytes : List ChainEntry → List Nat
  | [] => []
  | e :: es => entryBytes e ++ chainBytes es

/-- The buffer of chain `c` holds exactly the entries `es` in its used part. -/
def ChainRep (c : RvCnameChain) (es : List ChainEntry) : Prop :=
  (∃ rest, c.buf = chainBytes es ++ rest) ∧ c.chainSize = es.length ∧
    c.nextFree = (chainBytes es).length ∧ c.bufSize = c.buf.length ∧ 512 ≤ c.bufSize

/-- A name that fits an entry: at most 255 octets, none of them NUL. -/
def GoodName (n : Name) : Prop := n.length ≤ 255 ∧ 0 ∉ n

/-- The name compared case-insensitively: its lower-case form. -/
def lowerName (n : Name) : Name := n.map tolower

/-- Offset of the first of the entries `es` (laid out from offset `cur`) whose name equals
`n` case-insensitively. -/
def entryOffset (n : Name) : List ChainEntry → Nat → Option Nat
  | [], _ => none
  | e :: es, cur =>
    if lowerName e.2 = lowerName n then some cur else entryOffset n es (cur + e.2.length + 3)

/-- Some entry holds the name `n` (compared case-insensitively). -/
def hasName (es : List ChainEntry) (n : Name) : Bool :=
  es.any (fun e => decide (lowerName e.2 = lowerName n))

/-- Set the owner flag of the first entry that holds the name `n`. -/
def markOwner (n : Name) : List ChainEntry → List ChainEntry
  | [] => []
  | e :: es => if lowerName e.2 = lowerName n then (true, e.2) :: es else e :: markOwner n es

/-- What `RvCnameChainAdd` does to the entries. -/
def addPair (es : List ChainEntry) (owner aliasName : Name) : List ChainEntry :=
  let es1 := if hasName es owner then markOwner owner es else es ++ [(true, owner)]
  if hasName es1 aliasName then es1 else es1 ++ [(false, aliasName)]

/-- The chain after the CNAME pairs `(owner, alias)` have been added to an empty chain. -/
def chainAfter (E : Env) (pairs : List (Name × Name)) : RvCnameChain :=
  pairs.foldl (fun c p => (RvCnameChainAdd E c p.1 p.2).2) RvCnameChainConstruct

/-- The entries after the CNAME pairs have been added to an empty chain. -/
def entriesAfter (pairs : List (Name × Name)) : List ChainEntry :=
  pairs.foldl (fun es p => addPair es p.1 p.2) []

/-- The names of the pairs in the order the records give them: owner, alias, owner, ... -/
def namesOf : List (Name × Name) → List Name
  | [] => []
  | p :: ps => p.1 :: p.2 :: namesOf ps

/-- The name `n` is the owner of one of the pairs (compared case-insensitively). -/
def isOwnerIn (pairs : List (Name × Name)) (n : Name) : Bool :=
  pairs.any (fun p => decide (lowerName p.1 = lowerName n))

/-- The name `n` is the alias of one of the pairs (compared case-insensitively). -/
def isAliasIn (pairs : List (Name × Name)) (n : Name) : Bool :=
  pairs.any (fun p => decide (lowerName p.2 = lowerName n))

/-- The terminal name in the spec's words, made deterministic: the first name, in the order
of the records, that "appears as an alias but never as an owner". -/
def specTerminal (pairs : List (Name × Name)) : Option Name :=
  (namesOf pairs).find? (fun n => !isOwnerIn pairs n)

/-- Append the name to the list unless the list holds it already. -/
def addIfAbsent (l : List Name) (n : Name) : List Name :=
  if l.any (fun m => decide (lowerName m = lowerName n)) then l else l ++ [n]

/-- What the entries `es` have to do with the pairs that were added: the names are the
names of the pairs in order of first appearance, an entry is flagged exactly when its name
is the owner of a pair, no two entries hold the same name, every owner has an entry. -/
def ChainInv (pairs : List (Name × Name)) (es : List ChainEntry) : Prop :=
  es.map (fun e => e.2) = (namesOf pairs).foldl addIfAbsent [] ∧
  (∀ e ∈ es, e.1 = isOwnerIn pairs e.2) ∧
  (es.map (fun e => e.2)).Pairwise (fun m n => lowerName m ≠ lowerName n) ∧
  (∀ p ∈ pairs, hasName es p.1 = true)

instance (n : Name) : Decidable (GoodName n) := by
  unfold GoodName
  infer_instance

/-- The environment with an allocator that never fails. -/
def withWorkingAllocator (E : Env) : Env := { E with RvMemoryAlloc := fun _ => RV_OK }

/-- Every `RvCnameChainAdd` of the pairs, one after the other from chain `c` on, returns
`RV_OK`. -/
def addsSucceed (E : Env) : RvCnameChain → List (Name × Name) → Prop
  | _, [] => True
  | c, p :: ps =>
    (RvCnameChainAdd E c p.1 p.2).1 = RV_OK ∧ addsSucceed E (RvCnameChainAdd E c p.1 p.2).2 ps

/-- The CNAME pairs `(n0 -> n1), ..., (n(k-1) -> nk)` of the names `n0, ..., nk`. -/
def chainPairs : List Name → List (Name × Name)
  | a :: b :: rest => (a, b) :: chainPairs (b :: rest)
  | _ => []

/-! ## The search-suffix state machine -/

/-- Collaborators and constants of the search code that `rvares.c` takes from elsewhere. -/
structure SearchEnv where
  /-- `ares_query(channel, name, dnsclass, type, queryBuffer, &qbufLen, ..., queryId)` as its
  callers see it, given the events so far: the status returned and the value left in
  `qbufLen`.  It only schedules the query; replies arrive later. -/
  ares_query : List Event → Name → Nat → Int → Nat → Nat → Nat → Int × Nat
  /-- `RvSnprintf(buff, buffSize, fmt, ...)` given the text the format yields: the return
  value and the string left in `buff`. -/
  RvSnprintf : Nat → Name → Int × Name
  RvAlign : Nat → Nat
  RvAlignValue : Nat → Nat
  RvAresComputeQuerySize : Name → Name → Nat
  /-- `sizeof(rvSearchQuery)`. -/
  sizeofSearchQuery : Nat
  MAXCDNAME : Nat
  ARES_ESERVFAIL : Int
  ARES_EREFUSED : Int
  ARES_ENDOFSERVERS : Int
  ARES_ENOMEM : Int
  ARES_FLAG_NOSEARCH : Nat
  RV_ERROR_INSUFFICIENT_BUFFER : Int

/-- The macro `MAX_DOMAIN_SIZE`, `MAXCDNAME+1`. -/
def MAX_DOMAIN_SIZE (S : SearchEnv) : Nat := S.MAXCDNAME + 1

/-- The fields of `RvDnsEngine` the search code reads, next to the default callback.  The
suffix `domains[i]` is `domains.getD i []`. -/
structure RvDnsSearchEngine extends RvDnsEngine where
  ndomains : Nat
  domains : List Name
  ndots : Nat
  flags : Nat
  longest_domain_i : Nat

/-- The structure `rvSearchQuery` and, in `dnsName`, the name stored right behind it.
`queryBuffer` is an address; `next_domain` is never negative (0 at first, then `i + 1`). -/
structure rvSearchQuery where
  queryType : Int
  context : Nat
  queryBuffer : Nat
  qbufLen : Nat
  status_as_is : Int
  next_domain : Nat
  trying_as_is : Int
  domainMask : Nat
  tryAsIs : Bool
  dnsName : Name
  deriving DecidableEq, Repr

def RvDnsSearchSetMask (E : Env) (q : rvSearchQuery) (mask : Nat) : rvSearchQuery :=
  let q := { q with tryAsIs := (mask &&& 1) != 0 }
  let q := { q with domainMask := mask >>> 1 }
  if !q.tryAsIs then { q with status_as_is := E.ARES_ENOTFOUND } else q

/-- The `for` loop of `RvDnsSearchGetNextDomain` with `k` indices left below `ndomains`:
the value of `i` behind the loop. -/
def RvDnsSearchGetNextDomain.loop (S : SearchEnv) (engine : RvDnsSearchEngine) (nameLen : Nat)
    (domainMask : Nat) : Nat → Nat → Nat → Nat
  | 0, i, _ => i
  | k + 1, i, bit =>
    if domainMask &&& bit = 0 then
      RvDnsSearchGetNextDomain.loop S engine nameLen domainMask k (i + 1) ((bit <<< 1) % 2 ^ 32)
    else if nameLen + (engine.domains.getD i []).length + 1 ≥ MAX_DOMAIN_SIZE S then
      RvDnsSearchGetNextDomain.loop S engine nameLen domainMask k (i + 1) ((bit <<< 1) % 2 ^ 32)
    else i

/-- The function `RvDnsSearchGetNextDomain`: the suffix returned (`none` for the null
pointer) and the search query afterwards. -/
def RvDnsSearchGetNextDomain (S : SearchEnv) (engine : RvDnsSearchEngine) (nameLen : Nat)
    (q : rvSearchQuery) : Option Name × rvSearchQuery :=
  let bit := (1 <<< q.next_domain) % 2 ^ 32
  let i := RvDnsSearchGetNextDomain.loop S engine nameLen q.domainMask
    (engine.ndomains - q.next_domain) q.next_domain bit
  let q := { q with next_domain := i + 1 }
  if i ≥ engine.ndomains then (none, q) else (some (engine.domains.getD i []), q)

/-- The function `rvDnsCatDomain`: its status and the string left in `buff`. -/
def rvDnsCatDomain (S : SearchEnv) (dnsName dnsDomain : Name) (buffSize : Nat) : Int × Name :=
  let r := S.RvSnprintf buffSize (dnsName ++ [46] ++ dnsDomain)
  (if r.1 < 0 ∨ r.1 = (buffSize : Int) then S.RV_ERROR_INSUFFICIENT_BUFFER else RV_OK, r.2)

/-- The tail of `rvDnsSearchCallback` (lines 1075-1084): `ares_query` for `dnsName`, and
`rvDnsCallback` with its status when it fails. -/
def rvDnsSearchCallback.issue (E : Env) (S : SearchEnv) (dnsEngine : RvDnsSearchEngine)
    (newRecordCB : Option RvDnsNewRecordCB) (squery : rvSearchQuery) (dnsName : Name)
    (queryId : Nat) (queryName0 : Name) (tls : Option Int) (trace : List Event) :
    rvSearchQuery × CallbackResult :=
  let r := S.ares_query trace dnsName C_IN squery.queryType squery.queryBuffer squery.qbufLen
    queryId
  let status := r.1
  let trace := trace ++
    [Event.query dnsName C_IN squery.queryType QueryCallback.rvDnsSearchCallback queryId status]
  let squery := { squery with qbufLen := r.2 }
  if status ≠ RV_OK then
    (squery, rvDnsCallback E dnsEngine.toRvDnsEngine newRecordCB squery.context status queryId
      [] 0 queryName0 tls trace)
  else (squery, { trace := trace, tls := tls })

/-- The function `rvDnsSearchCallback`; `squery` is the block its `context` points to.
Returns the block and what `rvDnsCallback` returns. -/
def rvDnsSearchCallback (E : Env) (S : SearchEnv) (dnsEngine : RvDnsSearchEngine)
    (newRecordCB : Option RvDnsNewRecordCB) (squery : rvSearchQuery) (status : Int)
    (queryId : Nat) (queryResults : List Nat) (alen : Nat) (queryName0 : Name)
    (tls : Option Int) (trace : List Event) : rvSearchQuery × CallbackResult :=
  if status ≠ E.ARES_ENODATA ∧ status ≠ S.ARES_ESERVFAIL ∧ status ≠ E.ARES_ENOTFOUND ∧
      status ≠ S.ARES_EREFUSED ∧ status ≠ S.ARES_ENDOFSERVERS then
    (squery, rvDnsCallback E dnsEngine.toRvDnsEngine newRecordCB squery.context status queryId
      queryResults alen queryName0 tls trace)
  else
    let dnsName := squery.dnsName
    let nameLen := dnsName.length
    let squery := if squery.trying_as_is ≠ 0 then { squery with status_as_is := status }
      else squery
    let r := RvDnsSearchGetNextDomain S dnsEngine nameLen squery
    let squery := r.2
    match r.1 with
    | none =>
      if !squery.tryAsIs then
        (squery, rvDnsCallback E dnsEngine.toRvDnsEngine newRecordCB squery.context
          squery.status_as_is queryId queryResults alen queryName0 tls trace)
      else
        let squery := { squery with trying_as_is := 1, tryAsIs := false }
        rvDnsSearchCallback.issue E S dnsEngine newRecordCB squery dnsName queryId queryName0
          tls trace
    | some domainSuffix =>
      let s := (rvDnsCatDomain S dnsName domainSuffix (MAX_DOMAIN_SIZE S)).2
      rvDnsSearchCallback.issue E S dnsEngine newRecordCB squery s queryId queryName0 tls trace

/-- What `rvDnsSearch` leaves behind: its status, the value in `*qbufLen`, the search-query
block when one was written into `queryBuffer`, and the events. -/
structure SearchResult where
  status : Int
  qbufLen : Nat
  squery : Option rvSearchQuery
  trace : List Event

/-- The test of `rvDnsSearch` for a name that yields one query only (line 1137).  The last
character of an empty name is read out of bounds; here it is no dot. -/
def rvDnsSearch.single (S : SearchEnv) (dnsEngine : RvDnsSearchEngine) (dnsName : Name)
    (domainsMask : Nat) : Bool :=
  dnsName.getLast? == some 46 || dnsEngine.ndomains == 0 || domainsMask == 1 ||
    (dnsEngine.flags &&& S.ARES_FLAG_NOSEARCH) != 0

/-- The offset `len` of the query buffer behind the search-query block (lines 1148-1152). -/
def rvDnsSearch.len (S : SearchEnv) (dnsName : Name) (queryBuffer : Nat) : Nat :=
  S.RvAlignValue
    (dnsName.length + S.sizeofSearchQuery + 1 + (S.RvAlign queryBuffer - queryBuffer))

/-- The search-query block as `rvDnsSearch` fills it in (lines 1161-1180): the fields, the
mask, the name behind the block and `trying_as_is`.  `squery0` is what `queryBuffer` holds
before the call where the block is laid. -/
def rvDnsSearch.init (E : Env) (S : SearchEnv) (dnsEngine : RvDnsSearchEngine)
    (queryType : Int) (dnsName : Name) (domainsMask : Nat) (queryBuffer : Nat) (qbufLen : Nat)
    (squery0 : rvSearchQuery) (context : Nat) : rvSearchQuery :=
  let squeryAddr := S.RvAlign queryBuffer
  let len := rvDnsSearch.len S dnsName queryBuffer
  let squery := { squery0 with
    qbufLen := qbufLen - len
    queryType := queryType
    context := context
    queryBuffer := squeryAddr + len
    status_as_is := -1
    next_domain := 0 }
  let squery := RvDnsSearchSetMask E squery domainsMask
  let squery := { squery with dnsName := dnsName }
  let ndots := dnsName.count 46
  { squery with trying_as_is := if ndots ≥ dnsEngine.ndots then 1 else 0 }

/-- The tail of `rvDnsSearch` (lines 1207-1216): `ares_query` for `searchName` and the
status handed back. -/
def rvDnsSearch.send (S : SearchEnv) (squery : rvSearchQuery) (searchName : Name)
    (queryType : Int) (len qbufLen : Nat) (queryId : Nat) (trace : List Event) :
    SearchResult :=
  let q := S.ares_query trace searchName C_IN queryType squery.queryBuffer squery.qbufLen
    queryId
  let status := q.1
  let squery := { squery with qbufLen := q.2 }
  { status := status
    qbufLen := if status ≠ ARES_SUCCESS ∧ status = S.ARES_ENOMEM then len + squery.qbufLen
      else qbufLen
    squery := some squery
    trace := trace ++
      [Event.query searchName C_IN queryType QueryCallback.rvDnsSearchCallback queryId
        status] }

/-- The function `rvDnsSearch`.  The record callback is only handed on to `ares_query`; the
local `tryingAsIs` is read off `trying_as_is`, which was given the same value; `st` holds
`domainSuffix`, `tryingAsIs` and the block behind the choice of the first attempt. -/
def rvDnsSearch (E : Env) (S : SearchEnv) (dnsEngine : RvDnsSearchEngine) (queryType : Int)
    (dnsName : Name) (domainsMask : Nat) (queryBuffer : Nat) (qbufLen : Nat)
    (squery0 : rvSearchQuery) (context : Nat) (queryId : Nat) (trace : List Event) :
    SearchResult :=
  let nameSize := dnsName.length
  if rvDnsSearch.single S dnsEngine dnsName domainsMask then
    let r := S.ares_query trace dnsName C_IN queryType queryBuffer qbufLen queryId
    { status := r.1, qbufLen := r.2, squery := none,
      trace := trace ++
        [Event.query dnsName C_IN queryType (QueryCallback.rvDnsCallback context) queryId r.1] }
  else
    let len := rvDnsSearch.len S dnsName queryBuffer
    let maxQuerySize := S.RvAresComputeQuerySize dnsName
      (dnsEngine.domains.getD dnsEngine.longest_domain_i [])
    let requiredMemory := len + maxQuerySize
    if requiredMemory > qbufLen then
      { status := S.ARES_ENOMEM, qbufLen := requiredMemory, squery := none, trace := trace }
    else
      let squery := rvDnsSearch.init E S dnsEngine queryType dnsName domainsMask queryBuffer
        qbufLen squery0 context
      let r := RvDnsSearchGetNextDomain S dnsEngine nameSize squery
      let st : Name × Bool × rvSearchQuery :=
        if squery.trying_as_is ≠ 0 then ([], true, squery)
        else
          match r.1 with
          | some domainSuffix => (domainSuffix, false, r.2)
          | none => ([], true, { r.2 with trying_as_is := 1 })
      let domainSuffix := st.1
      let tryingAsIs := st.2.1
      let squery := st.2.2
      if tryingAsIs && !squery.tryAsIs then
        { status := RV_OK, qbufLen := qbufLen, squery := some squery, trace := trace }
      else
        let squery := if tryingAsIs then { squery with tryAsIs := false } else squery
        let searchName :=
          if domainSuffix ≠ [] then (rvDnsCatDomain S dnsName domainSuffix (MAX_DOMAIN_SIZE S)).2
          else dnsName
        rvDnsSearch.send S squery searchName queryType len qbufLen queryId trace

/-! ## Observations and drivers of the search -/

/-- The names handed to `ares_query`, in order. -/
def queriesOf : List Event → List Name
  | [] => []
  | Event.query n _ _ _ _ _ :: rest => n :: queriesOf rest
  | _ :: rest => queriesOf rest

/-- A reply as `rvDnsSearchCallback` receives it. -/
structure SearchReply where
  status : Int
  queryResults : List Nat
  alen : Nat

/-- The last thing that happened is a query of the search that `ares_query` accepted: a
reply to it is outstanding. -/
def searchPending (trace : List Event) : Bool :=
  match trace.getLast? with
  | some (Event.query _ _ _ QueryCallback.rvDnsSearchCallback _ ret) => ret == RV_OK
  | _ => false

/-- The resolver hands the replies, one after the other, to `rvDnsSearchCallback`, as long as
a query of the search is outstanding. -/
def searchReplies (E : Env) (S : SearchEnv) (dnsEngine : RvDnsSearchEngine)
    (newRecordCB : Option RvDnsNewRecordCB) (queryId : Nat) (queryName0 : Name) :
    List SearchReply → rvSearchQuery × CallbackResult → rvSearchQuery × CallbackResult
  | [], st => st
  | r :: rs, st =>
    if searchPending st.2.trace then
      searchReplies E S dnsEngine newRecordCB queryId queryName0 rs
        (rvDnsSearchCallback E S dnsEngine newRecordCB st.1 r.status queryId r.queryResults
          r.alen queryName0 st.2.tls st.2.trace)
    else st

/-- A search from `rvDnsSearch` on, with the replies to its queries: the events at the end
and the exception slot. -/
def searchRun (E : Env) (S : SearchEnv) (dnsEngine : RvDnsSearchEngine)
    (newRecordCB : Option RvDnsNewRecordCB) (queryType : Int) (dnsName : Name)
    (domainsMask : Nat) (queryBuffer : Nat) (qbufLen : Nat) (squery0 : rvSearchQuery)
    (context : Nat) (queryId : Nat) (queryName0 : Name) (tls : Option Int)
    (replies : List SearchReply) : CallbackResult :=
  let r := rvDnsSearch E S dnsEngine queryType dnsName domainsMask queryBuffer qbufLen squery0
    context queryId []
  match r.squery with
  | none => { trace := r.trace, tls := tls }
  | some q =>
    (searchReplies E S dnsEngine newRecordCB queryId queryName0 replies
      (q, { trace := r.trace, tls := tls })).2

/-- The suffix `i` is selected for a name of `nameLen` octets, in the words of the
specification: bit `i + 1` of the caller's mask is set and name, dot and suffix take at most
255 octets. -/
def suffixSelected (engine : RvDnsSearchEngine) (nameLen mask i : Nat) : Bool :=
  mask.testBit (i + 1) && decide (nameLen + 1 + (engine.domains.getD i []).length ≤ 255)

/-- A search environment: `ares_query` accepts every query, `RvSnprintf` behaves as C99
says, alignment is to 8 octets. -/
def sampleSearchEnv : SearchEnv :=
  { ares_query := fun _ _ _ _ _ qbufLen _ => (0, qbufLen)
    RvSnprintf := fun n s => ((s.length : Int), s.take (n - 1))
    RvAlign := fun a => (a + 7) / 8 * 8
    RvAlignValue := fun a => (a + 7) / 8 * 8
    RvAresComputeQuerySize := fun name suffix => name.length + suffix.length + 20
    sizeofSearchQuery := 40
    MAXCDNAME := 255
    ARES_ESERVFAIL := 3
    ARES_EREFUSED := 6
    ARES_ENDOFSERVERS := 22
    ARES_ENOMEM := 15
    ARES_FLAG_NOSEARCH := 32
    RV_ERROR_INSUFFICIENT_BUFFER := -5 }

/-- An engine with the given suffixes and `ndots`, searching enabled. -/
def sampleEngine (domains : List Name) (ndots : Nat) : RvDnsSearchEngine :=
  { newRecordCB := cbOk, ndomains := domains.length, domains := domains, ndots := ndots,
    flags := 0, longest_domain_i := 0 }

/-- A search-query block of zeroes. -/
def zeroSearchQuery : rvSearchQuery :=
  { queryType := 0, context := 0, queryBuffer := 0, qbufLen := 0, status_as_is := 0,
    next_domain := 0, trying_as_is := 0, domainMask := 0, tryAsIs := false, dnsName := [] }

/-- The name `web`. -/
def nameWeb : Name := [119, 101, 98]

/-- The suffixes `corp` and `example.com`. -/
def sampleSuffixes : List Name :=
  [[99, 111, 114, 112], [101, 120, 97, 109, 112, 108, 101, 46, 99, 111, 109]]

/-- Response to the question `web.example.com A` with one A record 198.51.100.9, TTL 60. -/
def msgWebA : List Nat :=
  sampleHeader 0 1 1 0 ++
    ([3, 119, 101, 98, 7, 101, 120, 97, 109, 112, 108, 101, 3, 99, 111, 109, 0] ++
      [0, 1, 0, 1]) ++
    sampleRR [3, 119, 101, 98, 7, 101, 120, 97, 109, 112, 108, 101, 3, 99, 111, 109, 0] 1 60
      [198, 51, 100, 9]

/-- The two tests the loop of `RvDnsSearchGetNextDomain` applies at index `j`. -/
def loopSelects (S : SearchEnv) (engine : RvDnsSearchEngine) (nameLen domainMask j : Nat) :
    Bool :=
  (domainMask &&& (2 ^ j % 2 ^ 32) != 0) &&
    !decide (nameLen + (engine.domains.getD j []).length + 1 ≥ MAX_DOMAIN_SIZE S)

/-- The search query and the events after `rvDnsSearch` for `web` (mask 7, suffixes `corp`
and `example.com`, `ndots` 1) and the reply NOTFOUND to its first query. -/
def searchWebAfterNotFound : rvSearchQuery × CallbackResult :=
  match (rvDnsSearch (sampleEnv cacheOk) sampleSearchEnv (sampleEngine sampleSuffixes 1) 1
      nameWeb 7 0 512 zeroSearchQuery 77 5 []) with
  | { squery := some q, trace := t, .. } =>
    rvDnsSearchCallback (sampleEnv cacheOk) sampleSearchEnv (sampleEngine sampleSuffixes 1)
      none q 4 5 [] 0 [] none t
  | _ => (zeroSearchQuery, { trace := [], tls := none })

/-- The status is one of those on which `rvDnsSearchCallback` keeps searching: NODATA,
SERVFAIL, NOTFOUND, REFUSED or END_OF_SERVERS. -/
def negativeStatus (E : Env) (S : SearchEnv) (status : Int) : Bool :=
  status == E.ARES_ENODATA || status == S.ARES_ESERVFAIL || status == E.ARES_ENOTFOUND ||
    status == S.ARES_EREFUSED || status == S.ARES_ENDOFSERVERS

/-- The record that carries nothing but a status, as `rvDnsCallback` builds it. -/
def statusOnlyRecord (E : Env) (status : Int) : RvDnsData :=
  { zeroDnsData with
    dataType := E.RV_DNS_STATUS_TYPE
    data := .status status
    queryType := 0
    ttl := 4294967295 }

/-- The search is not bypassed and the buffer is large enough. -/
def searchSetUp (S : SearchEnv) (dnsEngine : RvDnsSearchEngine) (dnsName : Name)
    (domainsMask queryBuffer qbufLen : Nat) : Prop :=
  rvDnsSearch.single S dnsEngine dnsName domainsMask = false ∧
  rvDnsSearch.len S dnsName queryBuffer +
    S.RvAresComputeQuerySize dnsName (dnsEngine.domains.getD dnsEngine.longest_domain_i []) ≤
      qbufLen

/-- What holds of the search query and the events of a search for `dnsName` whose mask has the
as-is bit: once the name has been tried as it is, `trying_as_is` is set; when the name has
fewer than `ndots` dots, the suffixes are used up by then and the last query is the one for
the bare name. -/
def SearchInv (dnsEngine : RvDnsSearchEngine) (dnsName : Name) (context : Nat)
    (q : rvSearchQuery) (trace : List Event) : Prop :=
  q.dnsName = dnsName ∧ q.context = context ∧
  (q.tryAsIs = false → q.trying_as_is ≠ 0) ∧
  (dnsName.count 46 < dnsEngine.ndots → q.tryAsIs = false →
    dnsEngine.ndomains < q.next_domain ∧ (queriesOf trace).getLast? = some dnsName)

/-- The result of `rvDnsSearch` for `web` with mask 7, the suffixes `corp` and
`example.com`, `ndots` 1, type A, context 77 and query id 5. -/
def searchWebStart : SearchResult :=
  rvDnsSearch (sampleEnv cacheOk) sampleSearchEnv (sampleEngine sampleSuffixes 1) 1 nameWeb 7 0
    512 zeroSearchQuery 77 5 []

/-- The search for `web` after the replies NOTFOUND to `web.corp` and NODATA to
`web.example.com`; the query for the bare name is outstanding. -/
def searchWebExhausted : rvSearchQuery × CallbackResult :=
  searchReplies (sampleEnv cacheOk) sampleSearchEnv (sampleEngine sampleSuffixes 1) none 5 []
    [⟨4, [], 0⟩, ⟨1, [], 0⟩]
    (searchWebStart.squery.getD zeroSearchQuery, { trace := searchWebStart.trace, tls := none })

/-- The suffixes `` (empty) and `corp`. -/
def suffixesWithEmpty : List Name := [[], [99, 111, 114, 112]]

/-- Three negative replies: NOTFOUND, NODATA, SERVFAIL. -/
def threeNegativeReplies : List SearchReply := [⟨4, [], 0⟩, ⟨1, [], 0⟩, ⟨3, [], 0⟩]

/-- Collaborators and constants of `RvAresSendQueryEx` and `rvAresResetServers2` that
`rvares.c` takes from elsewhere. -/
structure SendEnv where
  /-- `RvLockGet(&dnsEngine->lock, ...)`: its status, given the events so far. -/
  RvLockGet : List Event → Int
  /-- `RvAresCacheCltFind(cached, queryType, dnsName, nameSize, domainSuffixes, nDomains,
  &domainMask, newRecordCB, context, queryId, queryBuffer, &tqbufLen)`, given the events so
  far: its status and the values it leaves in `domainMask` and `tqbufLen`.  The suffixes are
  `none` for the null pointer. -/
  RvAresCacheCltFind : List Event → Int → Name → Nat → Option (List Name) → Nat → Nat →
    Nat → Nat → Nat → Nat → Int × Nat × Nat
  /-- The reply, if any, that `ares_query` hands to the callback of the query before it
  returns (as when no server is configured), given the events up to that query. -/
  syncReply : List Event → Option SearchReply
  /-- The 32-bit pattern the compiled program yields for `1 << count` with a count of 32 or
  more, which C leaves undefined for the `int` literal `1`. -/
  undefinedShift : Nat → Nat
  RV_ERROR_BADPARAM : Int
  RV_ERROR_UNKNOWN : Int
  RV_DNS_ERROR_NOTFOUND : Int
  RV_DNS_QUERY_CANCELED : Int

/-- The field `userQueryId` of `RvDnsEngine`, next to the fields the search reads.  It is
taken to be 32 bits wide, as the `RvUint32` it is copied to. -/
structure RvDnsSendEngine extends RvDnsSearchEngine where
  userQueryId : Nat

/-- The `switch` of `RvAresSendQueryEx` over `dnsQuery` (lines 1824-1843): the wire type, or
`none` in the `default` case. -/
def RvAresSendQueryEx.queryType (E : Env) (dnsQuery : Int) : Option Int :=
  if dnsQuery = E.RV_DNS_HOST_IPV4_TYPE then some T_A
  else if E.RV_NET_IPV6 = true ∧ dnsQuery = E.RV_DNS_HOST_IPV6_TYPE then some T_AAAA
  else if dnsQuery = E.RV_DNS_SRV_TYPE then some T_SRV
  else if dnsQuery = E.RV_DNS_NAPTR_TYPE then some T_NAPTR
  else none

/-- The mask `(1 << (nDomains + 1)) - 1` of line 1867, stored in the `RvUint32`
`domainMask`.  The left operand of the shift is the `int` literal `1`, of 32 bits: for a
count below 32 the shift and the subtraction are taken in two's complement; for a count of
32 or more, as with 31 suffixes, C leaves the shift undefined and the value is the one the
environment gives. -/
def RvAresSendQueryEx.domainMask (D : SendEnv) (nDomains : Nat) : Nat :=
  let shifted :=
    if nDomains + 1 < 32 then (1 <<< (nDomains + 1)) % 2 ^ 32
    else D.undefinedShift (nDomains + 1) % 2 ^ 32
  (shifted + (2 ^ 32 - 1)) % 2 ^ 32

/-- The resolver hands the replies that `ares_query` has at once to the callback of the last
query, inside the call: `rvDnsCallback` with the context of the user, or
`rvDnsSearchCallback` with the search-query block, which may query again.  `k` bounds the
number of replies. -/
def syncReplies (E : Env) (S : SearchEnv) (D : SendEnv) (dnsEngine : RvDnsSearchEngine)
    (newRecordCB : Option RvDnsNewRecordCB) (queryId : Nat) (queryName0 : Name) :
    Nat → Option rvSearchQuery × CallbackResult → Option rvSearchQuery × CallbackResult
  | 0, st => st
  | k + 1, st =>
    match D.syncReply st.2.trace, st.2.trace.getLast? with
    | some r, some (Event.query _ _ _ (QueryCallback.rvDnsCallback context) _ _) =>
      (st.1, rvDnsCallback E dnsEngine.toRvDnsEngine newRecordCB context r.status queryId
        r.queryResults r.alen queryName0 st.2.tls st.2.trace)
    | some r, some (Event.query _ _ _ QueryCallback.rvDnsSearchCallback _ _) =>
      match st.1 with
      | some q =>
        let n := rvDnsSearchCallback E S dnsEngine newRecordCB q r.status queryId r.queryResults
          r.alen queryName0 st.2.tls st.2.trace
        syncReplies E S D dnsEngine newRecordCB queryId queryName0 k (some n.1, n.2)
      | none => st
    | _, _ => st

/-- What the issue step of `RvAresSendQueryEx` leaves behind: the status of `ares_query` or
`rvDnsSearch`, the value in `tqbufLen`, the content of the local `exception`, the events. -/
structure IssueResult where
  status : Int
  tqbufLen : Nat
  exception : Int
  trace : List Event

/-- The issue step of `RvAresSendQueryEx` (lines 1893-1901) with the exception slot installed
and holding `RV_OK`: `ares_query` when `as_is` is `RV_TRUE` (1), `rvDnsSearch` otherwise. -/
def RvAresSendQueryEx.issue (E : Env) (S : SearchEnv) (D : SendEnv)
    (dnsEngine : RvDnsSearchEngine) (queryType : Int) (dnsName : Name) (as_is : Int)
    (domainMask : Nat) (queryBuffer tqbufLen : Nat) (newRecordCB : RvDnsNewRecordCB)
    (context queryId : Nat) (squery0 : rvSearchQuery) (queryName0 : Name)
    (trace : List Event) : IssueResult :=
  let r : SearchResult :=
    if as_is = 1 then
      let q := S.ares_query trace dnsName C_IN queryType queryBuffer tqbufLen queryId
      { status := q.1, qbufLen := q.2, squery := none,
        trace := trace ++
          [Event.query dnsName C_IN queryType (QueryCallback.rvDnsCallback context) queryId q.1] }
    else
      rvDnsSearch E S dnsEngine queryType dnsName domainMask queryBuffer tqbufLen squery0
        context queryId trace
  let w := syncReplies E S D dnsEngine (some newRecordCB) queryId queryName0
    (dnsEngine.ndomains + 2) (r.squery, { trace := r.trace, tls := some RV_OK })
  { status := r.status, tqbufLen := r.qbufLen,
    exception :=
      match w.2.tls with
      | some e => e
      | none => RV_OK,
    trace := w.2.trace }

/-- The status `RvAresSendQueryEx` returns after the issue step (lines 1911-1934). -/
def RvAresSendQueryEx.result (S : SearchEnv) (D : SendEnv) (status exception : Int) : Int :=
  if status ≠ ARES_SUCCESS ∧ status ≠ D.RV_DNS_ERROR_NOTFOUND then
    if status = S.ARES_ENOMEM then S.RV_ERROR_INSUFFICIENT_BUFFER
    else D.RV_ERROR_UNKNOWN
  else if exception ≠ RV_OK then exception
  else status

/-- What `RvAresSendQueryEx` leaves behind: its status, the value in `*qbufLen`, the value
written through `queryId` (`none` when nothing is written), the counter of the engine, the
exception slot of the thread (`none` when no slot is installed) and the events. -/
structure SendResult where
  status : Int
  qbufLen : Nat
  queryId : Option Nat
  userQueryId : Nat
  tls : Option Int
  trace : List Event

/-- The function `RvAresSendQueryEx`.  `tls` is the exception slot of the thread before the
call; `squery0` and `queryName0` are as for `rvDnsSearch` and `rvDnsCallback`. -/
def RvAresSendQueryEx (E : Env) (S : SearchEnv) (D : SendEnv) (dnsEngine : RvDnsSendEngine)
    (dnsQuery : Int) (dnsName : Name) (as_is : Int) (queryBuffer qbufLen : Nat)
    (newRecordCB : Option RvDnsNewRecordCB) (context : Nat) (squery0 : rvSearchQuery)
    (queryName0 : Name) (tls : Option Int) (trace : List Event) : SendResult :=
  let tqbufLen := qbufLen
  let nameSize := dnsName.length
  match RvAresSendQueryEx.queryType E dnsQuery with
  | none =>
    { status := D.RV_ERROR_BADPARAM, qbufLen := qbufLen, queryId := none,
      userQueryId := dnsEngine.userQueryId, tls := tls, trace := trace }
  | some queryType =>
    let status := D.RvLockGet trace
    let newRecordCB := userCallback dnsEngine.toRvDnsEngine newRecordCB
    if status ≠ RV_OK then
      { status := status, qbufLen := qbufLen, queryId := none,
        userQueryId := dnsEngine.userQueryId, tls := tls, trace := trace }
    else
      let queryId := dnsEngine.userQueryId
      let userQueryId := (dnsEngine.userQueryId + 1) % 2 ^ 32
      let domainSuffixes := if as_is ≠ 0 then none else some dnsEngine.domains
      let nDomains := if as_is ≠ 0 then 0 else dnsEngine.ndomains
      let domainMask := RvAresSendQueryEx.domainMask D nDomains
      let c := D.RvAresCacheCltFind trace queryType dnsName nameSize domainSuffixes nDomains
        domainMask context queryId queryBuffer tqbufLen
      let cacheStatus := c.1
      let trace := trace ++ [Event.cacheFind queryType dnsName domainMask queryId cacheStatus]
      if cacheStatus = S.RV_ERROR_INSUFFICIENT_BUFFER then
        { status := cacheStatus, qbufLen := c.2.2, queryId := some queryId,
          userQueryId := userQueryId, tls := some RV_OK, trace := trace }
      else if cacheStatus = RV_OK ∨ cacheStatus = D.RV_DNS_ERROR_NOTFOUND then
        { status := cacheStatus, qbufLen := qbufLen, queryId := some queryId,
          userQueryId := userQueryId, tls := some RV_OK, trace := trace }
      else
        let w := RvAresSendQueryEx.issue E S D dnsEngine.toRvDnsSearchEngine queryType dnsName
          as_is c.2.1 queryBuffer c.2.2 newRecordCB context queryId squery0 queryName0 trace
        { status := RvAresSendQueryEx.result S D w.status w.exception, qbufLen := w.tqbufLen,
          queryId := some queryId, userQueryId := userQueryId, tls := none, trace := w.trace }

/-- A send environment: the lock is free, the cache answers with the given status and leaves
mask and length as they are, `ares_query` hands the given reply to the callback at once, and
a shift of the `int` literal `1` by 32 or more takes the count modulo 32, as the shift
instruction of the x86 does. -/
def sampleSendEnv (cacheStatus : Int) (sync : Option SearchReply) : SendEnv :=
  { RvLockGet := fun _ => 0
    RvAresCacheCltFind := fun _ _ _ _ _ _ mask _ _ _ len => (cacheStatus, mask, len)
    syncReply := fun t =>
      match t.getLast? with
      | some (Event.query _ _ _ _ _ _) => sync
      | _ => none
    undefinedShift := fun count => 1 <<< (count % 32)
    RV_ERROR_BADPARAM := -3
    RV_ERROR_UNKNOWN := -1
    RV_DNS_ERROR_NOTFOUND := -11
    RV_DNS_QUERY_CANCELED := -12 }

/-- An engine for `RvAresSendQueryEx` with the given suffixes, `ndots` and counter. -/
def sampleSendEngine (domains : List Name) (ndots userQueryId : Nat) : RvDnsSendEngine :=
  { sampleEngine domains ndots with userQueryId := userQueryId }

/-- The search environment whose `ares_query` returns the given status. -/
def searchEnvReturning (status : Int) : SearchEnv :=
  { sampleSearchEnv with ares_query := fun _ _ _ _ _ qbufLen _ => (status, qbufLen) }

/-- A send environment whose lock is not obtained: `RvLockGet` returns the given status. -/
def lockedSendEnv (status : Int) : SendEnv :=
  { sampleSendEnv (-20) none with RvLockGet := fun _ => status }

/-! ## Cancelled queries -/

/-- The callbacks `ares_query` is given in `rvares.c`, as `rvAresResetServers2` tells them
apart. -/
inductive AresCallback where
  | rvDnsCallback
  | rvDnsSearchCallback
deriving DecidableEq, Repr

/-- The fields of `rvQuery` that `rvAresResetServers2` reads; the list link `qnext` is the
order of the list.  `newRecordCB = none` is the null callback. -/
structure rvQuery where
  user_qid : Nat
  user_arg : Nat
  user_callback : AresCallback
  newRecordCB : Option RvDnsNewRecordCB

/-- The body of the loop of `rvAresResetServers2` for the query `q` (lines 2045-2064).
`searchQueryAt` reads the search-query block at an address, given the events so far;
`dnsData0` is the content of the uninitialised local `dnsData`. -/
def rvAresResetServers2.body (E : Env) (D : SendEnv) (dnsEngine : RvDnsEngine)
    (searchQueryAt : List Event → Nat → rvSearchQuery) (dnsData0 : RvDnsData) (q : rvQuery)
    (trace : List Event) : List Event :=
  let dnsData := { dnsData0 with
    dataType := E.RV_DNS_STATUS_TYPE
    data := .status D.RV_DNS_QUERY_CANCELED
    queryType := 0 }
  let queryId := q.user_qid
  let context := q.user_arg
  let context :=
    if q.user_callback = AresCallback.rvDnsSearchCallback then
      (searchQueryAt trace context).context
    else context
  let newRecordCB :=
    match q.newRecordCB with
    | some cb => cb
    | none => dnsEngine.newRecordCB
  trace ++ [Event.callback context queryId dnsData (newRecordCB trace context queryId dnsData)]

/-- The function `rvAresResetServers2` over the list of cancelled queries. -/
def rvAresResetServers2 (E : Env) (D : SendEnv) (dnsEngine : RvDnsEngine)
    (searchQueryAt : List Event → Nat → rvSearchQuery) (dnsData0 : RvDnsData) :
    List rvQuery → List Event → List Event
  | [], trace => trace
  | q :: rest, trace =>
    rvAresResetServers2 E D dnsEngine searchQueryAt dnsData0 rest
      (rvAresResetServers2.body E D dnsEngine searchQueryAt dnsData0 q trace)

/-- Two cancelled queries: the first sent as is with context 77 and no callback of its own,
the second owned by the search, whose block lies at address 4096. -/
def sampleCancelled : List rvQuery :=
  [{ user_qid := 5, user_arg := 77, user_callback := AresCallback.rvDnsCallback,
     newRecordCB := none },
   { user_qid := 6, user_arg := 4096, user_callback := AresCallback.rvDnsSearchCallback,
     newRecordCB := some cbOk }]

/-- Memory in which every search-query block holds the context 88. -/
def sampleBlocks : List Event → Nat → rvSearchQuery :=
  fun _ _ => { zeroSearchQuery with context := 88 }

/-- The events `b` are the events `a` and what happened after them. -/
def TraceExtends (a b : List Event) : Prop := ∃ ext, b = a ++ ext

/-- A decoder that leaves the type of the record, the cursor and the message alone. -/
def KeepsFrame (dec : RvDnsRecordDecoder) : Prop :=
  ∀ (data : RvDnsData) (ctx : RvDecodeCtx),
    (dec data ctx).2.1.dataType = data.dataType ∧ (dec data ctx).2.2.msgCur = ctx.msgCur ∧
    (dec data ctx).2.2.msgBody = ctx.msgBody ∧ (dec data ctx).2.2.msgLen = ctx.msgLen

/-- The chain invariant: the used part of the buffer is `chainSize` consecutive entries,
`nextFree` lies right behind them and within the buffer of `bufSize` octets, the names take
at most 255 octets and no two of them are equal when compared case-insensitively. -/
def ChainWF (c : RvCnameChain) : Prop :=
  ∃ es : List ChainEntry, ChainRep c es ∧ (∀ e ∈ es, GoodName e.2) ∧
    (es.map (fun e => e.2)).Pairwise (fun m n => lowerName m ≠ lowerName n)

/-- Offset of the entry behind the entries `es`, stepping by length + 3. -/
def entriesSize (es : List ChainEntry) : Nat := (es.map (fun e => e.2.length + 3)).sum

/-- The offset behind the records `recs` that lie one after the other from `cur` on. -/
def authEnd : Nat → List AuthRecord → Nat
  | cur, [] => cur
  | cur, r :: rest => authEnd (cur + r.nameLen + 10 + r.rdata.length) rest

/-- NXDOMAIN response to `www.a A` with no answer and the authority record `a NS ns`,
TTL 300, at the offsets 23 to 39. -/
def msgNsAuthority : List Nat :=
  sampleHeader 3 1 0 1 ++ ([3, 119, 119, 119, 1, 97, 0] ++ [0, 1, 0, 1]) ++
    sampleRR [1, 97, 0] 2 300 [2, 110, 115, 0]

/-- The name `a.b`. -/
def nameAB : Name := [97, 46, 98]

/-! ## Replacing the servers and cancelling a query -/

/-- The `struct ares_options` as `RvAresSetParams` fills it in.  `servers` and `domains` are
the arrays the pointers lead to. -/
structure ares_options where
  timeout : Int
  tries : Int
  servers : List Nat
  nservers : Int
  domains : List Name
  ndomains : Int

/-- Collaborators and constants of `RvAresConfigure`, `RvAresSetParams` and
`RvAresCancelQuery` that `rvares.c` takes from elsewhere.  Each function is given the events
so far. -/
structure ConfigEnv where
  RvLockGet : List Event → Int
  /-- `ares_cancel_queries(dnsEngine)`: the list of the queries it cancelled. -/
  ares_cancel_queries : List Event → List rvQuery
  ares_configure : List Event → Nat → Int
  ares_set_options : List Event → ares_options → Nat → Int
  RvAresCacheCltCancelQuery : List Event → Nat → Int
  ares_cancel_query : List Event → Nat → Int
  RV_DNS_SERVERS : Nat
  ARES_OPT_TIMEOUT : Nat
  ARES_OPT_TRIES : Nat
  ARES_OPT_SERVERS : Nat
  ARES_OPT_DOMAINS : Nat
  RV_TIME64_NSECPERSEC : Int
  RV_DNS_ERROR_CACHE_NOTFOUND : Int

/-- The function `rvAresResetServers1`: the sockets of the `nservers` servers are closed,
the queries cancelled; returns the list of cancelled queries. -/
def rvAresResetServers1 (C : ConfigEnv) (nservers : Nat) (trace : List Event) :
    List rvQuery × List Event :=
  let trace := trace ++ (List.range nservers).map (fun i => Event.engine (.closeSockets i))
  (C.ares_cancel_queries trace, trace ++ [Event.engine .cancelQueries])

/-- The function `RvAresConfigure`; `nservers` is `dnsEngine->nservers`.  Returns its status
and the events up to its return. -/
def RvAresConfigure (E : Env) (D : SendEnv) (C : ConfigEnv) (dnsEngine : RvDnsEngine)
    (nservers : Nat) (configType : Nat) (searchQueryAt : List Event → Nat → rvSearchQuery)
    (dnsData0 : RvDnsData) (trace : List Event) : Int × List Event :=
  let trace := trace ++ [Event.engine (.lockGet (C.RvLockGet trace))]
  let r : List rvQuery × List Event :=
    if configType &&& C.RV_DNS_SERVERS ≠ 0 then rvAresResetServers1 C nservers trace
    else ([], trace)
  let canceledQueries := r.1
  let trace := r.2
  let status := C.ares_configure trace configType
  let trace := trace ++ [Event.engine (.configure configType status)]
  let trace := trace ++ [Event.engine .lockRelease]
  let trace :=
    if !canceledQueries.isEmpty then
      rvAresResetServers2 E D dnsEngine searchQueryAt dnsData0 canceledQueries trace
    else trace
  (status, trace)

/-- The options part of `RvAresSetParams` (lines 1646-1671): `resetServers`, the options and
`optmask`.  `none` is the null pointer for `dnsServList` and `dnsDomains`, `options0` the
content of the uninitialised local `options`. -/
def RvAresSetParams.options (C : ConfigEnv) (timeoutInSec nTries : Int)
    (dnsServList : Option (List Nat)) (nServers : Int) (dnsDomains : Option (List Name))
    (nDomains : Int) (options0 : ares_options) : Bool × ares_options × Nat :=
  let options := options0
  let optmask : Nat := 0
  let resetServers := false
  let p1 : ares_options × Nat :=
    if timeoutInSec ≠ -1 then
      ({ options with timeout := timeoutInSec * C.RV_TIME64_NSECPERSEC },
        optmask ||| C.ARES_OPT_TIMEOUT)
    else (options, optmask)
  let p2 : ares_options × Nat :=
    if nTries ≠ -1 then ({ p1.1 with tries := nTries }, p1.2 ||| C.ARES_OPT_TRIES)
    else p1
  let p3 : Bool × ares_options × Nat :=
    match dnsServList with
    | some l =>
      (true, { p2.1 with servers := l, nservers := nServers }, p2.2 ||| C.ARES_OPT_SERVERS)
    | none => (resetServers, p2.1, p2.2)
  match dnsDomains with
  | some l =>
    (p3.1, { p3.2.1 with domains := l, ndomains := nDomains }, p3.2.2 ||| C.ARES_OPT_DOMAINS)
  | none => p3

/-- The function `RvAresSetParams`; `nservers` is `dnsEngine->nservers`.  Returns its status
and the events up to its return. -/
def RvAresSetParams (E : Env) (D : SendEnv) (C : ConfigEnv) (dnsEngine : RvDnsEngine)
    (nservers : Nat) (timeoutInSec nTries : Int) (dnsServList : Option (List Nat))
    (nServers : Int) (dnsDomains : Option (List Name)) (nDomains : Int)
    (options0 : ares_options) (searchQueryAt : List Event → Nat → rvSearchQuery)
    (dnsData0 : RvDnsData) (trace : List Event) : Int × List Event :=
  let p := RvAresSetParams.options C timeoutInSec nTries dnsServList nServers dnsDomains
    nDomains options0
  let resetServers := p.1
  let options := p.2.1
  let optmask := p.2.2
  let trace := trace ++ [Event.engine (.lockGet (C.RvLockGet trace))]
  let r : List rvQuery × List Event :=
    if resetServers then rvAresResetServers1 C nservers trace else ([], trace)
  let canceledQueries := r.1
  let trace := r.2
  let status := C.ares_set_options trace options optmask
  let trace := trace ++ [Event.engine (.setOptions optmask status)]
  let trace := trace ++ [Event.engine .lockRelease]
  let trace :=
    if !canceledQueries.isEmpty then
      rvAresResetServers2 E D dnsEngine searchQueryAt dnsData0 canceledQueries trace
    else trace
  if status ≠ ARES_SUCCESS then (D.RV_ERROR_UNKNOWN, trace) else (RV_OK, trace)

/-- The function `RvAresCancelQuery`: its status and the events up to its return. -/
def RvAresCancelQuery (C : ConfigEnv) (queryId : Nat) (trace : List Event) :
    Int × List Event :=
  let status := C.RvLockGet trace
  let trace := trace ++ [Event.engine (.lockGet status)]
  if status ≠ RV_OK then (status, trace)
  else
    let status := C.RvAresCacheCltCancelQuery trace queryId
    let trace := trace ++ [Event.engine (.cacheCancel queryId status)]
    let r : Int × List Event :=
      if status = C.RV_DNS_ERROR_CACHE_NOTFOUND then
        let status := C.ares_cancel_query trace queryId
        (status, trace ++ [Event.engine (.cancelQuery queryId status)])
      else (status, trace)
    (r.1, r.2 ++ [Event.engine .lockRelease])

/-- A resolver whose lock is free, with the given queries in flight, where configuring and
setting options succeed, the cache answers a cancel with the given status and the resolver
with 0. -/
def sampleConfigEnv (inFlight : List rvQuery) (cacheCancel : Int) : ConfigEnv :=
  { RvLockGet := fun _ => 0
    ares_cancel_queries := fun _ => inFlight
    ares_configure := fun _ _ => 0
    ares_set_options := fun _ _ _ => 0
    RvAresCacheCltCancelQuery := fun _ _ => cacheCancel
    ares_cancel_query := fun _ _ => 0
    RV_DNS_SERVERS := 1
    ARES_OPT_TIMEOUT := 2
    ARES_OPT_TRIES := 4
    ARES_OPT_SERVERS := 64
    ARES_OPT_DOMAINS := 128
    RV_TIME64_NSECPERSEC := 1000000000
    RV_DNS_ERROR_CACHE_NOTFOUND := -13 }

/-- Options of zeroes. -/
def zeroOptions : ares_options :=
  { timeout := 0, tries := 0, servers := [], nservers := 0, domains := [], ndomains := 0 }

/-- The record `rvAresResetServers2` hands to the callbacks. -/
def canceledRecord (E : Env) (D : SendEnv) (dnsData0 : RvDnsData) : RvDnsData :=
  { dnsData0 with
    dataType := E.RV_DNS_STATUS_TYPE
    data := .status D.RV_DNS_QUERY_CANCELED
    queryType := 0 }

/-- The event is an operation on the lock or the resolver. -/
def isEngineOp : Event → Bool
  | Event.engine _ => true
  | _ => false

/-- The event is a call of the user callback. -/
def isCallback : Event → Bool
  | Event.callback _ _ _ _ => true
  | _ => false

/-- The events behind `RvLockGet` up to and including `RvLockRelease` when the servers are
reset: the sockets are closed, the queries cancelled, then `op`. -/
def lockedPhase (lockStatus : Int) (nservers : Nat) (op : EngineOp) : List Event :=
  [Event.engine (.lockGet lockStatus)] ++
    (List.range nservers).map (fun i => Event.engine (.closeSockets i)) ++
    [Event.engine .cancelQueries, Event.engine op, Event.engine .lockRelease]

/-! # Theorems -/

theorem keeps_A (E : Env) : KeepsRecordNumber (rvDnsDecodeARecord E) := by
  intro dt qt rn ow tt da ctx n; rfl

theorem keeps_AAAA (E : Env) : KeepsRecordNumber (rvDnsDecodeAAAARecord E) := by
  intro dt qt rn ow tt da ctx n; rfl

theorem keeps_SRV (E : Env) : KeepsRecordNumber (rvDnsDecodeSRVRecord E) := by
  intro dt qt rn ow tt da ctx n
  simp only [rvDnsDecodeSRVRecord]
  split <;> rfl

theorem keeps_NAPTR (E : Env) : KeepsRecordNumber (rvDnsDecodeNAPTRRecord E) := by
  intro dt qt rn ow tt da ctx n
  simp only [rvDnsDecodeNAPTRRecord]
  repeat (first | rfl | split)

theorem keeps_CNAME (E : Env) : KeepsRecordNumber (rvDnsDecodeCNAMERecord E) := by
  intro dt qt rn ow tt da ctx n
  simp only [rvDnsDecodeCNAMERecord]
  split <;> rfl

theorem findDecoder_keeps (E : Env) (type : Int) (dec : RvDnsRecordDecoder)
    (h : findDecoder type (gsRecordDecodersRegistry E) = some dec) : KeepsRecordNumber dec := by
  have hA := keeps_A E
  have hAAAA := keeps_AAAA E
  have hSRV := keeps_SRV E
  have hNAPTR := keeps_NAPTR E
  have hCNAME := keeps_CNAME E
  cases hv6 : E.RV_NET_IPV6 <;>
    simp only [gsRecordDecodersRegistry, hv6, findDecoder, List.cons_append, List.nil_append,
      if_true, if_false, Bool.false_eq_true] at h <;>
    repeat (first
      | (split at h)
      | (cases h; assumption)
      | (exact absurd h (by simp)))

theorem rvDnsDecodeRecord_recordNumber (E : Env) (d : RvDnsData) (ctx : RvDecodeCtx) (n : Nat) :
    rvDnsDecodeRecord E { d with recordNumber := n } ctx =
      ((rvDnsDecodeRecord E d ctx).1,
        { (rvDnsDecodeRecord E d ctx).2.1 with recordNumber := n },
        (rvDnsDecodeRecord E d ctx).2.2) := by
  simp only [rvDnsDecodeRecord]
  split
  · rfl
  · split
    · rename_i dec hdec
      have hk := findDecoder_keeps E _ dec hdec
      simp only []
      rw [hk _ _ d.recordNumber _ _ _ _ n]
    · rfl

theorem rvDnsDecode_recordNumber (E : Env) (q : Int) (d : RvDnsData) (ctx : RvDecodeCtx)
    (n : Nat) :
    rvDnsDecode E q ctx { d with recordNumber := n } =
      ((rvDnsDecode E q ctx d).1,
        { (rvDnsDecode E q ctx d).2.1 with recordNumber := n },
        (rvDnsDecode E q ctx d).2.2) := by
  have h := rvDnsDecodeRecord_recordNumber E { d with queryType := q } ctx n
  simp only [rvDnsDecode]
  rw [h]
  simp only []
  split
  · rfl
  · split <;> rfl

theorem callbacksOf_append (a b : List Event) :
    callbacksOf (a ++ b) = callbacksOf a ++ callbacksOf b := by
  induction a with
  | nil => rfl
  | cons e a ih => cases e <;> simp [callbacksOf, ih]

theorem decodeAnswers_recordNumber (E : Env) (q : Int) (n : Nat) :
    ∀ (k : Nat) (ctx : RvDecodeCtx) (d : RvDnsData),
      decodeAnswers E q k ctx { d with recordNumber := n } =
        (decodeAnswers E q k ctx d).map (setRecordNumber n) := by
  intro k
  induction k with
  | zero => intro ctx d; rfl
  | succ k ih =>
    intro ctx d
    simp only [decodeAnswers, List.map_cons]
    rw [rvDnsDecode_recordNumber]
    simp only [setRecordNumber]
    rw [ih]

theorem numberFrom_matching_setRecordNumber (q : Int) (n : Nat) :
    ∀ (ds : List (Int × RvDnsData × RvDecodeCtx)) (m : Nat),
      numberFrom m (matchingAnswers q (ds.map (setRecordNumber n))) =
        numberFrom m (matchingAnswers q ds) := by
  intro ds
  induction ds with
  | nil => intro m; rfl
  | cons r ds ih =>
    intro m
    unfold matchingAnswers at ih ⊢
    simp only [List.map_cons, List.filter_cons, setRecordNumber]
    split
    · simp only [List.map_cons, numberFrom]
      rw [← ih (m + 1)]
    · rw [← ih m]

theorem numberFrom_append (a b : List RvDnsData) :
    ∀ n, numberFrom n (a ++ b) = numberFrom n a ++ numberFrom (n + a.length) b := by
  induction a with
  | nil => intro n; simp [numberFrom]
  | cons d a ih =>
    intro n
    have e : n + 1 + a.length = n + (a.length + 1) := by omega
    show _ :: numberFrom (n + 1) (a ++ b) = _ :: (_ ++ numberFrom (n + (a.length + 1)) b)
    rw [ih (n + 1), e]

theorem rvDnsDecode_keeps_recordNumber (E : Env) (q : Int) (ctx : RvDecodeCtx) (d : RvDnsData) :
    (rvDnsDecode E q ctx d).2.1.recordNumber = d.recordNumber := by
  have h := rvDnsDecode_recordNumber E q d ctx d.recordNumber
  have h2 := congrArg (fun r => r.2.1.recordNumber) h
  simp only [] at h2
  exact h2

/-- What the caching step of one iteration does: the events afterwards and the new value
of `continueCaching`. -/
theorem body_cached_cases (E : Env) (st : CallbackLoop) (d : RvDnsData) :
    ∃ tr s,
      (if st.continueCaching = true then
        ((if E.RvAresCacheCltRecord st.trace d ≠ RV_OK then false else true),
          st.trace ++ [Event.cacheRecord d (E.RvAresCacheCltRecord st.trace d)])
       else (false, st.trace)) = (s, tr) ∧
      callbacksOf tr = callbacksOf st.trace ∧
      (st.continueCaching = false → tr = st.trace ∧ s = false) ∧
      (st.continueCaching = true →
        tr = st.trace ++ [Event.cacheRecord d (E.RvAresCacheCltRecord st.trace d)] ∧
        s = decide (E.RvAresCacheCltRecord st.trace d = RV_OK)) := by
  cases hcc : st.continueCaching
  · exact ⟨st.trace, false, by simp, rfl, fun _ => ⟨rfl, rfl⟩, fun h => absurd h (by simp)⟩
  · refine ⟨st.trace ++ [Event.cacheRecord d (E.RvAresCacheCltRecord st.trace d)],
      (if E.RvAresCacheCltRecord st.trace d ≠ RV_OK then false else true),
      by simp only [if_true], ?_, fun h => absurd h (by simp), fun _ => ⟨rfl, ?_⟩⟩
    · simp [callbacksOf_append, callbacksOf]
    · by_cases h : E.RvAresCacheCltRecord st.trace d = RV_OK <;> simp [h]

/-- One iteration on a record of the question's type while callbacks are enabled. -/
theorem body_match (E : Env) (cb : RvDnsNewRecordCB) (c qid : Nat) (q : Int) (st : CallbackLoop)
    (h1 : (rvDnsDecode E q st.decodeCtx st.dnsData).1 = RV_OK)
    (h2 : (rvDnsDecode E q st.decodeCtx st.dnsData).2.1.dataType = q)
    (h3 : st.continueCallbacks = true) :
    ∃ tr s,
      (rvDnsCallback.body E cb c qid q st).decodeCtx =
        (rvDnsDecode E q st.decodeCtx st.dnsData).2.2 ∧
      (rvDnsCallback.body E cb c qid q st).dnsData =
        { (rvDnsDecode E q st.decodeCtx st.dnsData).2.1 with
            recordNumber := st.dnsData.recordNumber + 1 } ∧
      (rvDnsCallback.body E cb c qid q st).continueCaching = s ∧
      (rvDnsCallback.body E cb c qid q st).continueCallbacks =
        (if E.isDestructed (rvDnsCallback.body E cb c qid q st).status then false else true) ∧
      (rvDnsCallback.body E cb c qid q st).status =
        cb tr c qid { (rvDnsDecode E q st.decodeCtx st.dnsData).2.1 with
                        recordNumber := st.dnsData.recordNumber + 1 } ∧
      (rvDnsCallback.body E cb c qid q st).broke = false ∧
      (rvDnsCallback.body E cb c qid q st).trace =
        tr ++ [Event.callback c qid
          { (rvDnsDecode E q st.decodeCtx st.dnsData).2.1 with
              recordNumber := st.dnsData.recordNumber + 1 }
          (rvDnsCallback.body E cb c qid q st).status] ∧
      callbacksOf tr = callbacksOf st.trace ∧
      (st.continueCaching = false → tr = st.trace ∧ s = false) ∧
      (st.continueCaching = true →
        tr = st.trace ++ [Event.cacheRecord (rvDnsDecode E q st.decodeCtx st.dnsData).2.1
          (E.RvAresCacheCltRecord st.trace (rvDnsDecode E q st.decodeCtx st.dnsData).2.1)] ∧
        s = decide (E.RvAresCacheCltRecord st.trace
          (rvDnsDecode E q st.decodeCtx st.dnsData).2.1 = RV_OK)) := by
  have hrn := rvDnsDecode_keeps_recordNumber E q st.decodeCtx st.dnsData
  obtain ⟨tr, s, e, p1, p2, p3⟩ :=
    body_cached_cases E st (rvDnsDecode E q st.decodeCtx st.dnsData).2.1
  refine ⟨tr, s, ?_, ?_, ?_, ?_, ?_, ?_, ?_, p1, p2, p3⟩ <;>
    simp only [rvDnsCallback.body, h1, if_true, e, h2, h3, and_self, hrn]

/-- One iteration on a decoded record that is not delivered (another type, or callbacks
disabled). -/
theorem body_nomatch (E : Env) (cb : RvDnsNewRecordCB) (c qid : Nat) (q : Int)
    (st : CallbackLoop)
    (h1 : (rvDnsDecode E q st.decodeCtx st.dnsData).1 = RV_OK)
    (h2 : ¬ ((rvDnsDecode E q st.decodeCtx st.dnsData).2.1.dataType = q ∧
              st.continueCallbacks = true)) :
    ∃ tr s,
      (rvDnsCallback.body E cb c qid q st).decodeCtx =
        (rvDnsDecode E q st.decodeCtx st.dnsData).2.2 ∧
      (rvDnsCallback.body E cb c qid q st).dnsData =
        (rvDnsDecode E q st.decodeCtx st.dnsData).2.1 ∧
      (rvDnsCallback.body E cb c qid q st).continueCaching = s ∧
      (rvDnsCallback.body E cb c qid q st).continueCallbacks = st.continueCallbacks ∧
      (rvDnsCallback.body E cb c qid q st).status = RV_OK ∧
      (rvDnsCallback.body E cb c qid q st).broke = false ∧
      (rvDnsCallback.body E cb c qid q st).trace = tr ∧
      callbacksOf tr = callbacksOf st.trace ∧
      (st.continueCaching = false → tr = st.trace ∧ s = false) ∧
      (st.continueCaching = true →
        tr = st.trace ++ [Event.cacheRecord (rvDnsDecode E q st.decodeCtx st.dnsData).2.1
          (E.RvAresCacheCltRecord st.trace (rvDnsDecode E q st.decodeCtx st.dnsData).2.1)] ∧
        s = decide (E.RvAresCacheCltRecord st.trace
          (rvDnsDecode E q st.decodeCtx st.dnsData).2.1 = RV_OK)) := by
  obtain ⟨tr, s, e, p1, p2, p3⟩ :=
    body_cached_cases E st (rvDnsDecode E q st.decodeCtx st.dnsData).2.1
  refine ⟨tr, s, ?_, ?_, ?_, ?_, ?_, ?_, ?_, p1, p2, p3⟩ <;>
    simp only [rvDnsCallback.body, h1, if_true, e, if_neg h2]

/-- One iteration on a record of an unsupported type. -/
theorem body_notsupp (E : Env) (cb : RvDnsNewRecordCB) (c qid : Nat) (q : Int)
    (st : CallbackLoop)
    (h1 : (rvDnsDecode E q st.decodeCtx st.dnsData).1 ≠ RV_OK)
    (h2 : (rvDnsDecode E q st.decodeCtx st.dnsData).1 = E.RV_DNS_ERROR_RTNOTSUPP) :
    rvDnsCallback.body E cb c qid q st =
      { st with decodeCtx := (rvDnsDecode E q st.decodeCtx st.dnsData).2.2
                dnsData := (rvDnsDecode E q st.decodeCtx st.dnsData).2.1
                status := RV_OK
                broke := false } := by
  unfold rvDnsCallback.body
  simp only []
  rw [if_neg h1, if_pos h2]

/-- One iteration on a record whose decoding fails. -/
theorem body_error (E : Env) (cb : RvDnsNewRecordCB) (c qid : Nat) (q : Int)
    (st : CallbackLoop)
    (h1 : (rvDnsDecode E q st.decodeCtx st.dnsData).1 ≠ RV_OK)
    (h2 : (rvDnsDecode E q st.decodeCtx st.dnsData).1 ≠ E.RV_DNS_ERROR_RTNOTSUPP) :
    rvDnsCallback.body E cb c qid q st =
      { st with decodeCtx := (rvDnsDecode E q st.decodeCtx st.dnsData).2.2
                dnsData := (rvDnsDecode E q st.decodeCtx st.dnsData).2.1
                status := (rvDnsDecode E q st.decodeCtx st.dnsData).1
                broke := true
                trace := st.trace ++
                  [Event.callback c qid (rvDnsDecode E q st.decodeCtx st.dnsData).2.1
                    (cb st.trace c qid (rvDnsDecode E q st.decodeCtx st.dnsData).2.1)] } := by
  unfold rvDnsCallback.body
  simp only []
  rw [if_neg h1, if_neg h2]

/-- A record that `rvDnsDecode` rejects is turned into a status-only record carrying the
error. -/
theorem rvDnsDecode_error (E : Env) (q : Int) (ctx : RvDecodeCtx) (d : RvDnsData)
    (h : (rvDnsDecode E q ctx d).1 ≠ RV_OK) :
    (rvDnsDecode E q ctx d).2.1.dataType = E.RV_DNS_STATUS_TYPE ∧
    (rvDnsDecode E q ctx d).2.1.data = RvDnsDataUnion.status (rvDnsDecode E q ctx d).1 := by
  unfold rvDnsDecode at h ⊢
  simp only [] at h ⊢
  split
  · exact ⟨rfl, rfl⟩
  · split
    · exact ⟨rfl, rfl⟩
    · rename_i h1 h2
      rw [if_neg h1, if_neg h2] at h
      exact absurd rfl h

theorem loop_succ (E : Env) (cb : RvDnsNewRecordCB) (c qid : Nat) (q : Int) (k : Nat)
    (st : CallbackLoop) :
    rvDnsCallback.loop E cb c qid q (k + 1) st =
      if (rvDnsCallback.body E cb c qid q st).broke then rvDnsCallback.body E cb c qid q st
      else rvDnsCallback.loop E cb c qid q k (rvDnsCallback.body E cb c qid q st) := rfl

theorem decodeAnswers_succ (E : Env) (q : Int) (k : Nat) (ctx : RvDecodeCtx) (d : RvDnsData) :
    decodeAnswers E q (k + 1) ctx d =
      rvDnsDecode E q ctx d ::
        decodeAnswers E q k (rvDnsDecode E q ctx d).2.2 (rvDnsDecode E q ctx d).2.1 := rfl

theorem numberFrom_length (l : List RvDnsData) : ∀ n, (numberFrom n l).length = l.length := by
  induction l with
  | nil => intro n; rfl
  | cons d l ih => intro n; simp [numberFrom, ih]

theorem matching_setRecordNumber_length (q : Int) (n : Nat)
    (ds : List (Int × RvDnsData × RvDecodeCtx)) :
    (matchingAnswers q (ds.map (setRecordNumber n))).length = (matchingAnswers q ds).length := by
  have h := congrArg List.length (numberFrom_matching_setRecordNumber q n ds 0)
  simpa [numberFrom_length] using h

theorem ctxAfter_setRecordNumber (n : Nat) :
    ∀ (ds : List (Int × RvDnsData × RvDecodeCtx)) (ctx : RvDecodeCtx),
      ctxAfter ctx (ds.map (setRecordNumber n)) = ctxAfter ctx ds := by
  intro ds
  induction ds with
  | nil => intro ctx; rfl
  | cons r ds ih => intro ctx; simp [ctxAfter, setRecordNumber, ih]

theorem status_setRecordNumber (n : Nat) (P : Int → Prop)
    (ds : List (Int × RvDnsData × RvDecodeCtx)) (h : ∀ r ∈ ds, P r.1) :
    ∀ r ∈ ds.map (setRecordNumber n), P r.1 := by
  intro r hr
  obtain ⟨r0, hr0, rfl⟩ := List.mem_map.1 hr
  exact h r0 hr0

/-- The answer loop when every record decodes or is unsupported and the user callback
always returns `RV_OK`. -/
theorem loop_all_ok (E : Env) (cb : RvDnsNewRecordCB) (c qid : Nat) (q : Int)
    (hcb : ∀ t c q d, cb t c q d = RV_OK) (hde : E.isDestructed RV_OK = false) :
    ∀ (k : Nat) (st : CallbackLoop), st.continueCallbacks = true →
      st.status = RV_OK →
      (∀ r ∈ decodeAnswers E q k st.decodeCtx st.dnsData,
        r.1 = RV_OK ∨ r.1 = E.RV_DNS_ERROR_RTNOTSUPP) →
      (rvDnsCallback.loop E cb c qid q k st).status = RV_OK ∧
      callbacksOf (rvDnsCallback.loop E cb c qid q k st).trace =
        callbacksOf st.trace ++ numberFrom st.dnsData.recordNumber
          (matchingAnswers q (decodeAnswers E q k st.decodeCtx st.dnsData)) ∧
      (rvDnsCallback.loop E cb c qid q k st).dnsData.recordNumber =
        st.dnsData.recordNumber +
          (matchingAnswers q (decodeAnswers E q k st.decodeCtx st.dnsData)).length := by
  intro k
  induction k with
  | zero =>
    intro st _ hs _
    simp [rvDnsCallback.loop, hs, decodeAnswers, matchingAnswers, numberFrom]
  | succ k ih =>
    intro st hc hs hall
    have hrn := rvDnsDecode_keeps_recordNumber E q st.decodeCtx st.dnsData
    rw [decodeAnswers_succ] at hall
    have hr := hall _ (List.mem_cons_self _ _)
    have htl : ∀ r ∈ decodeAnswers E q k (rvDnsDecode E q st.decodeCtx st.dnsData).2.2
        (rvDnsDecode E q st.decodeCtx st.dnsData).2.1,
        r.1 = RV_OK ∨ r.1 = E.RV_DNS_ERROR_RTNOTSUPP :=
      fun r h => hall r (List.mem_cons_of_mem _ h)
    rw [loop_succ, decodeAnswers_succ]
    by_cases h1 : (rvDnsDecode E q st.decodeCtx st.dnsData).1 = RV_OK
    · by_cases h2 : (rvDnsDecode E q st.decodeCtx st.dnsData).2.1.dataType = q
      · obtain ⟨tr, s, b1, b2, -, b4, b5, b6, b7, hcbs, -, -⟩ :=
          body_match E cb c qid q st h1 h2 hc
        have hst := status_setRecordNumber (st.dnsData.recordNumber + 1)
          (fun x => x = RV_OK ∨ x = E.RV_DNS_ERROR_RTNOTSUPP) _ htl
        rw [hcb] at b5
        rw [b5, hde] at b4
        rw [← decodeAnswers_recordNumber] at hst
        have := ih (rvDnsCallback.body E cb c qid q st) (by rw [b4]; rfl) b5
          (by rw [b1, b2]; exact hst)
        rw [b1, b2, b7, decodeAnswers_recordNumber] at this
        obtain ⟨e1, e2, e3⟩ := this
        rw [b6]
        refine ⟨e1, ?_, ?_⟩
        · simp only [Bool.false_eq_true, if_false]
          rw [e2, callbacksOf_append, hcbs, numberFrom_matching_setRecordNumber]
          simp [matchingAnswers, h1, h2, numberFrom, callbacksOf]
        · simp only [Bool.false_eq_true, if_false]
          rw [e3, matching_setRecordNumber_length]
          simp [matchingAnswers, h1, h2]
          omega
      · obtain ⟨tr, s, b1, b2, -, b4, b5, b6, b7, hcbs, -, -⟩ :=
          body_nomatch E cb c qid q st h1 (fun h => h2 h.1)
        have := ih (rvDnsCallback.body E cb c qid q st) (by rw [b4]; exact hc) b5
          (by rw [b1, b2]; exact htl)
        rw [b1, b2, b7, hrn] at this
        obtain ⟨e1, e2, e3⟩ := this
        rw [b6]
        refine ⟨e1, ?_, ?_⟩
        · simp only [Bool.false_eq_true, if_false]
          rw [e2, hcbs]
          simp [matchingAnswers, h1, h2]
        · simp only [Bool.false_eq_true, if_false]
          rw [e3]
          simp [matchingAnswers, h1, h2]
    · have h2 := hr.resolve_left h1
      have hbody := body_notsupp E cb c qid q st h1 h2
      rw [hbody]
      have := ih { st with decodeCtx := (rvDnsDecode E q st.decodeCtx st.dnsData).2.2
                           dnsData := (rvDnsDecode E q st.decodeCtx st.dnsData).2.1
                           status := RV_OK
                           broke := false } hc rfl htl
      simp only [hrn] at this
      obtain ⟨e1, e2, e3⟩ := this
      simp only [Bool.false_eq_true, if_false]
      refine ⟨e1, ?_, ?_⟩
      · rw [e2]
        simp [matchingAnswers, h1]
      · rw [e3]
        simp [matchingAnswers, h1]

/-- The function `rvDnsCallback` on a response with success status whose question section
decodes: the answer loop followed by the code after it. -/
theorem rvDnsCallback_success (E : Env) (dnsEngine : RvDnsEngine)
    (newRecordCB : Option RvDnsNewRecordCB) (context queryId : Nat) (queryResults : List Nat)
    (alen : Nat) (queryName0 : Name) (tls : Option Int) (trace : List Event)
    (ctx : RvDecodeCtx) (queryType : Int) (queryName : Name)
    (hq : rvDnsSkipQuestions E (headerCtx queryResults alen) 0 queryName0
      (RV_DNS_MAX_NAME_LEN + 1) = some (ctx, queryType, queryName)) :
    rvDnsCallback E dnsEngine newRecordCB context ARES_SUCCESS queryId queryResults alen
        queryName0 tls trace =
      { trace := rvDnsCallback.finish E (userCallback dnsEngine newRecordCB) context queryId
          queryType queryName
          (rvDnsCallback.loop E (userCallback dnsEngine newRecordCB) context queryId queryType
            (DNS_HEADER_ANCOUNT queryResults) (rvDnsCallback.init ctx trace)),
        tls := tls } := by
  unfold headerCtx at hq
  unfold rvDnsCallback
  simp only [ne_eq, not_true_eq_false, if_false]
  rw [hq]
  rfl

theorem matchingAnswers_dataType (q : Int) (ds : List (Int × RvDnsData × RvDecodeCtx)) :
    ∀ (n : Nat), ∀ d ∈ numberFrom n (matchingAnswers q ds), d.dataType = q := by
  induction ds with
  | nil => intro n d hd; simp [matchingAnswers, numberFrom] at hd
  | cons r ds ih =>
    intro n d hd
    unfold matchingAnswers at hd ih
    by_cases hr : r.1 = RV_OK ∧ r.2.1.dataType = q
    · simp only [List.filter_cons, hr, and_self, decide_True, if_true, List.map_cons,
        numberFrom, List.mem_cons] at hd
      rcases hd with hd | hd
      · rw [hd]
      · exact ih (n + 1) d hd
    · simp only [List.filter_cons, hr, decide_False, Bool.false_eq_true, if_false] at hd
      exact ih n d hd

/-- C1: a response with success status whose question section decodes, whose answer records
each decode or are of an unsupported type, with a user callback that always returns `RV_OK`
and at least one answer record of the question's type: the records handed to the callback
are exactly the answer records of the question's type, in answer-section order, numbered
1, 2, ... and carrying the decoded owner, TTL and data, followed by one record of type
END_OF_LIST and nothing else. -/
theorem rvDnsCallback_delivers_answers_then_end_of_list (E : Env) (dnsEngine : RvDnsEngine)
    (newRecordCB : Option RvDnsNewRecordCB) (context queryId : Nat) (queryResults : List Nat)
    (alen : Nat) (queryName0 : Name) (tls : Option Int) (trace : List Event)
    (ctx : RvDecodeCtx) (queryType : Int) (queryName : Name)
    (hq : rvDnsSkipQuestions E (headerCtx queryResults alen) 0 queryName0
      (RV_DNS_MAX_NAME_LEN + 1) = some (ctx, queryType, queryName))
    (hdec : ∀ r ∈ decodeAnswers E queryType (DNS_HEADER_ANCOUNT queryResults) ctx zeroDnsData,
      r.1 = RV_OK ∨ r.1 = E.RV_DNS_ERROR_RTNOTSUPP)
    (hcb : ∀ t c q d, userCallback dnsEngine newRecordCB t c q d = RV_OK)
    (hde : E.isDestructed RV_OK = false)
    (hk : 1 ≤ (matchingAnswers queryType
      (decodeAnswers E queryType (DNS_HEADER_ANCOUNT queryResults) ctx zeroDnsData)).length) :
    ∃ e : RvDnsData,
      callbacksOf (rvDnsCallback E dnsEngine newRecordCB context ARES_SUCCESS queryId
          queryResults alen queryName0 tls trace).trace =
        callbacksOf trace ++
          numberFrom 0 (matchingAnswers queryType
            (decodeAnswers E queryType (DNS_HEADER_ANCOUNT queryResults) ctx zeroDnsData)) ++
          [e] ∧
      e.dataType = E.RV_DNS_ENDOFLIST_TYPE ∧
      e.recordNumber = (matchingAnswers queryType
        (decodeAnswers E queryType (DNS_HEADER_ANCOUNT queryResults) ctx zeroDnsData)).length ∧
      ∀ d ∈ numberFrom 0 (matchingAnswers queryType
          (decodeAnswers E queryType (DNS_HEADER_ANCOUNT queryResults) ctx zeroDnsData)),
        d.dataType = queryType := by
  rw [rvDnsCallback_success E dnsEngine newRecordCB context queryId queryResults alen
    queryName0 tls trace ctx queryType queryName hq]
  obtain ⟨e1, e2, e3⟩ := loop_all_ok E (userCallback dnsEngine newRecordCB) context queryId
    queryType hcb hde (DNS_HEADER_ANCOUNT queryResults) (rvDnsCallback.init ctx trace) rfl rfl
    hdec
  have hinit : callbacksOf (rvDnsCallback.init ctx trace).trace = callbacksOf trace := by
    simp [rvDnsCallback.init, callbacksOf_append, callbacksOf]
  have hrn0 : (rvDnsCallback.init ctx trace).dnsData = zeroDnsData := rfl
  have hctx0 : (rvDnsCallback.init ctx trace).decodeCtx = ctx := rfl
  have hz : zeroDnsData.recordNumber = 0 := rfl
  rw [hinit, hrn0, hctx0, hz] at e2
  rw [hrn0, hctx0, hz, Nat.zero_add] at e3
  have hne : (rvDnsCallback.loop E (userCallback dnsEngine newRecordCB) context queryId
      queryType (DNS_HEADER_ANCOUNT queryResults)
      (rvDnsCallback.init ctx trace)).dnsData.recordNumber ≠ 0 := by
    rw [e3]; omega
  refine ⟨{ (rvDnsCallback.loop E (userCallback dnsEngine newRecordCB) context queryId
      queryType (DNS_HEADER_ANCOUNT queryResults) (rvDnsCallback.init ctx trace)).dnsData with
      dataType := E.RV_DNS_ENDOFLIST_TYPE }, ?_, rfl, ?_, matchingAnswers_dataType _ _ 0⟩
  · simp only [rvDnsCallback.finish, e1, if_true, if_neg hne, callbacksOf_append, callbacksOf,
      e2, List.append_nil]
  · exact e3

/-- C1 (witness): the response with one A record 192.0.2.7, TTL 60, gives one record
callback with record number 1, then END_OF_LIST. -/
theorem rvDnsCallback_delivers_answers_then_end_of_list_witness :
    (∃ e : RvDnsData,
      callbacksOf (rvDnsCallback (sampleEnv cacheOk) ⟨cbOk⟩ none 9 ARES_SUCCESS 42 msgOneA
          msgOneA.length [] none []).trace =
        callbacksOf [] ++
          numberFrom 0 (matchingAnswers 1
            (decodeAnswers (sampleEnv cacheOk) 1 (DNS_HEADER_ANCOUNT msgOneA)
              { headerCtx msgOneA msgOneA.length with msgCur := 22 } zeroDnsData)) ++ [e] ∧
      e.dataType = (sampleEnv cacheOk).RV_DNS_ENDOFLIST_TYPE ∧
      e.recordNumber = (matchingAnswers 1
        (decodeAnswers (sampleEnv cacheOk) 1 (DNS_HEADER_ANCOUNT msgOneA)
          { headerCtx msgOneA msgOneA.length with msgCur := 22 } zeroDnsData)).length ∧
      ∀ d ∈ numberFrom 0 (matchingAnswers 1
          (decodeAnswers (sampleEnv cacheOk) 1 (DNS_HEADER_ANCOUNT msgOneA)
            { headerCtx msgOneA msgOneA.length with msgCur := 22 } zeroDnsData)),
        d.dataType = 1) ∧
    callbacksOf (rvDnsCallback (sampleEnv cacheOk) ⟨cbOk⟩ none 9 ARES_SUCCESS 42 msgOneA
        msgOneA.length [] none []).trace =
      [⟨1, 1, 1, [104, 46, 101, 120], 60, .hostAddressIpv4 [192, 0, 2, 7]⟩,
       ⟨37, 1, 1, [104, 46, 101, 120], 60, .hostAddressIpv4 [192, 0, 2, 7]⟩] :=
  ⟨rvDnsCallback_delivers_answers_then_end_of_list (sampleEnv cacheOk) ⟨cbOk⟩ none 9 42
      msgOneA msgOneA.length [] none []
      { headerCtx msgOneA msgOneA.length with msgCur := 22 } 1 [104, 46, 101, 120]
      (by decide) (by decide) (fun _ _ _ _ => rfl) (by decide) (by decide),
    by decide⟩

/-- C2 (code evaluated at the failing input): for the response with one A record and a user
callback that returns the error -1, the record is delivered and no terminating callback
follows; for a response whose question section does not decode no callback is made at
all. -/
theorem rvDnsCallback_terminator_missing :
    callbacksOf (rvDnsCallback (sampleEnv cacheOk) ⟨cbConst (-1)⟩ none 9 ARES_SUCCESS 42
        msgOneA msgOneA.length [] none []).trace = [recA7] ∧
    isTerminator (sampleEnv cacheOk) recA7 = false ∧
    (rvDnsCallback (sampleEnv cacheOk) ⟨cbOk⟩ none 9 ARES_SUCCESS 42
        msgNoQuestion msgNoQuestion.length [] none []).trace = [] := by
  decide

/-- C3 (code evaluated at the failing input): when the callback returns the destructed
signal for the last answer record, no terminating callback follows; when it returns it for
the first of two records, END_OF_LIST is still delivered. -/
theorem rvDnsCallback_destructed_on_last_record :
    callbacksOf (rvDnsCallback (sampleEnv cacheOk) ⟨cbConst (-6)⟩ none 9 ARES_SUCCESS 42
        msgOneA msgOneA.length [] none []).trace = [recA7] ∧
    isTerminator (sampleEnv cacheOk) recA7 = false ∧
    (sampleEnv cacheOk).isDestructed (-6) = true ∧
    callbacksOf (rvDnsCallback (sampleEnv cacheOk) ⟨cbConst (-6)⟩ none 9 ARES_SUCCESS 42
        msgTwoA msgTwoA.length [] none []).trace =
      [recA7, ⟨37, 1, 1, [104, 46, 101, 120], 60, .hostAddressIpv4 [192, 0, 2, 8]⟩] := by
  decide

/-- The answer loop when every record decodes to another type than the question's or is
unsupported: no callback, only cache writes, the record number stays as it was. -/
theorem loop_no_match (E : Env) (cb : RvDnsNewRecordCB) (c qid : Nat) (q : Int) :
    ∀ (k : Nat) (st : CallbackLoop), st.status = RV_OK →
      (∀ r ∈ decodeAnswers E q k st.decodeCtx st.dnsData,
        (r.1 = RV_OK ∨ r.1 = E.RV_DNS_ERROR_RTNOTSUPP) ∧
          ¬ (r.1 = RV_OK ∧ r.2.1.dataType = q)) →
      (rvDnsCallback.loop E cb c qid q k st).status = RV_OK ∧
      (rvDnsCallback.loop E cb c qid q k st).dnsData.recordNumber = st.dnsData.recordNumber ∧
      (rvDnsCallback.loop E cb c qid q k st).decodeCtx =
        ctxAfter st.decodeCtx (decodeAnswers E q k st.decodeCtx st.dnsData) ∧
      ∃ pre, (rvDnsCallback.loop E cb c qid q k st).trace = st.trace ++ pre ∧
        callbacksOf pre = [] := by
  intro k
  induction k with
  | zero =>
    intro st hs _
    exact ⟨hs, rfl, rfl, [], by simp [rvDnsCallback.loop], rfl⟩
  | succ k ih =>
    intro st hs hall
    have hrn := rvDnsDecode_keeps_recordNumber E q st.decodeCtx st.dnsData
    rw [decodeAnswers_succ] at hall
    have hr := hall _ (List.mem_cons_self _ _)
    have htl : ∀ r ∈ decodeAnswers E q k (rvDnsDecode E q st.decodeCtx st.dnsData).2.2
        (rvDnsDecode E q st.decodeCtx st.dnsData).2.1,
        (r.1 = RV_OK ∨ r.1 = E.RV_DNS_ERROR_RTNOTSUPP) ∧
          ¬ (r.1 = RV_OK ∧ r.2.1.dataType = q) :=
      fun r h => hall r (List.mem_cons_of_mem _ h)
    rw [loop_succ, decodeAnswers_succ]
    by_cases h1 : (rvDnsDecode E q st.decodeCtx st.dnsData).1 = RV_OK
    · have h2 : ¬ (rvDnsDecode E q st.decodeCtx st.dnsData).2.1.dataType = q :=
        fun h => hr.2 ⟨h1, h⟩
      obtain ⟨tr, s, b1, b2, -, -, b5, b6, b7, hcbs, p2, p3⟩ :=
        body_nomatch E cb c qid q st h1 (fun h => h2 h.1)
      have hpre : ∃ pre, tr = st.trace ++ pre ∧ callbacksOf pre = [] := by
        cases hcc : st.continueCaching
        · exact ⟨[], by rw [(p2 hcc).1, List.append_nil], rfl⟩
        · exact ⟨_, (p3 hcc).1, rfl⟩
      obtain ⟨pre1, hp1, hp2⟩ := hpre
      have := ih (rvDnsCallback.body E cb c qid q st) b5 (by rw [b1, b2]; exact htl)
      rw [b1, b2, b7, hrn] at this
      obtain ⟨e1, e2, e3, pre2, e4, e5⟩ := this
      rw [b6]
      simp only [Bool.false_eq_true, if_false]
      refine ⟨e1, e2, ?_, pre1 ++ pre2, ?_, ?_⟩
      · rw [e3]; rfl
      · rw [e4, hp1, List.append_assoc]
      · rw [callbacksOf_append, hp2, e5]; rfl
    · have h2 := hr.1.resolve_left h1
      have hbody := body_notsupp E cb c qid q st h1 h2
      rw [hbody]
      have := ih { st with decodeCtx := (rvDnsDecode E q st.decodeCtx st.dnsData).2.2
                           dnsData := (rvDnsDecode E q st.decodeCtx st.dnsData).2.1
                           status := RV_OK
                           broke := false } rfl htl
      simp only [hrn] at this
      obtain ⟨e1, e2, e3, pre2, e4, e5⟩ := this
      simp only [Bool.false_eq_true, if_false]
      exact ⟨e1, e2, by rw [e3]; rfl, pre2, e4, e5⟩

/-- The code after the answer loop when no record was delivered and the last status is
`RV_OK`: the NODATA record is written to the cache and handed to the callback. -/
theorem finish_nodata (E : Env) (cb : RvDnsNewRecordCB) (c qid : Nat) (q : Int) (qn : Name)
    (st : CallbackLoop) (h1 : st.status = RV_OK) (h2 : st.dnsData.recordNumber = 0) :
    ∃ (nd : RvDnsData) (s ret : Int),
      rvDnsCallback.finish E cb c qid q qn st =
        st.trace ++ [Event.cacheRecord nd s, Event.callback c qid nd ret,
          Event.finishCaching] ∧
      nd.dataType = E.RV_DNS_STATUS_TYPE ∧
      nd.data = RvDnsDataUnion.status E.ARES_ENODATA ∧
      nd.ttl = (rvDnsFindNxdomainTTL E st.decodeCtx).1 ∧
      nd.queryType = q ∧
      nd.ownerName = (RvCnameChainFindNxdomain.name st.decodeCtx.chain).getD qn := by
  obtain ⟨nd, hnd⟩ : ∃ nd : RvDnsData, nd = { st.dnsData with
        ttl := (rvDnsFindNxdomainTTL E st.decodeCtx).1
        dataType := E.RV_DNS_STATUS_TYPE
        data := .status E.ARES_ENODATA
        queryType := q
        ownerName := match RvCnameChainFindNxdomain.name st.decodeCtx.chain with
          | some n => n
          | none => qn } := ⟨_, rfl⟩
  refine ⟨nd, E.RvAresCacheCltRecord st.trace nd,
    cb (st.trace ++ [Event.cacheRecord nd (E.RvAresCacheCltRecord st.trace nd)]) c qid nd,
    ?_, ?_, ?_, ?_, ?_, ?_⟩
  · simp only [rvDnsCallback.finish, h1, if_true, h2, List.append_assoc,
      List.singleton_append, List.cons_append, List.nil_append, hnd]
  · rw [hnd]
  · rw [hnd]
  · rw [hnd]
  · rw [hnd]
  · rw [hnd]
    cases RvCnameChainFindNxdomain.name st.decodeCtx.chain <;> rfl

/-- C4: a response with success status whose question section decodes and whose answer
records all decode or are unsupported, none of them having the question's type: after the
cache writes for the answer records, `rvDnsCallback` writes one status-only record to the
cache and then hands the same record to the callback, which is the only callback; the
record has status NODATA, the TTL that `rvDnsFindNxdomainTTL` computes behind the answer
section, the question's type as query type, and as owner the name found by
`RvCnameChainFindNxdomain` if there is one and the question name otherwise. -/
theorem rvDnsCallback_nodata (E : Env) (dnsEngine : RvDnsEngine)
    (newRecordCB : Option RvDnsNewRecordCB) (context queryId : Nat) (queryResults : List Nat)
    (alen : Nat) (queryName0 : Name) (tls : Option Int) (trace : List Event)
    (ctx : RvDecodeCtx) (queryType : Int) (queryName : Name)
    (hq : rvDnsSkipQuestions E (headerCtx queryResults alen) 0 queryName0
      (RV_DNS_MAX_NAME_LEN + 1) = some (ctx, queryType, queryName))
    (hdec : ∀ r ∈ decodeAnswers E queryType (DNS_HEADER_ANCOUNT queryResults) ctx zeroDnsData,
      (r.1 = RV_OK ∨ r.1 = E.RV_DNS_ERROR_RTNOTSUPP) ∧
        ¬ (r.1 = RV_OK ∧ r.2.1.dataType = queryType)) :
    ∃ (pre : List Event) (nd : RvDnsData) (s ret : Int),
      (rvDnsCallback E dnsEngine newRecordCB context ARES_SUCCESS queryId queryResults alen
          queryName0 tls trace).trace =
        trace ++ [Event.startCaching] ++ pre ++
          [Event.cacheRecord nd s, Event.callback context queryId nd ret,
           Event.finishCaching] ∧
      callbacksOf pre = [] ∧
      nd.dataType = E.RV_DNS_STATUS_TYPE ∧
      nd.data = RvDnsDataUnion.status E.ARES_ENODATA ∧
      nd.ttl = (rvDnsFindNxdomainTTL E (ctxAfter ctx
        (decodeAnswers E queryType (DNS_HEADER_ANCOUNT queryResults) ctx zeroDnsData))).1 ∧
      nd.queryType = queryType ∧
      nd.ownerName = (RvCnameChainFindNxdomain.name (ctxAfter ctx
        (decodeAnswers E queryType (DNS_HEADER_ANCOUNT queryResults) ctx
          zeroDnsData)).chain).getD queryName := by
  rw [rvDnsCallback_success E dnsEngine newRecordCB context queryId queryResults alen
    queryName0 tls trace ctx queryType queryName hq]
  obtain ⟨e1, e2, e3, pre, e4, e5⟩ := loop_no_match E (userCallback dnsEngine newRecordCB)
    context queryId queryType (DNS_HEADER_ANCOUNT queryResults) (rvDnsCallback.init ctx trace)
    rfl hdec
  have hrn0 : (rvDnsCallback.init ctx trace).dnsData.recordNumber = 0 := rfl
  have hctx0 : (rvDnsCallback.init ctx trace).decodeCtx = ctx := rfl
  have hd0 : (rvDnsCallback.init ctx trace).dnsData = zeroDnsData := rfl
  have htr0 : (rvDnsCallback.init ctx trace).trace = trace ++ [Event.startCaching] := rfl
  rw [hrn0] at e2
  rw [hctx0, hd0] at e3
  rw [htr0] at e4
  generalize rvDnsCallback.loop E (userCallback dnsEngine newRecordCB) context queryId
    queryType (DNS_HEADER_ANCOUNT queryResults) (rvDnsCallback.init ctx trace) = st
    at e1 e2 e3 e4 ⊢
  obtain ⟨nd, s, ret, f1, f2, f3, f4, f5, f6⟩ := finish_nodata E
    (userCallback dnsEngine newRecordCB) context queryId queryType queryName st e1 e2
  refine ⟨pre, nd, s, ret, ?_, e5, f2, f3, ?_, f5, ?_⟩
  · simp only [f1, e4, List.append_assoc]
  · rw [f4, e3]
  · rw [f6, e3]

/-- C4 (witness): the response `h.ex CNAME b` to the question `h.ex A`. -/
theorem rvDnsCallback_nodata_witness :
    ∃ (pre : List Event) (nd : RvDnsData) (s ret : Int),
      (rvDnsCallback (sampleEnv cacheOk) ⟨cbOk⟩ none 9 ARES_SUCCESS 42 msgOneCname
          msgOneCname.length [] none []).trace =
        [] ++ [Event.startCaching] ++ pre ++
          [Event.cacheRecord nd s, Event.callback 9 42 nd ret, Event.finishCaching] ∧
      callbacksOf pre = [] ∧
      nd.dataType = (sampleEnv cacheOk).RV_DNS_STATUS_TYPE ∧
      nd.data = RvDnsDataUnion.status (sampleEnv cacheOk).ARES_ENODATA ∧
      nd.ttl = (rvDnsFindNxdomainTTL (sampleEnv cacheOk) (ctxAfter
        { headerCtx msgOneCname msgOneCname.length with msgCur := 22 }
        (decodeAnswers (sampleEnv cacheOk) 1 (DNS_HEADER_ANCOUNT msgOneCname)
          { headerCtx msgOneCname msgOneCname.length with msgCur := 22 } zeroDnsData))).1 ∧
      nd.queryType = 1 ∧
      nd.ownerName = (RvCnameChainFindNxdomain.name (ctxAfter
        { headerCtx msgOneCname msgOneCname.length with msgCur := 22 }
        (decodeAnswers (sampleEnv cacheOk) 1 (DNS_HEADER_ANCOUNT msgOneCname)
          { headerCtx msgOneCname msgOneCname.length with msgCur := 22 }
          zeroDnsData)).chain).getD [104, 46, 101, 120] :=
  rvDnsCallback_nodata (sampleEnv cacheOk) ⟨cbOk⟩ none 9 42 msgOneCname msgOneCname.length
    [] none [] { headerCtx msgOneCname msgOneCname.length with msgCur := 22 } 1
    [104, 46, 101, 120] (by decide) (by decide)

/-- Running the answer loop for `i + m` iterations is running it for `i` iterations and,
unless it was left through `break`, for `m` more. -/
theorem loop_add (E : Env) (cb : RvDnsNewRecordCB) (c qid : Nat) (q : Int) (m : Nat) :
    ∀ (i : Nat) (st : CallbackLoop), st.broke = false →
      rvDnsCallback.loop E cb c qid q (i + m) st =
        if (rvDnsCallback.loop E cb c qid q i st).broke then rvDnsCallback.loop E cb c qid q i st
        else rvDnsCallback.loop E cb c qid q m (rvDnsCallback.loop E cb c qid q i st) := by
  intro i
  induction i with
  | zero =>
    intro st hb
    simp [rvDnsCallback.loop, hb]
  | succ i ih =>
    intro st _
    rw [Nat.add_right_comm, loop_succ, loop_succ]
    by_cases hb : (rvDnsCallback.body E cb c qid q st).broke = true
    · simp [hb]
    · simp only [hb, if_false]
      exact ih _ (by simpa using hb)

/-- The code after the answer loop when the last status is not `RV_OK`. -/
theorem finish_error (E : Env) (cb : RvDnsNewRecordCB) (c qid : Nat) (q : Int) (qn : Name)
    (st : CallbackLoop) (h1 : st.status ≠ RV_OK) :
    rvDnsCallback.finish E cb c qid q qn st = st.trace ++ [Event.finishCaching] := by
  simp only [rvDnsCallback.finish, if_neg h1]

/-- C5: a response with success status whose question section decodes, in which the answer
loop reaches record `i` and decoding that record fails with an error `s` other than
'record type not supported': the loop stops with that iteration (no later answer record is
processed), and the events that follow the ones of the earlier records are one callback with
a status-only record carrying `s` and the end of caching: no END_OF_LIST, no other
callback. -/
theorem rvDnsCallback_decode_error (E : Env) (dnsEngine : RvDnsEngine)
    (newRecordCB : Option RvDnsNewRecordCB) (context queryId : Nat) (queryResults : List Nat)
    (alen : Nat) (queryName0 : Name) (tls : Option Int) (trace : List Event)
    (ctx : RvDecodeCtx) (queryType : Int) (queryName : Name) (i : Nat) (s : Int)
    (hq : rvDnsSkipQuestions E (headerCtx queryResults alen) 0 queryName0
      (RV_DNS_MAX_NAME_LEN + 1) = some (ctx, queryType, queryName))
    (hi : i < DNS_HEADER_ANCOUNT queryResults)
    (hreach : (rvDnsCallback.loop E (userCallback dnsEngine newRecordCB) context queryId
      queryType i (rvDnsCallback.init ctx trace)).broke = false)
    (hs : (rvDnsDecode E queryType
      (rvDnsCallback.loop E (userCallback dnsEngine newRecordCB) context queryId
        queryType i (rvDnsCallback.init ctx trace)).decodeCtx
      (rvDnsCallback.loop E (userCallback dnsEngine newRecordCB) context queryId
        queryType i (rvDnsCallback.init ctx trace)).dnsData).1 = s)
    (hs0 : s ≠ RV_OK) (hs1 : s ≠ E.RV_DNS_ERROR_RTNOTSUPP) :
    rvDnsCallback.loop E (userCallback dnsEngine newRecordCB) context queryId queryType
        (DNS_HEADER_ANCOUNT queryResults) (rvDnsCallback.init ctx trace) =
      rvDnsCallback.body E (userCallback dnsEngine newRecordCB) context queryId queryType
        (rvDnsCallback.loop E (userCallback dnsEngine newRecordCB) context queryId
          queryType i (rvDnsCallback.init ctx trace)) ∧
    ∃ (d : RvDnsData) (ret : Int),
      (rvDnsCallback E dnsEngine newRecordCB context ARES_SUCCESS queryId queryResults alen
          queryName0 tls trace).trace =
        (rvDnsCallback.loop E (userCallback dnsEngine newRecordCB) context queryId
          queryType i (rvDnsCallback.init ctx trace)).trace ++
          [Event.callback context queryId d ret, Event.finishCaching] ∧
      d.dataType = E.RV_DNS_STATUS_TYPE ∧
      d.data = RvDnsDataUnion.status s := by
  rw [rvDnsCallback_success E dnsEngine newRecordCB context queryId queryResults alen
    queryName0 tls trace ctx queryType queryName hq]
  obtain ⟨m, hm⟩ : ∃ m, DNS_HEADER_ANCOUNT queryResults = i + (m + 1) :=
    ⟨DNS_HEADER_ANCOUNT queryResults - i - 1, by omega⟩
  rw [hm, loop_add E _ context queryId queryType (m + 1) i _ rfl, hreach]
  simp only [Bool.false_eq_true, if_false]
  generalize rvDnsCallback.loop E (userCallback dnsEngine newRecordCB) context queryId
    queryType i (rvDnsCallback.init ctx trace) = st at hs ⊢
  have h1 : (rvDnsDecode E queryType st.decodeCtx st.dnsData).1 ≠ RV_OK := by rw [hs]; exact hs0
  have h2 : (rvDnsDecode E queryType st.decodeCtx st.dnsData).1 ≠ E.RV_DNS_ERROR_RTNOTSUPP := by
    rw [hs]; exact hs1
  have hbody := body_error E (userCallback dnsEngine newRecordCB) context queryId queryType st
    h1 h2
  have hloop : rvDnsCallback.loop E (userCallback dnsEngine newRecordCB) context queryId
      queryType (m + 1) st =
      rvDnsCallback.body E (userCallback dnsEngine newRecordCB) context queryId queryType st := by
    rw [loop_succ, hbody]
    rfl
  obtain ⟨d1, d2⟩ := rvDnsDecode_error E queryType st.decodeCtx st.dnsData h1
  rw [hloop]
  refine ⟨rfl, (rvDnsDecode E queryType st.decodeCtx st.dnsData).2.1,
    userCallback dnsEngine newRecordCB st.trace context queryId
      (rvDnsDecode E queryType st.decodeCtx st.dnsData).2.1, ?_, d1, by rw [d2, hs]⟩
  rw [finish_error _ _ _ _ _ _ _ (by rw [hbody]; exact h1), hbody]
  simp only [List.append_assoc, List.singleton_append]

/-- C5 (witness): an A record followed by an SRV record in the answer to an A question; the
second record is rejected with 'unexpected record type'. -/
theorem rvDnsCallback_decode_error_witness :
    rvDnsCallback.loop (sampleEnv cacheOk) (userCallback ⟨cbOk⟩ none) 9 42 1
        (DNS_HEADER_ANCOUNT msgAThenSrv)
        (rvDnsCallback.init { headerCtx msgAThenSrv msgAThenSrv.length with msgCur := 22 } []) =
      rvDnsCallback.body (sampleEnv cacheOk) (userCallback ⟨cbOk⟩ none) 9 42 1
        (rvDnsCallback.loop (sampleEnv cacheOk) (userCallback ⟨cbOk⟩ none) 9 42 1 1
          (rvDnsCallback.init
            { headerCtx msgAThenSrv msgAThenSrv.length with msgCur := 22 } [])) ∧
    ∃ (d : RvDnsData) (ret : Int),
      (rvDnsCallback (sampleEnv cacheOk) ⟨cbOk⟩ none 9 ARES_SUCCESS 42 msgAThenSrv
          msgAThenSrv.length [] none []).trace =
        (rvDnsCallback.loop (sampleEnv cacheOk) (userCallback ⟨cbOk⟩ none) 9 42 1 1
          (rvDnsCallback.init
            { headerCtx msgAThenSrv msgAThenSrv.length with msgCur := 22 } [])).trace ++
          [Event.callback 9 42 d ret, Event.finishCaching] ∧
      d.dataType = (sampleEnv cacheOk).RV_DNS_STATUS_TYPE ∧
      d.data = RvDnsDataUnion.status (-9) :=
  rvDnsCallback_decode_error (sampleEnv cacheOk) ⟨cbOk⟩ none 9 42 msgAThenSrv
    msgAThenSrv.length [] none []
    { headerCtx msgAThenSrv msgAThenSrv.length with msgCur := 22 } 1 [104, 46, 101, 120] 1 (-9)
    (by decide) (by decide) (by decide) (by decide) (by decide) (by decide)

/-- C6 (code evaluated at the failing input): with a callback that returns the destructed
signal, the answer section "A record, TXT record" ends with END_OF_LIST, while the same
answer section without the unsupported TXT record ends without any terminator. -/
theorem rvDnsCallback_unsupported_changes_terminator :
    callbacksOf (rvDnsCallback (sampleEnv cacheOk) ⟨cbConst (-6)⟩ none 9 ARES_SUCCESS 42
        msgAThenTxt msgAThenTxt.length [] none []).trace =
      [recA7, ⟨37, 1, 1, [104, 46, 101, 120], 60, .status (-7)⟩] ∧
    callbacksOf (rvDnsCallback (sampleEnv cacheOk) ⟨cbConst (-6)⟩ none 9 ARES_SUCCESS 42
        msgOneA msgOneA.length [] none []).trace = [recA7] ∧
    cacheWritesOf (rvDnsCallback (sampleEnv cacheOk) ⟨cbConst (-6)⟩ none 9 ARES_SUCCESS 42
        msgAThenTxt msgAThenTxt.length [] none []).trace =
      cacheWritesOf (rvDnsCallback (sampleEnv cacheOk) ⟨cbConst (-6)⟩ none 9 ARES_SUCCESS 42
        msgOneA msgOneA.length [] none []).trace := by
  decide

/-- C7 (code evaluated at the failing input): the response `h.ex CNAME b` with a cache that
rejects every record; after the failed write of the CNAME record the NODATA record is
handed to the cache all the same. -/
theorem rvDnsCallback_nodata_written_after_cache_failure :
    (rvDnsCallback (sampleEnv cacheFull) ⟨cbOk⟩ none 9 ARES_SUCCESS 42 msgOneCname
        msgOneCname.length [] none []).trace =
      [Event.startCaching,
       Event.cacheRecord ⟨5, 1, 0, [104, 46, 101, 120], 60, .dnsCnameData [98]⟩ (-2),
       Event.cacheRecord ⟨36, 1, 0, [98], 0, .status 1⟩ (-2),
       Event.callback 9 42 ⟨36, 1, 0, [98], 0, .status 1⟩ 0,
       Event.finishCaching] := by
  decide

theorem readBytes_getD (m : List Nat) :
    ∀ (n p : Nat) (l : List Nat), readBytes m p n = l →
      ∀ k, k < n → byteAt l k = byteAt m (p + k) := by
  intro n
  induction n with
  | zero => intro p l _ k hk; omega
  | succ n ih =>
    intro p l h k hk
    simp only [readBytes] at h
    subst h
    cases k with
    | zero => simp [byteAt]
    | succ k =>
      have := ih (p + 1) _ rfl k (by omega)
      simp only [byteAt, List.getD_cons_succ] at this ⊢
      rw [this]
      congr 1
      omega

theorem DNS__32BIT_readBytes (m : List Nat) (p n : Nat) (l : List Nat)
    (h : readBytes m p n = l) (k : Nat) (hk : k + 4 ≤ n) :
    DNS__32BIT l k = DNS__32BIT m (p + k) := by
  have e := readBytes_getD m n p l h
  simp only [DNS__32BIT]
  rw [e k (by omega), e (k + 1) (by omega), e (k + 2) (by omega), e (k + 3) (by omega)]
  rfl

theorem specNegativeTTL_cons_soa (r : AuthRecord) (rest : List AuthRecord)
    (h : r.type = T_SOA ∧ r.cls = C_IN) :
    specNegativeTTL (r :: rest) = min r.ttl (DNS__32BIT r.rdata (r.rdata.length - 4)) := by
  simp [specNegativeTTL, List.find?, h]

theorem specNegativeTTL_cons_other (r : AuthRecord) (rest : List AuthRecord)
    (h : ¬ (r.type = T_SOA ∧ r.cls = C_IN)) :
    specNegativeTTL (r :: rest) = specNegativeTTL rest := by
  simp [specNegativeTTL, List.find?, h]

/-- The loop of `rvDnsFindNxdomainTTL` on an authority section that lies within the
message. -/
theorem rvDnsFindNxdomainTTL_loop_spec (E : Env) (msg : List Nat) (msgLen : Nat) :
    ∀ (recs : List AuthRecord) (cur : Nat), authLayout E msg msgLen cur recs = true →
      (∀ r ∈ recs, r.type = T_SOA → r.cls = C_IN → 4 ≤ r.rdata.length) →
      ∃ cur', rvDnsFindNxdomainTTL.loop E msg msgLen recs.length cur =
        some (specNegativeTTL recs, cur') := by
  intro recs
  induction recs with
  | nil =>
    intro cur _ _
    exact ⟨cur, rfl⟩
  | cons r rest ih =>
    intro cur hlay hsoa
    simp only [authLayout, Bool.and_eq_true, decide_eq_true_eq] at hlay
    obtain ⟨⟨⟨⟨⟨⟨⟨h1, h2⟩, h3⟩, h4⟩, h5⟩, h6⟩, h7⟩, h8⟩ := hlay
    have hneg : ¬ ((r.nameLen : Int) < 0) := by omega
    have hle : ¬ (cur + r.nameLen + 10 > msgLen) := by omega
    simp only [List.length_cons, rvDnsFindNxdomainTTL.loop, h1, hneg, if_false,
      Int.toNat_ofNat, hle, h2, h3, h4, h5]
    by_cases hs : r.type = T_SOA ∧ r.cls = C_IN
    · have h4le := hsoa r (List.mem_cons_self _ _) hs.1 hs.2
      have hle2 : ¬ (cur + r.nameLen + (10 + r.rdata.length) > msgLen) := by omega
      rw [if_pos hs, if_neg hle2, specNegativeTTL_cons_soa r rest hs]
      refine ⟨cur + r.nameLen + (10 + r.rdata.length) - 4, ?_⟩
      have e := DNS__32BIT_readBytes msg (cur + r.nameLen + 10) r.rdata.length r.rdata h6
        (r.rdata.length - 4) (by omega)
      have e2 : cur + r.nameLen + 10 + (r.rdata.length - 4) =
          cur + r.nameLen + (10 + r.rdata.length) - 4 := by omega
      rw [e, e2]
    · rw [if_neg hs, specNegativeTTL_cons_other r rest hs]
      have e3 : cur + r.nameLen + (r.rdata.length + 10) = cur + r.nameLen + 10 + r.rdata.length := by
        omega
      rw [e3]
      exact ih _ h8 (fun x hx => hsoa x (List.mem_cons_of_mem _ hx))

/-- C8: for a response whose NSCOUNT authority records lie within the message from the
cursor on, `rvDnsFindNxdomainTTL` returns the spec's negative TTL: `min(record TTL,
MINIMUM)` of the first authority record of type SOA and class IN, MINIMUM being the last
four RDATA octets read big-endian, and `0` when there is no such record. -/
theorem rvDnsFindNxdomainTTL_spec (E : Env) (ctx : RvDecodeCtx) (recs : List AuthRecord)
    (hns : DNS_HEADER_NSCOUNT ctx.msgBody = recs.length)
    (hlay : authLayout E ctx.msgBody ctx.msgLen ctx.msgCur recs = true)
    (hsoa : ∀ r ∈ recs, r.type = T_SOA → r.cls = C_IN → 4 ≤ r.rdata.length) :
    (rvDnsFindNxdomainTTL E ctx).1 = specNegativeTTL recs := by
  obtain ⟨cur', h⟩ := rvDnsFindNxdomainTTL_loop_spec E ctx.msgBody ctx.msgLen recs ctx.msgCur
    hlay hsoa
  simp only [rvDnsFindNxdomainTTL, hns, h]

/-- C8 (witness): the authority section of the sample NXDOMAIN response, an SOA record with
record TTL 600 and MINIMUM 120, gives 120. -/
theorem rvDnsFindNxdomainTTL_spec_witness :
    (rvDnsFindNxdomainTTL (sampleEnv cacheOk)
        { headerCtx msgNxdomain msgNxdomain.length with msgCur := 59 }).1 =
      specNegativeTTL [⟨3, 6, 1, 600, sampleSoaRdata⟩] ∧
    specNegativeTTL [⟨3, 6, 1, 600, sampleSoaRdata⟩] = 120 :=
  ⟨rvDnsFindNxdomainTTL_spec (sampleEnv cacheOk)
      { headerCtx msgNxdomain msgNxdomain.length with msgCur := 59 }
      [⟨3, 6, 1, 600, sampleSoaRdata⟩] (by decide) (by decide) (by decide),
    by decide⟩

theorem byteAt_drop (buf : List Nat) (cur j : Nat) :
    byteAt (buf.drop cur) j = byteAt buf (cur + j) := by
  simp [byteAt, List.getD_eq_getElem?_getD, List.getElem?_drop]

theorem entryBytes_length (e : ChainEntry) : (entryBytes e).length = e.2.length + 3 := by
  simp [entryBytes]

/-- What the loops read of an entry that starts at offset `cur`. -/
theorem entry_at (buf : List Nat) (cur : Nat) (e : ChainEntry) (t : List Nat)
    (h : buf.drop cur = entryBytes e ++ t) (hlen : e.2.length ≤ 255) :
    byteAt buf cur = (if e.1 then 1 else 0) ∧
    byteAt buf (cur + 1) = e.2.length ∧
    buf.drop (cur + 2) = e.2 ++ 0 :: t ∧
    buf.drop (cur + e.2.length + 3) = t := by
  have h0 := byteAt_drop buf cur 0
  have h1 := byteAt_drop buf cur 1
  have h2 := List.drop_drop 2 cur buf
  have h3 := List.drop_drop (e.2.length + 3) cur buf
  rw [h] at h0 h1 h2 h3
  rw [Nat.add_zero] at h0
  refine ⟨?_, ?_, ?_, ?_⟩
  · rw [← h0]; simp [entryBytes, byteAt]
  · rw [← h1]; simp [entryBytes, byteAt]; omega
  · rw [← h2]; simp [entryBytes]
  · rw [Nat.add_assoc, ← h3, ← entryBytes_length e, List.drop_left]

theorem tolower_eq_zero (c : Nat) : tolower c = 0 ↔ c = 0 := by
  unfold tolower
  split <;> omega

/-- On names without NUL and of the same length `RvStrncasecmp` tells whether the lower-case
forms agree. -/
theorem RvStrncasecmp_eq_zero :
    ∀ (a b : Name) (t : List Nat), 0 ∉ a → a.length = b.length →
      (RvStrncasecmp (a ++ t) b a.length = 0 ↔ lowerName a = lowerName b) := by
  intro a
  induction a with
  | nil =>
    intro b t _ hl
    have : b = [] := List.length_eq_zero.1 hl.symm
    subst this
    simp [RvStrncasecmp, lowerName]
  | cons c a ih =>
    intro b t h0 hl
    cases b with
    | nil => simp at hl
    | cons d b =>
      have hc : c ≠ 0 := fun h => h0 (by simp [h])
      have h0' : 0 ∉ a := fun h => h0 (List.mem_cons_of_mem _ h)
      have hl' : a.length = b.length := by simpa using hl
      simp only [List.cons_append, List.length_cons, RvStrncasecmp, List.headD_cons,
        List.tail_cons, lowerName, List.map_cons, List.cons.injEq]
      by_cases hcd : tolower c = tolower d
      · simp only [hcd, ne_eq, not_true_eq_false, if_false, hc, true_and]
        exact ih b t h0' hl'
      · simp only [ne_eq, hcd, not_false_eq_true, if_true, false_and, iff_false]
        omega

theorem lowerName_length (n : Name) : (lowerName n).length = n.length := by
  simp [lowerName]

/-- The loop of `RvCnameFind` over a buffer that holds the entries `es` from `cur` on. -/
theorem RvCnameFind_loop_eq (buf : List Nat) (name : Name) :
    ∀ (es : List ChainEntry) (cur : Nat) (rest : List Nat),
      buf.drop cur = chainBytes es ++ rest → (∀ e ∈ es, GoodName e.2) →
      RvCnameFind.loop buf name name.length es.length cur = entryOffset name es cur := by
  intro es
  induction es with
  | nil => intro cur rest _ _; rfl
  | cons e es ih =>
    intro cur rest h hg
    have hge := hg e (List.mem_cons_self _ _)
    simp only [chainBytes, List.append_assoc] at h
    obtain ⟨-, a2, a3, a4⟩ := entry_at buf cur e _ h hge.1
    simp only [List.length_cons, RvCnameFind.loop, a2, a3, entryOffset]
    by_cases hl : lowerName e.2 = lowerName name
    · have hlen : e.2.length = name.length := by
        rw [← lowerName_length e.2, hl, lowerName_length]
      have := (RvStrncasecmp_eq_zero e.2 name (0 :: (chainBytes es ++ rest)) hge.2 hlen).2 hl
      simp only [hlen, true_and, if_pos hl] at this ⊢
      rw [if_pos this]
    · rw [if_neg hl]
      have hcond : ¬ (e.2.length = name.length ∧
          RvStrncasecmp (e.2 ++ 0 :: (chainBytes es ++ rest)) name e.2.length = 0) := by
        rintro ⟨hlen, hz⟩
        exact hl ((RvStrncasecmp_eq_zero e.2 name _ hge.2 hlen).1 hz)
      rw [if_neg hcond]
      exact ih _ rest a4 (fun x hx => hg x (List.mem_cons_of_mem _ hx))

theorem cString_name (buf : List Nat) (p : Nat) (n : Name) (t : List Nat)
    (h : buf.drop p = n ++ 0 :: t) (h0 : 0 ∉ n) : cString buf p = n := by
  unfold cString
  rw [h]
  clear h
  induction n with
  | nil => simp [List.takeWhile]
  | cons c n ih =>
    have hc : c ≠ 0 := fun h => h0 (by simp [h])
    have h0' : 0 ∉ n := fun h => h0 (List.mem_cons_of_mem _ h)
    have hb : (c != 0) = true := by simpa using hc
    simp only [List.cons_append, List.takeWhile_cons, hb, if_true, ih h0']

/-- The loop of `RvCnameChainFindNxdomain` over a buffer that holds the entries `es` from
`cur` on: the name of the first entry whose owner flag is clear. -/
theorem RvCnameChainFindNxdomain_loop_eq (buf : List Nat) :
    ∀ (es : List ChainEntry) (cur : Nat) (rest : List Nat),
      buf.drop cur = chainBytes es ++ rest → (∀ e ∈ es, GoodName e.2) →
      (RvCnameChainFindNxdomain.loop buf es.length cur).map (fun r => cString buf r.1) =
        (es.find? (fun e => !e.1)).map (fun e => e.2) := by
  intro es
  induction es with
  | nil => intro cur rest _ _; rfl
  | cons e es ih =>
    intro cur rest h hg
    have hge := hg e (List.mem_cons_self _ _)
    simp only [chainBytes, List.append_assoc] at h
    obtain ⟨a1, a2, a3, a4⟩ := entry_at buf cur e _ h hge.1
    simp only [List.length_cons, RvCnameChainFindNxdomain.loop, a1, a2, List.find?_cons]
    cases hf : e.1
    · simp only [Bool.false_eq_true, if_false, if_true, Option.map_some', Bool.not_false]
      rw [cString_name buf (cur + 2) e.2 _ a3 hge.2]
    · simp only [if_true, Bool.not_true]
      rw [if_neg (by decide)]
      exact ih _ rest a4 (fun x hx => hg x (List.mem_cons_of_mem _ hx))

theorem chainBytes_append (a b : List ChainEntry) :
    chainBytes (a ++ b) = chainBytes a ++ chainBytes b := by
  induction a with
  | nil => rfl
  | cons e a ih => simp [chainBytes, ih]

theorem entryOffset_none (n : Name) :
    ∀ (es : List ChainEntry) (cur : Nat), entryOffset n es cur = none ↔ hasName es n = false := by
  intro es
  induction es with
  | nil => intro cur; simp [entryOffset, hasName]
  | cons e es ih =>
    intro cur
    by_cases h : lowerName e.2 = lowerName n
    · simp [entryOffset, hasName, h]
    · have := ih (cur + e.2.length + 3)
      simp only [hasName] at this
      simp [entryOffset, hasName, h, this]

theorem markOwner_bytes_length (n : Name) :
    ∀ es : List ChainEntry, (chainBytes (markOwner n es)).length = (chainBytes es).length := by
  intro es
  induction es with
  | nil => rfl
  | cons e es ih =>
    simp only [markOwner]
    split
    · simp [chainBytes, entryBytes]
    · simp [chainBytes, ih]

theorem markOwner_length (n : Name) :
    ∀ es : List ChainEntry, (markOwner n es).length = es.length := by
  intro es
  induction es with
  | nil => rfl
  | cons e es ih =>
    simp only [markOwner]
    split
    · rfl
    · simp [ih]

/-- Storing `RV_TRUE` at the offset `RvCnameFind` returned sets the owner flag of the first
entry that holds the name. -/
theorem writeBytes_markOwner (n : Name) (rest : List Nat) :
    ∀ (es : List ChainEntry) (pre : List Nat) (off : Nat),
      entryOffset n es pre.length = some off →
      writeBytes (pre ++ chainBytes es ++ rest) off [1] =
        pre ++ chainBytes (markOwner n es) ++ rest := by
  intro es
  induction es with
  | nil => intro pre off h; simp [entryOffset] at h
  | cons e es ih =>
    intro pre off h
    by_cases hl : lowerName e.2 = lowerName n
    · simp only [entryOffset, if_pos hl, Option.some.injEq] at h
      subst h
      simp only [markOwner, if_pos hl, chainBytes, entryBytes, writeBytes, List.append_assoc,
        List.take_left, List.length_singleton, List.drop_append, List.cons_append,
        List.drop_succ_cons, List.drop_zero, if_true, List.singleton_append, List.nil_append]
    · simp only [entryOffset, if_neg hl] at h
      have hlen : (pre ++ entryBytes e).length = pre.length + e.2.length + 3 := by
        simp [entryBytes_length]; omega
      have := ih (pre ++ entryBytes e) off (by rw [hlen]; exact h)
      simp only [markOwner, if_neg hl, chainBytes, List.append_assoc] at this ⊢
      exact this

theorem readBytes_eq_take (m : List Nat) :
    ∀ (n p : Nat), p + n ≤ m.length → readBytes m p n = (m.drop p).take n := by
  intro n
  induction n with
  | zero => intro p _; simp [readBytes]
  | succ n ih =>
    intro p hp
    have hlt : p < m.length := by omega
    rw [List.drop_eq_getElem_cons hlt]
    simp only [readBytes, List.take_succ_cons, byteAt, List.getD_eq_getElem?_getD]
    rw [List.getElem?_eq_getElem hlt, ih (p + 1) (by omega)]
    rfl

/-- Storing a new entry behind the entries `es`. -/
theorem writeBytes_entry (es : List ChainEntry) (rest : List Nat) (flag : Bool) (name : Name)
    (hroom : name.length + 3 ≤ rest.length) :
    writeBytes (chainBytes es ++ rest) (chainBytes es).length
        ([if flag then 1 else 0, name.length % 256] ++ name ++ [0]) =
      chainBytes (es ++ [(flag, name)]) ++ rest.drop (name.length + 3) ∧
    (chainBytes (es ++ [(flag, name)]) ++ rest.drop (name.length + 3)).length =
      (chainBytes es ++ rest).length ∧
    (chainBytes (es ++ [(flag, name)])).length = (chainBytes es).length + 2 + name.length + 1 := by
  have hb : [if flag then 1 else 0, name.length % 256] ++ name ++ [0] = entryBytes (flag, name) := by
    simp [entryBytes]
  rw [hb]
  refine ⟨?_, ?_, ?_⟩
  · simp only [writeBytes, List.take_left, chainBytes_append, chainBytes, List.append_nil,
      List.drop_append, entryBytes_length, List.append_assoc]
  · simp only [chainBytes_append, chainBytes, List.append_nil, List.length_append,
      entryBytes_length, List.length_drop]
    omega
  · simp only [chainBytes_append, chainBytes, List.append_nil, List.length_append,
      entryBytes_length]
    omega

/-- `RvCnameChainAddEntry` with a working allocator appends the entry. -/
theorem RvCnameChainAddEntry_rep (E : Env) (halloc : ∀ n, E.RvMemoryAlloc n = RV_OK)
    (c : RvCnameChain) (es : List ChainEntry) (name : Name) (flag : Bool)
    (hrep : ChainRep c es) (hn : GoodName name) :
    (RvCnameChainAddEntry E c name name.length flag).1 = RV_OK ∧
    ChainRep (RvCnameChainAddEntry E c name name.length flag).2 (es ++ [(flag, name)]) := by
  obtain ⟨⟨rest, hbuf⟩, hsz, hnf, hbs, h512⟩ := hrep
  have hlen : c.buf.length = (chainBytes es).length + rest.length := by
    rw [hbuf, List.length_append]
  unfold RvCnameChainAddEntry
  simp only [halloc, ne_eq, not_true_eq_false, if_false]
  by_cases hsp : c.bufSize - c.nextFree < name.length + 3
  · -- the buffer is doubled
    have hrb : readBytes c.buf 0 c.bufSize = c.buf := by
      rw [readBytes_eq_take c.buf c.bufSize 0 (by omega), List.drop_zero, hbs, List.take_length]
    simp only [if_pos hsp, hrb]
    have hroom : name.length + 3 ≤ (rest ++ List.replicate (c.bufSize * 2 - c.bufSize) 0).length := by
      rw [List.length_append, List.length_replicate]
      have := hn.1
      omega
    obtain ⟨w1, w2, w3⟩ := writeBytes_entry es _ flag name hroom
    have hbuf2 : c.buf ++ List.replicate (c.bufSize * 2 - c.bufSize) 0 =
        chainBytes es ++ (rest ++ List.replicate (c.bufSize * 2 - c.bufSize) 0) := by
      rw [hbuf, List.append_assoc]
    refine ⟨rfl, ⟨List.drop (name.length + 3)
      (rest ++ List.replicate (c.bufSize * 2 - c.bufSize) 0), ?_⟩, ?_, ?_, ?_, ?_⟩
    · show writeBytes (c.buf ++ List.replicate (c.bufSize * 2 - c.bufSize) 0) c.nextFree _ = _
      rw [hbuf2, hnf]
      exact w1
    · show c.chainSize + 1 = _
      rw [hsz, List.length_append]; rfl
    · show c.nextFree + 2 + name.length + 1 = _
      rw [w3, hnf]
    · show c.bufSize * 2 = (writeBytes (c.buf ++ List.replicate (c.bufSize * 2 - c.bufSize) 0)
        c.nextFree _).length
      rw [hbuf2, hnf, w1, w2, ← hbuf2, List.length_append, List.length_replicate]
      omega
    · show 512 ≤ c.bufSize * 2
      omega
  · simp only [if_neg hsp]
    have hroom : name.length + 3 ≤ rest.length := by omega
    obtain ⟨w1, w2, w3⟩ := writeBytes_entry es rest flag name hroom
    refine ⟨rfl, ⟨rest.drop (name.length + 3), ?_⟩, ?_, ?_, ?_, ?_⟩
    · show writeBytes c.buf c.nextFree _ = _
      rw [hbuf, hnf]
      exact w1
    · show c.chainSize + 1 = _
      rw [hsz, List.length_append]; rfl
    · show c.nextFree + 2 + name.length + 1 = _
      rw [w3, hnf]
    · show c.bufSize = (writeBytes c.buf c.nextFree _).length
      rw [hbuf, hnf, w1, w2, ← hbuf]
      exact hbs
    · exact h512

theorem markOwner_good (n : Name) :
    ∀ es : List ChainEntry, (∀ e ∈ es, GoodName e.2) → ∀ e ∈ markOwner n es, GoodName e.2 := by
  intro es
  induction es with
  | nil => intro _ e he; simp [markOwner] at he
  | cons x es ih =>
    intro hg e he
    simp only [markOwner] at he
    split at he
    · rcases List.mem_cons.1 he with h | h
      · rw [h]; exact hg x (List.mem_cons_self _ _)
      · exact hg e (List.mem_cons_of_mem _ h)
    · rcases List.mem_cons.1 he with h | h
      · rw [h]; exact hg x (List.mem_cons_self _ _)
      · exact ih (fun y hy => hg y (List.mem_cons_of_mem _ hy)) e h

theorem RvCnameFind_rep (c : RvCnameChain) (es : List ChainEntry) (name : Name)
    (hrep : ChainRep c es) (hg : ∀ e ∈ es, GoodName e.2) :
    RvCnameFind c name name.length = entryOffset name es 0 := by
  obtain ⟨⟨rest, hbuf⟩, hsz, -, -, -⟩ := hrep
  unfold RvCnameFind
  rw [hsz]
  exact RvCnameFind_loop_eq c.buf name es 0 rest (by rw [List.drop_zero, hbuf]) hg

theorem RvCnameChainAdd_eq (E : Env) (c : RvCnameChain) (owner aliasName : Name)
    (r : Int × RvCnameChain)
    (h : (match RvCnameFind c owner owner.length with
        | none => RvCnameChainAddEntry E c owner owner.length true
        | some entry => (RV_OK, { c with buf := writeBytes c.buf entry [1] })) = r) :
    RvCnameChainAdd E c owner aliasName =
      if r.1 ≠ RV_OK then r
      else
        match RvCnameFind r.2 aliasName aliasName.length with
        | some _ => (RV_OK, r.2)
        | none => RvCnameChainAddEntry E r.2 aliasName aliasName.length false := by
  subst h
  rfl

/-- `RvCnameChainAdd` with a working allocator does to the buffer what `addPair` does to
the entries. -/
theorem RvCnameChainAdd_rep (E : Env) (halloc : ∀ n, E.RvMemoryAlloc n = RV_OK)
    (c : RvCnameChain) (es : List ChainEntry) (owner aliasName : Name)
    (hrep : ChainRep c es) (hg : ∀ e ∈ es, GoodName e.2)
    (ho : GoodName owner) (ha : GoodName aliasName) :
    (RvCnameChainAdd E c owner aliasName).1 = RV_OK ∧
    ChainRep (RvCnameChainAdd E c owner aliasName).2 (addPair es owner aliasName) ∧
    ∀ e ∈ addPair es owner aliasName, GoodName e.2 := by
  -- first half: the owner
  have step1 : ∃ c1 : RvCnameChain,
      (match RvCnameFind c owner owner.length with
        | none => RvCnameChainAddEntry E c owner owner.length true
        | some entry => (RV_OK, { c with buf := writeBytes c.buf entry [1] })) = (RV_OK, c1) ∧
      ChainRep c1 (if hasName es owner then markOwner owner es else es ++ [(true, owner)]) := by
    rw [RvCnameFind_rep c es owner hrep hg]
    cases hoff : entryOffset owner es 0 with
    | none =>
      have hh := (entryOffset_none owner es 0).1 hoff
      obtain ⟨r1, r2⟩ := RvCnameChainAddEntry_rep E halloc c es owner true hrep ho
      refine ⟨(RvCnameChainAddEntry E c owner owner.length true).2, ?_, ?_⟩
      · simp only []
        rw [← r1]
      · rw [hh]; exact r2
    | some off =>
      have hh : hasName es owner = true := by
        cases h : hasName es owner
        · rw [(entryOffset_none owner es 0).2 h] at hoff; cases hoff
        · rfl
      obtain ⟨⟨rest, hbuf⟩, hsz, hnf, hbs, h512⟩ := hrep
      have hw := writeBytes_markOwner owner rest es [] off (by simpa using hoff)
      simp only [List.nil_append] at hw
      refine ⟨{ c with buf := writeBytes c.buf off [1] }, rfl, ?_⟩
      rw [hh]
      simp only [if_true]
      refine ⟨⟨rest, ?_⟩, ?_, ?_, ?_, h512⟩
      · show writeBytes c.buf off [1] = _
        rw [hbuf, hw]
      · show c.chainSize = _
        rw [hsz, markOwner_length]
      · show c.nextFree = _
        rw [hnf, markOwner_bytes_length]
      · show c.bufSize = (writeBytes c.buf off [1]).length
        rw [hbuf, hw, List.length_append, markOwner_bytes_length, ← List.length_append, ← hbuf]
        exact hbs
  obtain ⟨c1, hc1, hrep1⟩ := step1
  have hg1 : ∀ e ∈ (if hasName es owner then markOwner owner es else es ++ [(true, owner)]),
      GoodName e.2 := by
    split
    · exact markOwner_good owner es hg
    · intro e he
      rcases List.mem_append.1 he with h | h
      · exact hg e h
      · simp only [List.mem_singleton] at h
        rw [h]; exact ho
  unfold addPair
  simp only []
  generalize (if hasName es owner then markOwner owner es else es ++ [(true, owner)]) = es1
    at hrep1 hg1 ⊢
  rw [RvCnameChainAdd_eq E c owner aliasName _ hc1]
  simp only [ne_eq, not_true_eq_false, if_false]
  rw [RvCnameFind_rep c1 es1 aliasName hrep1 hg1]
  cases hoff : entryOffset aliasName es1 0 with
  | none =>
    have hh := (entryOffset_none aliasName es1 0).1 hoff
    obtain ⟨r1, r2⟩ := RvCnameChainAddEntry_rep E halloc c1 es1 aliasName false hrep1 ha
    rw [hh]
    refine ⟨r1, r2, ?_⟩
    intro e he
    rcases List.mem_append.1 he with h | h
    · exact hg1 e h
    · simp only [List.mem_singleton] at h
      rw [h]; exact ha
  | some off =>
    have hh : hasName es1 aliasName = true := by
      cases h : hasName es1 aliasName
      · rw [(entryOffset_none aliasName es1 0).2 h] at hoff; cases hoff
      · rfl
    rw [hh]
    exact ⟨rfl, hrep1, hg1⟩

theorem markOwner_names (n : Name) :
    ∀ es : List ChainEntry, (markOwner n es).map (fun e => e.2) = es.map (fun e => e.2) := by
  intro es
  induction es with
  | nil => rfl
  | cons e es ih =>
    simp only [markOwner]
    split
    · rfl
    · simp [ih]

theorem hasName_eq_any (es : List ChainEntry) (n : Name) :
    hasName es n = (es.map (fun e => e.2)).any (fun m => decide (lowerName m = lowerName n)) := by
  unfold hasName
  induction es with
  | nil => rfl
  | cons e es ih => simp only [List.any_cons, List.map_cons, ih]

theorem addPair_names (es : List ChainEntry) (o a : Name) :
    (addPair es o a).map (fun e => e.2) =
      addIfAbsent (addIfAbsent (es.map (fun e => e.2)) o) a := by
  have h1 : (if hasName es o then markOwner o es else es ++ [(true, o)]).map (fun e => e.2) =
      addIfAbsent (es.map (fun e => e.2)) o := by
    unfold addIfAbsent
    rw [← hasName_eq_any]
    split
    · exact markOwner_names o es
    · simp
  unfold addPair
  simp only []
  generalize (if hasName es o then markOwner o es else es ++ [(true, o)]) = es1 at h1 ⊢
  rw [← h1]
  unfold addIfAbsent
  rw [← hasName_eq_any]
  split
  · rfl
  · simp

theorem namesOf_append (ps qs : List (Name × Name)) :
    namesOf (ps ++ qs) = namesOf ps ++ namesOf qs := by
  induction ps with
  | nil => rfl
  | cons p ps ih => simp [namesOf, ih]

/-- Looking for the first name with a property that only depends on the lower-case form
gives the same result before and after duplicates are dropped. -/
theorem find_foldl_addIfAbsent (P : Name → Bool)
    (hP : ∀ m n, lowerName m = lowerName n → P m = P n) :
    ∀ (l acc : List Name), (l.foldl addIfAbsent acc).find? P = (acc ++ l).find? P := by
  intro l
  induction l with
  | nil => intro acc; simp
  | cons x l ih =>
    intro acc
    rw [List.foldl_cons, ih]
    unfold addIfAbsent
    split
    · rename_i hany
      obtain ⟨m, hm, hkey⟩ := List.any_eq_true.1 hany
      have hkey' : lowerName m = lowerName x := by simpa using hkey
      simp only [List.find?_append, List.find?_cons]
      cases hf : acc.find? P with
      | some v => simp
      | none =>
        have hPm : ¬ P m = true := (List.find?_eq_none.1 hf) m hm
        have hPx : P x = false := by
          rw [← hP m x hkey']; simpa using hPm
        simp [hPx]
    · simp [List.append_assoc]

theorem find_flag_names (f : Name → Bool) :
    ∀ es : List ChainEntry, (∀ e ∈ es, e.1 = f e.2) →
      (es.find? (fun e => !e.1)).map (fun e => e.2) =
        (es.map (fun e => e.2)).find? (fun n => !f n) := by
  intro es
  induction es with
  | nil => intro _; rfl
  | cons e es ih =>
    intro h
    have he := h e (List.mem_cons_self _ _)
    have ih' := ih (fun x hx => h x (List.mem_cons_of_mem _ hx))
    simp only [List.map_cons, List.find?_cons, ← he]
    cases e.1
    · simp
    · simpa using ih'

theorem hasName_congr (es : List ChainEntry) (m n : Name) (h : lowerName m = lowerName n) :
    hasName es m = hasName es n := by
  unfold hasName
  rw [h]

theorem hasName_append (es fs : List ChainEntry) (n : Name) :
    hasName (es ++ fs) n = (hasName es n || hasName fs n) := by
  simp [hasName, List.any_append]

theorem hasName_markOwner (o n : Name) (es : List ChainEntry) :
    hasName (markOwner o es) n = hasName es n := by
  rw [hasName_eq_any, hasName_eq_any, markOwner_names]

theorem isOwnerIn_snoc (ps : List (Name × Name)) (o a n : Name) :
    isOwnerIn (ps ++ [(o, a)]) n = (isOwnerIn ps n || decide (lowerName o = lowerName n)) := by
  simp [isOwnerIn, List.any_append]

/-- Under distinct names `markOwner` flags every entry that holds the name. -/
theorem markOwner_mem (o : Name) :
    ∀ es : List ChainEntry,
      (es.map (fun e => e.2)).Pairwise (fun m n => lowerName m ≠ lowerName n) →
      ∀ e ∈ markOwner o es,
        ∃ e0 ∈ es, e = (e0.1 || decide (lowerName o = lowerName e0.2), e0.2) := by
  intro es
  induction es with
  | nil => intro _ e he; simp [markOwner] at he
  | cons x es ih =>
    intro hp e he
    simp only [List.map_cons, List.pairwise_cons] at hp
    simp only [markOwner] at he
    split at he
    · rename_i hx
      rcases List.mem_cons.1 he with h | h
      · exact ⟨x, List.mem_cons_self _ _, by rw [h]; simp [hx]⟩
      · have hne : lowerName x.2 ≠ lowerName e.2 :=
          hp.1 e.2 (List.mem_map.2 ⟨e, h, rfl⟩)
        refine ⟨e, List.mem_cons_of_mem _ h, ?_⟩
        have : ¬ lowerName o = lowerName e.2 := fun h' => hne (hx.trans h')
        simp [this]
    · rename_i hx
      rcases List.mem_cons.1 he with h | h
      · refine ⟨x, List.mem_cons_self _ _, ?_⟩
        have : ¬ lowerName o = lowerName x.2 := fun h' => hx h'.symm
        rw [h]; simp [this]
      · obtain ⟨e0, h0, h1⟩ := ih hp.2 e h
        exact ⟨e0, List.mem_cons_of_mem _ h0, h1⟩

theorem addIfAbsent_pairwise (l : List Name) (n : Name)
    (h : l.Pairwise (fun m n => lowerName m ≠ lowerName n)) :
    (addIfAbsent l n).Pairwise (fun m n => lowerName m ≠ lowerName n) := by
  unfold addIfAbsent
  split
  · exact h
  · rename_i hany
    rw [List.pairwise_append]
    refine ⟨h, List.pairwise_singleton _ _, ?_⟩
    intro m hm x hx
    simp only [List.mem_singleton] at hx
    subst hx
    intro hk
    exact hany (List.any_eq_true.2 ⟨m, hm, by simpa using hk⟩)

/-- One call of `RvCnameChainAdd` keeps the entries in step with the pairs. -/
theorem ChainInv_addPair (ps : List (Name × Name)) (es : List ChainEntry) (o a : Name)
    (h : ChainInv ps es) : ChainInv (ps ++ [(o, a)]) (addPair es o a) := by
  obtain ⟨hN, hF, hU, hC⟩ := h
  refine ⟨?_, ?_, ?_, ?_⟩
  · rw [addPair_names, hN, namesOf_append, List.foldl_append]
    rfl
  · -- flags
    have hF1 : ∀ e ∈ (if hasName es o then markOwner o es else es ++ [(true, o)]),
        e.1 = isOwnerIn (ps ++ [(o, a)]) e.2 := by
      intro e he
      rw [isOwnerIn_snoc]
      split at he
      · obtain ⟨e0, h0, h1⟩ := markOwner_mem o es hU e he
        rw [h1]
        simp only []
        rw [hF e0 h0]
      · rename_i hno
        rcases List.mem_append.1 he with h | h
        · have hne : ¬ lowerName o = lowerName e.2 := by
            intro hk
            apply hno
            unfold hasName
            exact List.any_eq_true.2 ⟨e, h, by simpa using hk.symm⟩
          rw [hF e h]
          simp [hne]
        · simp only [List.mem_singleton] at h
          rw [h]
          simp
    have hC1 : ∀ p ∈ ps ++ [(o, a)],
        hasName (if hasName es o then markOwner o es else es ++ [(true, o)]) p.1 = true := by
      intro p hp
      rcases List.mem_append.1 hp with h | h
      · have := hC p h
        split
        · rw [hasName_markOwner]; exact this
        · rw [hasName_append, this]; rfl
      · simp only [List.mem_singleton] at h
        rw [h]
        simp only []
        split
        · rename_i hyes
          rw [hasName_markOwner]; exact hyes
        · rw [hasName_append]
          simp [hasName]
    unfold addPair
    simp only []
    generalize (if hasName es o then markOwner o es else es ++ [(true, o)]) = es1 at hF1 hC1 ⊢
    intro e he
    split at he
    · exact hF1 e he
    · rename_i hno
      rcases List.mem_append.1 he with h | h
      · exact hF1 e h
      · simp only [List.mem_singleton] at h
        rw [h]
        simp only []
        cases hown : isOwnerIn (ps ++ [(o, a)]) a
        · rfl
        · exfalso
          obtain ⟨p, hp, hk⟩ := List.any_eq_true.1 hown
          have hk' : lowerName p.1 = lowerName a := by simpa using hk
          apply hno
          rw [← hasName_congr es1 p.1 a hk']
          exact hC1 p hp
  · rw [addPair_names]
    exact addIfAbsent_pairwise _ _ (addIfAbsent_pairwise _ _ hU)
  · intro p hp
    have key : ∀ n, hasName es n = true → hasName (addPair es o a) n = true := by
      intro n hn
      unfold addPair
      simp only []
      have h1 : hasName (if hasName es o then markOwner o es else es ++ [(true, o)]) n = true := by
        split
        · rw [hasName_markOwner]; exact hn
        · rw [hasName_append, hn]; rfl
      generalize (if hasName es o then markOwner o es else es ++ [(true, o)]) = es1 at h1 ⊢
      split
      · exact h1
      · rw [hasName_append, h1]; rfl
    rcases List.mem_append.1 hp with h | h
    · exact key p.1 (hC p h)
    · simp only [List.mem_singleton] at h
      rw [h]
      simp only []
      unfold addPair
      simp only []
      have h1 : hasName (if hasName es o then markOwner o es else es ++ [(true, o)]) o = true := by
        split
        · rename_i hyes
          rw [hasName_markOwner]; exact hyes
        · rw [hasName_append]
          simp [hasName]
      generalize (if hasName es o then markOwner o es else es ++ [(true, o)]) = es1 at h1 ⊢
      split
      · exact h1
      · rw [hasName_append, h1]; rfl

theorem ChainInv_nil : ChainInv [] [] := by
  refine ⟨rfl, ?_, ?_, ?_⟩
  · intro e he; simp at he
  · simp
  · intro p hp; simp at hp

theorem entriesAfter_inv (pairs : List (Name × Name)) : ChainInv pairs (entriesAfter pairs) := by
  have gen : ∀ (qs ps : List (Name × Name)) (es : List ChainEntry), ChainInv ps es →
      ChainInv (ps ++ qs) (qs.foldl (fun es p => addPair es p.1 p.2) es) := by
    intro qs
    induction qs with
    | nil => intro ps es h; simpa using h
    | cons q qs ih =>
      intro ps es h
      have := ih (ps ++ [q]) (addPair es q.1 q.2) (ChainInv_addPair ps es q.1 q.2 h)
      simpa [List.append_assoc] using this
  simpa [entriesAfter] using gen pairs [] [] ChainInv_nil

theorem ChainRep_construct : ChainRep RvCnameChainConstruct [] :=
  ⟨⟨List.replicate 512 0, rfl⟩, rfl, rfl, by simp [RvCnameChainConstruct],
    by simp [RvCnameChainConstruct]⟩

/-- With a working allocator and names that fit, the buffer of the chain holds the entries
that `addPair` computes. -/
theorem chainAfter_rep (E : Env) (halloc : ∀ n, E.RvMemoryAlloc n = RV_OK)
    (pairs : List (Name × Name)) (hgood : ∀ p ∈ pairs, GoodName p.1 ∧ GoodName p.2) :
    ChainRep (chainAfter E pairs) (entriesAfter pairs) ∧
      ∀ e ∈ entriesAfter pairs, GoodName e.2 := by
  have gen : ∀ (qs : List (Name × Name)) (c : RvCnameChain) (es : List ChainEntry),
      (∀ p ∈ qs, GoodName p.1 ∧ GoodName p.2) → ChainRep c es → (∀ e ∈ es, GoodName e.2) →
      ChainRep (qs.foldl (fun c p => (RvCnameChainAdd E c p.1 p.2).2) c)
          (qs.foldl (fun es p => addPair es p.1 p.2) es) ∧
        ∀ e ∈ qs.foldl (fun es p => addPair es p.1 p.2) es, GoodName e.2 := by
    intro qs
    induction qs with
    | nil => intro c es _ hr hg; exact ⟨hr, hg⟩
    | cons q qs ih =>
      intro c es hq hr hg
      obtain ⟨hq1, hq2⟩ := hq q (List.mem_cons_self _ _)
      obtain ⟨-, r2, r3⟩ := RvCnameChainAdd_rep E halloc c es q.1 q.2 hr hg hq1 hq2
      exact ih _ _ (fun p hp => hq p (List.mem_cons_of_mem _ hp)) r2 r3
  exact gen pairs _ _ hgood ChainRep_construct (fun e he => absurd he (by simp))

theorem mem_namesOf (n : Name) :
    ∀ ps : List (Name × Name), n ∈ namesOf ps → ∃ p ∈ ps, n = p.1 ∨ n = p.2 := by
  intro ps
  induction ps with
  | nil => intro h; simp [namesOf] at h
  | cons p ps ih =>
    intro h
    simp only [namesOf, List.mem_cons] at h
    rcases h with h | h | h
    · exact ⟨p, List.mem_cons_self _ _, Or.inl h⟩
    · exact ⟨p, List.mem_cons_self _ _, Or.inr h⟩
    · obtain ⟨q, hq, hn⟩ := ih h
      exact ⟨q, List.mem_cons_of_mem _ hq, hn⟩

theorem alias_mem_namesOf (p : Name × Name) :
    ∀ ps : List (Name × Name), p ∈ ps → p.2 ∈ namesOf ps := by
  intro ps
  induction ps with
  | nil => intro h; simp at h
  | cons q ps ih =>
    intro h
    rcases List.mem_cons.1 h with h | h
    · rw [h]; simp [namesOf]
    · simp [namesOf, ih h]

/-- C10 (counterexample): after the pairs `a -> b` and `c -> d` the chain returns `b`,
while `d` is another name that appears as an alias and never as an owner; and after
`a -> b`, `b -> c`, `c -> b` nothing is returned. -/
theorem RvCnameChainFindNxdomain_not_unique :
    RvCnameChainFindNxdomain.name
        (chainAfter (sampleEnv cacheOk) [([97], [98]), ([99], [100])]) = some [98] ∧
    isAliasIn [([97], [98]), ([99], [100])] [100] = true ∧
    isOwnerIn [([97], [98]), ([99], [100])] [100] = false ∧
    lowerName [100] ≠ lowerName [98] ∧
    RvCnameChainFindNxdomain.name
        (chainAfter (sampleEnv cacheOk) [([97], [98]), ([98], [99]), ([99], [98])]) = none := by
  decide

/-- C10 (amended): after CNAME pairs with names of at most 255 octets have been added to an
empty chain (the allocator not failing), `RvCnameChainFindNxdomain` returns the first name,
in the order of the records, that appears as an alias but never as an owner (names compared
case-insensitively); there may be other such names.  Nothing is returned exactly when every
alias is also an owner, as in a closed cycle. -/
theorem RvCnameChainFindNxdomain_first_terminal (E : Env)
    (halloc : ∀ n, E.RvMemoryAlloc n = RV_OK) (pairs : List (Name × Name))
    (hgood : ∀ p ∈ pairs, GoodName p.1 ∧ GoodName p.2) :
    RvCnameChainFindNxdomain.name (chainAfter E pairs) = specTerminal pairs ∧
    (RvCnameChainFindNxdomain.name (chainAfter E pairs) = none ↔
      ∀ p ∈ pairs, isOwnerIn pairs p.2 = true) ∧
    (∀ n, RvCnameChainFindNxdomain.name (chainAfter E pairs) = some n →
      isAliasIn pairs n = true ∧ isOwnerIn pairs n = false) := by
  obtain ⟨hrep, hg⟩ := chainAfter_rep E halloc pairs hgood
  obtain ⟨hN, hF, -, -⟩ := entriesAfter_inv pairs
  have hP : ∀ m n : Name, lowerName m = lowerName n →
      (!isOwnerIn pairs m) = (!isOwnerIn pairs n) := by
    intro m n h
    unfold isOwnerIn
    rw [h]
  have hmain : RvCnameChainFindNxdomain.name (chainAfter E pairs) = specTerminal pairs := by
    obtain ⟨⟨rest, hbuf⟩, hsz, -, -, -⟩ := hrep
    unfold RvCnameChainFindNxdomain.name RvCnameChainFindNxdomain
    rw [hsz, RvCnameChainFindNxdomain_loop_eq _ (entriesAfter pairs) 0 rest
      (by rw [List.drop_zero, hbuf]) hg, find_flag_names (isOwnerIn pairs) _ hF, hN,
      find_foldl_addIfAbsent _ hP]
    rfl
  refine ⟨hmain, ?_, ?_⟩
  · rw [hmain]
    unfold specTerminal
    rw [List.find?_eq_none]
    constructor
    · intro h p hp
      have := h p.2 (alias_mem_namesOf p pairs hp)
      simpa using this
    · intro h n hn
      obtain ⟨p, hp, hn'⟩ := mem_namesOf n pairs hn
      rcases hn' with hn' | hn'
      · have : isOwnerIn pairs n = true := by
          unfold isOwnerIn
          exact List.any_eq_true.2 ⟨p, hp, by simp [hn']⟩
        simp [this]
      · rw [hn']
        simp [h p hp]
  · intro n hn
    rw [hmain] at hn
    unfold specTerminal at hn
    have h1 := List.find?_some hn
    have h2 := List.mem_of_find?_eq_some hn
    have hno : isOwnerIn pairs n = false := by simpa using h1
    refine ⟨?_, hno⟩
    obtain ⟨p, hp, hn'⟩ := mem_namesOf n pairs h2
    rcases hn' with hn' | hn'
    · exfalso
      have : isOwnerIn pairs n = true := by
        unfold isOwnerIn
        exact List.any_eq_true.2 ⟨p, hp, by simp [hn']⟩
      rw [hno] at this
      cases this
    · unfold isAliasIn
      exact List.any_eq_true.2 ⟨p, hp, by simp [hn']⟩

/-- C10 (witness): the pairs `www.a -> b`, `b -> c` yield `c`. -/
theorem RvCnameChainFindNxdomain_first_terminal_witness :
    (RvCnameChainFindNxdomain.name (chainAfter (sampleEnv cacheOk)
        [([119, 119, 119, 46, 97], [98]), ([98], [99])]) =
      specTerminal [([119, 119, 119, 46, 97], [98]), ([98], [99])] ∧
    (RvCnameChainFindNxdomain.name (chainAfter (sampleEnv cacheOk)
        [([119, 119, 119, 46, 97], [98]), ([98], [99])]) = none ↔
      ∀ p ∈ [(([119, 119, 119, 46, 97] : Name), ([98] : Name)), ([98], [99])],
        isOwnerIn [([119, 119, 119, 46, 97], [98]), ([98], [99])] p.2 = true) ∧
    (∀ n, RvCnameChainFindNxdomain.name (chainAfter (sampleEnv cacheOk)
        [([119, 119, 119, 46, 97], [98]), ([98], [99])]) = some n →
      isAliasIn [([119, 119, 119, 46, 97], [98]), ([98], [99])] n = true ∧
      isOwnerIn [([119, 119, 119, 46, 97], [98]), ([98], [99])] n = false)) ∧
    specTerminal [([119, 119, 119, 46, 97], [98]), ([98], [99])] = some [99] :=
  ⟨RvCnameChainFindNxdomain_first_terminal (sampleEnv cacheOk) (fun _ => rfl)
      [([119, 119, 119, 46, 97], [98]), ([98], [99])] (by decide),
    by decide⟩

/-- A successful `RvCnameChainAddEntry` is one with a working allocator. -/
theorem RvCnameChainAddEntry_ok (E : Env) (c : RvCnameChain) (name : Name) (nameSize : Nat)
    (flag : Bool) (h : (RvCnameChainAddEntry E c name nameSize flag).1 = RV_OK) :
    RvCnameChainAddEntry E c name nameSize flag =
      RvCnameChainAddEntry (withWorkingAllocator E) c name nameSize flag := by
  unfold RvCnameChainAddEntry at h ⊢
  simp only [withWorkingAllocator] at h ⊢
  by_cases hsp : c.bufSize - c.nextFree < nameSize + 3
  · simp only [if_pos hsp] at h ⊢
    by_cases hs : E.RvMemoryAlloc (c.bufSize * 2) = RV_OK
    · simp only [hs, ne_eq, not_true_eq_false, if_false]
    · simp only [ne_eq, hs, not_false_eq_true, if_true] at h
  · simp only [if_neg hsp]

/-- A successful `RvCnameChainAdd` is one with a working allocator. -/
theorem RvCnameChainAdd_ok (E : Env) (c : RvCnameChain) (owner aliasName : Name)
    (h : (RvCnameChainAdd E c owner aliasName).1 = RV_OK) :
    RvCnameChainAdd E c owner aliasName =
      RvCnameChainAdd (withWorkingAllocator E) c owner aliasName := by
  rw [RvCnameChainAdd_eq E c owner aliasName _ rfl] at h ⊢
  rw [RvCnameChainAdd_eq (withWorkingAllocator E) c owner aliasName _ rfl]
  cases hf : RvCnameFind c owner owner.length with
  | some off =>
    simp only [hf] at h ⊢
    simp only [ne_eq, not_true_eq_false, if_false] at h ⊢
    cases hf2 : RvCnameFind { c with buf := writeBytes c.buf off [1] } aliasName aliasName.length with
    | some _ => rfl
    | none =>
      simp only [hf2] at h ⊢
      exact RvCnameChainAddEntry_ok E _ _ _ _ h
  | none =>
    simp only [hf] at h ⊢
    by_cases h1 : (RvCnameChainAddEntry E c owner owner.length true).1 = RV_OK
    · have e1 := RvCnameChainAddEntry_ok E c owner owner.length true h1
      rw [← e1]
      simp only [h1, ne_eq, not_true_eq_false, if_false] at h ⊢
      cases hf2 : RvCnameFind (RvCnameChainAddEntry E c owner owner.length true).2 aliasName
          aliasName.length with
      | some _ => rfl
      | none =>
        simp only [hf2] at h ⊢
        exact RvCnameChainAddEntry_ok E _ _ _ _ h
    · simp only [ne_eq, h1, not_false_eq_true, if_true] at h

theorem chainAfter_ok (E : Env) :
    ∀ (ps : List (Name × Name)) (c : RvCnameChain), addsSucceed E c ps →
      ps.foldl (fun c p => (RvCnameChainAdd E c p.1 p.2).2) c =
        ps.foldl (fun c p => (RvCnameChainAdd (withWorkingAllocator E) c p.1 p.2).2) c := by
  intro ps
  induction ps with
  | nil => intro c _; rfl
  | cons p ps ih =>
    intro c h
    obtain ⟨h1, h2⟩ := h
    simp only [List.foldl_cons]
    rw [← RvCnameChainAdd_ok E c p.1 p.2 h1]
    exact ih _ h2

/-- After successful adds of names that fit, `RvCnameChainFindNxdomain` returns the first
name in record order that is never an owner. -/
theorem chainAfter_findNxdomain (E : Env) (pairs : List (Name × Name))
    (hgood : ∀ p ∈ pairs, GoodName p.1 ∧ GoodName p.2)
    (hok : addsSucceed E RvCnameChainConstruct pairs) :
    RvCnameChainFindNxdomain.name (chainAfter E pairs) = specTerminal pairs := by
  have hE : chainAfter E pairs = chainAfter (withWorkingAllocator E) pairs :=
    chainAfter_ok E pairs _ hok
  rw [hE]
  obtain ⟨hrep, hg⟩ := chainAfter_rep (withWorkingAllocator E) (fun _ => rfl) pairs hgood
  obtain ⟨hN, hF, -, -⟩ := entriesAfter_inv pairs
  have hP : ∀ m n : Name, lowerName m = lowerName n →
      (!isOwnerIn pairs m) = (!isOwnerIn pairs n) := by
    intro m n h
    unfold isOwnerIn
    rw [h]
  obtain ⟨⟨rest, hbuf⟩, hsz, -, -, -⟩ := hrep
  unfold RvCnameChainFindNxdomain.name RvCnameChainFindNxdomain
  rw [hsz, RvCnameChainFindNxdomain_loop_eq _ (entriesAfter pairs) 0 rest
    (by rw [List.drop_zero, hbuf]) hg, find_flag_names (isOwnerIn pairs) _ hF, hN,
    find_foldl_addIfAbsent _ hP]
  rfl

theorem specTerminal_some (pairs : List (Name × Name)) (n : Name)
    (h : specTerminal pairs = some n) : n ∈ namesOf pairs ∧ isOwnerIn pairs n = false := by
  unfold specTerminal at h
  exact ⟨List.mem_of_find?_eq_some h, by simpa using List.find?_some h⟩

theorem specTerminal_none (pairs : List (Name × Name)) :
    specTerminal pairs = none ↔ ∀ n ∈ namesOf pairs, isOwnerIn pairs n = true := by
  unfold specTerminal
  rw [List.find?_eq_none]
  constructor
  · intro h n hn; simpa using h n hn
  · intro h n hn; simp [h n hn]

theorem isOwnerIn_of_mem (pairs : List (Name × Name)) (p : Name × Name) (hp : p ∈ pairs) :
    isOwnerIn pairs p.1 = true := by
  unfold isOwnerIn
  exact List.any_eq_true.2 ⟨p, hp, by simp⟩

/-- C11: for CNAME pairs with names of at most 255 octets whose adds to an empty chain all
succeed, `RvCnameChainFindNxdomain` returns some name if and only if some name occurs as an
alias and never as an owner (names compared case-insensitively), and the name it returns
occurs as an alias and never as an owner. -/
theorem RvCnameChainFindNxdomain_some_iff (E : Env) (pairs : List (Name × Name))
    (hgood : ∀ p ∈ pairs, GoodName p.1 ∧ GoodName p.2)
    (hok : addsSucceed E RvCnameChainConstruct pairs) :
    ((∃ n, RvCnameChainFindNxdomain.name (chainAfter E pairs) = some n) ↔
      ∃ p ∈ pairs, isOwnerIn pairs p.2 = false) ∧
    (∀ n, RvCnameChainFindNxdomain.name (chainAfter E pairs) = some n →
      (∃ p ∈ pairs, p.2 = n) ∧ isOwnerIn pairs n = false) := by
  rw [chainAfter_findNxdomain E pairs hgood hok]
  have key : ∀ n, specTerminal pairs = some n → (∃ p ∈ pairs, p.2 = n) ∧
      isOwnerIn pairs n = false := by
    intro n hn
    obtain ⟨h1, h2⟩ := specTerminal_some pairs n hn
    refine ⟨?_, h2⟩
    obtain ⟨p, hp, hnp⟩ := mem_namesOf n pairs h1
    rcases hnp with hnp | hnp
    · rw [hnp, isOwnerIn_of_mem pairs p hp] at h2
      cases h2
    · exact ⟨p, hp, hnp.symm⟩
  refine ⟨⟨?_, ?_⟩, key⟩
  · rintro ⟨n, hn⟩
    obtain ⟨⟨p, hp, hpn⟩, h2⟩ := key n hn
    exact ⟨p, hp, by rw [hpn]; exact h2⟩
  · rintro ⟨p, hp, hno⟩
    cases hs : specTerminal pairs with
    | some n => exact ⟨n, rfl⟩
    | none =>
      have := (specTerminal_none pairs).1 hs p.2 (alias_mem_namesOf p pairs hp)
      rw [hno] at this
      cases this

theorem chainPairs_mem : ∀ (l : List Name), ∀ p ∈ chainPairs l, p.1 ∈ l.dropLast ∧ p.2 ∈ l
  | [], p, h => by simp [chainPairs] at h
  | [_], p, h => by simp [chainPairs] at h
  | a :: b :: rest, p, h => by
    simp only [chainPairs, List.mem_cons] at h
    rcases h with h | h
    · subst h
      simp [List.dropLast]
    · obtain ⟨h1, h2⟩ := chainPairs_mem (b :: rest) p h
      exact ⟨by simp only [List.dropLast]; exact List.mem_cons_of_mem _ h1,
        List.mem_cons_of_mem _ h2⟩

theorem chainPairs_owner : ∀ (l : List Name), ∀ x ∈ l.dropLast, ∃ p ∈ chainPairs l, p.1 = x
  | [], x, h => by simp at h
  | [_], x, h => by simp at h
  | a :: b :: rest, x, h => by
    simp only [List.dropLast, List.mem_cons] at h
    rcases h with h | h
    · exact ⟨(a, b), by simp [chainPairs], h.symm⟩
    · obtain ⟨p, hp, hx⟩ := chainPairs_owner (b :: rest) x h
      exact ⟨p, by simp only [chainPairs]; exact List.mem_cons_of_mem _ hp, hx⟩

theorem chainPairs_last : ∀ (a b : Name) (rest : List Name),
    ∃ p ∈ chainPairs (a :: b :: rest), some p.2 = (a :: b :: rest).getLast?
  | a, b, [] => ⟨(a, b), by simp [chainPairs], by simp⟩
  | a, b, c :: rest => by
    obtain ⟨p, hp, hl⟩ := chainPairs_last b c rest
    refine ⟨p, by simp only [chainPairs] at hp ⊢; exact List.mem_cons_of_mem _ hp, ?_⟩
    rw [hl]
    simp [List.getLast?_cons_cons]

theorem isOwnerIn_perm (ps qs : List (Name × Name)) (h : ps.Perm qs) (n : Name) :
    isOwnerIn ps n = isOwnerIn qs n := by
  unfold isOwnerIn
  rw [Bool.eq_iff_iff, List.any_eq_true, List.any_eq_true]
  constructor
  · rintro ⟨p, hp, e⟩; exact ⟨p, h.mem_iff.1 hp, e⟩
  · rintro ⟨p, hp, e⟩; exact ⟨p, h.mem_iff.2 hp, e⟩

/-- C12 (counterexample): the names `a` and `A` are distinct, yet after the pair `a -> A`
has been added to an empty chain `RvCnameChainFindNxdomain` returns nothing, not `A`. -/
theorem RvCnameChainFindNxdomain_case_variants :
    ([97] : Name) ≠ [65] ∧
    chainPairs [[97], [65]] = [([97], [65])] ∧
    (RvCnameChainAdd (sampleEnv cacheOk) RvCnameChainConstruct [97] [65]).1 = RV_OK ∧
    RvCnameChainFindNxdomain.name (chainAfter (sampleEnv cacheOk) (chainPairs [[97], [65]])) =
      none := by
  decide

/-- C12 (amended): for names `n0, ..., nk` (`k >= 1`) of at most 255 octets that are pairwise
distinct when compared case-insensitively, after the pairs `(n0 -> n1), ..., (n(k-1) -> nk)`
have been added successfully to an empty chain in any order, `RvCnameChainFindNxdomain`
returns `nk`; with the closing pair `(nk -> n0)` added as well, it returns nothing. -/
theorem RvCnameChainFindNxdomain_chain_end (E : Env) (n0 n1 : Name) (rest : List Name)
    (last : Name) (hlast : (n0 :: n1 :: rest).getLast? = some last)
    (hgood : ∀ n ∈ n0 :: n1 :: rest, GoodName n)
    (hdist : (n0 :: n1 :: rest).Pairwise (fun m n => lowerName m ≠ lowerName n))
    (ps : List (Name × Name)) (hok : addsSucceed E RvCnameChainConstruct ps) :
    (ps.Perm (chainPairs (n0 :: n1 :: rest)) →
      RvCnameChainFindNxdomain.name (chainAfter E ps) = some last) ∧
    (ps.Perm (chainPairs (n0 :: n1 :: rest) ++ [(last, n0)]) →
      RvCnameChainFindNxdomain.name (chainAfter E ps) = none) := by
  obtain ⟨l, hl⟩ : ∃ l, l = n0 :: n1 :: rest := ⟨_, rfl⟩
  rw [← hl] at hlast hgood hdist ⊢
  have hne : l ≠ [] := by rw [hl]; simp
  have hlast2 : l.getLast hne = last := by
    rw [List.getLast?_eq_getLast l hne] at hlast
    exact Option.some.inj hlast
  have hsplit : l.dropLast ++ [last] = l := by
    rw [← hlast2]; exact List.dropLast_append_getLast hne
  have hlastmem : last ∈ l := by rw [← hsplit]; simp
  have hd2 : ∀ x ∈ l.dropLast, lowerName x ≠ lowerName last := by
    rw [← hsplit] at hdist
    intro x hx
    exact (List.pairwise_append.1 hdist).2.2 x hx last (by simp)
  constructor
  · intro hperm
    have hg : ∀ p ∈ ps, GoodName p.1 ∧ GoodName p.2 := by
      intro p hp
      obtain ⟨h1, h2⟩ := chainPairs_mem l p (hperm.mem_iff.1 hp)
      exact ⟨hgood _ (List.mem_of_mem_dropLast h1), hgood _ h2⟩
    rw [chainAfter_findNxdomain E ps hg hok]
    cases hs : specTerminal ps with
    | none =>
      exfalso
      obtain ⟨p, hp, hpl⟩ := chainPairs_last n0 n1 rest
      rw [← hl] at hp hpl
      rw [hlast] at hpl
      have hpl2 : p.2 = last := Option.some.inj hpl
      have := (specTerminal_none ps).1 hs p.2 (alias_mem_namesOf p ps (hperm.mem_iff.2 hp))
      unfold isOwnerIn at this
      obtain ⟨q, hq, e⟩ := List.any_eq_true.1 this
      rw [hpl2] at e
      exact hd2 q.1 (chainPairs_mem l q (hperm.mem_iff.1 hq)).1 (by simpa using e)
    | some n =>
      obtain ⟨h1, h2⟩ := specTerminal_some ps n hs
      obtain ⟨p, hp, hnp⟩ := mem_namesOf n ps h1
      have hnl : n ∈ l := by
        obtain ⟨a1, a2⟩ := chainPairs_mem l p (hperm.mem_iff.1 hp)
        rcases hnp with e | e
        · rw [e]; exact List.mem_of_mem_dropLast a1
        · rw [e]; exact a2
      rw [← hsplit, List.mem_append] at hnl
      rcases hnl with h | h
      · exfalso
        obtain ⟨q, hq, e⟩ := chainPairs_owner l n h
        have := isOwnerIn_of_mem ps q (hperm.mem_iff.2 hq)
        rw [e, h2] at this
        cases this
      · rw [List.mem_singleton.1 h]
  · intro hperm
    have hn0 : n0 ∈ l := by rw [hl]; simp
    have hmem : ∀ p ∈ ps, (p.1 ∈ l ∧ p.2 ∈ l) := by
      intro p hp
      have := hperm.mem_iff.1 hp
      rw [List.mem_append] at this
      rcases this with h | h
      · obtain ⟨h1, h2⟩ := chainPairs_mem l p h
        exact ⟨List.mem_of_mem_dropLast h1, h2⟩
      · rw [List.mem_singleton.1 h]
        exact ⟨hlastmem, hn0⟩
    have hg : ∀ p ∈ ps, GoodName p.1 ∧ GoodName p.2 :=
      fun p hp => ⟨hgood _ (hmem p hp).1, hgood _ (hmem p hp).2⟩
    rw [chainAfter_findNxdomain E ps hg hok, specTerminal_none]
    intro n hn
    obtain ⟨p, hp, hnp⟩ := mem_namesOf n ps hn
    have hnl : n ∈ l := by
      rcases hnp with e | e
      · rw [e]; exact (hmem p hp).1
      · rw [e]; exact (hmem p hp).2
    rw [← hsplit, List.mem_append] at hnl
    rcases hnl with h | h
    · obtain ⟨q, hq, e⟩ := chainPairs_owner l n h
      have := isOwnerIn_of_mem ps q (hperm.mem_iff.2 (List.mem_append_left _ hq))
      rwa [e] at this
    · rw [List.mem_singleton.1 h]
      exact isOwnerIn_of_mem ps (last, n0) (hperm.mem_iff.2 (by simp))

/-- C12 (witness): the pairs `b -> c`, `a -> b` yield `c`; with `c -> a` added, nothing. -/
theorem RvCnameChainFindNxdomain_chain_end_witness :
    (RvCnameChainFindNxdomain.name (chainAfter (sampleEnv cacheOk)
        [([98], [99]), ([97], [98])]) = some [99]) ∧
    (RvCnameChainFindNxdomain.name (chainAfter (sampleEnv cacheOk)
        [([98], [99]), ([99], [97]), ([97], [98])]) = none) :=
  ⟨(RvCnameChainFindNxdomain_chain_end (sampleEnv cacheOk) [97] [98] [[99]] [99] rfl
      (by decide) (by decide) [([98], [99]), ([97], [98])]
      ⟨by decide, by decide, trivial⟩).1 (List.Perm.swap _ _ _),
   (RvCnameChainFindNxdomain_chain_end (sampleEnv cacheOk) [97] [98] [[99]] [99] rfl
      (by decide) (by decide) [([98], [99]), ([99], [97]), ([97], [98])]
      ⟨by decide, by decide, by decide, trivial⟩).2
      (by decide)⟩

theorem markOwner_getElem? (o : Name) :
    ∀ (es : List ChainEntry) (i : Nat) (e : ChainEntry), es[i]? = some e →
      ∃ f, (markOwner o es)[i]? = some (f, e.2) ∧ (e.1 = true → f = true) ∧
        (f ≠ e.1 → lowerName e.2 = lowerName o) ∧
        (lowerName e.2 = lowerName o →
          (∀ j e', j < i → es[j]? = some e' → lowerName e'.2 ≠ lowerName o) → f = true) := by
  intro es
  induction es with
  | nil => intro i e h; simp at h
  | cons x es ih =>
    intro i e h
    by_cases hx : lowerName x.2 = lowerName o
    · simp only [markOwner, if_pos hx]
      cases i with
      | zero =>
        simp only [List.getElem?_cons_zero, Option.some.injEq] at h
        subst h
        exact ⟨true, by simp, fun _ => rfl, fun _ => hx, fun _ _ => rfl⟩
      | succ i =>
        simp only [List.getElem?_cons_succ] at h ⊢
        refine ⟨e.1, by rw [h], fun h => h, fun h => absurd rfl h, fun _ hall => ?_⟩
        exact absurd hx (hall 0 x (Nat.succ_pos _) (by simp))
    · simp only [markOwner, if_neg hx]
      cases i with
      | zero =>
        simp only [List.getElem?_cons_zero, Option.some.injEq] at h
        subst h
        exact ⟨x.1, by simp, fun h => h, fun h => absurd rfl h, fun h _ => absurd h hx⟩
      | succ i =>
        simp only [List.getElem?_cons_succ] at h ⊢
        obtain ⟨f, h1, h2, h3, h4⟩ := ih i e h
        refine ⟨f, h1, h2, h3, fun hm hall => h4 hm ?_⟩
        intro j e' hj hje
        exact hall (j + 1) e' (Nat.succ_lt_succ hj) (by simpa using hje)

theorem markOwner_of_not_hasName (o : Name) :
    ∀ es : List ChainEntry, hasName es o = false → markOwner o es = es := by
  intro es
  induction es with
  | nil => intro _; rfl
  | cons x es ih =>
    intro h
    unfold hasName at h ih
    simp only [List.any_cons, Bool.or_eq_false_iff, decide_eq_false_iff_not] at h
    simp only [markOwner, if_neg h.1]
    rw [ih h.2]

theorem hasName_iff (es : List ChainEntry) (n : Name) :
    hasName es n = true ↔ ∃ e ∈ es, lowerName e.2 = lowerName n := by
  unfold hasName
  rw [List.any_eq_true]
  constructor
  · rintro ⟨e, he, h⟩; exact ⟨e, he, by simpa using h⟩
  · rintro ⟨e, he, h⟩; exact ⟨e, he, by simpa using h⟩

/-- The entries after `addPair`: the old entries with the owner marked, then the owner if it
had no entry, then the alias if it had no entry. -/
theorem addPair_eq (es : List ChainEntry) (owner aliasName : Name) :
    addPair es owner aliasName =
      markOwner owner es ++ ((if hasName es owner then [] else [(true, owner)]) ++
        (if hasName es aliasName = true ∨ lowerName owner = lowerName aliasName then []
          else [(false, aliasName)])) := by
  unfold addPair
  simp only []
  by_cases ho : hasName es owner = true
  · simp only [ho, if_true, List.nil_append]
    rw [hasName_markOwner]
    by_cases ha : hasName es aliasName = true
    · simp [ha]
    · have hne : lowerName owner ≠ lowerName aliasName := by
        intro e
        apply ha
        rw [hasName_iff] at ho ⊢
        obtain ⟨x, hx, hxe⟩ := ho
        exact ⟨x, hx, hxe.trans e⟩
      simp [ha, hne]
  · have ho2 : hasName es owner = false := by simpa using ho
    simp only [ho2, Bool.false_eq_true, if_false]
    rw [markOwner_of_not_hasName owner es ho2, hasName_append]
    by_cases ha : hasName es aliasName = true
    · simp [ha]
    · have ha2 : (es.any fun e => decide (lowerName e.2 = lowerName aliasName)) = false := by
        unfold hasName at ha
        simpa using ha
      by_cases hne : lowerName owner = lowerName aliasName
      · simp [ha2, hne, hasName]
      · simp [ha2, hne, hasName]

theorem markOwner_flagged (o : Name) :
    ∀ es : List ChainEntry, hasName es o = true →
      ∃ e ∈ markOwner o es, lowerName e.2 = lowerName o ∧ e.1 = true := by
  intro es
  induction es with
  | nil => intro h; simp [hasName] at h
  | cons x es ih =>
    intro h
    by_cases hx : lowerName x.2 = lowerName o
    · simp only [markOwner, if_pos hx]
      exact ⟨(true, x.2), List.mem_cons_self _ _, hx, rfl⟩
    · simp only [markOwner, if_neg hx]
      have h2 : hasName es o = true := by
        unfold hasName at h ⊢
        simpa [hx] using h
      obtain ⟨e, he, h3⟩ := ih h2
      exact ⟨e, List.mem_cons_of_mem _ he, h3⟩

/-- C13: for a chain holding entries `es` and names `owner`, `aliasName` of at most 255
octets, a successful `RvCnameChainAdd` leaves a chain whose entries `es2` are: the old entries
in place with their names, no flag reset from true to false, no flag changed but that of an
entry holding `owner`, the first entry holding `owner` (compared case-insensitively) flagged;
then `owner` flagged as owner if no entry held it; then `aliasName` flagged non-owner if no
entry held it.  Some entry for `owner` is flagged in any case. -/
theorem RvCnameChainAdd_spec (E : Env) (c : RvCnameChain) (es : List ChainEntry)
    (owner aliasName : Name) (hrep : ChainRep c es) (hg : ∀ e ∈ es, GoodName e.2)
    (ho : GoodName owner) (ha : GoodName aliasName)
    (hok : (RvCnameChainAdd E c owner aliasName).1 = RV_OK) :
    ∃ es2, ChainRep (RvCnameChainAdd E c owner aliasName).2 es2 ∧
      (∃ e ∈ es2, lowerName e.2 = lowerName owner ∧ e.1 = true) ∧
      (∀ (i : Nat) (e : ChainEntry), es[i]? = some e →
        ∃ f, es2[i]? = some (f, e.2) ∧ (e.1 = true → f = true) ∧
          (f ≠ e.1 → lowerName e.2 = lowerName owner) ∧
          (lowerName e.2 = lowerName owner →
            (∀ j e', j < i → es[j]? = some e' → lowerName e'.2 ≠ lowerName owner) →
            f = true)) ∧
      es2.drop es.length =
        (if hasName es owner then [] else [(true, owner)]) ++
          (if hasName es aliasName = true ∨ lowerName owner = lowerName aliasName then []
            else [(false, aliasName)]) := by
  rw [RvCnameChainAdd_ok E c owner aliasName hok]
  obtain ⟨-, h2, -⟩ := RvCnameChainAdd_rep (withWorkingAllocator E) (fun _ => rfl) c es owner
    aliasName hrep hg ho ha
  refine ⟨addPair es owner aliasName, h2, ?_, ?_, ?_⟩
  · rw [addPair_eq]
    by_cases hh : hasName es owner = true
    · obtain ⟨e, he, h3⟩ := markOwner_flagged owner es hh
      exact ⟨e, List.mem_append_left _ he, h3⟩
    · exact ⟨(true, owner), by simp [hh], rfl, rfl⟩
  · intro i e hi
    obtain ⟨f, h1, h3⟩ := markOwner_getElem? owner es i e hi
    refine ⟨f, ?_, h3⟩
    rw [addPair_eq, List.getElem?_append_left, h1]
    rw [markOwner_length]
    exact (List.getElem?_eq_some_iff.1 hi).1
  · rw [addPair_eq, ← markOwner_length owner es, List.drop_left]

/-- C13 (witness): adding `b -> c` to the chain that holds `a -> b`. -/
theorem RvCnameChainAdd_spec_witness :
    ∃ es2, ChainRep (RvCnameChainAdd (sampleEnv cacheOk)
        (chainAfter (sampleEnv cacheOk) [([97], [98])]) [98] [99]).2 es2 ∧
      (∃ e ∈ es2, lowerName e.2 = lowerName [98] ∧ e.1 = true) ∧
      (∀ (i : Nat) (e : ChainEntry), (entriesAfter [([97], [98])])[i]? = some e →
        ∃ f, es2[i]? = some (f, e.2) ∧ (e.1 = true → f = true) ∧
          (f ≠ e.1 → lowerName e.2 = lowerName [98]) ∧
          (lowerName e.2 = lowerName [98] →
            (∀ j e', j < i → (entriesAfter [([97], [98])])[j]? = some e' →
              lowerName e'.2 ≠ lowerName [98]) →
            f = true)) ∧
      es2.drop (entriesAfter [([97], [98])]).length =
        (if hasName (entriesAfter [([97], [98])]) [98] then [] else [(true, [98])]) ++
          (if hasName (entriesAfter [([97], [98])]) [99] = true ∨
              lowerName [98] = lowerName [99] then []
            else [(false, [99])]) :=
  RvCnameChainAdd_spec (sampleEnv cacheOk) (chainAfter (sampleEnv cacheOk) [([97], [98])])
    (entriesAfter [([97], [98])]) [98] [99]
    (chainAfter_rep (sampleEnv cacheOk) (fun _ => rfl) [([97], [98])] (by decide)).1
    (chainAfter_rep (sampleEnv cacheOk) (fun _ => rfl) [([97], [98])] (by decide)).2
    (by decide) (by decide) (by decide)

theorem RvCnameChainFindNxdomain_loop_full (buf : List Nat) :
    ∀ (es : List ChainEntry) (cur : Nat) (rest : List Nat),
      buf.drop cur = chainBytes es ++ rest → (∀ e ∈ es, GoodName e.2) →
      (RvCnameChainFindNxdomain.loop buf es.length cur).map
          (fun r => (cString buf r.1, r.2)) =
        (es.find? (fun e => !e.1)).map (fun e => (e.2, e.2.length)) := by
  intro es
  induction es with
  | nil => intro cur rest _ _; rfl
  | cons e es ih =>
    intro cur rest h hg
    have hge := hg e (List.mem_cons_self _ _)
    simp only [chainBytes, List.append_assoc] at h
    obtain ⟨a1, a2, a3, a4⟩ := entry_at buf cur e _ h hge.1
    simp only [List.length_cons, RvCnameChainFindNxdomain.loop, a1, a2, List.find?_cons]
    cases hf : e.1
    · simp only [Bool.false_eq_true, if_false, if_true, Option.map_some', Bool.not_false]
      rw [cString_name buf (cur + 2) e.2 _ a3 hge.2]
    · simp only [if_true, Bool.not_true]
      rw [if_neg (by decide)]
      exact ih _ rest a4 (fun x hx => hg x (List.mem_cons_of_mem _ hx))

/-- C14: for a chain holding entries `es` (names of at most 255 octets),
`RvCnameChainFindNxdomain` returns the name and the length of the first entry, in insertion
order, whose owner flag is false; it returns nothing exactly when every entry is flagged
owner, as for the empty chain. -/
theorem RvCnameChainFindNxdomain_spec (c : RvCnameChain) (es : List ChainEntry)
    (hrep : ChainRep c es) (hg : ∀ e ∈ es, GoodName e.2) :
    (RvCnameChainFindNxdomain c).map (fun r => (cString c.buf r.1, r.2)) =
        (es.find? (fun e => !e.1)).map (fun e => (e.2, e.2.length)) ∧
    (RvCnameChainFindNxdomain c = none ↔ ∀ e ∈ es, e.1 = true) ∧
    RvCnameChainFindNxdomain RvCnameChainConstruct = none := by
  obtain ⟨⟨rest, hbuf⟩, hsz, -, -, -⟩ := hrep
  have hmain : (RvCnameChainFindNxdomain c).map (fun r => (cString c.buf r.1, r.2)) =
      (es.find? (fun e => !e.1)).map (fun e => (e.2, e.2.length)) := by
    unfold RvCnameChainFindNxdomain
    rw [hsz]
    exact RvCnameChainFindNxdomain_loop_full _ es 0 rest (by rw [List.drop_zero, hbuf]) hg
  refine ⟨hmain, ?_, rfl⟩
  have h1 : RvCnameChainFindNxdomain c = none ↔ es.find? (fun e => !e.1) = none := by
    rw [← Option.map_eq_none', hmain, Option.map_eq_none']
  rw [h1, List.find?_eq_none]
  constructor
  · intro h e he; simpa using h e he
  · intro h e he; simp [h e he]

/-- C14 (witness): in the chain that holds `a -> b`, `b -> c` the first unflagged entry is
`c`, of length 1. -/
theorem RvCnameChainFindNxdomain_spec_witness :
    ((RvCnameChainFindNxdomain (chainAfter (sampleEnv cacheOk)
          [([97], [98]), ([98], [99])])).map
        (fun r => (cString (chainAfter (sampleEnv cacheOk)
          [([97], [98]), ([98], [99])]).buf r.1, r.2)) =
        ((entriesAfter [([97], [98]), ([98], [99])]).find? (fun e => !e.1)).map
          (fun e => (e.2, e.2.length)) ∧
      (RvCnameChainFindNxdomain (chainAfter (sampleEnv cacheOk)
          [([97], [98]), ([98], [99])]) = none ↔
        ∀ e ∈ entriesAfter [([97], [98]), ([98], [99])], e.1 = true) ∧
      RvCnameChainFindNxdomain RvCnameChainConstruct = none) ∧
    ((entriesAfter [([97], [98]), ([98], [99])]).find? (fun e => !e.1)).map
        (fun e => (e.2, e.2.length)) = some ([99], 1) :=
  ⟨RvCnameChainFindNxdomain_spec (chainAfter (sampleEnv cacheOk) [([97], [98]), ([98], [99])])
      (entriesAfter [([97], [98]), ([98], [99])])
      (chainAfter_rep (sampleEnv cacheOk) (fun _ => rfl) [([97], [98]), ([98], [99])]
        (by decide)).1
      (chainAfter_rep (sampleEnv cacheOk) (fun _ => rfl) [([97], [98]), ([98], [99])]
        (by decide)).2,
    by decide⟩

/-- C11 (witness): after `a -> b`, `b -> c` the name `c` is returned. -/
theorem RvCnameChainFindNxdomain_some_iff_witness :
    ((∃ n, RvCnameChainFindNxdomain.name (chainAfter (sampleEnv cacheOk)
          [([97], [98]), ([98], [99])]) = some n) ↔
      ∃ p ∈ [(([97] : Name), ([98] : Name)), ([98], [99])],
        isOwnerIn [([97], [98]), ([98], [99])] p.2 = false) ∧
    (∀ n, RvCnameChainFindNxdomain.name (chainAfter (sampleEnv cacheOk)
          [([97], [98]), ([98], [99])]) = some n →
      (∃ p ∈ [(([97] : Name), ([98] : Name)), ([98], [99])], p.2 = n) ∧
        isOwnerIn [([97], [98]), ([98], [99])] n = false) :=
  RvCnameChainFindNxdomain_some_iff (sampleEnv cacheOk) [([97], [98]), ([98], [99])]
    (by decide) ⟨by decide, by decide, trivial⟩

theorem shift_bit (i : Nat) : ((2 ^ i % 2 ^ 32) <<< 1) % 2 ^ 32 = 2 ^ (i + 1) % 2 ^ 32 := by
  rw [Nat.shiftLeft_eq, pow_one, show 2 ^ (i + 1) = 2 ^ i * 2 from pow_succ 2 i]
  generalize 2 ^ i = x
  omega

theorem RvDnsSearchGetNextDomain_loop_eq (S : SearchEnv) (engine : RvDnsSearchEngine)
    (nameLen dm : Nat) :
    ∀ (k i : Nat), RvDnsSearchGetNextDomain.loop S engine nameLen dm k i (2 ^ i % 2 ^ 32) =
      ((List.range' i k).find? (loopSelects S engine nameLen dm)).getD (i + k) := by
  intro k
  induction k with
  | zero => intro i; rfl
  | succ k ih =>
    intro i
    have e : i + 1 + k = i + (k + 1) := by omega
    rw [List.range'_succ, List.find?_cons]
    unfold RvDnsSearchGetNextDomain.loop
    by_cases h1 : dm &&& (2 ^ i % 2 ^ 32) = 0
    · have hs : loopSelects S engine nameLen dm i = false := by
        unfold loopSelects
        rw [h1]
        rfl
      rw [if_pos h1, shift_bit, ih (i + 1), e, hs]
    · rw [if_neg h1]
      by_cases h2 : nameLen + (engine.domains.getD i []).length + 1 ≥ MAX_DOMAIN_SIZE S
      · have hs : loopSelects S engine nameLen dm i = false := by
          unfold loopSelects
          rw [decide_eq_true h2]
          simp
        rw [if_pos h2, shift_bit, ih (i + 1), e, hs]
      · have hs : loopSelects S engine nameLen dm i = true := by
          unfold loopSelects
          rw [decide_eq_false h2, Bool.and_eq_true]
          exact ⟨by simpa using h1, rfl⟩
        rw [if_neg h2, hs]
        rfl

theorem find_congr {α : Type} (p q : α → Bool) :
    ∀ l : List α, (∀ x ∈ l, p x = q x) → l.find? p = l.find? q := by
  intro l
  induction l with
  | nil => intro _; rfl
  | cons a l ih =>
    intro h
    rw [List.find?_cons, List.find?_cons, h a (List.mem_cons_self _ _),
      ih (fun x hx => h x (List.mem_cons_of_mem _ hx))]

theorem find_range' (p : Nat → Bool) :
    ∀ (k s i : Nat), s ≤ i → i < s + k → p i = true → (∀ j, s ≤ j → j < i → p j = false) →
      (List.range' s k).find? p = some i := by
  intro k
  induction k with
  | zero => intro s i h1 h2; omega
  | succ k ih =>
    intro s i h1 h2 hp hmin
    rw [List.range'_succ, List.find?_cons]
    by_cases hs : s = i
    · subst hs; rw [hp]
    · rw [hmin s (le_refl _) (by omega)]
      exact ih (s + 1) i (by omega) (by omega) hp (fun j hj hji => hmin j (by omega) hji)

theorem find_range'_none (p : Nat → Bool) (k s : Nat) :
    (List.range' s k).find? p = none ↔ ∀ j, s ≤ j → j < s + k → p j = false := by
  rw [List.find?_eq_none]
  constructor
  · intro h j h1 h2
    have := h j (List.mem_range'_1.2 ⟨h1, h2⟩)
    simpa using this
  · intro h j hj
    obtain ⟨h1, h2⟩ := List.mem_range'_1.1 hj
    simp [h j h1 h2]

theorem find_range'_some (p : Nat → Bool) (k s i : Nat)
    (h : (List.range' s k).find? p = some i) : s ≤ i ∧ i < s + k ∧ p i = true := by
  have h1 := List.mem_range'_1.1 (List.mem_of_find?_eq_some h)
  exact ⟨h1.1, h1.2, List.find?_some h⟩

/-- Below 31 the tests of the loop say that the suffix is selected. -/
theorem loopSelects_eq (S : SearchEnv) (engine : RvDnsSearchEngine) (nameLen mask j : Nat)
    (hS : S.MAXCDNAME = 255) (hj : j < 32) :
    loopSelects S engine nameLen (mask >>> 1) j = suffixSelected engine nameLen mask j := by
  unfold loopSelects suffixSelected MAX_DOMAIN_SIZE
  have h32 : 2 ^ j % 2 ^ 32 = 2 ^ j := Nat.mod_eq_of_lt (Nat.pow_lt_pow_right (by decide) hj)
  rw [h32, Nat.and_two_pow, Nat.testBit_shiftRight, hS, Nat.add_comm 1 j]
  congr 1
  · cases mask.testBit (j + 1)
    · simp
    · simp only [Bool.toNat_true, one_mul]
      simp
  · rw [Bool.eq_iff_iff]
    simp only [Bool.not_eq_true', decide_eq_false_iff_not, decide_eq_true_eq]
    omega

theorem RvDnsSearchSetMask_fields (E : Env) (q : rvSearchQuery) (mask : Nat) :
    (RvDnsSearchSetMask E q mask).next_domain = q.next_domain ∧
    (RvDnsSearchSetMask E q mask).domainMask = mask >>> 1 ∧
    (RvDnsSearchSetMask E q mask).tryAsIs = mask.testBit 0 ∧
    (RvDnsSearchSetMask E q mask).dnsName = q.dnsName ∧
    (RvDnsSearchSetMask E q mask).context = q.context ∧
    (RvDnsSearchSetMask E q mask).queryType = q.queryType ∧
    (RvDnsSearchSetMask E q mask).trying_as_is = q.trying_as_is ∧
    (RvDnsSearchSetMask E q mask).queryBuffer = q.queryBuffer ∧
    (RvDnsSearchSetMask E q mask).qbufLen = q.qbufLen ∧
    (RvDnsSearchSetMask E q mask).status_as_is =
      (if mask.testBit 0 then q.status_as_is else E.ARES_ENOTFOUND) := by
  have hb : ((mask &&& 1) != 0) = mask.testBit 0 := by
    rw [Nat.testBit_zero, Nat.and_one_is_mod]
    rcases Nat.mod_two_eq_zero_or_one mask with h | h <;> simp [h]
  unfold RvDnsSearchSetMask
  simp only [hb]
  cases mask.testBit 0 <;> simp

/-- What `RvDnsSearchGetNextDomain` returns, when the mask of the search is `mask`: the
first selected suffix from `next_domain` on. -/
theorem RvDnsSearchGetNextDomain_eq (S : SearchEnv) (engine : RvDnsSearchEngine)
    (nameLen mask : Nat) (q : rvSearchQuery) (hS : S.MAXCDNAME = 255)
    (hn : engine.ndomains ≤ 31) (hm : q.domainMask = mask >>> 1) :
    RvDnsSearchGetNextDomain S engine nameLen q =
      match (List.range' q.next_domain (engine.ndomains - q.next_domain)).find?
          (suffixSelected engine nameLen mask) with
      | some i => (some (engine.domains.getD i []), { q with next_domain := i + 1 })
      | none =>
        (none, { q with next_domain := q.next_domain + (engine.ndomains - q.next_domain) + 1 }) := by
  have hcongr : (List.range' q.next_domain (engine.ndomains - q.next_domain)).find?
      (loopSelects S engine nameLen (mask >>> 1)) =
      (List.range' q.next_domain (engine.ndomains - q.next_domain)).find?
        (suffixSelected engine nameLen mask) := by
    apply find_congr
    intro j hj
    obtain ⟨h1, h2⟩ := List.mem_range'_1.1 hj
    exact loopSelects_eq S engine nameLen mask j hS (by omega)
  unfold RvDnsSearchGetNextDomain
  simp only []
  rw [Nat.one_shiftLeft, hm, RvDnsSearchGetNextDomain_loop_eq, hcongr]
  cases hf : (List.range' q.next_domain (engine.ndomains - q.next_domain)).find?
      (suffixSelected engine nameLen mask) with
  | none =>
    simp only [Option.getD_none]
    rw [if_pos (by omega)]
  | some i =>
    obtain ⟨h1, h2, -⟩ := find_range'_some _ _ _ _ hf
    simp only [Option.getD_some]
    rw [if_neg (by omega)]

/-- C16: for a search query whose mask was set from the caller's `mask`, with at most 31
suffixes and `MAXCDNAME = 255`, `RvDnsSearchGetNextDomain` returns the suffix of least index
`i >= next_domain` such that bit `i + 1` of `mask` is set and name, dot and suffix take at
most 255 octets, and sets `next_domain` to `i + 1`; it returns nothing exactly when there is
no such index below `ndomains`. -/
theorem RvDnsSearchGetNextDomain_spec (E : Env) (S : SearchEnv) (engine : RvDnsSearchEngine)
    (nameLen mask : Nat) (q0 : rvSearchQuery) (hS : S.MAXCDNAME = 255)
    (hn : engine.ndomains ≤ 31) :
    (∀ i, q0.next_domain ≤ i → i < engine.ndomains →
      suffixSelected engine nameLen mask i = true →
      (∀ j, q0.next_domain ≤ j → j < i → suffixSelected engine nameLen mask j = false) →
      RvDnsSearchGetNextDomain S engine nameLen (RvDnsSearchSetMask E q0 mask) =
        (some (engine.domains.getD i []),
          { RvDnsSearchSetMask E q0 mask with next_domain := i + 1 })) ∧
    ((RvDnsSearchGetNextDomain S engine nameLen (RvDnsSearchSetMask E q0 mask)).1 = none ↔
      ∀ i, q0.next_domain ≤ i → i < engine.ndomains →
        suffixSelected engine nameLen mask i = false) := by
  obtain ⟨f1, f2, -⟩ := RvDnsSearchSetMask_fields E q0 mask
  have heq := RvDnsSearchGetNextDomain_eq S engine nameLen mask (RvDnsSearchSetMask E q0 mask)
    hS hn f2
  rw [f1] at heq
  constructor
  · intro i h1 h2 hsel hmin
    rw [heq, find_range' _ _ _ i h1 (by omega) hsel hmin]
  · rw [heq]
    cases hf : (List.range' q0.next_domain (engine.ndomains - q0.next_domain)).find?
        (suffixSelected engine nameLen mask) with
    | none =>
      simp only [true_iff]
      intro i h1 h2
      exact (find_range'_none _ _ _).1 hf i h1 (by omega)
    | some i =>
      obtain ⟨h1, h2, h3⟩ := find_range'_some _ _ _ _ hf
      constructor
      · intro h; cases h
      · intro h
        have := h i h1 (by omega)
        rw [h3] at this
        cases this

/-- C16 (witness): with the suffixes `corp`, `example.com` and mask 5 (as-is and suffix 1),
the search for `web` gets `example.com` and `next_domain` becomes 2. -/
theorem RvDnsSearchGetNextDomain_spec_witness :
    sampleSearchEnv.MAXCDNAME = 255 ∧ (sampleEngine sampleSuffixes 1).ndomains ≤ 31 ∧
    RvDnsSearchGetNextDomain sampleSearchEnv (sampleEngine sampleSuffixes 1) 3
        (RvDnsSearchSetMask (sampleEnv cacheOk) zeroSearchQuery 5) =
      (some ((sampleEngine sampleSuffixes 1).domains.getD 1 []),
        { RvDnsSearchSetMask (sampleEnv cacheOk) zeroSearchQuery 5 with next_domain := 1 + 1 }) :=
  ⟨rfl, by decide,
    (RvDnsSearchGetNextDomain_spec (sampleEnv cacheOk) sampleSearchEnv
      (sampleEngine sampleSuffixes 1) 3 5 zeroSearchQuery rfl (by decide)).1 1 (by decide)
      (by decide) (by decide)
      (fun j _ hj => by
        have h0 : j = 0 := by omega
        subst h0
        decide)⟩

theorem queriesOf_append (a b : List Event) :
    queriesOf (a ++ b) = queriesOf a ++ queriesOf b := by
  induction a with
  | nil => rfl
  | cons e a ih => cases e <;> simp [queriesOf, ih]

theorem body_queries (E : Env) (cb : RvDnsNewRecordCB) (context queryId : Nat)
    (queryType : Int) (st : CallbackLoop) :
    queriesOf (rvDnsCallback.body E cb context queryId queryType st).trace =
      queriesOf st.trace := by
  unfold rvDnsCallback.body
  simp only []
  split_ifs <;> simp [queriesOf_append, queriesOf]

theorem loop_queries (E : Env) (cb : RvDnsNewRecordCB) (context queryId : Nat)
    (queryType : Int) :
    ∀ (k : Nat) (st : CallbackLoop),
      queriesOf (rvDnsCallback.loop E cb context queryId queryType k st).trace =
        queriesOf st.trace := by
  intro k
  induction k with
  | zero => intro st; rfl
  | succ k ih =>
    intro st
    unfold rvDnsCallback.loop
    simp only []
    split_ifs
    · exact body_queries E cb context queryId queryType st
    · rw [ih, body_queries]

theorem finish_queries (E : Env) (cb : RvDnsNewRecordCB) (context queryId : Nat)
    (queryType : Int) (queryName : Name) (st : CallbackLoop) :
    queriesOf (rvDnsCallback.finish E cb context queryId queryType queryName st) =
      queriesOf st.trace := by
  unfold rvDnsCallback.finish
  simp only []
  split_ifs <;> simp [queriesOf_append, queriesOf]

/-- The response pipeline issues no query. -/
theorem rvDnsCallback_queries (E : Env) (dnsEngine : RvDnsEngine)
    (newRecordCB : Option RvDnsNewRecordCB) (context : Nat) (queryStatus : Int) (queryId : Nat)
    (queryResults : List Nat) (alen : Nat) (queryName0 : Name) (tls : Option Int)
    (trace : List Event) :
    queriesOf (rvDnsCallback E dnsEngine newRecordCB context queryStatus queryId queryResults
      alen queryName0 tls trace).trace = queriesOf trace := by
  unfold rvDnsCallback
  simp only []
  split_ifs
  · cases tls <;> simp [queriesOf_append, queriesOf]
  · split
    · rfl
    · simp only []
      rw [finish_queries, loop_queries]
      simp [rvDnsCallback.init, queriesOf_append, queriesOf]

/-- C18: when the status of a response is none of NODATA, SERVFAIL, NOTFOUND, REFUSED and
END_OF_SERVERS, `rvDnsSearchCallback` does what `rvDnsCallback` does with that response and
the context of the user stored in the search query; the search query is left as it was and
no query is issued. -/
theorem rvDnsSearchCallback_final_answer (E : Env) (S : SearchEnv)
    (dnsEngine : RvDnsSearchEngine) (newRecordCB : Option RvDnsNewRecordCB)
    (squery : rvSearchQuery) (status : Int) (queryId : Nat) (queryResults : List Nat)
    (alen : Nat) (queryName0 : Name) (tls : Option Int) (trace : List Event)
    (h1 : status ≠ E.ARES_ENODATA) (h2 : status ≠ S.ARES_ESERVFAIL)
    (h3 : status ≠ E.ARES_ENOTFOUND) (h4 : status ≠ S.ARES_EREFUSED)
    (h5 : status ≠ S.ARES_ENDOFSERVERS) :
    rvDnsSearchCallback E S dnsEngine newRecordCB squery status queryId queryResults alen
        queryName0 tls trace =
      (squery, rvDnsCallback E dnsEngine.toRvDnsEngine newRecordCB squery.context status
        queryId queryResults alen queryName0 tls trace) ∧
    queriesOf (rvDnsSearchCallback E S dnsEngine newRecordCB squery status queryId queryResults
        alen queryName0 tls trace).2.trace = queriesOf trace := by
  have h : rvDnsSearchCallback E S dnsEngine newRecordCB squery status queryId queryResults
      alen queryName0 tls trace =
      (squery, rvDnsCallback E dnsEngine.toRvDnsEngine newRecordCB squery.context status
        queryId queryResults alen queryName0 tls trace) := by
    unfold rvDnsSearchCallback
    rw [if_pos ⟨h1, h2, h3, h4, h5⟩]
  rw [h]
  exact ⟨rfl, rvDnsCallback_queries _ _ _ _ _ _ _ _ _ _ _⟩

/-- C18 (witness): `web.corp` was answered NOTFOUND and `web.example.com` is answered with
an A record: one A callback and the end of the list with the context 77 of the user, and no
third query. -/
theorem rvDnsSearchCallback_final_answer_witness :
    (rvDnsSearchCallback (sampleEnv cacheOk) sampleSearchEnv (sampleEngine sampleSuffixes 1)
        none searchWebAfterNotFound.1 0 5 msgWebA msgWebA.length [] none
        searchWebAfterNotFound.2.trace =
      (searchWebAfterNotFound.1,
        rvDnsCallback (sampleEnv cacheOk) (sampleEngine sampleSuffixes 1).toRvDnsEngine none
          searchWebAfterNotFound.1.context 0 5 msgWebA msgWebA.length [] none
          searchWebAfterNotFound.2.trace) ∧
      queriesOf (rvDnsSearchCallback (sampleEnv cacheOk) sampleSearchEnv
        (sampleEngine sampleSuffixes 1) none searchWebAfterNotFound.1 0 5 msgWebA
        msgWebA.length [] none searchWebAfterNotFound.2.trace).2.trace =
      queriesOf searchWebAfterNotFound.2.trace) ∧
    queriesOf searchWebAfterNotFound.2.trace =
      [nameWeb ++ [46] ++ [99, 111, 114, 112],
        nameWeb ++ [46] ++ [101, 120, 97, 109, 112, 108, 101, 46, 99, 111, 109]] ∧
    (callbacksOf (rvDnsCallback (sampleEnv cacheOk)
        (sampleEngine sampleSuffixes 1).toRvDnsEngine none 77 0 5 msgWebA msgWebA.length []
        none searchWebAfterNotFound.2.trace).trace).map (fun d => (d.dataType, d.data)) =
      [(1, RvDnsDataUnion.hostAddressIpv4 [198, 51, 100, 9]),
        (37, RvDnsDataUnion.hostAddressIpv4 [198, 51, 100, 9])] ∧
    searchWebAfterNotFound.1.context = 77 :=
  ⟨rvDnsSearchCallback_final_answer (sampleEnv cacheOk) sampleSearchEnv
      (sampleEngine sampleSuffixes 1) none searchWebAfterNotFound.1 0 5 msgWebA msgWebA.length
      [] none searchWebAfterNotFound.2.trace (by decide) (by decide) (by decide) (by decide)
      (by decide),
    by decide, by decide, by decide⟩

theorem rvDnsSearch_init_fields (E : Env) (S : SearchEnv) (dnsEngine : RvDnsSearchEngine)
    (queryType : Int) (dnsName : Name) (mask queryBuffer qbufLen : Nat)
    (squery0 : rvSearchQuery) (context : Nat) :
    (rvDnsSearch.init E S dnsEngine queryType dnsName mask queryBuffer qbufLen squery0
      context).dnsName = dnsName ∧
    (rvDnsSearch.init E S dnsEngine queryType dnsName mask queryBuffer qbufLen squery0
      context).context = context ∧
    (rvDnsSearch.init E S dnsEngine queryType dnsName mask queryBuffer qbufLen squery0
      context).queryType = queryType ∧
    (rvDnsSearch.init E S dnsEngine queryType dnsName mask queryBuffer qbufLen squery0
      context).domainMask = mask >>> 1 ∧
    (rvDnsSearch.init E S dnsEngine queryType dnsName mask queryBuffer qbufLen squery0
      context).tryAsIs = mask.testBit 0 ∧
    (rvDnsSearch.init E S dnsEngine queryType dnsName mask queryBuffer qbufLen squery0
      context).next_domain = 0 ∧
    (rvDnsSearch.init E S dnsEngine queryType dnsName mask queryBuffer qbufLen squery0
      context).trying_as_is = (if dnsName.count 46 ≥ dnsEngine.ndots then 1 else 0) ∧
    (rvDnsSearch.init E S dnsEngine queryType dnsName mask queryBuffer qbufLen squery0
      context).status_as_is = (if mask.testBit 0 then -1 else E.ARES_ENOTFOUND) := by
  obtain ⟨f1, f2, f3, f4, f5, f6, f7, f8, f9, f10⟩ := RvDnsSearchSetMask_fields E
    { squery0 with
      qbufLen := qbufLen - rvDnsSearch.len S dnsName queryBuffer
      queryType := queryType
      context := context
      queryBuffer := S.RvAlign queryBuffer + rvDnsSearch.len S dnsName queryBuffer
      status_as_is := -1
      next_domain := 0 } mask
  exact ⟨rfl, f5, f6, f2, f3, f1, rfl, f10⟩

theorem RvDnsSearchGetNextDomain_snd (S : SearchEnv) (engine : RvDnsSearchEngine)
    (nameLen : Nat) (q : rvSearchQuery) :
    (RvDnsSearchGetNextDomain S engine nameLen q).2 =
      { q with next_domain := (RvDnsSearchGetNextDomain S engine nameLen q).2.next_domain } := by
  unfold RvDnsSearchGetNextDomain
  simp only []
  split_ifs <;> rfl

theorem RvDnsSearchGetNextDomain_congr (S : SearchEnv) (engine : RvDnsSearchEngine)
    (nameLen : Nat) (q q2 : rvSearchQuery) (h1 : q.next_domain = q2.next_domain)
    (h2 : q.domainMask = q2.domainMask) :
    (RvDnsSearchGetNextDomain S engine nameLen q).1 =
      (RvDnsSearchGetNextDomain S engine nameLen q2).1 ∧
    (RvDnsSearchGetNextDomain S engine nameLen q).2.next_domain =
      (RvDnsSearchGetNextDomain S engine nameLen q2).2.next_domain := by
  unfold RvDnsSearchGetNextDomain
  simp only []
  rw [h1, h2]
  split_ifs <;> exact ⟨rfl, rfl⟩

theorem RvDnsSearchGetNextDomain_of_ge (S : SearchEnv) (engine : RvDnsSearchEngine)
    (nameLen : Nat) (q : rvSearchQuery) (h : engine.ndomains ≤ q.next_domain) :
    RvDnsSearchGetNextDomain S engine nameLen q =
      (none, { q with next_domain := q.next_domain + 1 }) := by
  unfold RvDnsSearchGetNextDomain
  simp only []
  rw [Nat.sub_eq_zero_of_le h]
  simp only [RvDnsSearchGetNextDomain.loop]
  rw [if_pos h]

theorem RvDnsSearchGetNextDomain_loop_ge (S : SearchEnv) (engine : RvDnsSearchEngine)
    (nameLen dm : Nat) :
    ∀ (k i bit : Nat), i ≤ RvDnsSearchGetNextDomain.loop S engine nameLen dm k i bit := by
  intro k
  induction k with
  | zero => intro i bit; exact le_refl _
  | succ k ih =>
    intro i bit
    unfold RvDnsSearchGetNextDomain.loop
    split_ifs
    · exact le_trans (Nat.le_succ i) (ih _ _)
    · exact le_trans (Nat.le_succ i) (ih _ _)
    · exact le_refl _

theorem RvDnsSearchGetNextDomain_next (S : SearchEnv) (engine : RvDnsSearchEngine)
    (nameLen : Nat) (q : rvSearchQuery) :
    q.next_domain < (RvDnsSearchGetNextDomain S engine nameLen q).2.next_domain ∧
    ((RvDnsSearchGetNextDomain S engine nameLen q).1 = none →
      engine.ndomains < (RvDnsSearchGetNextDomain S engine nameLen q).2.next_domain) := by
  have hge := RvDnsSearchGetNextDomain_loop_ge S engine nameLen q.domainMask
    (engine.ndomains - q.next_domain) q.next_domain ((1 <<< q.next_domain) % 2 ^ 32)
  unfold RvDnsSearchGetNextDomain
  simp only []
  split_ifs with h
  · exact ⟨Nat.lt_succ_of_le hge, fun _ => Nat.lt_succ_of_le h⟩
  · exact ⟨Nat.lt_succ_of_le hge, fun h2 => by cases h2⟩

theorem negativeStatus_iff (E : Env) (S : SearchEnv) (status : Int) :
    negativeStatus E S status = true ↔
      ¬ (status ≠ E.ARES_ENODATA ∧ status ≠ S.ARES_ESERVFAIL ∧ status ≠ E.ARES_ENOTFOUND ∧
        status ≠ S.ARES_EREFUSED ∧ status ≠ S.ARES_ENDOFSERVERS) := by
  unfold negativeStatus
  simp only [Bool.or_eq_true, beq_iff_eq]
  tauto

/-- A negative reply when nothing is left to try: the status kept for the as-is attempt goes
through `rvDnsCallback` with the context of the user. -/
theorem rvDnsSearchCallback_done (E : Env) (S : SearchEnv) (dnsEngine : RvDnsSearchEngine)
    (newRecordCB : Option RvDnsNewRecordCB) (q : rvSearchQuery) (status : Int)
    (queryId : Nat) (queryResults : List Nat) (alen : Nat) (queryName0 : Name)
    (tls : Option Int) (trace : List Event)
    (hneg : negativeStatus E S status = true)
    (hnone : (RvDnsSearchGetNextDomain S dnsEngine q.dnsName.length q).1 = none)
    (htry : q.tryAsIs = false) :
    rvDnsSearchCallback E S dnsEngine newRecordCB q status queryId queryResults alen
        queryName0 tls trace =
      ({ q with
          status_as_is := if q.trying_as_is ≠ 0 then status else q.status_as_is
          next_domain := (RvDnsSearchGetNextDomain S dnsEngine q.dnsName.length q).2.next_domain },
        rvDnsCallback E dnsEngine.toRvDnsEngine newRecordCB q.context
          (if q.trying_as_is ≠ 0 then status else q.status_as_is) queryId queryResults alen
          queryName0 tls trace) := by
  obtain ⟨q2, hq2⟩ : ∃ q2, q2 =
    (if q.trying_as_is ≠ 0 then { q with status_as_is := status } else q) := ⟨_, rfl⟩
  have hf : q2.next_domain = q.next_domain ∧ q2.domainMask = q.domainMask ∧
      q2.tryAsIs = q.tryAsIs ∧ q2.context = q.context ∧ q2.dnsName = q.dnsName ∧
      q2.status_as_is = (if q.trying_as_is ≠ 0 then status else q.status_as_is) ∧
      q2 = { q with status_as_is := if q.trying_as_is ≠ 0 then status else q.status_as_is } := by
    rw [hq2]
    split_ifs <;> exact ⟨rfl, rfl, rfl, rfl, rfl, rfl, rfl⟩
  obtain ⟨c1, c2⟩ := RvDnsSearchGetNextDomain_congr S dnsEngine q.dnsName.length q2 q hf.1 hf.2.1
  have hs := RvDnsSearchGetNextDomain_snd S dnsEngine q.dnsName.length q2
  unfold rvDnsSearchCallback
  rw [if_neg ((negativeStatus_iff E S status).1 hneg)]
  simp only []
  rw [← hq2, c1, hnone]
  simp only []
  rw [hs, c2]
  simp only [hf.2.2.1, htry, Bool.not_false, if_true, hf.2.2.2.1, hf.2.2.2.2.2.1]
  rw [hf.2.2.2.2.2.2]

theorem rvDnsSearchCallback_issue_fst (E : Env) (S : SearchEnv) (dnsEngine : RvDnsSearchEngine)
    (newRecordCB : Option RvDnsNewRecordCB) (q : rvSearchQuery) (name : Name) (queryId : Nat)
    (queryName0 : Name) (tls : Option Int) (trace : List Event) :
    (rvDnsSearchCallback.issue E S dnsEngine newRecordCB q name queryId queryName0 tls
      trace).1 =
      { q with qbufLen :=
          (S.ares_query trace name C_IN q.queryType q.queryBuffer q.qbufLen queryId).2 } := by
  unfold rvDnsSearchCallback.issue
  simp only []
  split_ifs <;> rfl

theorem rvDnsSearchCallback_issue_queries (E : Env) (S : SearchEnv)
    (dnsEngine : RvDnsSearchEngine) (newRecordCB : Option RvDnsNewRecordCB)
    (q : rvSearchQuery) (name : Name) (queryId : Nat) (queryName0 : Name) (tls : Option Int)
    (trace : List Event) :
    queriesOf (rvDnsSearchCallback.issue E S dnsEngine newRecordCB q name queryId queryName0
      tls trace).2.trace = queriesOf trace ++ [name] := by
  unfold rvDnsSearchCallback.issue
  simp only []
  split_ifs
  · rw [rvDnsCallback_queries, queriesOf_append]
    rfl
  · simp only []
    rw [queriesOf_append]
    rfl

/-- A negative reply when no suffix is left and the name was not tried as it is: the bare
name is queried. -/
theorem rvDnsSearchCallback_asis (E : Env) (S : SearchEnv) (dnsEngine : RvDnsSearchEngine)
    (newRecordCB : Option RvDnsNewRecordCB) (q : rvSearchQuery) (status : Int)
    (queryId : Nat) (queryResults : List Nat) (alen : Nat) (queryName0 : Name)
    (tls : Option Int) (trace : List Event)
    (hneg : negativeStatus E S status = true)
    (hnone : (RvDnsSearchGetNextDomain S dnsEngine q.dnsName.length q).1 = none)
    (htry : q.tryAsIs = true) :
    rvDnsSearchCallback E S dnsEngine newRecordCB q status queryId queryResults alen
        queryName0 tls trace =
      rvDnsSearchCallback.issue E S dnsEngine newRecordCB
        { q with
          status_as_is := if q.trying_as_is ≠ 0 then status else q.status_as_is
          next_domain := (RvDnsSearchGetNextDomain S dnsEngine q.dnsName.length q).2.next_domain
          trying_as_is := 1
          tryAsIs := false }
        q.dnsName queryId queryName0 tls trace := by
  obtain ⟨q2, hq2⟩ : ∃ q2, q2 =
    (if q.trying_as_is ≠ 0 then { q with status_as_is := status } else q) := ⟨_, rfl⟩
  have hf : q2.next_domain = q.next_domain ∧ q2.domainMask = q.domainMask ∧
      q2.tryAsIs = q.tryAsIs ∧ q2.context = q.context ∧ q2.dnsName = q.dnsName ∧
      q2.status_as_is = (if q.trying_as_is ≠ 0 then status else q.status_as_is) ∧
      q2 = { q with status_as_is := if q.trying_as_is ≠ 0 then status else q.status_as_is } := by
    rw [hq2]
    split_ifs <;> exact ⟨rfl, rfl, rfl, rfl, rfl, rfl, rfl⟩
  obtain ⟨c1, c2⟩ := RvDnsSearchGetNextDomain_congr S dnsEngine q.dnsName.length q2 q hf.1 hf.2.1
  have hs := RvDnsSearchGetNextDomain_snd S dnsEngine q.dnsName.length q2
  unfold rvDnsSearchCallback
  rw [if_neg ((negativeStatus_iff E S status).1 hneg)]
  simp only []
  rw [← hq2, c1, hnone]
  simp only []
  rw [hs, c2]
  simp only [hf.2.2.1, htry, Bool.not_true, Bool.false_eq_true, if_false]
  rw [hf.2.2.2.2.2.2]

/-- A negative reply when a suffix is left: name, dot and suffix are queried. -/
theorem rvDnsSearchCallback_suffix (E : Env) (S : SearchEnv) (dnsEngine : RvDnsSearchEngine)
    (newRecordCB : Option RvDnsNewRecordCB) (q : rvSearchQuery) (status : Int)
    (queryId : Nat) (queryResults : List Nat) (alen : Nat) (queryName0 : Name)
    (tls : Option Int) (trace : List Event) (d : Name)
    (hneg : negativeStatus E S status = true)
    (hsome : (RvDnsSearchGetNextDomain S dnsEngine q.dnsName.length q).1 = some d) :
    rvDnsSearchCallback E S dnsEngine newRecordCB q status queryId queryResults alen
        queryName0 tls trace =
      rvDnsSearchCallback.issue E S dnsEngine newRecordCB
        { q with
          status_as_is := if q.trying_as_is ≠ 0 then status else q.status_as_is
          next_domain := (RvDnsSearchGetNextDomain S dnsEngine q.dnsName.length q).2.next_domain }
        (rvDnsCatDomain S q.dnsName d (MAX_DOMAIN_SIZE S)).2 queryId queryName0 tls trace := by
  obtain ⟨q2, hq2⟩ : ∃ q2, q2 =
    (if q.trying_as_is ≠ 0 then { q with status_as_is := status } else q) := ⟨_, rfl⟩
  have hf : q2.next_domain = q.next_domain ∧ q2.domainMask = q.domainMask ∧
      q2.tryAsIs = q.tryAsIs ∧ q2.context = q.context ∧ q2.dnsName = q.dnsName ∧
      q2.status_as_is = (if q.trying_as_is ≠ 0 then status else q.status_as_is) ∧
      q2 = { q with status_as_is := if q.trying_as_is ≠ 0 then status else q.status_as_is } := by
    rw [hq2]
    split_ifs <;> exact ⟨rfl, rfl, rfl, rfl, rfl, rfl, rfl⟩
  obtain ⟨c1, c2⟩ := RvDnsSearchGetNextDomain_congr S dnsEngine q.dnsName.length q2 q hf.1 hf.2.1
  have hs := RvDnsSearchGetNextDomain_snd S dnsEngine q.dnsName.length q2
  unfold rvDnsSearchCallback
  rw [if_neg ((negativeStatus_iff E S status).1 hneg)]
  simp only []
  rw [← hq2, c1, hsome]
  simp only []
  rw [hs, c2, hf.2.2.2.2.2.2]

theorem rvDnsSearch_send_fields (S : SearchEnv) (q : rvSearchQuery) (name : Name)
    (queryType : Int) (len qbufLen queryId : Nat) (trace : List Event) :
    (rvDnsSearch.send S q name queryType len qbufLen queryId trace).squery =
      some { q with qbufLen :=
        (S.ares_query trace name C_IN queryType q.queryBuffer q.qbufLen queryId).2 } ∧
    (rvDnsSearch.send S q name queryType len qbufLen queryId trace).trace =
      trace ++ [Event.query name C_IN queryType QueryCallback.rvDnsSearchCallback queryId
        (S.ares_query trace name C_IN queryType q.queryBuffer q.qbufLen queryId).1] ∧
    (rvDnsSearch.send S q name queryType len qbufLen queryId trace).status =
      (S.ares_query trace name C_IN queryType q.queryBuffer q.qbufLen queryId).1 :=
  ⟨rfl, rfl, rfl⟩

/-- `rvDnsSearch` for a name with at least `ndots` dots. -/
theorem rvDnsSearch_asIsFirst (E : Env) (S : SearchEnv) (dnsEngine : RvDnsSearchEngine)
    (queryType : Int) (dnsName : Name) (mask queryBuffer qbufLen : Nat)
    (squery0 : rvSearchQuery) (context queryId : Nat) (trace : List Event)
    (hset : searchSetUp S dnsEngine dnsName mask queryBuffer qbufLen)
    (hdots : dnsName.count 46 ≥ dnsEngine.ndots) :
    rvDnsSearch E S dnsEngine queryType dnsName mask queryBuffer qbufLen squery0 context
        queryId trace =
      if mask.testBit 0 = false then
        { status := RV_OK, qbufLen := qbufLen,
          squery := some (rvDnsSearch.init E S dnsEngine queryType dnsName mask queryBuffer
            qbufLen squery0 context),
          trace := trace }
      else
        rvDnsSearch.send S
          { rvDnsSearch.init E S dnsEngine queryType dnsName mask queryBuffer qbufLen squery0
              context with tryAsIs := false }
          dnsName queryType (rvDnsSearch.len S dnsName queryBuffer) qbufLen queryId trace := by
  obtain ⟨f1, f2, f3, f4, f5, f6, f7, f8⟩ := rvDnsSearch_init_fields E S dnsEngine queryType
    dnsName mask queryBuffer qbufLen squery0 context
  rw [if_pos hdots] at f7
  unfold rvDnsSearch
  simp only []
  rw [if_neg (by rw [hset.1]; exact Bool.false_ne_true), if_neg (by have := hset.2; omega)]
  rw [f7, if_pos (show (1 : Int) ≠ 0 from by decide)]
  simp only [Bool.true_and, f5]
  cases mask.testBit 0 <;> simp [f7]

/-- `rvDnsSearch` for a name with fewer than `ndots` dots when a suffix is selected. -/
theorem rvDnsSearch_suffix (E : Env) (S : SearchEnv) (dnsEngine : RvDnsSearchEngine)
    (queryType : Int) (dnsName : Name) (mask queryBuffer qbufLen : Nat)
    (squery0 : rvSearchQuery) (context queryId : Nat) (trace : List Event) (d : Name)
    (hset : searchSetUp S dnsEngine dnsName mask queryBuffer qbufLen)
    (hdots : dnsName.count 46 < dnsEngine.ndots)
    (hsome : (RvDnsSearchGetNextDomain S dnsEngine dnsName.length
      (rvDnsSearch.init E S dnsEngine queryType dnsName mask queryBuffer qbufLen squery0
        context)).1 = some d) :
    rvDnsSearch E S dnsEngine queryType dnsName mask queryBuffer qbufLen squery0 context
        queryId trace =
      rvDnsSearch.send S
        (RvDnsSearchGetNextDomain S dnsEngine dnsName.length
          (rvDnsSearch.init E S dnsEngine queryType dnsName mask queryBuffer qbufLen squery0
            context)).2
        (if d ≠ [] then (rvDnsCatDomain S dnsName d (MAX_DOMAIN_SIZE S)).2 else dnsName)
        queryType (rvDnsSearch.len S dnsName queryBuffer) qbufLen queryId trace := by
  obtain ⟨f1, f2, f3, f4, f5, f6, f7, f8⟩ := rvDnsSearch_init_fields E S dnsEngine queryType
    dnsName mask queryBuffer qbufLen squery0 context
  rw [if_neg (by omega)] at f7
  unfold rvDnsSearch
  simp only []
  rw [if_neg (by rw [hset.1]; exact Bool.false_ne_true), if_neg (by have := hset.2; omega)]
  rw [f7, if_neg (show ¬ ((0 : Int) ≠ 0) from by decide), hsome]
  simp only [Bool.false_and, Bool.false_eq_true, if_false]

/-- `rvDnsSearch` for a name with fewer than `ndots` dots when no suffix is selected. -/
theorem rvDnsSearch_noSuffix (E : Env) (S : SearchEnv) (dnsEngine : RvDnsSearchEngine)
    (queryType : Int) (dnsName : Name) (mask queryBuffer qbufLen : Nat)
    (squery0 : rvSearchQuery) (context queryId : Nat) (trace : List Event)
    (hset : searchSetUp S dnsEngine dnsName mask queryBuffer qbufLen)
    (hdots : dnsName.count 46 < dnsEngine.ndots)
    (hnone : (RvDnsSearchGetNextDomain S dnsEngine dnsName.length
      (rvDnsSearch.init E S dnsEngine queryType dnsName mask queryBuffer qbufLen squery0
        context)).1 = none) :
    rvDnsSearch E S dnsEngine queryType dnsName mask queryBuffer qbufLen squery0 context
        queryId trace =
      if mask.testBit 0 = false then
        { status := RV_OK, qbufLen := qbufLen,
          squery := some
            { (RvDnsSearchGetNextDomain S dnsEngine dnsName.length
                (rvDnsSearch.init E S dnsEngine queryType dnsName mask queryBuffer qbufLen
                  squery0 context)).2 with trying_as_is := 1 },
          trace := trace }
      else
        rvDnsSearch.send S
          { (RvDnsSearchGetNextDomain S dnsEngine dnsName.length
              (rvDnsSearch.init E S dnsEngine queryType dnsName mask queryBuffer qbufLen
                squery0 context)).2 with trying_as_is := 1, tryAsIs := false }
          dnsName queryType (rvDnsSearch.len S dnsName queryBuffer) qbufLen queryId trace := by
  obtain ⟨f1, f2, f3, f4, f5, f6, f7, f8⟩ := rvDnsSearch_init_fields E S dnsEngine queryType
    dnsName mask queryBuffer qbufLen squery0 context
  rw [if_neg (by omega)] at f7
  have hs := RvDnsSearchGetNextDomain_snd S dnsEngine dnsName.length
    (rvDnsSearch.init E S dnsEngine queryType dnsName mask queryBuffer qbufLen squery0 context)
  have ht : (RvDnsSearchGetNextDomain S dnsEngine dnsName.length
      (rvDnsSearch.init E S dnsEngine queryType dnsName mask queryBuffer qbufLen squery0
        context)).2.tryAsIs = mask.testBit 0 := by
    rw [hs]; exact f5
  unfold rvDnsSearch
  simp only []
  rw [if_neg (by rw [hset.1]; exact Bool.false_ne_true), if_neg (by have := hset.2; omega)]
  rw [f7, if_neg (show ¬ ((0 : Int) ≠ 0) from by decide), hnone]
  simp only [Bool.true_and, ht]
  cases mask.testBit 0 <;> simp

/-- What `rvDnsCallback` does with a status that is not success. -/
theorem rvDnsCallback_status (E : Env) (dnsEngine : RvDnsEngine)
    (newRecordCB : Option RvDnsNewRecordCB) (context : Nat) (queryStatus : Int) (queryId : Nat)
    (queryResults : List Nat) (alen : Nat) (queryName0 : Name) (tls : Option Int)
    (trace : List Event) (h : queryStatus ≠ ARES_SUCCESS) :
    rvDnsCallback E dnsEngine newRecordCB context queryStatus queryId queryResults alen
        queryName0 tls trace =
      match tls with
      | some _ => { trace := trace, tls := some queryStatus }
      | none =>
        { trace := trace ++
            [Event.callback context queryId (statusOnlyRecord E queryStatus)
              (userCallback dnsEngine newRecordCB trace context queryId
                (statusOnlyRecord E queryStatus))],
          tls := none } := by
  unfold rvDnsCallback
  simp only []
  rw [if_pos h]
  cases tls <;> cases newRecordCB <;> rfl

theorem rvDnsSearch_squery (E : Env) (S : SearchEnv) (dnsEngine : RvDnsSearchEngine)
    (queryType : Int) (dnsName : Name) (mask queryBuffer qbufLen : Nat)
    (squery0 : rvSearchQuery) (context queryId : Nat) (trace : List Event) (q1 : rvSearchQuery)
    (h : (rvDnsSearch E S dnsEngine queryType dnsName mask queryBuffer qbufLen squery0 context
      queryId trace).squery = some q1) :
    searchSetUp S dnsEngine dnsName mask queryBuffer qbufLen := by
  unfold rvDnsSearch at h
  simp only [] at h
  unfold searchSetUp
  by_cases h1 : rvDnsSearch.single S dnsEngine dnsName mask = true
  · rw [if_pos h1] at h
    cases h
  · rw [if_neg h1] at h
    by_cases h2 : rvDnsSearch.len S dnsName queryBuffer +
        S.RvAresComputeQuerySize dnsName
          (dnsEngine.domains.getD dnsEngine.longest_domain_i []) > qbufLen
    · rw [if_pos h2] at h
      cases h
    · exact ⟨by simpa using h1, by omega⟩

theorem getLast_snoc (l : List Name) (n : Name) : (l ++ [n]).getLast? = some n := by
  simp

theorem rvDnsSearch_inv (E : Env) (S : SearchEnv) (dnsEngine : RvDnsSearchEngine)
    (queryType : Int) (dnsName : Name) (mask queryBuffer qbufLen : Nat)
    (squery0 : rvSearchQuery) (context queryId : Nat) (trace : List Event) (q1 : rvSearchQuery)
    (hmask : mask.testBit 0 = true)
    (h : (rvDnsSearch E S dnsEngine queryType dnsName mask queryBuffer qbufLen squery0 context
      queryId trace).squery = some q1) :
    SearchInv dnsEngine dnsName context q1
      (rvDnsSearch E S dnsEngine queryType dnsName mask queryBuffer qbufLen squery0 context
        queryId trace).trace := by
  have hset := rvDnsSearch_squery E S dnsEngine queryType dnsName mask queryBuffer qbufLen
    squery0 context queryId trace q1 h
  obtain ⟨f1, f2, f3, f4, f5, f6, f7, f8⟩ := rvDnsSearch_init_fields E S dnsEngine queryType
    dnsName mask queryBuffer qbufLen squery0 context
  have hs := RvDnsSearchGetNextDomain_snd S dnsEngine dnsName.length
    (rvDnsSearch.init E S dnsEngine queryType dnsName mask queryBuffer qbufLen squery0 context)
  have g1 : (RvDnsSearchGetNextDomain S dnsEngine dnsName.length
      (rvDnsSearch.init E S dnsEngine queryType dnsName mask queryBuffer qbufLen squery0
        context)).2.dnsName = dnsName := by rw [hs]; exact f1
  have g2 : (RvDnsSearchGetNextDomain S dnsEngine dnsName.length
      (rvDnsSearch.init E S dnsEngine queryType dnsName mask queryBuffer qbufLen squery0
        context)).2.context = context := by rw [hs]; exact f2
  have one : (1 : Int) ≠ 0 := by decide
  by_cases hdots : dnsName.count 46 ≥ dnsEngine.ndots
  · rw [rvDnsSearch_asIsFirst E S dnsEngine queryType dnsName mask queryBuffer qbufLen squery0
      context queryId trace hset hdots, if_neg (by rw [hmask]; decide)] at h ⊢
    rw [(rvDnsSearch_send_fields _ _ _ _ _ _ _ _).1] at h
    rw [← Option.some.inj h]
    rw [if_pos hdots] at f7
    have h7 : (rvDnsSearch.init E S dnsEngine queryType dnsName mask queryBuffer qbufLen squery0
        context).trying_as_is ≠ 0 := by rw [f7]; decide
    exact ⟨f1, f2, fun _ => h7, fun hlt => absurd hdots (by omega)⟩
  · have hlt : dnsName.count 46 < dnsEngine.ndots := by omega
    cases hg : (RvDnsSearchGetNextDomain S dnsEngine dnsName.length
        (rvDnsSearch.init E S dnsEngine queryType dnsName mask queryBuffer qbufLen squery0
          context)).1 with
    | some d =>
      rw [rvDnsSearch_suffix E S dnsEngine queryType dnsName mask queryBuffer qbufLen squery0
        context queryId trace d hset hlt hg] at h ⊢
      rw [(rvDnsSearch_send_fields _ _ _ _ _ _ _ _).1] at h
      rw [← Option.some.inj h]
      have ht : (RvDnsSearchGetNextDomain S dnsEngine dnsName.length
          (rvDnsSearch.init E S dnsEngine queryType dnsName mask queryBuffer qbufLen squery0
            context)).2.tryAsIs = true := by
        rw [hs]; exact f5.trans hmask
      refine ⟨g1, g2, ?_, ?_⟩
      · intro hf
        exact absurd (ht.symm.trans hf) (by decide)
      · intro _ hf
        exact absurd (ht.symm.trans hf) (by decide)
    | none =>
      rw [rvDnsSearch_noSuffix E S dnsEngine queryType dnsName mask queryBuffer qbufLen squery0
        context queryId trace hset hlt hg, if_neg (by rw [hmask]; decide)] at h ⊢
      rw [(rvDnsSearch_send_fields _ _ _ _ _ _ _ _).1] at h
      rw [← Option.some.inj h, (rvDnsSearch_send_fields _ _ _ _ _ _ _ _).2.1]
      refine ⟨g1, g2, fun _ => one, fun _ _ => ⟨?_, ?_⟩⟩
      · exact (RvDnsSearchGetNextDomain_next S dnsEngine dnsName.length _).2 hg
      · rw [queriesOf_append]
        exact getLast_snoc _ _

theorem rvDnsSearchCallback_inv (E : Env) (S : SearchEnv) (dnsEngine : RvDnsSearchEngine)
    (newRecordCB : Option RvDnsNewRecordCB) (dnsName : Name) (context : Nat)
    (q : rvSearchQuery) (status : Int)
    (queryId : Nat) (queryResults : List Nat) (alen : Nat) (queryName0 : Name)
    (tls : Option Int) (trace : List Event)
    (hneg : negativeStatus E S status = true)
    (hinv : SearchInv dnsEngine dnsName context q trace) :
    SearchInv dnsEngine dnsName context
      (rvDnsSearchCallback E S dnsEngine newRecordCB q status queryId queryResults alen
        queryName0 tls trace).1
      (rvDnsSearchCallback E S dnsEngine newRecordCB q status queryId queryResults alen
        queryName0 tls trace).2.trace := by
  obtain ⟨i1, i2, i3, i4⟩ := hinv
  have one : (1 : Int) ≠ 0 := by decide
  unfold SearchInv
  obtain ⟨n1, n2⟩ := RvDnsSearchGetNextDomain_next S dnsEngine q.dnsName.length q
  cases hg : (RvDnsSearchGetNextDomain S dnsEngine q.dnsName.length q).1 with
  | none =>
    cases ht : q.tryAsIs with
    | false =>
      rw [rvDnsSearchCallback_done E S dnsEngine newRecordCB q status queryId queryResults alen
        queryName0 tls trace hneg hg ht]
      refine ⟨i1, i2, fun _ => i3 ht, fun hlt _ => ?_⟩
      obtain ⟨a, b⟩ := i4 hlt ht
      exact ⟨lt_trans a n1, by rw [rvDnsCallback_queries]; exact b⟩
    | true =>
      rw [rvDnsSearchCallback_asis E S dnsEngine newRecordCB q status queryId queryResults alen
        queryName0 tls trace hneg hg ht, rvDnsSearchCallback_issue_fst,
        rvDnsSearchCallback_issue_queries]
      refine ⟨i1, i2, fun _ => one, fun _ _ => ⟨n2 hg, ?_⟩⟩
      rw [i1]
      exact getLast_snoc _ _
  | some d =>
    rw [rvDnsSearchCallback_suffix E S dnsEngine newRecordCB q status queryId queryResults alen
      queryName0 tls trace d hneg hg, rvDnsSearchCallback_issue_fst,
      rvDnsSearchCallback_issue_queries]
    refine ⟨i1, i2, i3, fun hlt ht => ?_⟩
    exfalso
    obtain ⟨a, -⟩ := i4 hlt ht
    rw [RvDnsSearchGetNextDomain_of_ge S dnsEngine q.dnsName.length q (le_of_lt a)] at hg
    cases hg

theorem searchReplies_inv (E : Env) (S : SearchEnv) (dnsEngine : RvDnsSearchEngine)
    (newRecordCB : Option RvDnsNewRecordCB) (queryId : Nat) (queryName0 : Name)
    (dnsName : Name) (context : Nat) :
    ∀ (rs : List SearchReply) (st : rvSearchQuery × CallbackResult),
      (∀ r ∈ rs, negativeStatus E S r.status = true) →
      SearchInv dnsEngine dnsName context st.1 st.2.trace →
      SearchInv dnsEngine dnsName context
        (searchReplies E S dnsEngine newRecordCB queryId queryName0 rs st).1
        (searchReplies E S dnsEngine newRecordCB queryId queryName0 rs st).2.trace := by
  intro rs
  induction rs with
  | nil => intro st _ h; exact h
  | cons r rs ih =>
    intro st hneg h
    unfold searchReplies
    split_ifs
    · exact ih _ (fun x hx => hneg x (List.mem_cons_of_mem _ hx))
        (rvDnsSearchCallback_inv E S dnsEngine newRecordCB dnsName context st.1 r.status queryId
          r.queryResults r.alen queryName0 st.2.tls st.2.trace
          (hneg r (List.mem_cons_self _ _)) h)
    · exact h

/-- C19: in a search whose mask has the as-is bit and whose replies so far were all negative,
when a further negative reply arrives and nothing is left to try (no suffix left, the bare
name tried), `rvDnsSearchCallback` hands the status of that reply, the most recent attempt,
to `rvDnsCallback` with the context of the user and issues no query: one status-only callback
when no exception slot is installed, the status in the slot otherwise.  When the name has
fewer than `ndots` dots (as-is tried last) the most recent attempt is the query for the bare
name. -/
theorem rvDnsSearchCallback_nothing_left (E : Env) (S : SearchEnv)
    (dnsEngine : RvDnsSearchEngine) (newRecordCB : Option RvDnsNewRecordCB) (queryType : Int)
    (dnsName : Name) (mask queryBuffer qbufLen : Nat) (squery0 : rvSearchQuery)
    (context queryId : Nat) (queryName0 : Name) (tls : Option Int) (q1 : rvSearchQuery)
    (rs : List SearchReply) (x : SearchReply) (st : rvSearchQuery × CallbackResult)
    (hmask : mask.testBit 0 = true)
    (hstart : (rvDnsSearch E S dnsEngine queryType dnsName mask queryBuffer qbufLen squery0
      context queryId []).squery = some q1)
    (hneg : ∀ r ∈ rs, negativeStatus E S r.status = true)
    (hst : st = searchReplies E S dnsEngine newRecordCB queryId queryName0 rs
      (q1, { trace := (rvDnsSearch E S dnsEngine queryType dnsName mask queryBuffer qbufLen
        squery0 context queryId []).trace, tls := tls }))
    (hx : negativeStatus E S x.status = true) (hnz : x.status ≠ ARES_SUCCESS)
    (hnone : (RvDnsSearchGetNextDomain S dnsEngine st.1.dnsName.length st.1).1 = none)
    (htry : st.1.tryAsIs = false) :
    (rvDnsSearchCallback E S dnsEngine newRecordCB st.1 x.status queryId x.queryResults x.alen
        queryName0 st.2.tls st.2.trace).2 =
      rvDnsCallback E dnsEngine.toRvDnsEngine newRecordCB context x.status queryId
        x.queryResults x.alen queryName0 st.2.tls st.2.trace ∧
    queriesOf (rvDnsSearchCallback E S dnsEngine newRecordCB st.1 x.status queryId
        x.queryResults x.alen queryName0 st.2.tls st.2.trace).2.trace = queriesOf st.2.trace ∧
    (st.2.tls = none →
      (rvDnsSearchCallback E S dnsEngine newRecordCB st.1 x.status queryId x.queryResults
          x.alen queryName0 st.2.tls st.2.trace).2.trace =
        st.2.trace ++ [Event.callback context queryId (statusOnlyRecord E x.status)
          (userCallback dnsEngine.toRvDnsEngine newRecordCB st.2.trace context queryId
            (statusOnlyRecord E x.status))]) ∧
    (∀ v, st.2.tls = some v →
      (rvDnsSearchCallback E S dnsEngine newRecordCB st.1 x.status queryId x.queryResults
          x.alen queryName0 st.2.tls st.2.trace).2 =
        { trace := st.2.trace, tls := some x.status }) ∧
    (dnsName.count 46 < dnsEngine.ndots → (queriesOf st.2.trace).getLast? = some dnsName) := by
  have hinv0 := rvDnsSearch_inv E S dnsEngine queryType dnsName mask queryBuffer qbufLen squery0
    context queryId [] q1 hmask hstart
  have hinv := searchReplies_inv E S dnsEngine newRecordCB queryId queryName0 dnsName context rs
    (q1, { trace := (rvDnsSearch E S dnsEngine queryType dnsName mask queryBuffer qbufLen
      squery0 context queryId []).trace, tls := tls }) hneg hinv0
  rw [← hst] at hinv
  obtain ⟨i1, i2, i3, i4⟩ := hinv
  have hcb := rvDnsSearchCallback_done E S dnsEngine newRecordCB st.1 x.status queryId
    x.queryResults x.alen queryName0 st.2.tls st.2.trace hx hnone htry
  rw [if_pos (i3 htry), i2] at hcb
  rw [hcb]
  have hstat := rvDnsCallback_status E dnsEngine.toRvDnsEngine newRecordCB context x.status
    queryId x.queryResults x.alen queryName0 st.2.tls st.2.trace hnz
  refine ⟨rfl, rvDnsCallback_queries _ _ _ _ _ _ _ _ _ _ _, ?_, ?_, fun hlt => (i4 hlt htry).2⟩
  · intro ht
    simp only []
    rw [hstat, ht]
  · intro v ht
    simp only []
    rw [hstat, ht]

/-- C19 (witness): `web.corp`, `web.example.com` and `web` were queried; the reply SERVFAIL
to the query for `web` is handed to the user as the one status, and nothing is queried. -/
theorem rvDnsSearchCallback_nothing_left_witness :
    (rvDnsSearchCallback (sampleEnv cacheOk) sampleSearchEnv (sampleEngine sampleSuffixes 1)
        none searchWebExhausted.1 3 5 [] 0 [] searchWebExhausted.2.tls
        searchWebExhausted.2.trace).2.trace =
      searchWebExhausted.2.trace ++ [Event.callback 77 5 (statusOnlyRecord (sampleEnv cacheOk) 3)
        (userCallback (sampleEngine sampleSuffixes 1).toRvDnsEngine none
          searchWebExhausted.2.trace 77 5 (statusOnlyRecord (sampleEnv cacheOk) 3))] ∧
    queriesOf searchWebExhausted.2.trace =
      [nameWeb ++ [46] ++ [99, 111, 114, 112],
        nameWeb ++ [46] ++ [101, 120, 97, 109, 112, 108, 101, 46, 99, 111, 109], nameWeb] :=
  ⟨(rvDnsSearchCallback_nothing_left (sampleEnv cacheOk) sampleSearchEnv
      (sampleEngine sampleSuffixes 1) none 1 nameWeb 7 0 512 zeroSearchQuery 77 5 [] none
      (searchWebStart.squery.getD zeroSearchQuery) [⟨4, [], 0⟩, ⟨1, [], 0⟩] ⟨3, [], 0⟩
      searchWebExhausted (by decide) (by decide) (by decide) rfl (by decide) (by decide)
      (by decide) (by decide)).2.2.1 (by decide),
    by decide⟩

/-- C15: the search for `web` with the suffixes `` and `corp`, `ndots` 1 and mask 7 is not
bypassed, the as-is bit is set, `web` has no dot and suffix 0 is the selected suffix of
lowest index; the first query of `rvDnsSearch` is for `web`, not for `web.`, the name with a
dot and that suffix. -/
theorem rvDnsSearch_empty_suffix_first_query :
    rvDnsSearch.single sampleSearchEnv (sampleEngine suffixesWithEmpty 1) nameWeb 7 = false ∧
    Nat.testBit 7 0 = true ∧
    nameWeb.count 46 < (sampleEngine suffixesWithEmpty 1).ndots ∧
    suffixSelected (sampleEngine suffixesWithEmpty 1) nameWeb.length 7 0 = true ∧
    queriesOf (rvDnsSearch (sampleEnv cacheOk) sampleSearchEnv (sampleEngine suffixesWithEmpty 1)
      1 nameWeb 7 0 512 zeroSearchQuery 77 5 []).trace = [nameWeb] ∧
    nameWeb ≠ nameWeb ++ [46] ++ (sampleEngine suffixesWithEmpty 1).domains.getD 0 [] := by
  decide

/-- C17: in the search for `web` with the suffixes `` and `corp`, `ndots` 1 and mask 7, all
replies negative, the bare name `web` is queried twice: for the empty suffix and as it is. -/
theorem searchRun_bare_name_twice :
    queriesOf (searchRun (sampleEnv cacheOk) sampleSearchEnv (sampleEngine suffixesWithEmpty 1)
      none 1 nameWeb 7 0 512 zeroSearchQuery 77 5 [] none threeNegativeReplies).trace =
      [nameWeb, nameWeb ++ [46] ++ [99, 111, 114, 112], nameWeb] ∧
    (queriesOf (searchRun (sampleEnv cacheOk) sampleSearchEnv
      (sampleEngine suffixesWithEmpty 1) none 1 nameWeb 7 0 512 zeroSearchQuery 77 5 [] none
      threeNegativeReplies).trace).count nameWeb = 2 := by
  decide

/-- C22: for a non-empty name, when the suffix list is empty, the name ends in a dot, the mask
is 1 or the no-search flag is set, `rvDnsSearch` calls `ares_query` once, for the name as it
is, with `rvDnsCallback` and the context of the user, hands back its status and buffer
length, and writes no search-query block. -/
theorem rvDnsSearch_single_query (E : Env) (S : SearchEnv) (dnsEngine : RvDnsSearchEngine)
    (queryType : Int) (dnsName : Name) (mask queryBuffer qbufLen : Nat)
    (squery0 : rvSearchQuery) (context queryId : Nat) (trace : List Event)
    (hne : dnsName ≠ [])
    (h : dnsEngine.ndomains = 0 ∨ dnsName.getLast? = some 46 ∨ mask = 1 ∨
      dnsEngine.flags &&& S.ARES_FLAG_NOSEARCH ≠ 0) :
    (rvDnsSearch E S dnsEngine queryType dnsName mask queryBuffer qbufLen squery0 context
        queryId trace).trace =
      trace ++ [Event.query dnsName C_IN queryType (QueryCallback.rvDnsCallback context) queryId
        (S.ares_query trace dnsName C_IN queryType queryBuffer qbufLen queryId).1] ∧
    (rvDnsSearch E S dnsEngine queryType dnsName mask queryBuffer qbufLen squery0 context
        queryId trace).squery = none ∧
    (rvDnsSearch E S dnsEngine queryType dnsName mask queryBuffer qbufLen squery0 context
        queryId trace).status =
      (S.ares_query trace dnsName C_IN queryType queryBuffer qbufLen queryId).1 ∧
    (rvDnsSearch E S dnsEngine queryType dnsName mask queryBuffer qbufLen squery0 context
        queryId trace).qbufLen =
      (S.ares_query trace dnsName C_IN queryType queryBuffer qbufLen queryId).2 ∧
    queriesOf (rvDnsSearch E S dnsEngine queryType dnsName mask queryBuffer qbufLen squery0
        context queryId trace).trace = queriesOf trace ++ [dnsName] := by
  have hs : rvDnsSearch.single S dnsEngine dnsName mask = true := by
    unfold rvDnsSearch.single
    simp only [Bool.or_eq_true, beq_iff_eq, bne_iff_ne, ne_eq]
    tauto
  have hdn : dnsName.length > 0 := List.length_pos.2 hne
  unfold rvDnsSearch
  simp only []
  rw [if_pos hs]
  refine ⟨rfl, rfl, rfl, rfl, ?_⟩
  simp only []
  rw [queriesOf_append]
  rfl

/-- C22 (witness): `web.` ends in a dot: one query for `web.`, with `rvDnsCallback` and the
context 77. -/
theorem rvDnsSearch_single_query_witness :
    (rvDnsSearch (sampleEnv cacheOk) sampleSearchEnv (sampleEngine sampleSuffixes 1) 1
        (nameWeb ++ [46]) 7 0 512 zeroSearchQuery 77 5 []).trace =
      [] ++ [Event.query (nameWeb ++ [46]) C_IN 1 (QueryCallback.rvDnsCallback 77) 5
        (sampleSearchEnv.ares_query [] (nameWeb ++ [46]) C_IN 1 0 512 5).1] ∧
    (rvDnsSearch (sampleEnv cacheOk) sampleSearchEnv (sampleEngine sampleSuffixes 1) 1
        (nameWeb ++ [46]) 7 0 512 zeroSearchQuery 77 5 []).squery = none :=
  ⟨(rvDnsSearch_single_query (sampleEnv cacheOk) sampleSearchEnv (sampleEngine sampleSuffixes 1)
      1 (nameWeb ++ [46]) 7 0 512 zeroSearchQuery 77 5 [] (by decide)
      (Or.inr (Or.inl (by decide)))).1,
    (rvDnsSearch_single_query (sampleEnv cacheOk) sampleSearchEnv (sampleEngine sampleSuffixes 1)
      1 (nameWeb ++ [46]) 7 0 512 zeroSearchQuery 77 5 [] (by decide)
      (Or.inr (Or.inl (by decide)))).2.1⟩

theorem TraceExtends.refl (a : List Event) : TraceExtends a a := ⟨[], (List.append_nil a).symm⟩

theorem TraceExtends.trans {a b c : List Event} (h1 : TraceExtends a b)
    (h2 : TraceExtends b c) : TraceExtends a c := by
  obtain ⟨x, hx⟩ := h1
  obtain ⟨y, hy⟩ := h2
  exact ⟨x ++ y, by rw [hy, hx, List.append_assoc]⟩

theorem TraceExtends.snoc (a x : List Event) : TraceExtends a (a ++ x) := ⟨x, rfl⟩

theorem body_extends (E : Env) (cb : RvDnsNewRecordCB) (context queryId : Nat)
    (queryType : Int) (st : CallbackLoop) :
    TraceExtends st.trace (rvDnsCallback.body E cb context queryId queryType st).trace := by
  unfold rvDnsCallback.body
  simp only []
  split_ifs <;> (try simp only [List.append_assoc]) <;>
    first
    | exact TraceExtends.refl _
    | exact TraceExtends.snoc _ _

theorem loop_extends (E : Env) (cb : RvDnsNewRecordCB) (context queryId : Nat)
    (queryType : Int) :
    ∀ (k : Nat) (st : CallbackLoop),
      TraceExtends st.trace (rvDnsCallback.loop E cb context queryId queryType k st).trace := by
  intro k
  induction k with
  | zero => intro st; exact TraceExtends.refl _
  | succ k ih =>
    intro st
    unfold rvDnsCallback.loop
    simp only []
    split_ifs
    · exact body_extends E cb context queryId queryType st
    · exact (body_extends E cb context queryId queryType st).trans (ih _)

theorem finish_extends (E : Env) (cb : RvDnsNewRecordCB) (context queryId : Nat)
    (queryType : Int) (queryName : Name) (st : CallbackLoop) :
    TraceExtends st.trace
      (rvDnsCallback.finish E cb context queryId queryType queryName st) := by
  unfold rvDnsCallback.finish
  simp only []
  split_ifs <;> (try simp only [List.append_assoc]) <;>
    first
    | exact TraceExtends.refl _
    | exact TraceExtends.snoc _ _

/-- The response pipeline only adds events. -/
theorem rvDnsCallback_extends (E : Env) (dnsEngine : RvDnsEngine)
    (newRecordCB : Option RvDnsNewRecordCB) (context : Nat) (queryStatus : Int) (queryId : Nat)
    (queryResults : List Nat) (alen : Nat) (queryName0 : Name) (tls : Option Int)
    (trace : List Event) :
    TraceExtends trace (rvDnsCallback E dnsEngine newRecordCB context queryStatus queryId
      queryResults alen queryName0 tls trace).trace := by
  unfold rvDnsCallback
  simp only []
  split_ifs
  · cases tls
    · exact TraceExtends.snoc _ _
    · exact TraceExtends.refl _
  · split
    · exact TraceExtends.refl _
    · simp only []
      refine TraceExtends.trans ?_ (finish_extends _ _ _ _ _ _ _)
      refine TraceExtends.trans ?_ (loop_extends _ _ _ _ _ _ _)
      exact TraceExtends.snoc _ _

theorem rvDnsSearchCallback_issue_extends (E : Env) (S : SearchEnv)
    (dnsEngine : RvDnsSearchEngine) (newRecordCB : Option RvDnsNewRecordCB)
    (q : rvSearchQuery) (name : Name) (queryId : Nat) (queryName0 : Name) (tls : Option Int)
    (trace : List Event) :
    TraceExtends trace (rvDnsSearchCallback.issue E S dnsEngine newRecordCB q name queryId
      queryName0 tls trace).2.trace := by
  unfold rvDnsSearchCallback.issue
  simp only []
  split_ifs
  · exact (TraceExtends.snoc _ _).trans (rvDnsCallback_extends _ _ _ _ _ _ _ _ _ _ _)
  · exact TraceExtends.snoc _ _

theorem rvDnsSearchCallback_extends (E : Env) (S : SearchEnv) (dnsEngine : RvDnsSearchEngine)
    (newRecordCB : Option RvDnsNewRecordCB) (q : rvSearchQuery) (status : Int)
    (queryId : Nat) (queryResults : List Nat) (alen : Nat) (queryName0 : Name)
    (tls : Option Int) (trace : List Event) :
    TraceExtends trace (rvDnsSearchCallback E S dnsEngine newRecordCB q status queryId
      queryResults alen queryName0 tls trace).2.trace := by
  by_cases hneg : negativeStatus E S status = true
  · cases hg : (RvDnsSearchGetNextDomain S dnsEngine q.dnsName.length q).1 with
    | none =>
      cases ht : q.tryAsIs with
      | false =>
        rw [rvDnsSearchCallback_done E S dnsEngine newRecordCB q status queryId queryResults
          alen queryName0 tls trace hneg hg ht]
        exact rvDnsCallback_extends _ _ _ _ _ _ _ _ _ _ _
      | true =>
        rw [rvDnsSearchCallback_asis E S dnsEngine newRecordCB q status queryId queryResults
          alen queryName0 tls trace hneg hg ht]
        exact rvDnsSearchCallback_issue_extends _ _ _ _ _ _ _ _ _ _
    | some d =>
      rw [rvDnsSearchCallback_suffix E S dnsEngine newRecordCB q status queryId queryResults
        alen queryName0 tls trace d hneg hg]
      exact rvDnsSearchCallback_issue_extends _ _ _ _ _ _ _ _ _ _
  · have hc : status ≠ E.ARES_ENODATA ∧ status ≠ S.ARES_ESERVFAIL ∧
        status ≠ E.ARES_ENOTFOUND ∧ status ≠ S.ARES_EREFUSED ∧
        status ≠ S.ARES_ENDOFSERVERS := by
      by_contra h
      exact hneg ((negativeStatus_iff E S status).2 h)
    unfold rvDnsSearchCallback
    rw [if_pos hc]
    exact rvDnsCallback_extends _ _ _ _ _ _ _ _ _ _ _

theorem rvDnsSearch_extends (E : Env) (S : SearchEnv) (dnsEngine : RvDnsSearchEngine)
    (queryType : Int) (dnsName : Name) (mask queryBuffer qbufLen : Nat)
    (squery0 : rvSearchQuery) (context queryId : Nat) (trace : List Event) :
    TraceExtends trace (rvDnsSearch E S dnsEngine queryType dnsName mask queryBuffer qbufLen
      squery0 context queryId trace).trace := by
  unfold rvDnsSearch
  simp only []
  split_ifs <;>
    first
    | exact TraceExtends.refl _
    | exact TraceExtends.snoc _ _

theorem syncReplies_extends (E : Env) (S : SearchEnv) (D : SendEnv)
    (dnsEngine : RvDnsSearchEngine) (newRecordCB : Option RvDnsNewRecordCB) (queryId : Nat)
    (queryName0 : Name) :
    ∀ (k : Nat) (st : Option rvSearchQuery × CallbackResult),
      TraceExtends st.2.trace
        (syncReplies E S D dnsEngine newRecordCB queryId queryName0 k st).2.trace := by
  intro k
  induction k with
  | zero => intro st; exact TraceExtends.refl _
  | succ k ih =>
    intro st
    unfold syncReplies
    split
    · exact rvDnsCallback_extends _ _ _ _ _ _ _ _ _ _ _
    · split
      · exact (rvDnsSearchCallback_extends _ _ _ _ _ _ _ _ _ _ _ _).trans (ih _)
      · exact TraceExtends.refl _
    · exact TraceExtends.refl _

/-- No reply is handed over when the last event is not a query. -/
theorem syncReplies_cacheFind (E : Env) (S : SearchEnv) (D : SendEnv)
    (dnsEngine : RvDnsSearchEngine) (newRecordCB : Option RvDnsNewRecordCB) (queryId : Nat)
    (queryName0 : Name) (k : Nat) (st : Option rvSearchQuery × CallbackResult)
    (qt : Int) (n : Name) (m id : Nat) (ret : Int)
    (h : st.2.trace.getLast? = some (Event.cacheFind qt n m id ret)) :
    syncReplies E S D dnsEngine newRecordCB queryId queryName0 k st = st := by
  cases k with
  | zero => rfl
  | succ k =>
    unfold syncReplies
    rw [h]
    cases D.syncReply st.2.trace <;> rfl

/-- The reply to a query sent with `rvDnsCallback` is handed to `rvDnsCallback`. -/
theorem syncReplies_direct (E : Env) (S : SearchEnv) (D : SendEnv)
    (dnsEngine : RvDnsSearchEngine) (newRecordCB : Option RvDnsNewRecordCB) (queryId : Nat)
    (queryName0 : Name) (k : Nat) (st : Option rvSearchQuery × CallbackResult)
    (n : Name) (c : Nat) (qt : Int) (context id : Nat) (ret : Int)
    (h : st.2.trace.getLast? =
      some (Event.query n c qt (QueryCallback.rvDnsCallback context) id ret)) :
    syncReplies E S D dnsEngine newRecordCB queryId queryName0 (k + 1) st =
      match D.syncReply st.2.trace with
      | some r =>
        (st.1, rvDnsCallback E dnsEngine.toRvDnsEngine newRecordCB context r.status queryId
          r.queryResults r.alen queryName0 st.2.tls st.2.trace)
      | none => st := by
  unfold syncReplies
  rw [h]
  cases D.syncReply st.2.trace <;> rfl

theorem RvAresSendQueryEx_domainMask_eq (D : SendEnv) (n : Nat) (hn : n ≤ 30) :
    RvAresSendQueryEx.domainMask D n = 2 ^ (n + 1) - 1 := by
  unfold RvAresSendQueryEx.domainMask
  simp only []
  rw [if_pos (by omega), Nat.one_shiftLeft]
  have h1 : 0 < 2 ^ (n + 1) := Nat.two_pow_pos _
  have h2 : 2 ^ (n + 1) ≤ 2 ^ 32 := Nat.pow_le_pow_right (by decide) (by omega)
  generalize 2 ^ (n + 1) = x at h1 h2 ⊢
  norm_num at h2 ⊢
  omega

/-- What `RvAresSendQueryEx` does for a supported query type and a free lock, in terms of
the answer `c` of the cache, the event `ev` of the lookup and the issue step `w`. -/
theorem RvAresSendQueryEx_eq (E : Env) (S : SearchEnv) (D : SendEnv)
    (dnsEngine : RvDnsSendEngine) (dnsQuery : Int) (dnsName : Name) (as_is : Int)
    (queryBuffer qbufLen : Nat) (newRecordCB : Option RvDnsNewRecordCB) (context : Nat)
    (squery0 : rvSearchQuery) (queryName0 : Name) (tls : Option Int) (trace : List Event)
    (queryType : Int) (c : Int × Nat × Nat) (ev : Event) (w : IssueResult)
    (hqt : RvAresSendQueryEx.queryType E dnsQuery = some queryType)
    (hlock : D.RvLockGet trace = RV_OK)
    (hc : c = D.RvAresCacheCltFind trace queryType dnsName dnsName.length
      (if as_is ≠ 0 then none else some dnsEngine.domains)
      (if as_is ≠ 0 then 0 else dnsEngine.ndomains)
      (RvAresSendQueryEx.domainMask D (if as_is ≠ 0 then 0 else dnsEngine.ndomains))
      context dnsEngine.userQueryId queryBuffer qbufLen)
    (hev : ev = Event.cacheFind queryType dnsName
      (RvAresSendQueryEx.domainMask D (if as_is ≠ 0 then 0 else dnsEngine.ndomains))
      dnsEngine.userQueryId c.1)
    (hw : w = RvAresSendQueryEx.issue E S D dnsEngine.toRvDnsSearchEngine queryType dnsName
      as_is c.2.1 queryBuffer c.2.2 (userCallback dnsEngine.toRvDnsEngine newRecordCB)
      context dnsEngine.userQueryId squery0 queryName0 (trace ++ [ev])) :
    RvAresSendQueryEx E S D dnsEngine dnsQuery dnsName as_is queryBuffer qbufLen newRecordCB
        context squery0 queryName0 tls trace =
      if c.1 = S.RV_ERROR_INSUFFICIENT_BUFFER then
        { status := c.1, qbufLen := c.2.2, queryId := some dnsEngine.userQueryId,
          userQueryId := (dnsEngine.userQueryId + 1) % 2 ^ 32, tls := some RV_OK,
          trace := trace ++ [ev] }
      else if c.1 = RV_OK ∨ c.1 = D.RV_DNS_ERROR_NOTFOUND then
        { status := c.1, qbufLen := qbufLen, queryId := some dnsEngine.userQueryId,
          userQueryId := (dnsEngine.userQueryId + 1) % 2 ^ 32, tls := some RV_OK,
          trace := trace ++ [ev] }
      else
        { status := RvAresSendQueryEx.result S D w.status w.exception, qbufLen := w.tqbufLen,
          queryId := some dnsEngine.userQueryId,
          userQueryId := (dnsEngine.userQueryId + 1) % 2 ^ 32, tls := none,
          trace := w.trace } := by
  rw [hw, hev, hc]
  unfold RvAresSendQueryEx
  simp only []
  rw [hqt]
  simp only []
  rw [if_neg (by rw [hlock]; exact fun h => h rfl)]

theorem RvAresSendQueryEx_issue_extends (E : Env) (S : SearchEnv) (D : SendEnv)
    (dnsEngine : RvDnsSearchEngine) (queryType : Int) (dnsName : Name) (as_is : Int)
    (domainMask : Nat) (queryBuffer tqbufLen : Nat) (newRecordCB : RvDnsNewRecordCB)
    (context queryId : Nat) (squery0 : rvSearchQuery) (queryName0 : Name)
    (trace : List Event) :
    TraceExtends trace (RvAresSendQueryEx.issue E S D dnsEngine queryType dnsName as_is
      domainMask queryBuffer tqbufLen newRecordCB context queryId squery0 queryName0
      trace).trace := by
  unfold RvAresSendQueryEx.issue
  simp only []
  refine TraceExtends.trans ?_ (syncReplies_extends _ _ _ _ _ _ _ _ _)
  split_ifs
  · exact TraceExtends.snoc _ _
  · exact rvDnsSearch_extends _ _ _ _ _ _ _ _ _ _ _ _

/-- The issue step when `as_is` is `RV_TRUE`: one `ares_query` for the name, with
`rvDnsCallback` and the context of the user. -/
theorem RvAresSendQueryEx_issue_direct (E : Env) (S : SearchEnv) (D : SendEnv)
    (dnsEngine : RvDnsSearchEngine) (queryType : Int) (dnsName : Name)
    (domainMask : Nat) (queryBuffer tqbufLen : Nat) (newRecordCB : RvDnsNewRecordCB)
    (context queryId : Nat) (squery0 : rvSearchQuery) (queryName0 : Name)
    (trace : List Event) :
    (RvAresSendQueryEx.issue E S D dnsEngine queryType dnsName 1 domainMask queryBuffer
        tqbufLen newRecordCB context queryId squery0 queryName0 trace).status =
      (S.ares_query trace dnsName C_IN queryType queryBuffer tqbufLen queryId).1 ∧
    (RvAresSendQueryEx.issue E S D dnsEngine queryType dnsName 1 domainMask queryBuffer
        tqbufLen newRecordCB context queryId squery0 queryName0 trace).tqbufLen =
      (S.ares_query trace dnsName C_IN queryType queryBuffer tqbufLen queryId).2 ∧
    (match D.syncReply (trace ++ [Event.query dnsName C_IN queryType
        (QueryCallback.rvDnsCallback context) queryId
        (S.ares_query trace dnsName C_IN queryType queryBuffer tqbufLen queryId).1]) with
      | none =>
        (RvAresSendQueryEx.issue E S D dnsEngine queryType dnsName 1 domainMask queryBuffer
            tqbufLen newRecordCB context queryId squery0 queryName0 trace).exception = RV_OK ∧
        (RvAresSendQueryEx.issue E S D dnsEngine queryType dnsName 1 domainMask queryBuffer
            tqbufLen newRecordCB context queryId squery0 queryName0 trace).trace =
          trace ++ [Event.query dnsName C_IN queryType (QueryCallback.rvDnsCallback context)
            queryId (S.ares_query trace dnsName C_IN queryType queryBuffer tqbufLen queryId).1]
      | some r =>
        (RvAresSendQueryEx.issue E S D dnsEngine queryType dnsName 1 domainMask queryBuffer
            tqbufLen newRecordCB context queryId squery0 queryName0 trace).trace =
          (rvDnsCallback E dnsEngine.toRvDnsEngine (some newRecordCB) context r.status queryId
            r.queryResults r.alen queryName0 (some RV_OK)
            (trace ++ [Event.query dnsName C_IN queryType (QueryCallback.rvDnsCallback context)
              queryId
              (S.ares_query trace dnsName C_IN queryType queryBuffer tqbufLen queryId).1])).trace ∧
        (RvAresSendQueryEx.issue E S D dnsEngine queryType dnsName 1 domainMask queryBuffer
            tqbufLen newRecordCB context queryId squery0 queryName0 trace).exception =
          match (rvDnsCallback E dnsEngine.toRvDnsEngine (some newRecordCB) context r.status
            queryId r.queryResults r.alen queryName0 (some RV_OK)
            (trace ++ [Event.query dnsName C_IN queryType (QueryCallback.rvDnsCallback context)
              queryId
              (S.ares_query trace dnsName C_IN queryType queryBuffer tqbufLen
                queryId).1])).tls with
          | some e => e
          | none => RV_OK) := by
  unfold RvAresSendQueryEx.issue
  simp only [if_true]
  rw [syncReplies_direct E S D dnsEngine (some newRecordCB) queryId queryName0
    (dnsEngine.ndomains + 1) _ dnsName C_IN queryType context queryId
    (S.ares_query trace dnsName C_IN queryType queryBuffer tqbufLen queryId).1
    (by simp)]
  refine ⟨trivial, trivial, ?_⟩
  cases D.syncReply (trace ++ [Event.query dnsName C_IN queryType
      (QueryCallback.rvDnsCallback context) queryId
      (S.ares_query trace dnsName C_IN queryType queryBuffer tqbufLen queryId).1]) with
  | none => exact ⟨rfl, rfl⟩
  | some r => exact ⟨rfl, rfl⟩

/-- The cache lookup is the first thing `RvAresSendQueryEx` does to its collaborators, for a
supported query type and a free lock. -/
theorem RvAresSendQueryEx_trace (E : Env) (S : SearchEnv) (D : SendEnv)
    (dnsEngine : RvDnsSendEngine) (dnsQuery : Int) (dnsName : Name) (as_is : Int)
    (queryBuffer qbufLen : Nat) (newRecordCB : Option RvDnsNewRecordCB) (context : Nat)
    (squery0 : rvSearchQuery) (queryName0 : Name) (tls : Option Int) (trace : List Event)
    (queryType : Int) (c : Int × Nat × Nat) (ev : Event)
    (hqt : RvAresSendQueryEx.queryType E dnsQuery = some queryType)
    (hlock : D.RvLockGet trace = RV_OK)
    (hc : c = D.RvAresCacheCltFind trace queryType dnsName dnsName.length
      (if as_is ≠ 0 then none else some dnsEngine.domains)
      (if as_is ≠ 0 then 0 else dnsEngine.ndomains)
      (RvAresSendQueryEx.domainMask D (if as_is ≠ 0 then 0 else dnsEngine.ndomains))
      context dnsEngine.userQueryId queryBuffer qbufLen)
    (hev : ev = Event.cacheFind queryType dnsName
      (RvAresSendQueryEx.domainMask D (if as_is ≠ 0 then 0 else dnsEngine.ndomains))
      dnsEngine.userQueryId c.1) :
    ∃ rest, (RvAresSendQueryEx E S D dnsEngine dnsQuery dnsName as_is queryBuffer qbufLen
      newRecordCB context squery0 queryName0 tls trace).trace = trace ++ ev :: rest := by
  rw [RvAresSendQueryEx_eq E S D dnsEngine dnsQuery dnsName as_is queryBuffer qbufLen
    newRecordCB context squery0 queryName0 tls trace queryType c ev _ hqt hlock hc hev rfl]
  split_ifs
  · exact ⟨[], rfl⟩
  · exact ⟨[], rfl⟩
  · obtain ⟨ext, hext⟩ := RvAresSendQueryEx_issue_extends E S D dnsEngine.toRvDnsSearchEngine
      queryType dnsName as_is c.2.1 queryBuffer c.2.2
      (userCallback dnsEngine.toRvDnsEngine newRecordCB) context dnsEngine.userQueryId squery0
      queryName0 (trace ++ [ev])
    exact ⟨ext, by simp only []; rw [hext, List.append_assoc]; rfl⟩

/-- The mask of `RvAresSendQueryEx` for at most 30 suffixes has exactly the bits 0 to `n`
set; the mask of an as-is request, whose suffix count is 0, is 1; and that mask is the one
`RvAresSendQueryEx` hands to the cache, with the suffix count 0 when `as_is` is set and
`ndomains` otherwise. -/
theorem RvAresSendQueryEx_domainMask_below_31 (D : SendEnv) (n : Nat) (hn : n ≤ 30) :
    (∀ i, (RvAresSendQueryEx.domainMask D n).testBit i = decide (i ≤ n)) ∧
    RvAresSendQueryEx.domainMask D 0 = 1 ∧
    (∀ (E : Env) (S : SearchEnv) (dnsEngine : RvDnsSendEngine) (dnsQuery : Int)
      (dnsName : Name) (as_is : Int) (queryBuffer qbufLen : Nat)
      (newRecordCB : Option RvDnsNewRecordCB) (context : Nat) (squery0 : rvSearchQuery)
      (queryName0 : Name) (tls : Option Int) (trace : List Event) (queryType : Int),
      RvAresSendQueryEx.queryType E dnsQuery = some queryType → D.RvLockGet trace = RV_OK →
      dnsEngine.ndomains = n →
      ∃ ret rest, (RvAresSendQueryEx E S D dnsEngine dnsQuery dnsName as_is queryBuffer qbufLen
        newRecordCB context squery0 queryName0 tls trace).trace =
          trace ++ Event.cacheFind queryType dnsName
            (if as_is ≠ 0 then 1 else RvAresSendQueryEx.domainMask D n)
            dnsEngine.userQueryId ret :: rest) := by
  have h0 : RvAresSendQueryEx.domainMask D 0 = 1 :=
    (RvAresSendQueryEx_domainMask_eq D 0 (by omega)).trans (by norm_num)
  refine ⟨?_, h0, ?_⟩
  · intro i
    have hm := RvAresSendQueryEx_domainMask_eq D n hn
    rw [hm, Nat.testBit_two_pow_sub_one, decide_eq_decide]
    exact Nat.lt_succ_iff
  · intro E S dnsEngine dnsQuery dnsName as_is queryBuffer qbufLen newRecordCB context squery0
      queryName0 tls trace queryType hqt hlock hnd
    obtain ⟨rest, hrest⟩ := RvAresSendQueryEx_trace E S D dnsEngine dnsQuery dnsName as_is
      queryBuffer qbufLen newRecordCB context squery0 queryName0 tls trace queryType
      (D.RvAresCacheCltFind trace queryType dnsName dnsName.length
        (if as_is ≠ 0 then none else some dnsEngine.domains)
        (if as_is ≠ 0 then 0 else dnsEngine.ndomains)
        (RvAresSendQueryEx.domainMask D (if as_is ≠ 0 then 0 else dnsEngine.ndomains)) context
        dnsEngine.userQueryId queryBuffer qbufLen)
      (Event.cacheFind queryType dnsName
        (RvAresSendQueryEx.domainMask D (if as_is ≠ 0 then 0 else dnsEngine.ndomains))
        dnsEngine.userQueryId (D.RvAresCacheCltFind trace queryType dnsName dnsName.length
          (if as_is ≠ 0 then none else some dnsEngine.domains)
          (if as_is ≠ 0 then 0 else dnsEngine.ndomains)
          (RvAresSendQueryEx.domainMask D (if as_is ≠ 0 then 0 else dnsEngine.ndomains))
          context dnsEngine.userQueryId queryBuffer qbufLen).1) hqt
      hlock rfl rfl
    refine ⟨(D.RvAresCacheCltFind trace queryType dnsName dnsName.length
      (if as_is ≠ 0 then none else some dnsEngine.domains)
      (if as_is ≠ 0 then 0 else dnsEngine.ndomains)
      (RvAresSendQueryEx.domainMask D (if as_is ≠ 0 then 0 else dnsEngine.ndomains)) context
      dnsEngine.userQueryId queryBuffer qbufLen).1, rest, ?_⟩
    rw [hrest]
    by_cases ha : as_is ≠ 0
    · simp only [if_pos ha, h0]
    · simp only [if_neg ha, hnd]

/-- With 31 suffixes the mask is whatever the undefined shift by 32 yields, less one, in
32-bit arithmetic: it has all 32 bits set only where that shift yields 0. -/
theorem RvAresSendQueryEx_domainMask_31 (D : SendEnv) :
    RvAresSendQueryEx.domainMask D 31 =
      (D.undefinedShift 32 % 2 ^ 32 + (2 ^ 32 - 1)) % 2 ^ 32 := by
  unfold RvAresSendQueryEx.domainMask
  simp only []
  rw [if_neg (by omega)]

/-- C29: with 31 suffixes the shift count of `(1 << (nDomains + 1)) - 1` is 32, the width of
the `int` literal `1`.  Where such a shift takes the count modulo 32, `1 << 32` is 1 and the
mask is 0, with no bit set, not 4294967295: the cache is handed the mask 0, and the send of
`web` is accepted with `RV_OK` although no query is issued.  With 30 suffixes the mask is
2147483647, the bits 0 to 30, and `web.c` is queried. -/
theorem RvAresSendQueryEx_mask_of_31_suffixes :
    (sampleSendEnv (-20) none).undefinedShift 32 = 1 ∧
    RvAresSendQueryEx.domainMask (sampleSendEnv (-20) none) 31 = 0 ∧
    RvAresSendQueryEx.domainMask (sampleSendEnv (-20) none) 30 = 2147483647 ∧
    (sampleSendEngine (List.replicate 31 [99]) 1 1).ndomains = 31 ∧
    (RvAresSendQueryEx (sampleEnv cacheOk) sampleSearchEnv (sampleSendEnv (-20) none)
      (sampleSendEngine (List.replicate 31 [99]) 1 1) 1 nameWeb 0 0 512 none 77
      zeroSearchQuery [] none []).status = RV_OK ∧
    (RvAresSendQueryEx (sampleEnv cacheOk) sampleSearchEnv (sampleSendEnv (-20) none)
      (sampleSendEngine (List.replicate 31 [99]) 1 1) 1 nameWeb 0 0 512 none 77
      zeroSearchQuery [] none []).trace = [Event.cacheFind 1 nameWeb 0 1 (-20)] ∧
    queriesOf (RvAresSendQueryEx (sampleEnv cacheOk) sampleSearchEnv (sampleSendEnv (-20) none)
      (sampleSendEngine (List.replicate 30 [99]) 1 1) 1 nameWeb 0 0 512 none 77
      zeroSearchQuery [] none []).trace = [nameWeb ++ [46, 99]] := by
  decide

/-- C28 (counterexample): with the counter at 4294967295 a send gets the id 4294967295 and
the next send gets the id 0, which is not greater; and a send with a supported query type
that does not get the lock returns the status of the lock, writes no id and leaves the
counter as it is. -/
theorem RvAresSendQueryEx_id_wraps :
    (RvAresSendQueryEx (sampleEnv cacheOk) sampleSearchEnv (sampleSendEnv (-20) none)
      (sampleSendEngine sampleSuffixes 1 4294967295) 1 nameWeb 1 0 512 none 77 zeroSearchQuery
      [] none []).queryId = some 4294967295 ∧
    (RvAresSendQueryEx (sampleEnv cacheOk) sampleSearchEnv (sampleSendEnv (-20) none)
      (sampleSendEngine sampleSuffixes 1 4294967295) 1 nameWeb 1 0 512 none 77 zeroSearchQuery
      [] none []).userQueryId = 0 ∧
    (RvAresSendQueryEx (sampleEnv cacheOk) sampleSearchEnv (sampleSendEnv (-20) none)
      (sampleSendEngine sampleSuffixes 1 0) 1 nameWeb 1 0 512 none 77 zeroSearchQuery
      [] none []).queryId = some 0 ∧
    RvAresSendQueryEx.queryType (sampleEnv cacheOk) 1 = some T_A ∧
    (RvAresSendQueryEx (sampleEnv cacheOk) sampleSearchEnv (lockedSendEnv (-7))
      (sampleSendEngine sampleSuffixes 1 1) 1 nameWeb 1 0 512 none 77 zeroSearchQuery
      [] none []).status = -7 ∧
    (RvAresSendQueryEx (sampleEnv cacheOk) sampleSearchEnv (lockedSendEnv (-7))
      (sampleSendEngine sampleSuffixes 1 1) 1 nameWeb 1 0 512 none 77 zeroSearchQuery
      [] none []).queryId = none ∧
    (RvAresSendQueryEx (sampleEnv cacheOk) sampleSearchEnv (lockedSendEnv (-7))
      (sampleSendEngine sampleSuffixes 1 1) 1 nameWeb 1 0 512 none 77 zeroSearchQuery
      [] none []).userQueryId = 1 := by
  decide

/-- C28 (amended): a send with a supported query type that gets the lock is given the value
of the counter of the engine as its id and leaves the counter advanced by one modulo 2^32,
whether the request is then served from the cache, issued or rejected; the next such send
gets that next value, which is greater unless the counter wrapped from 4294967295 to 0; a
send with an unsupported query type returns `RV_ERROR_BADPARAM`, writes no id and leaves the
counter as it is. -/
theorem RvAresSendQueryEx_query_id (E : Env) (S : SearchEnv) (D : SendEnv)
    (dnsEngine : RvDnsSendEngine) (dnsQuery : Int) (dnsName : Name) (as_is : Int)
    (queryBuffer qbufLen : Nat) (newRecordCB : Option RvDnsNewRecordCB) (context : Nat)
    (squery0 : rvSearchQuery) (queryName0 : Name) (tls : Option Int) (trace : List Event)
    (hcount : dnsEngine.userQueryId < 2 ^ 32) :
    (∀ queryType, RvAresSendQueryEx.queryType E dnsQuery = some queryType →
      D.RvLockGet trace = RV_OK →
      (RvAresSendQueryEx E S D dnsEngine dnsQuery dnsName as_is queryBuffer qbufLen
        newRecordCB context squery0 queryName0 tls trace).queryId =
          some dnsEngine.userQueryId ∧
      (RvAresSendQueryEx E S D dnsEngine dnsQuery dnsName as_is queryBuffer qbufLen
        newRecordCB context squery0 queryName0 tls trace).userQueryId =
          (dnsEngine.userQueryId + 1) % 2 ^ 32 ∧
      ∀ (dnsQuery2 : Int) (dnsName2 : Name) (as_is2 : Int) (queryBuffer2 qbufLen2 : Nat)
        (newRecordCB2 : Option RvDnsNewRecordCB) (context2 : Nat) (tls2 : Option Int)
        (trace2 : List Event) (queryType2 : Int),
        RvAresSendQueryEx.queryType E dnsQuery2 = some queryType2 →
        D.RvLockGet trace2 = RV_OK →
        (RvAresSendQueryEx E S D
          { dnsEngine with userQueryId :=
            (RvAresSendQueryEx E S D dnsEngine dnsQuery dnsName as_is queryBuffer qbufLen
              newRecordCB context squery0 queryName0 tls trace).userQueryId }
          dnsQuery2 dnsName2 as_is2 queryBuffer2 qbufLen2 newRecordCB2 context2 squery0
          queryName0 tls2 trace2).queryId = some ((dnsEngine.userQueryId + 1) % 2 ^ 32) ∧
        (dnsEngine.userQueryId ≠ 2 ^ 32 - 1 →
          dnsEngine.userQueryId < (dnsEngine.userQueryId + 1) % 2 ^ 32)) ∧
    (RvAresSendQueryEx.queryType E dnsQuery = none →
      (RvAresSendQueryEx E S D dnsEngine dnsQuery dnsName as_is queryBuffer qbufLen
        newRecordCB context squery0 queryName0 tls trace).status = D.RV_ERROR_BADPARAM ∧
      (RvAresSendQueryEx E S D dnsEngine dnsQuery dnsName as_is queryBuffer qbufLen
        newRecordCB context squery0 queryName0 tls trace).queryId = none ∧
      (RvAresSendQueryEx E S D dnsEngine dnsQuery dnsName as_is queryBuffer qbufLen
        newRecordCB context squery0 queryName0 tls trace).userQueryId =
          dnsEngine.userQueryId) := by
  have ids : ∀ (eng : RvDnsSendEngine) (dq : Int) (nm : Name) (ai : Int) (qb ql : Nat)
      (cb : Option RvDnsNewRecordCB) (ctx : Nat) (t0 : Option Int) (tr : List Event) (qt : Int),
      RvAresSendQueryEx.queryType E dq = some qt → D.RvLockGet tr = RV_OK →
      (RvAresSendQueryEx E S D eng dq nm ai qb ql cb ctx squery0 queryName0 t0 tr).queryId =
        some eng.userQueryId ∧
      (RvAresSendQueryEx E S D eng dq nm ai qb ql cb ctx squery0 queryName0 t0 tr).userQueryId =
        (eng.userQueryId + 1) % 2 ^ 32 := by
    intro eng dq nm ai qb ql cb ctx t0 tr qt hqt hlock
    rw [RvAresSendQueryEx_eq E S D eng dq nm ai qb ql cb ctx squery0 queryName0 t0 tr qt _ _ _
      hqt hlock rfl rfl rfl]
    split_ifs <;> exact ⟨rfl, rfl⟩
  constructor
  · intro queryType hqt hlock
    obtain ⟨h1, h2⟩ := ids dnsEngine dnsQuery dnsName as_is queryBuffer qbufLen newRecordCB
      context tls trace queryType hqt hlock
    refine ⟨h1, h2, ?_⟩
    intro dnsQuery2 dnsName2 as_is2 queryBuffer2 qbufLen2 newRecordCB2 context2 tls2 trace2
      queryType2 hqt2 hlock2
    constructor
    · rw [(ids _ dnsQuery2 dnsName2 as_is2 queryBuffer2 qbufLen2 newRecordCB2 context2 tls2
        trace2 queryType2 hqt2 hlock2).1]
      simp only []
      rw [h2]
    · intro hne
      norm_num at hcount hne ⊢
      omega
  · intro hnone
    unfold RvAresSendQueryEx
    simp only []
    rw [hnone]
    exact ⟨rfl, rfl, rfl⟩

/-- C28 (witness): a fresh engine, whose counter is 1: the first send gets the id 1, the
second the id 2. -/
theorem RvAresSendQueryEx_query_id_witness :
    (RvAresSendQueryEx (sampleEnv cacheOk) sampleSearchEnv (sampleSendEnv (-20) none)
      (sampleSendEngine sampleSuffixes 1 1) 1 nameWeb 1 0 512 none 77 zeroSearchQuery
      [] none []).queryId = some 1 ∧
    (RvAresSendQueryEx (sampleEnv cacheOk) sampleSearchEnv (sampleSendEnv (-20) none)
      (sampleSendEngine sampleSuffixes 1 1) 1 nameWeb 1 0 512 none 77 zeroSearchQuery
      [] none []).userQueryId = (1 + 1) % 2 ^ 32 :=
  ⟨((RvAresSendQueryEx_query_id (sampleEnv cacheOk) sampleSearchEnv (sampleSendEnv (-20) none)
      (sampleSendEngine sampleSuffixes 1 1) 1 nameWeb 1 0 512 none 77 zeroSearchQuery
      [] none [] (by decide)).1 1 (by decide) (by decide)).1,
   ((RvAresSendQueryEx_query_id (sampleEnv cacheOk) sampleSearchEnv (sampleSendEnv (-20) none)
      (sampleSendEngine sampleSuffixes 1 1) 1 nameWeb 1 0 512 none 77 zeroSearchQuery
      [] none [] (by decide)).1 1 (by decide) (by decide)).2.1⟩

/-- C23 (counterexample): in an as-is send that misses the cache, `ares_query` returns
END_OF_SERVERS (22) and hands that status to the callback at once, so the exception slot
holds 22; `RvAresSendQueryEx` returns `RV_ERROR_UNKNOWN` (-1), not the status in the slot.
When `ares_query` returns SERVFAIL (3) and the slot is not written, it returns -1 as well,
not 3. -/
theorem RvAresSendQueryEx_failure_mapped_to_unknown :
    (RvAresSendQueryEx.issue (sampleEnv cacheOk) (searchEnvReturning 22)
      (sampleSendEnv (-20) (some ⟨22, [], 0⟩))
      (sampleSendEngine sampleSuffixes 1 1).toRvDnsSearchEngine 1 nameWeb 1 1 0 512 cbOk 77 1
      zeroSearchQuery [] [Event.cacheFind 1 nameWeb 1 1 (-20)]).exception = 22 ∧
    (RvAresSendQueryEx (sampleEnv cacheOk) (searchEnvReturning 22)
      (sampleSendEnv (-20) (some ⟨22, [], 0⟩)) (sampleSendEngine sampleSuffixes 1 1) 1 nameWeb
      1 0 512 none 77 zeroSearchQuery [] none []).status = -1 ∧
    (RvAresSendQueryEx.issue (sampleEnv cacheOk) (searchEnvReturning 3)
      (sampleSendEnv (-20) none)
      (sampleSendEngine sampleSuffixes 1 1).toRvDnsSearchEngine 1 nameWeb 1 1 0 512 cbOk 77 1
      zeroSearchQuery [] [Event.cacheFind 1 nameWeb 1 1 (-20)]).status = 3 ∧
    (RvAresSendQueryEx.issue (sampleEnv cacheOk) (searchEnvReturning 3)
      (sampleSendEnv (-20) none)
      (sampleSendEngine sampleSuffixes 1 1).toRvDnsSearchEngine 1 nameWeb 1 1 0 512 cbOk 77 1
      zeroSearchQuery [] [Event.cacheFind 1 nameWeb 1 1 (-20)]).exception = RV_OK ∧
    (RvAresSendQueryEx (sampleEnv cacheOk) (searchEnvReturning 3)
      (sampleSendEnv (-20) none) (sampleSendEngine sampleSuffixes 1 1) 1 nameWeb
      1 0 512 none 77 zeroSearchQuery [] none []).status = -1 := by
  decide

/-- C23 (amended): for a send that reaches the issue step (supported query type, free lock,
cache miss), with `w` the issue step: when the status of the issue step is neither success
nor `RV_DNS_ERROR_NOTFOUND`, the send returns `RV_ERROR_INSUFFICIENT_BUFFER` for
`ARES_ENOMEM` and `RV_ERROR_UNKNOWN` otherwise, whatever the exception slot holds; when it
is success or `RV_DNS_ERROR_NOTFOUND`, the send returns the status in the slot if one other
than `RV_OK` was written, and the status of the issue step if not. -/
theorem RvAresSendQueryEx_return_status (E : Env) (S : SearchEnv) (D : SendEnv)
    (dnsEngine : RvDnsSendEngine) (dnsQuery : Int) (dnsName : Name) (as_is : Int)
    (queryBuffer qbufLen : Nat) (newRecordCB : Option RvDnsNewRecordCB) (context : Nat)
    (squery0 : rvSearchQuery) (queryName0 : Name) (tls : Option Int) (trace : List Event)
    (queryType : Int) (c : Int × Nat × Nat) (ev : Event) (w : IssueResult)
    (hqt : RvAresSendQueryEx.queryType E dnsQuery = some queryType)
    (hlock : D.RvLockGet trace = RV_OK)
    (hc : c = D.RvAresCacheCltFind trace queryType dnsName dnsName.length
      (if as_is ≠ 0 then none else some dnsEngine.domains)
      (if as_is ≠ 0 then 0 else dnsEngine.ndomains)
      (RvAresSendQueryEx.domainMask D (if as_is ≠ 0 then 0 else dnsEngine.ndomains))
      context dnsEngine.userQueryId queryBuffer qbufLen)
    (hev : ev = Event.cacheFind queryType dnsName
      (RvAresSendQueryEx.domainMask D (if as_is ≠ 0 then 0 else dnsEngine.ndomains))
      dnsEngine.userQueryId c.1)
    (hw : w = RvAresSendQueryEx.issue E S D dnsEngine.toRvDnsSearchEngine queryType dnsName
      as_is c.2.1 queryBuffer c.2.2 (userCallback dnsEngine.toRvDnsEngine newRecordCB)
      context dnsEngine.userQueryId squery0 queryName0 (trace ++ [ev]))
    (hm1 : c.1 ≠ S.RV_ERROR_INSUFFICIENT_BUFFER) (hm2 : c.1 ≠ RV_OK)
    (hm3 : c.1 ≠ D.RV_DNS_ERROR_NOTFOUND) :
    (w.status ≠ ARES_SUCCESS → w.status ≠ D.RV_DNS_ERROR_NOTFOUND →
      w.status = S.ARES_ENOMEM →
      (RvAresSendQueryEx E S D dnsEngine dnsQuery dnsName as_is queryBuffer qbufLen
        newRecordCB context squery0 queryName0 tls trace).status =
          S.RV_ERROR_INSUFFICIENT_BUFFER) ∧
    (w.status ≠ ARES_SUCCESS → w.status ≠ D.RV_DNS_ERROR_NOTFOUND →
      w.status ≠ S.ARES_ENOMEM →
      (RvAresSendQueryEx E S D dnsEngine dnsQuery dnsName as_is queryBuffer qbufLen
        newRecordCB context squery0 queryName0 tls trace).status = D.RV_ERROR_UNKNOWN) ∧
    (w.status = ARES_SUCCESS ∨ w.status = D.RV_DNS_ERROR_NOTFOUND →
      w.exception ≠ RV_OK →
      (RvAresSendQueryEx E S D dnsEngine dnsQuery dnsName as_is queryBuffer qbufLen
        newRecordCB context squery0 queryName0 tls trace).status = w.exception) ∧
    (w.status = ARES_SUCCESS ∨ w.status = D.RV_DNS_ERROR_NOTFOUND →
      w.exception = RV_OK →
      (RvAresSendQueryEx E S D dnsEngine dnsQuery dnsName as_is queryBuffer qbufLen
        newRecordCB context squery0 queryName0 tls trace).status = w.status) := by
  rw [RvAresSendQueryEx_eq E S D dnsEngine dnsQuery dnsName as_is queryBuffer qbufLen
    newRecordCB context squery0 queryName0 tls trace queryType c ev w hqt hlock hc hev hw,
    if_neg hm1, if_neg (by rintro (h | h); exact hm2 h; exact hm3 h)]
  simp only []
  unfold RvAresSendQueryEx.result
  refine ⟨?_, ?_, ?_, ?_⟩
  · intro h1 h2 h3
    rw [if_pos ⟨h1, h2⟩, if_pos h3]
  · intro h1 h2 h3
    rw [if_pos ⟨h1, h2⟩, if_neg h3]
  · intro h1 h2
    rw [if_neg (by rintro ⟨a, b⟩; rcases h1 with h | h; exact a h; exact b h), if_pos h2]
  · intro h1 h2
    rw [if_neg (by rintro ⟨a, b⟩; rcases h1 with h | h; exact a h; exact b h),
      if_neg (by rw [h2]; exact fun h => h rfl)]

/-- C23 (witness): `ares_query` accepts the query and hands END_OF_SERVERS (22) to the
callback at once: the send returns 22, the status in the slot. -/
theorem RvAresSendQueryEx_return_status_witness :
    (RvAresSendQueryEx (sampleEnv cacheOk) sampleSearchEnv
      (sampleSendEnv (-20) (some ⟨22, [], 0⟩)) (sampleSendEngine sampleSuffixes 1 1) 1 nameWeb
      1 0 512 none 77 zeroSearchQuery [] none []).status =
    (RvAresSendQueryEx.issue (sampleEnv cacheOk) sampleSearchEnv
      (sampleSendEnv (-20) (some ⟨22, [], 0⟩))
      (sampleSendEngine sampleSuffixes 1 1).toRvDnsSearchEngine 1 nameWeb 1 1 0 512
      (userCallback (sampleSendEngine sampleSuffixes 1 1).toRvDnsEngine none) 77 1
      zeroSearchQuery [] ([] ++ [Event.cacheFind 1 nameWeb 1 1 (-20)])).exception ∧
    (RvAresSendQueryEx (sampleEnv cacheOk) sampleSearchEnv
      (sampleSendEnv (-20) (some ⟨22, [], 0⟩)) (sampleSendEngine sampleSuffixes 1 1) 1 nameWeb
      1 0 512 none 77 zeroSearchQuery [] none []).status = 22 :=
  ⟨(RvAresSendQueryEx_return_status (sampleEnv cacheOk) sampleSearchEnv
      (sampleSendEnv (-20) (some ⟨22, [], 0⟩)) (sampleSendEngine sampleSuffixes 1 1) 1 nameWeb
      1 0 512 none 77 zeroSearchQuery [] none [] 1 (-20, 1, 512)
      (Event.cacheFind 1 nameWeb 1 1 (-20)) _ (by decide) (by decide) (by decide) (by decide)
      rfl (by decide) (by decide) (by decide)).2.2.1 (by decide) (by decide),
    by decide⟩

/-- C24: after a positive cache hit (status 0), a negative cache hit (-11) and the
insufficient-buffer answer of the cache (-5), `RvAresSendQueryEx` returns with the exception
slot still installed; a later failure (END_OF_SERVERS, 22) that reaches `rvDnsCallback` on
that thread is written into the slot and no callback is invoked, while with an empty slot
the callback is invoked. -/
theorem RvAresSendQueryEx_slot_left_installed :
    (RvAresSendQueryEx (sampleEnv cacheOk) sampleSearchEnv (sampleSendEnv 0 none)
      (sampleSendEngine sampleSuffixes 1 1) 1 nameWeb 0 0 512 none 77 zeroSearchQuery [] none
      []).status = 0 ∧
    (RvAresSendQueryEx (sampleEnv cacheOk) sampleSearchEnv (sampleSendEnv 0 none)
      (sampleSendEngine sampleSuffixes 1 1) 1 nameWeb 0 0 512 none 77 zeroSearchQuery [] none
      []).tls = some 0 ∧
    (RvAresSendQueryEx (sampleEnv cacheOk) sampleSearchEnv (sampleSendEnv (-11) none)
      (sampleSendEngine sampleSuffixes 1 1) 1 nameWeb 0 0 512 none 77 zeroSearchQuery [] none
      []).tls = some 0 ∧
    (RvAresSendQueryEx (sampleEnv cacheOk) sampleSearchEnv (sampleSendEnv (-5) none)
      (sampleSendEngine sampleSuffixes 1 1) 1 nameWeb 0 0 512 none 77 zeroSearchQuery [] none
      []).tls = some 0 ∧
    (RvAresSendQueryEx (sampleEnv cacheOk) sampleSearchEnv (sampleSendEnv (-20) none)
      (sampleSendEngine sampleSuffixes 1 1) 1 nameWeb 0 0 512 none 77 zeroSearchQuery [] none
      []).tls = none ∧
    rvDnsCallback (sampleEnv cacheOk) (sampleSendEngine sampleSuffixes 1 1).toRvDnsEngine none
      78 22 9 [] 0 []
      (RvAresSendQueryEx (sampleEnv cacheOk) sampleSearchEnv (sampleSendEnv 0 none)
        (sampleSendEngine sampleSuffixes 1 1) 1 nameWeb 0 0 512 none 77 zeroSearchQuery []
        none []).tls [] = { trace := [], tls := some 22 } ∧
    callbacksOf (rvDnsCallback (sampleEnv cacheOk)
      (sampleSendEngine sampleSuffixes 1 1).toRvDnsEngine none 78 22 9 [] 0 [] none []).trace =
      [statusOnlyRecord (sampleEnv cacheOk) 22] := by
  decide

/-- C25: `rvDnsCallback` with a status that is not success: with an exception slot installed
the status is written into the slot and nothing is appended to the events, so no callback is
invoked; with no slot installed exactly one callback is invoked, with the status-only record
of that status, through the callback of the query or the default of the engine when the
query has none.  So an as-is send that misses the cache and whose `ares_query` hands such a
status to the callback at once (as when no server is configured) returns that status, with
no callback invoked and the slot removed. -/
theorem rvDnsCallback_failure_slot_or_callback (E : Env) (S : SearchEnv) (D : SendEnv)
    (dnsEngine : RvDnsSendEngine) (newRecordCB : Option RvDnsNewRecordCB) (context : Nat)
    (queryStatus : Int) (queryId : Nat) (queryResults : List Nat) (alen : Nat)
    (queryName0 : Name) (trace : List Event) (h : queryStatus ≠ ARES_SUCCESS) :
    (∀ v : Int, rvDnsCallback E dnsEngine.toRvDnsEngine newRecordCB context queryStatus queryId
      queryResults alen queryName0 (some v) trace =
        { trace := trace, tls := some queryStatus }) ∧
    rvDnsCallback E dnsEngine.toRvDnsEngine newRecordCB context queryStatus queryId
      queryResults alen queryName0 none trace =
        { trace := trace ++
            [Event.callback context queryId (statusOnlyRecord E queryStatus)
              (userCallback dnsEngine.toRvDnsEngine newRecordCB trace context queryId
                (statusOnlyRecord E queryStatus))],
          tls := none } ∧
    callbacksOf (rvDnsCallback E dnsEngine.toRvDnsEngine newRecordCB context queryStatus
      queryId queryResults alen queryName0 none trace).trace =
        callbacksOf trace ++ [statusOnlyRecord E queryStatus] ∧
    userCallback dnsEngine.toRvDnsEngine none = dnsEngine.newRecordCB ∧
    (∀ cb : RvDnsNewRecordCB, userCallback dnsEngine.toRvDnsEngine (some cb) = cb) ∧
    (∀ (dnsQuery : Int) (dnsName : Name) (queryBuffer qbufLen : Nat) (squery0 : rvSearchQuery)
      (tls : Option Int) (queryType : Int) (c : Int × Nat × Nat) (ev qev : Event),
      RvAresSendQueryEx.queryType E dnsQuery = some queryType →
      D.RvLockGet trace = RV_OK →
      c = D.RvAresCacheCltFind trace queryType dnsName dnsName.length none 0
        (RvAresSendQueryEx.domainMask D 0) context dnsEngine.userQueryId queryBuffer qbufLen →
      ev = Event.cacheFind queryType dnsName (RvAresSendQueryEx.domainMask D 0)
        dnsEngine.userQueryId c.1 →
      c.1 ≠ S.RV_ERROR_INSUFFICIENT_BUFFER → c.1 ≠ RV_OK → c.1 ≠ D.RV_DNS_ERROR_NOTFOUND →
      (S.ares_query (trace ++ [ev]) dnsName C_IN queryType queryBuffer c.2.2
        dnsEngine.userQueryId).1 = ARES_SUCCESS →
      qev = Event.query dnsName C_IN queryType (QueryCallback.rvDnsCallback context)
        dnsEngine.userQueryId ARES_SUCCESS →
      D.syncReply (trace ++ [ev] ++ [qev]) = some ⟨queryStatus, queryResults, alen⟩ →
      (RvAresSendQueryEx E S D dnsEngine dnsQuery dnsName 1 queryBuffer qbufLen newRecordCB
        context squery0 queryName0 tls trace).status = queryStatus ∧
      (RvAresSendQueryEx E S D dnsEngine dnsQuery dnsName 1 queryBuffer qbufLen newRecordCB
        context squery0 queryName0 tls trace).trace = trace ++ [ev] ++ [qev] ∧
      callbacksOf (RvAresSendQueryEx E S D dnsEngine dnsQuery dnsName 1 queryBuffer qbufLen
        newRecordCB context squery0 queryName0 tls trace).trace = callbacksOf trace ∧
      (RvAresSendQueryEx E S D dnsEngine dnsQuery dnsName 1 queryBuffer qbufLen newRecordCB
        context squery0 queryName0 tls trace).tls = none) := by
  have hst := fun (cb : Option RvDnsNewRecordCB) (qid : Nat) (t : Option Int)
      (tr : List Event) =>
    rvDnsCallback_status E dnsEngine.toRvDnsEngine cb context queryStatus qid
      queryResults alen queryName0 t tr h
  refine ⟨fun v => hst _ _ (some v) trace, hst _ _ none trace, ?_, rfl, fun _ => rfl, ?_⟩
  · rw [hst _ _ none trace]
    simp only []
    rw [callbacksOf_append]
    rfl
  · intro dnsQuery dnsName queryBuffer qbufLen squery0 tls queryType c ev qev hqt hlock hc hev
      hm1 hm2 hm3 hq hqev hsync
    have one : (1 : Int) ≠ 0 := by decide
    have hc2 : c = D.RvAresCacheCltFind trace queryType dnsName dnsName.length
        (if (1 : Int) ≠ 0 then none else some dnsEngine.domains)
        (if (1 : Int) ≠ 0 then 0 else dnsEngine.ndomains)
        (RvAresSendQueryEx.domainMask D (if (1 : Int) ≠ 0 then 0 else dnsEngine.ndomains))
        context dnsEngine.userQueryId queryBuffer qbufLen := by
      rw [if_pos one, if_pos one]
      exact hc
    have hev2 : ev = Event.cacheFind queryType dnsName
        (RvAresSendQueryEx.domainMask D (if (1 : Int) ≠ 0 then 0 else dnsEngine.ndomains))
        dnsEngine.userQueryId c.1 := by
      rw [if_pos one]
      exact hev
    rw [RvAresSendQueryEx_eq E S D dnsEngine dnsQuery dnsName 1 queryBuffer qbufLen
      newRecordCB context squery0 queryName0 tls trace queryType c ev _ hqt hlock hc2 hev2 rfl,
      if_neg hm1, if_neg (by rintro (h1 | h1); exact hm2 h1; exact hm3 h1)]
    simp only []
    obtain ⟨d1, -, d3⟩ := RvAresSendQueryEx_issue_direct E S D dnsEngine.toRvDnsSearchEngine
      queryType dnsName c.2.1 queryBuffer c.2.2
      (userCallback dnsEngine.toRvDnsEngine newRecordCB) context dnsEngine.userQueryId squery0
      queryName0 (trace ++ [ev])
    rw [hq] at d1 d3
    rw [← hqev, hsync] at d3
    simp only [] at d3
    rw [hst] at d3
    simp only [] at d3
    obtain ⟨d3, d4⟩ := d3
    rw [d1, d3, d4]
    refine ⟨?_, rfl, ?_, trivial⟩
    · unfold RvAresSendQueryEx.result
      rw [if_neg (fun hh => hh.1 rfl), if_pos (show queryStatus ≠ RV_OK from h)]
    · rw [hqev, hev, callbacksOf_append, callbacksOf_append]
      simp [callbacksOf]

/-- C25 (witness): END_OF_SERVERS (22) reaches `rvDnsCallback`: with a slot installed the
slot receives 22; an as-is send with no server returns 22 and invokes no callback. -/
theorem rvDnsCallback_failure_slot_or_callback_witness :
    rvDnsCallback (sampleEnv cacheOk) (sampleSendEngine sampleSuffixes 1 1).toRvDnsEngine none
      77 22 1 [] 0 [] (some 0) [] = { trace := [], tls := some 22 } ∧
    (RvAresSendQueryEx (sampleEnv cacheOk) sampleSearchEnv
      (sampleSendEnv (-20) (some ⟨22, [], 0⟩)) (sampleSendEngine sampleSuffixes 1 1) 1 nameWeb
      1 0 512 none 77 zeroSearchQuery [] none []).status = 22 ∧
    callbacksOf (RvAresSendQueryEx (sampleEnv cacheOk) sampleSearchEnv
      (sampleSendEnv (-20) (some ⟨22, [], 0⟩)) (sampleSendEngine sampleSuffixes 1 1) 1 nameWeb
      1 0 512 none 77 zeroSearchQuery [] none []).trace = callbacksOf [] :=
  ⟨(rvDnsCallback_failure_slot_or_callback (sampleEnv cacheOk) sampleSearchEnv
      (sampleSendEnv (-20) (some ⟨22, [], 0⟩)) (sampleSendEngine sampleSuffixes 1 1) none 77
      22 1 [] 0 [] [] (by decide)).1 0,
   ((rvDnsCallback_failure_slot_or_callback (sampleEnv cacheOk) sampleSearchEnv
      (sampleSendEnv (-20) (some ⟨22, [], 0⟩)) (sampleSendEngine sampleSuffixes 1 1) none 77
      22 1 [] 0 [] [] (by decide)).2.2.2.2.2 1 nameWeb 0 512 zeroSearchQuery none 1
      (-20, 1, 512) (Event.cacheFind 1 nameWeb 1 1 (-20))
      (Event.query nameWeb 1 1 (QueryCallback.rvDnsCallback 77) 1 0)
      (by decide) (by decide) (by decide) (by decide) (by decide) (by decide) (by decide)
      (by decide) (by decide) rfl).1,
   ((rvDnsCallback_failure_slot_or_callback (sampleEnv cacheOk) sampleSearchEnv
      (sampleSendEnv (-20) (some ⟨22, [], 0⟩)) (sampleSendEngine sampleSuffixes 1 1) none 77
      22 1 [] 0 [] [] (by decide)).2.2.2.2.2 1 nameWeb 0 512 zeroSearchQuery none 1
      (-20, 1, 512) (Event.cacheFind 1 nameWeb 1 1 (-20))
      (Event.query nameWeb 1 1 (QueryCallback.rvDnsCallback 77) 1 0)
      (by decide) (by decide) (by decide) (by decide) (by decide) (by decide) (by decide)
      (by decide) (by decide) rfl).2.2.1⟩

/-- The search with a buffer shorter than the block, the name and the largest query. -/
theorem rvDnsSearch_short (E : Env) (S : SearchEnv) (dnsEngine : RvDnsSearchEngine)
    (queryType : Int) (dnsName : Name) (mask queryBuffer qbufLen : Nat)
    (squery0 : rvSearchQuery) (context queryId : Nat) (trace : List Event)
    (hsingle : rvDnsSearch.single S dnsEngine dnsName mask = false)
    (hshort : qbufLen < rvDnsSearch.len S dnsName queryBuffer +
      S.RvAresComputeQuerySize dnsName (dnsEngine.domains.getD dnsEngine.longest_domain_i [])) :
    rvDnsSearch E S dnsEngine queryType dnsName mask queryBuffer qbufLen squery0 context
        queryId trace =
      { status := S.ARES_ENOMEM,
        qbufLen := rvDnsSearch.len S dnsName queryBuffer +
          S.RvAresComputeQuerySize dnsName
            (dnsEngine.domains.getD dnsEngine.longest_domain_i []),
        squery := none, trace := trace } := by
  unfold rvDnsSearch
  simp only []
  rw [hsingle, if_neg (by decide), if_pos hshort]

/-- The search with a buffer that holds the block, the name and the largest query lays the
block. -/
theorem rvDnsSearch_fits (E : Env) (S : SearchEnv) (dnsEngine : RvDnsSearchEngine)
    (queryType : Int) (dnsName : Name) (mask queryBuffer qbufLen : Nat)
    (squery0 : rvSearchQuery) (context queryId : Nat) (trace : List Event)
    (hsingle : rvDnsSearch.single S dnsEngine dnsName mask = false)
    (hfits : rvDnsSearch.len S dnsName queryBuffer +
      S.RvAresComputeQuerySize dnsName (dnsEngine.domains.getD dnsEngine.longest_domain_i [])
        ≤ qbufLen) :
    (rvDnsSearch E S dnsEngine queryType dnsName mask queryBuffer qbufLen squery0 context
        queryId trace).squery.isSome = true := by
  unfold rvDnsSearch
  simp only []
  rw [hsingle, if_neg (by decide), if_neg (by omega)]
  unfold rvDnsSearch.send
  split_ifs <;> rfl

/-- C26: a send that is not as-is, misses the cache and takes the suffix search (the name
does not bypass it) with a buffer shorter than the aligned search-query block plus the name
plus the largest encoded query: nothing is added to the events but the cache lookup, so no
query is issued and no callback invoked; the required size is stored in `*qbufLen`; the send
returns `RV_ERROR_INSUFFICIENT_BUFFER`; the slot is removed; and a search on the same buffer
with the reported size gets past the size check and lays its block. -/
theorem RvAresSendQueryEx_search_buffer_too_small (E : Env) (S : SearchEnv) (D : SendEnv)
    (dnsEngine : RvDnsSendEngine) (dnsQuery : Int) (dnsName : Name) (as_is : Int)
    (queryBuffer qbufLen : Nat) (newRecordCB : Option RvDnsNewRecordCB) (context : Nat)
    (squery0 : rvSearchQuery) (queryName0 : Name) (tls : Option Int) (trace : List Event)
    (queryType : Int) (c : Int × Nat × Nat) (ev : Event)
    (hqt : RvAresSendQueryEx.queryType E dnsQuery = some queryType)
    (hlock : D.RvLockGet trace = RV_OK)
    (hc : c = D.RvAresCacheCltFind trace queryType dnsName dnsName.length
      (if as_is ≠ 0 then none else some dnsEngine.domains)
      (if as_is ≠ 0 then 0 else dnsEngine.ndomains)
      (RvAresSendQueryEx.domainMask D (if as_is ≠ 0 then 0 else dnsEngine.ndomains))
      context dnsEngine.userQueryId queryBuffer qbufLen)
    (hev : ev = Event.cacheFind queryType dnsName
      (RvAresSendQueryEx.domainMask D (if as_is ≠ 0 then 0 else dnsEngine.ndomains))
      dnsEngine.userQueryId c.1)
    (hm1 : c.1 ≠ S.RV_ERROR_INSUFFICIENT_BUFFER) (hm2 : c.1 ≠ RV_OK)
    (hm3 : c.1 ≠ D.RV_DNS_ERROR_NOTFOUND)
    (has : as_is ≠ 1)
    (hsingle : rvDnsSearch.single S dnsEngine.toRvDnsSearchEngine dnsName c.2.1 = false)
    (hshort : c.2.2 < rvDnsSearch.len S dnsName queryBuffer +
      S.RvAresComputeQuerySize dnsName (dnsEngine.domains.getD dnsEngine.longest_domain_i []))
    (hne1 : S.ARES_ENOMEM ≠ ARES_SUCCESS) (hne2 : S.ARES_ENOMEM ≠ D.RV_DNS_ERROR_NOTFOUND) :
    (RvAresSendQueryEx E S D dnsEngine dnsQuery dnsName as_is queryBuffer qbufLen newRecordCB
      context squery0 queryName0 tls trace).status = S.RV_ERROR_INSUFFICIENT_BUFFER ∧
    (RvAresSendQueryEx E S D dnsEngine dnsQuery dnsName as_is queryBuffer qbufLen newRecordCB
      context squery0 queryName0 tls trace).qbufLen =
        rvDnsSearch.len S dnsName queryBuffer +
          S.RvAresComputeQuerySize dnsName
            (dnsEngine.domains.getD dnsEngine.longest_domain_i []) ∧
    (RvAresSendQueryEx E S D dnsEngine dnsQuery dnsName as_is queryBuffer qbufLen newRecordCB
      context squery0 queryName0 tls trace).trace = trace ++ [ev] ∧
    queriesOf (RvAresSendQueryEx E S D dnsEngine dnsQuery dnsName as_is queryBuffer qbufLen
      newRecordCB context squery0 queryName0 tls trace).trace = queriesOf trace ∧
    callbacksOf (RvAresSendQueryEx E S D dnsEngine dnsQuery dnsName as_is queryBuffer qbufLen
      newRecordCB context squery0 queryName0 tls trace).trace = callbacksOf trace ∧
    (RvAresSendQueryEx E S D dnsEngine dnsQuery dnsName as_is queryBuffer qbufLen newRecordCB
      context squery0 queryName0 tls trace).tls = none ∧
    ∀ (squery1 : rvSearchQuery) (context1 queryId1 : Nat) (trace1 : List Event),
      (rvDnsSearch E S dnsEngine.toRvDnsSearchEngine queryType dnsName c.2.1 queryBuffer
        (RvAresSendQueryEx E S D dnsEngine dnsQuery dnsName as_is queryBuffer qbufLen
          newRecordCB context squery0 queryName0 tls trace).qbufLen
        squery1 context1 queryId1 trace1).squery.isSome = true := by
  have hissue : RvAresSendQueryEx.issue E S D dnsEngine.toRvDnsSearchEngine queryType dnsName
      as_is c.2.1 queryBuffer c.2.2 (userCallback dnsEngine.toRvDnsEngine newRecordCB)
      context dnsEngine.userQueryId squery0 queryName0 (trace ++ [ev]) =
      { status := S.ARES_ENOMEM,
        tqbufLen := rvDnsSearch.len S dnsName queryBuffer +
          S.RvAresComputeQuerySize dnsName
            (dnsEngine.domains.getD dnsEngine.longest_domain_i []),
        exception := RV_OK, trace := trace ++ [ev] } := by
    unfold RvAresSendQueryEx.issue
    simp only []
    rw [if_neg has, rvDnsSearch_short E S dnsEngine.toRvDnsSearchEngine queryType dnsName c.2.1
      queryBuffer c.2.2 squery0 context dnsEngine.userQueryId (trace ++ [ev]) hsingle hshort]
    simp only []
    rw [syncReplies_cacheFind E S D dnsEngine.toRvDnsSearchEngine _ _ _ _ _ queryType dnsName
      (RvAresSendQueryEx.domainMask D (if as_is ≠ 0 then 0 else dnsEngine.ndomains))
      dnsEngine.userQueryId c.1 (by rw [hev]; simp)]
  have hsend := RvAresSendQueryEx_eq E S D dnsEngine dnsQuery dnsName as_is queryBuffer qbufLen
    newRecordCB context squery0 queryName0 tls trace queryType c ev _ hqt hlock hc hev rfl
  rw [if_neg hm1, if_neg (by rintro (h1 | h1); exact hm2 h1; exact hm3 h1), hissue] at hsend
  simp only [] at hsend
  rw [hsend]
  refine ⟨?_, rfl, rfl, ?_, ?_, rfl, ?_⟩
  · unfold RvAresSendQueryEx.result
    rw [if_pos ⟨hne1, hne2⟩, if_pos rfl]
  · simp only []
    rw [hev, queriesOf_append]
    simp [queriesOf]
  · simp only []
    rw [hev, callbacksOf_append]
    simp [callbacksOf]
  · intro squery1 context1 queryId1 trace1
    exact rvDnsSearch_fits E S dnsEngine.toRvDnsSearchEngine queryType dnsName c.2.1 queryBuffer
      _ squery1 context1 queryId1 trace1 hsingle (le_refl _)

/-- C26 (witness): the name `web` with two suffixes and a buffer of 40 octets: the send
returns -5 and reports 75 octets. -/
theorem RvAresSendQueryEx_search_buffer_too_small_witness :
    (RvAresSendQueryEx (sampleEnv cacheOk) sampleSearchEnv (sampleSendEnv (-20) none)
      (sampleSendEngine sampleSuffixes 1 1) 1 nameWeb 0 0 40 none 77 zeroSearchQuery [] none
      []).status = -5 ∧
    (RvAresSendQueryEx (sampleEnv cacheOk) sampleSearchEnv (sampleSendEnv (-20) none)
      (sampleSendEngine sampleSuffixes 1 1) 1 nameWeb 0 0 40 none 77 zeroSearchQuery [] none
      []).qbufLen = 75 ∧
    (RvAresSendQueryEx (sampleEnv cacheOk) sampleSearchEnv (sampleSendEnv (-20) none)
      (sampleSendEngine sampleSuffixes 1 1) 1 nameWeb 0 0 40 none 77 zeroSearchQuery [] none
      []).trace = [] ++ [Event.cacheFind 1 nameWeb 7 1 (-20)] :=
  ⟨(RvAresSendQueryEx_search_buffer_too_small (sampleEnv cacheOk) sampleSearchEnv
      (sampleSendEnv (-20) none) (sampleSendEngine sampleSuffixes 1 1) 1 nameWeb 0 0 40 none 77
      zeroSearchQuery [] none [] 1 (-20, 7, 40) (Event.cacheFind 1 nameWeb 7 1 (-20))
      (by decide) (by decide) (by decide) (by decide) (by decide) (by decide) (by decide)
      (by decide) (by decide) (by decide) (by decide) (by decide)).1,
   (RvAresSendQueryEx_search_buffer_too_small (sampleEnv cacheOk) sampleSearchEnv
      (sampleSendEnv (-20) none) (sampleSendEngine sampleSuffixes 1 1) 1 nameWeb 0 0 40 none 77
      zeroSearchQuery [] none [] 1 (-20, 7, 40) (Event.cacheFind 1 nameWeb 7 1 (-20))
      (by decide) (by decide) (by decide) (by decide) (by decide) (by decide) (by decide)
      (by decide) (by decide) (by decide) (by decide) (by decide)).2.1,
   (RvAresSendQueryEx_search_buffer_too_small (sampleEnv cacheOk) sampleSearchEnv
      (sampleSendEnv (-20) none) (sampleSendEngine sampleSuffixes 1 1) 1 nameWeb 0 0 40 none 77
      zeroSearchQuery [] none [] 1 (-20, 7, 40) (Event.cacheFind 1 nameWeb 7 1 (-20))
      (by decide) (by decide) (by decide) (by decide) (by decide) (by decide) (by decide)
      (by decide) (by decide) (by decide) (by decide) (by decide)).2.2.1⟩

/-- C27: a send with a supported query type that gets the lock consults the cache before
anything else: the lookup is the first event it adds.  On a positive hit it returns `RV_OK`
and on a negative hit `RV_DNS_ERROR_NOTFOUND`, with nothing added but the lookup; on the
insufficient-buffer answer it stores the size the cache asks for in `*qbufLen` and returns
`RV_ERROR_INSUFFICIENT_BUFFER`, again with nothing added but the lookup; when a query is
issued the cache missed; on a miss with `as_is` equal to `RV_TRUE` the next event is the
`ares_query` for the name itself with `rvDnsCallback` and the context of the user, and on a
miss otherwise the events continue with those of `rvDnsSearch` for the mask the cache left,
and the status of the search is the one the send maps. -/
theorem RvAresSendQueryEx_cache_first (E : Env) (S : SearchEnv) (D : SendEnv)
    (dnsEngine : RvDnsSendEngine) (dnsQuery : Int) (dnsName : Name) (as_is : Int)
    (queryBuffer qbufLen : Nat) (newRecordCB : Option RvDnsNewRecordCB) (context : Nat)
    (squery0 : rvSearchQuery) (queryName0 : Name) (tls : Option Int) (trace : List Event)
    (queryType : Int) (c : Int × Nat × Nat) (ev : Event) (w : IssueResult) (r : SendResult)
    (hqt : RvAresSendQueryEx.queryType E dnsQuery = some queryType)
    (hlock : D.RvLockGet trace = RV_OK)
    (hc : c = D.RvAresCacheCltFind trace queryType dnsName dnsName.length
      (if as_is ≠ 0 then none else some dnsEngine.domains)
      (if as_is ≠ 0 then 0 else dnsEngine.ndomains)
      (RvAresSendQueryEx.domainMask D (if as_is ≠ 0 then 0 else dnsEngine.ndomains))
      context dnsEngine.userQueryId queryBuffer qbufLen)
    (hev : ev = Event.cacheFind queryType dnsName
      (RvAresSendQueryEx.domainMask D (if as_is ≠ 0 then 0 else dnsEngine.ndomains))
      dnsEngine.userQueryId c.1)
    (hw : w = RvAresSendQueryEx.issue E S D dnsEngine.toRvDnsSearchEngine queryType dnsName
      as_is c.2.1 queryBuffer c.2.2 (userCallback dnsEngine.toRvDnsEngine newRecordCB)
      context dnsEngine.userQueryId squery0 queryName0 (trace ++ [ev]))
    (hr : r = RvAresSendQueryEx E S D dnsEngine dnsQuery dnsName as_is queryBuffer qbufLen
      newRecordCB context squery0 queryName0 tls trace) :
    (∃ rest, r.trace = trace ++ ev :: rest) ∧
    (c.1 = RV_OK → r.status = RV_OK ∧ r.trace = trace ++ [ev]) ∧
    (c.1 = D.RV_DNS_ERROR_NOTFOUND →
      r.status = D.RV_DNS_ERROR_NOTFOUND ∧ r.trace = trace ++ [ev]) ∧
    (c.1 = S.RV_ERROR_INSUFFICIENT_BUFFER →
      r.status = S.RV_ERROR_INSUFFICIENT_BUFFER ∧ r.qbufLen = c.2.2 ∧
        r.trace = trace ++ [ev]) ∧
    (queriesOf r.trace ≠ queriesOf trace →
      c.1 ≠ RV_OK ∧ c.1 ≠ D.RV_DNS_ERROR_NOTFOUND ∧ c.1 ≠ S.RV_ERROR_INSUFFICIENT_BUFFER) ∧
    (c.1 ≠ RV_OK → c.1 ≠ D.RV_DNS_ERROR_NOTFOUND → c.1 ≠ S.RV_ERROR_INSUFFICIENT_BUFFER →
      r.status = RvAresSendQueryEx.result S D w.status w.exception ∧ r.trace = w.trace ∧
      (as_is = 1 →
        w.status = (S.ares_query (trace ++ [ev]) dnsName C_IN queryType queryBuffer c.2.2
          dnsEngine.userQueryId).1 ∧
        ∃ rest, r.trace = trace ++ ev ::
          Event.query dnsName C_IN queryType (QueryCallback.rvDnsCallback context)
            dnsEngine.userQueryId w.status :: rest) ∧
      (as_is ≠ 1 →
        w.status = (rvDnsSearch E S dnsEngine.toRvDnsSearchEngine queryType dnsName c.2.1
          queryBuffer c.2.2 squery0 context dnsEngine.userQueryId (trace ++ [ev])).status ∧
        ∃ rest, r.trace =
          (rvDnsSearch E S dnsEngine.toRvDnsSearchEngine queryType dnsName c.2.1 queryBuffer
            c.2.2 squery0 context dnsEngine.userQueryId (trace ++ [ev])).trace ++ rest)) := by
  have hsend := RvAresSendQueryEx_eq E S D dnsEngine dnsQuery dnsName as_is queryBuffer qbufLen
    newRecordCB context squery0 queryName0 tls trace queryType c ev w hqt hlock hc hev hw
  rw [← hr] at hsend
  have hlook : ∀ t : List Event, t = trace ++ [ev] → queriesOf t = queriesOf trace := by
    intro t ht
    rw [ht, hev, queriesOf_append]
    simp [queriesOf]
  refine ⟨?_, ?_, ?_, ?_, ?_, ?_⟩
  · rw [hr]
    exact RvAresSendQueryEx_trace E S D dnsEngine dnsQuery dnsName as_is queryBuffer qbufLen
      newRecordCB context squery0 queryName0 tls trace queryType c ev hqt hlock hc hev
  · intro h
    rw [hsend]
    by_cases h1 : c.1 = S.RV_ERROR_INSUFFICIENT_BUFFER
    · rw [if_pos h1]
      exact ⟨h, rfl⟩
    · rw [if_neg h1, if_pos (Or.inl h)]
      exact ⟨h, rfl⟩
  · intro h
    rw [hsend]
    by_cases h1 : c.1 = S.RV_ERROR_INSUFFICIENT_BUFFER
    · rw [if_pos h1]
      exact ⟨h, rfl⟩
    · rw [if_neg h1, if_pos (Or.inr h)]
      exact ⟨h, rfl⟩
  · intro h
    rw [hsend, if_pos h]
    exact ⟨h, rfl, rfl⟩
  · intro hq
    refine ⟨?_, ?_, ?_⟩
    · intro h
      apply hq
      apply hlook
      rw [hsend]
      by_cases h1 : c.1 = S.RV_ERROR_INSUFFICIENT_BUFFER
      · rw [if_pos h1]
      · rw [if_neg h1, if_pos (Or.inl h)]
    · intro h
      apply hq
      apply hlook
      rw [hsend]
      by_cases h1 : c.1 = S.RV_ERROR_INSUFFICIENT_BUFFER
      · rw [if_pos h1]
      · rw [if_neg h1, if_pos (Or.inr h)]
    · intro h
      apply hq
      apply hlook
      rw [hsend, if_pos h]
  · intro h1 h2 h3
    rw [if_neg h3, if_neg (by rintro (h | h); exact h1 h; exact h2 h)] at hsend
    rw [hsend]
    refine ⟨rfl, rfl, ?_, ?_⟩
    · intro has
      simp only []
      rw [hw, has]
      obtain ⟨d1, -, -⟩ := RvAresSendQueryEx_issue_direct E S D dnsEngine.toRvDnsSearchEngine
        queryType dnsName c.2.1 queryBuffer c.2.2
        (userCallback dnsEngine.toRvDnsEngine newRecordCB) context dnsEngine.userQueryId squery0
        queryName0 (trace ++ [ev])
      refine ⟨d1, ?_⟩
      rw [d1]
      unfold RvAresSendQueryEx.issue
      simp only [if_true]
      obtain ⟨ext, hext⟩ := syncReplies_extends E S D dnsEngine.toRvDnsSearchEngine
        (some (userCallback dnsEngine.toRvDnsEngine newRecordCB)) dnsEngine.userQueryId
        queryName0 (dnsEngine.ndomains + 2)
        (none, { trace := trace ++ [ev] ++
          [Event.query dnsName C_IN queryType (QueryCallback.rvDnsCallback context)
            dnsEngine.userQueryId
            (S.ares_query (trace ++ [ev]) dnsName C_IN queryType queryBuffer c.2.2
              dnsEngine.userQueryId).1], tls := some RV_OK })
      refine ⟨ext, ?_⟩
      rw [hext]
      simp
    · intro has
      simp only []
      rw [hw]
      unfold RvAresSendQueryEx.issue
      simp only [if_neg has]
      exact ⟨trivial, syncReplies_extends E S D dnsEngine.toRvDnsSearchEngine _ _ _ _ _⟩

/-- C27 (witness): a positive hit for `web` returns `RV_OK` with the lookup as the only
event; a miss of an as-is send is followed by the query for `web`. -/
theorem RvAresSendQueryEx_cache_first_witness :
    ((RvAresSendQueryEx (sampleEnv cacheOk) sampleSearchEnv (sampleSendEnv 0 none)
        (sampleSendEngine sampleSuffixes 1 1) 1 nameWeb 0 0 512 none 77 zeroSearchQuery [] none
        []).status = RV_OK ∧
      (RvAresSendQueryEx (sampleEnv cacheOk) sampleSearchEnv (sampleSendEnv 0 none)
        (sampleSendEngine sampleSuffixes 1 1) 1 nameWeb 0 0 512 none 77 zeroSearchQuery [] none
        []).trace = [] ++ [Event.cacheFind 1 nameWeb 7 1 0]) ∧
    (RvAresSendQueryEx (sampleEnv cacheOk) sampleSearchEnv (sampleSendEnv (-20) none)
      (sampleSendEngine sampleSuffixes 1 1) 1 nameWeb 1 0 512 none 77 zeroSearchQuery [] none
      []).trace =
      [Event.cacheFind 1 nameWeb 1 1 (-20),
        Event.query nameWeb 1 1 (QueryCallback.rvDnsCallback 77) 1 0] :=
  ⟨(RvAresSendQueryEx_cache_first (sampleEnv cacheOk) sampleSearchEnv (sampleSendEnv 0 none)
      (sampleSendEngine sampleSuffixes 1 1) 1 nameWeb 0 0 512 none 77 zeroSearchQuery [] none
      [] 1 (0, 7, 512) (Event.cacheFind 1 nameWeb 7 1 0) _ _ (by decide) (by decide)
      (by decide) (by decide) rfl rfl).2.1 (by decide),
   ((RvAresSendQueryEx_cache_first (sampleEnv cacheOk) sampleSearchEnv
      (sampleSendEnv (-20) none) (sampleSendEngine sampleSuffixes 1 1) 1 nameWeb 1 0 512 none
      77 zeroSearchQuery [] none [] 1 (-20, 1, 512) (Event.cacheFind 1 nameWeb 1 1 (-20)) _ _
      (by decide) (by decide) (by decide) (by decide) rfl rfl).2.2.2.2.2 (by decide)
      (by decide) (by decide)).2.1.trans (by decide)⟩

/-- The event one pass of the loop of `rvAresResetServers2` adds. -/
theorem rvAresResetServers2_body_eq (E : Env) (D : SendEnv) (dnsEngine : RvDnsEngine)
    (searchQueryAt : List Event → Nat → rvSearchQuery) (dnsData0 : RvDnsData) (q : rvQuery)
    (trace : List Event) :
    rvAresResetServers2.body E D dnsEngine searchQueryAt dnsData0 q trace =
      trace ++ [Event.callback
        (if q.user_callback = AresCallback.rvDnsSearchCallback then
          (searchQueryAt trace q.user_arg).context
        else q.user_arg)
        q.user_qid
        { dnsData0 with
          dataType := E.RV_DNS_STATUS_TYPE
          data := .status D.RV_DNS_QUERY_CANCELED
          queryType := 0 }
        (userCallback dnsEngine q.newRecordCB trace
          (if q.user_callback = AresCallback.rvDnsSearchCallback then
            (searchQueryAt trace q.user_arg).context
          else q.user_arg)
          q.user_qid
          { dnsData0 with
            dataType := E.RV_DNS_STATUS_TYPE
            data := .status D.RV_DNS_QUERY_CANCELED
            queryType := 0 })] := by
  unfold rvAresResetServers2.body userCallback
  cases q.newRecordCB <;> rfl

/-- C30: `rvAresResetServers2` adds one event per cancelled query, in the order of the list,
and nothing else; the event of a query is a callback with the id of the query, the record
whose type is the status type, whose status is `RV_DNS_QUERY_CANCELED` and whose query type
is 0, invoked through the callback of the query or the default of the engine when the query
has none, with the context of the user: `user_arg` itself, or for a query whose callback is
`rvDnsSearchCallback` the field `context` of the search-query block `user_arg` points to. -/
theorem rvAresResetServers2_one_callback_per_query (E : Env) (D : SendEnv)
    (dnsEngine : RvDnsEngine) (searchQueryAt : List Event → Nat → rvSearchQuery)
    (dnsData0 : RvDnsData) :
    ∀ (qs : List rvQuery) (trace : List Event),
      ∃ evs : List Event,
        rvAresResetServers2 E D dnsEngine searchQueryAt dnsData0 qs trace = trace ++ evs ∧
        evs.length = qs.length ∧
        callbacksOf (rvAresResetServers2 E D dnsEngine searchQueryAt dnsData0 qs trace) =
          callbacksOf trace ++ List.replicate qs.length
            { dnsData0 with
              dataType := E.RV_DNS_STATUS_TYPE
              data := .status D.RV_DNS_QUERY_CANCELED
              queryType := 0 } ∧
        ∀ (i : Nat) (q : rvQuery), qs[i]? = some q →
          evs[i]? = some (Event.callback
            (if q.user_callback = AresCallback.rvDnsSearchCallback then
              (searchQueryAt (trace ++ evs.take i) q.user_arg).context
            else q.user_arg)
            q.user_qid
            { dnsData0 with
              dataType := E.RV_DNS_STATUS_TYPE
              data := .status D.RV_DNS_QUERY_CANCELED
              queryType := 0 }
            (userCallback dnsEngine q.newRecordCB (trace ++ evs.take i)
              (if q.user_callback = AresCallback.rvDnsSearchCallback then
                (searchQueryAt (trace ++ evs.take i) q.user_arg).context
              else q.user_arg)
              q.user_qid
              { dnsData0 with
                dataType := E.RV_DNS_STATUS_TYPE
                data := .status D.RV_DNS_QUERY_CANCELED
                queryType := 0 })) := by
  intro qs
  induction qs with
  | nil =>
    intro trace
    refine ⟨[], by simp [rvAresResetServers2], rfl, by simp [rvAresResetServers2], ?_⟩
    intro i q h
    simp at h
  | cons q0 rest ih =>
    intro trace
    obtain ⟨evs, h1, h2, h3, h4⟩ :=
      ih (rvAresResetServers2.body E D dnsEngine searchQueryAt dnsData0 q0 trace)
    obtain ⟨e0, he0, hb⟩ : ∃ e0, e0 = Event.callback
        (if q0.user_callback = AresCallback.rvDnsSearchCallback then
          (searchQueryAt trace q0.user_arg).context
        else q0.user_arg)
        q0.user_qid
        { dnsData0 with
          dataType := E.RV_DNS_STATUS_TYPE
          data := .status D.RV_DNS_QUERY_CANCELED
          queryType := 0 }
        (userCallback dnsEngine q0.newRecordCB trace
          (if q0.user_callback = AresCallback.rvDnsSearchCallback then
            (searchQueryAt trace q0.user_arg).context
          else q0.user_arg)
          q0.user_qid
          { dnsData0 with
            dataType := E.RV_DNS_STATUS_TYPE
            data := .status D.RV_DNS_QUERY_CANCELED
            queryType := 0 }) ∧
        rvAresResetServers2.body E D dnsEngine searchQueryAt dnsData0 q0 trace =
          trace ++ [e0] :=
      ⟨_, rfl, rvAresResetServers2_body_eq E D dnsEngine searchQueryAt dnsData0 q0 trace⟩
    rw [hb] at h1 h3 h4
    refine ⟨e0 :: evs, ?_, ?_, ?_, ?_⟩
    · unfold rvAresResetServers2
      rw [hb, h1, List.append_assoc]
      rfl
    · simp [h2]
    · unfold rvAresResetServers2
      rw [hb, h3, callbacksOf_append]
      rw [he0]
      simp [callbacksOf, List.replicate_succ]
    · intro i q h
      cases i with
      | zero =>
        simp only [List.getElem?_cons_zero, Option.some.injEq] at h
        subst h
        rw [he0]
        simp
      | succ i =>
        simp only [List.getElem?_cons_succ] at h
        have h5 := h4 i q h
        simp only [List.append_assoc, List.singleton_append] at h5
        simpa using h5

/-- C30 (witness): two cancelled queries, the second owned by the search: two callbacks, the
first with the context 77 and the id 5, the second with the context 88 of the block and the
id 6. -/
theorem rvAresResetServers2_one_callback_per_query_witness :
    ∃ evs : List Event,
      rvAresResetServers2 (sampleEnv cacheOk) (sampleSendEnv 0 none) ⟨cbOk⟩ sampleBlocks
        zeroDnsData sampleCancelled [] = [] ++ evs ∧
      evs.length = 2 ∧
      evs[1]? = some (Event.callback 88 6
        { zeroDnsData with dataType := 36, data := .status (-12), queryType := 0 } 0) := by
  obtain ⟨evs, h1, h2, -, h4⟩ := rvAresResetServers2_one_callback_per_query (sampleEnv cacheOk)
    (sampleSendEnv 0 none) ⟨cbOk⟩ sampleBlocks zeroDnsData sampleCancelled []
  exact ⟨evs, h1, h2, h4 1 _ rfl⟩

theorem frame_A (E : Env) : KeepsFrame (rvDnsDecodeARecord E) := by
  intro data ctx
  exact ⟨rfl, rfl, rfl, rfl⟩

theorem frame_AAAA (E : Env) : KeepsFrame (rvDnsDecodeAAAARecord E) := by
  intro data ctx
  exact ⟨rfl, rfl, rfl, rfl⟩

theorem frame_SRV (E : Env) : KeepsFrame (rvDnsDecodeSRVRecord E) := by
  intro data ctx
  simp only [rvDnsDecodeSRVRecord]
  split <;> exact ⟨rfl, rfl, rfl, rfl⟩

theorem frame_NAPTR (E : Env) : KeepsFrame (rvDnsDecodeNAPTRRecord E) := by
  intro data ctx
  simp only [rvDnsDecodeNAPTRRecord]
  repeat (first | exact ⟨rfl, rfl, rfl, rfl⟩ | split)

theorem frame_CNAME (E : Env) : KeepsFrame (rvDnsDecodeCNAMERecord E) := by
  intro data ctx
  simp only [rvDnsDecodeCNAMERecord]
  split <;> exact ⟨rfl, rfl, rfl, rfl⟩

theorem findDecoder_frame (E : Env) (type : Int) (dec : RvDnsRecordDecoder)
    (h : findDecoder type (gsRecordDecodersRegistry E) = some dec) : KeepsFrame dec := by
  have hA := frame_A E
  have hAAAA := frame_AAAA E
  have hSRV := frame_SRV E
  have hNAPTR := frame_NAPTR E
  have hCNAME := frame_CNAME E
  cases hv6 : E.RV_NET_IPV6 <;>
    simp only [gsRecordDecodersRegistry, hv6, findDecoder, List.cons_append, List.nil_append,
      if_true, if_false, Bool.false_eq_true] at h <;>
    repeat (first
      | (split at h)
      | (cases h; assumption)
      | (exact absurd h (by simp)))

/-- No decoder is registered for a wire type other than A, AAAA, SRV, NAPTR and CNAME. -/
theorem findDecoder_none (E : Env) (type : Int) (h1 : type ≠ T_A) (h2 : type ≠ T_AAAA)
    (h3 : type ≠ T_SRV) (h4 : type ≠ T_NAPTR) (h5 : type ≠ T_CNAME) :
    findDecoder type (gsRecordDecodersRegistry E) = none := by
  cases hv6 : E.RV_NET_IPV6 <;>
    simp [gsRecordDecodersRegistry, hv6, findDecoder, Ne.symm h1, Ne.symm h2, Ne.symm h3,
      Ne.symm h4, Ne.symm h5]

/-- What `rvDnsDecodeRecord` returns when the owner name expands. -/
theorem rvDnsDecodeRecord_frame (E : Env) (data : RvDnsData) (ctx : RvDecodeCtx)
    (h : 0 ≤ (E.ares_expand_name ctx.msgCur ctx.msgBody ctx.msgLen data.ownerName
      (RV_DNS_MAX_NAME_LEN + 1)).1) :
    (rvDnsDecodeRecord E data ctx).2.2.msgCur =
      ctx.msgCur + (E.ares_expand_name ctx.msgCur ctx.msgBody ctx.msgLen data.ownerName
        (RV_DNS_MAX_NAME_LEN + 1)).1.toNat + 10 +
        DNS_RR_LEN ctx.msgBody
          (ctx.msgCur + (E.ares_expand_name ctx.msgCur ctx.msgBody ctx.msgLen data.ownerName
            (RV_DNS_MAX_NAME_LEN + 1)).1.toNat) ∧
    (rvDnsDecodeRecord E data ctx).2.2.msgBody = ctx.msgBody ∧
    (rvDnsDecodeRecord E data ctx).2.2.msgLen = ctx.msgLen ∧
    (rvDnsDecodeRecord E data ctx).2.1.dataType =
      DNS_RR_TYPE ctx.msgBody
        (ctx.msgCur + (E.ares_expand_name ctx.msgCur ctx.msgBody ctx.msgLen data.ownerName
          (RV_DNS_MAX_NAME_LEN + 1)).1.toNat) := by
  unfold rvDnsDecodeRecord
  simp only []
  rw [if_neg (by omega)]
  simp only []
  cases hf : findDecoder (DNS_RR_TYPE ctx.msgBody (ctx.msgCur +
      (E.ares_expand_name ctx.msgCur ctx.msgBody ctx.msgLen data.ownerName
        (RV_DNS_MAX_NAME_LEN + 1)).1.toNat) : Int) (gsRecordDecodersRegistry E) with
  | none => exact ⟨rfl, rfl, rfl, rfl⟩
  | some dec =>
    obtain ⟨f1, f2, f3, f4⟩ := findDecoder_frame E _ dec hf
      { data with
        ownerName := (E.ares_expand_name ctx.msgCur ctx.msgBody ctx.msgLen data.ownerName
          (RV_DNS_MAX_NAME_LEN + 1)).2
        ttl := DNS_RR_TTL ctx.msgBody (ctx.msgCur +
          (E.ares_expand_name ctx.msgCur ctx.msgBody ctx.msgLen data.ownerName
            (RV_DNS_MAX_NAME_LEN + 1)).1.toNat)
        dataType := DNS_RR_TYPE ctx.msgBody (ctx.msgCur +
          (E.ares_expand_name ctx.msgCur ctx.msgBody ctx.msgLen data.ownerName
            (RV_DNS_MAX_NAME_LEN + 1)).1.toNat) }
      { ctx with msgCur := ctx.msgCur +
          (E.ares_expand_name ctx.msgCur ctx.msgBody ctx.msgLen data.ownerName
            (RV_DNS_MAX_NAME_LEN + 1)).1.toNat + RRFIXEDSZ }
    simp only []
    exact ⟨by rw [f2]; rfl, f3, f4, f1⟩

/-- C34: when the owner name of the record at the cursor expands, `rvDnsDecodeRecord` leaves
the cursor at the start of the record plus the encoded length of the owner name plus 10 plus
RDLENGTH, whatever the type of the record is and whatever its decoder returns (also when
there is no decoder for the type); message and message length stay as they are, and
`rvDnsDecode` leaves the same cursor. -/
theorem rvDnsDecodeRecord_cursor_behind_rdata (E : Env) (data : RvDnsData) (ctx : RvDecodeCtx)
    (nameLen : Int)
    (hn : nameLen = (E.ares_expand_name ctx.msgCur ctx.msgBody ctx.msgLen data.ownerName
      (RV_DNS_MAX_NAME_LEN + 1)).1)
    (h : 0 ≤ nameLen) :
    (rvDnsDecodeRecord E data ctx).2.2.msgCur =
      ctx.msgCur + nameLen.toNat + 10 + DNS_RR_LEN ctx.msgBody (ctx.msgCur + nameLen.toNat) ∧
    (rvDnsDecodeRecord E data ctx).2.2.msgBody = ctx.msgBody ∧
    (rvDnsDecodeRecord E data ctx).2.2.msgLen = ctx.msgLen ∧
    ∀ queryType : Int,
      (rvDnsDecode E queryType ctx data).2.2.msgCur =
        ctx.msgCur + nameLen.toNat + 10 +
          DNS_RR_LEN ctx.msgBody (ctx.msgCur + nameLen.toNat) := by
  subst hn
  obtain ⟨f1, f2, f3, -⟩ := rvDnsDecodeRecord_frame E data ctx h
  refine ⟨f1, f2, f3, ?_⟩
  intro queryType
  obtain ⟨g1, -, -, -⟩ := rvDnsDecodeRecord_frame E { data with queryType := queryType } ctx h
  unfold rvDnsDecode
  simp only []
  split_ifs <;> exact g1

/-- C34 (witness): the TXT record (type 16, no decoder) behind the A record of the sample
response starts at offset 42; its owner name takes 6 octets and its RDATA 2: the cursor is
left at 60, the end of the message. -/
theorem rvDnsDecodeRecord_cursor_behind_rdata_witness :
    (rvDnsDecodeRecord (sampleEnv cacheOk) zeroDnsData
      { headerCtx msgAThenTxt msgAThenTxt.length with msgCur := 42 }).2.2.msgCur = 60 ∧
    (rvDnsDecodeRecord (sampleEnv cacheOk) zeroDnsData
      { headerCtx msgAThenTxt msgAThenTxt.length with msgCur := 42 }).1 = -7 :=
  ⟨(rvDnsDecodeRecord_cursor_behind_rdata (sampleEnv cacheOk) zeroDnsData
      { headerCtx msgAThenTxt msgAThenTxt.length with msgCur := 42 } 6 (by decide)
      (by decide)).1.trans (by decide), by decide⟩

/-- C35: `rvDnsDecode` returns `RV_OK` exactly when `rvDnsDecodeRecord` returns `RV_OK` and
the type of the record is the type of the question or `RV_DNS_CNAME_TYPE`, and then it hands
the decoded record on; when `rvDnsDecodeRecord` fails the record becomes a status record
with that status, which is returned: `RV_DNS_ERROR_RMALFORMED` when the owner name does not
expand, `RV_DNS_ERROR_RTNOTSUPP` when it does and the wire type is none of A, AAAA, SRV,
NAPTR and CNAME; when a decoded record has another type the record becomes a status record
with `RV_DNS_ERROR_RTUNEXPECTED`, which is returned; whenever the status returned is not
`RV_OK` it is the status stored in the record. -/
theorem rvDnsDecode_status (E : Env) (queryType : Int) (ctx : RvDecodeCtx) (dnsData : RvDnsData)
    (r : Int × RvDnsData × RvDecodeCtx)
    (hr : r = rvDnsDecodeRecord E { dnsData with queryType := queryType } ctx)
    (hne : E.RV_DNS_ERROR_RTUNEXPECTED ≠ RV_OK) :
    ((rvDnsDecode E queryType ctx dnsData).1 = RV_OK ↔
      r.1 = RV_OK ∧ (r.2.1.dataType = queryType ∨ r.2.1.dataType = E.RV_DNS_CNAME_TYPE)) ∧
    ((rvDnsDecode E queryType ctx dnsData).1 = RV_OK →
      rvDnsDecode E queryType ctx dnsData = (RV_OK, r.2.1, r.2.2)) ∧
    (r.1 ≠ RV_OK →
      rvDnsDecode E queryType ctx dnsData =
        (r.1, { r.2.1 with dataType := E.RV_DNS_STATUS_TYPE, data := .status r.1 }, r.2.2)) ∧
    (r.1 = RV_OK → r.2.1.dataType ≠ queryType → r.2.1.dataType ≠ E.RV_DNS_CNAME_TYPE →
      rvDnsDecode E queryType ctx dnsData =
        (E.RV_DNS_ERROR_RTUNEXPECTED,
          { r.2.1 with dataType := E.RV_DNS_STATUS_TYPE,
                       data := .status E.RV_DNS_ERROR_RTUNEXPECTED }, r.2.2)) ∧
    ((rvDnsDecode E queryType ctx dnsData).1 ≠ RV_OK →
      (rvDnsDecode E queryType ctx dnsData).2.1.dataType = E.RV_DNS_STATUS_TYPE ∧
      (rvDnsDecode E queryType ctx dnsData).2.1.data =
        .status (rvDnsDecode E queryType ctx dnsData).1) ∧
    ((E.ares_expand_name ctx.msgCur ctx.msgBody ctx.msgLen dnsData.ownerName
        (RV_DNS_MAX_NAME_LEN + 1)).1 < 0 → r.1 = E.RV_DNS_ERROR_RMALFORMED) ∧
    (∀ type : Int,
      0 ≤ (E.ares_expand_name ctx.msgCur ctx.msgBody ctx.msgLen dnsData.ownerName
        (RV_DNS_MAX_NAME_LEN + 1)).1 →
      type = DNS_RR_TYPE ctx.msgBody (ctx.msgCur +
        (E.ares_expand_name ctx.msgCur ctx.msgBody ctx.msgLen dnsData.ownerName
          (RV_DNS_MAX_NAME_LEN + 1)).1.toNat) →
      type ≠ T_A → type ≠ T_AAAA → type ≠ T_SRV → type ≠ T_NAPTR → type ≠ T_CNAME →
      r.1 = E.RV_DNS_ERROR_RTNOTSUPP) := by
  have hd : rvDnsDecode E queryType ctx dnsData =
      if r.1 ≠ RV_OK then
        (r.1, { r.2.1 with dataType := E.RV_DNS_STATUS_TYPE, data := .status r.1 }, r.2.2)
      else if r.2.1.dataType ≠ queryType ∧ r.2.1.dataType ≠ E.RV_DNS_CNAME_TYPE then
        (E.RV_DNS_ERROR_RTUNEXPECTED,
          { r.2.1 with dataType := E.RV_DNS_STATUS_TYPE,
                       data := .status E.RV_DNS_ERROR_RTUNEXPECTED }, r.2.2)
      else (RV_OK, r.2.1, r.2.2) := by
    rw [hr]
    rfl
  refine ⟨?_, ?_, ?_, ?_, ?_, ?_, ?_⟩
  · rw [hd]
    by_cases h1 : r.1 = RV_OK
    · rw [if_neg (not_not.2 h1)]
      by_cases h2 : r.2.1.dataType ≠ queryType ∧ r.2.1.dataType ≠ E.RV_DNS_CNAME_TYPE
      · rw [if_pos h2]
        constructor
        · intro h; exact absurd h hne
        · rintro ⟨-, h | h⟩
          · exact absurd h h2.1
          · exact absurd h h2.2
      · rw [if_neg h2]
        constructor
        · intro _
          refine ⟨h1, ?_⟩
          by_cases h3 : r.2.1.dataType = queryType
          · exact Or.inl h3
          · exact Or.inr (not_not.1 (fun h4 => h2 ⟨h3, h4⟩))
        · intro _; rfl
    · rw [if_pos h1]
      constructor
      · intro h; exact absurd h h1
      · intro h; exact absurd h.1 h1
  · rw [hd]
    intro h
    by_cases h1 : r.1 = RV_OK
    · rw [if_neg (not_not.2 h1)] at h ⊢
      by_cases h2 : r.2.1.dataType ≠ queryType ∧ r.2.1.dataType ≠ E.RV_DNS_CNAME_TYPE
      · rw [if_pos h2] at h
        exact absurd h hne
      · rw [if_neg h2]
    · rw [if_pos h1] at h
      exact absurd h h1
  · intro h1
    rw [hd, if_pos h1]
  · intro h1 h2 h3
    rw [hd, if_neg (not_not.2 h1), if_pos ⟨h2, h3⟩]
  · rw [hd]
    intro h
    by_cases h1 : r.1 = RV_OK
    · rw [if_neg (not_not.2 h1)] at h ⊢
      by_cases h2 : r.2.1.dataType ≠ queryType ∧ r.2.1.dataType ≠ E.RV_DNS_CNAME_TYPE
      · rw [if_pos h2]
        exact ⟨rfl, rfl⟩
      · rw [if_neg h2] at h
        exact absurd rfl h
    · rw [if_pos h1]
      exact ⟨rfl, rfl⟩
  · intro h
    rw [hr]
    unfold rvDnsDecodeRecord
    simp only []
    rw [if_pos h]
  · intro type h ht h1 h2 h3 h4 h5
    rw [hr]
    unfold rvDnsDecodeRecord
    simp only []
    rw [if_neg (by omega)]
    simp only []
    rw [← ht, findDecoder_none E type h1 h2 h3 h4 h5]

/-- C35 (witness): for the question type A the SRV record of the sample response decodes and
becomes a status record with 'unexpected record type' (-9 here), which is returned. -/
theorem rvDnsDecode_status_witness :
    rvDnsDecode (sampleEnv cacheOk) 1
      { headerCtx msgAThenSrv msgAThenSrv.length with msgCur := 42 } zeroDnsData =
      (-9, { (rvDnsDecodeRecord (sampleEnv cacheOk) { zeroDnsData with queryType := 1 }
          { headerCtx msgAThenSrv msgAThenSrv.length with msgCur := 42 }).2.1 with
          dataType := 36, data := .status (-9) },
        (rvDnsDecodeRecord (sampleEnv cacheOk) { zeroDnsData with queryType := 1 }
          { headerCtx msgAThenSrv msgAThenSrv.length with msgCur := 42 }).2.2) :=
  (rvDnsDecode_status (sampleEnv cacheOk) 1
    { headerCtx msgAThenSrv msgAThenSrv.length with msgCur := 42 } zeroDnsData _ rfl
    (by decide)).2.2.2.1 (by decide) (by decide) (by decide)

/-- C36: the A record of the sample response starts at offset 22 and ends at offset 42.
With a message length of 28, which covers the owner name of the record and nothing behind
it, `rvDnsDecodeRecord` returns `RV_OK` (not `RV_DNS_ERROR_RMALFORMED`, -8 here) and the
record holds the TTL and the address it read at offsets 32 to 41, behind the message. -/
theorem rvDnsDecodeRecord_reads_behind_message :
    (sampleEnv cacheOk).ares_expand_name 22 msgOneA 28 [] 256 = (6, [104, 46, 101, 120]) ∧
    (rvDnsDecodeRecord (sampleEnv cacheOk) zeroDnsData
      { headerCtx msgOneA 28 with msgCur := 22 }).1 = RV_OK ∧
    (rvDnsDecodeRecord (sampleEnv cacheOk) zeroDnsData
      { headerCtx msgOneA 28 with msgCur := 22 }).2.1.ttl = 60 ∧
    (rvDnsDecodeRecord (sampleEnv cacheOk) zeroDnsData
      { headerCtx msgOneA 28 with msgCur := 22 }).2.1.data =
        .hostAddressIpv4 [192, 0, 2, 7] ∧
    readBytes msgOneA 38 4 = [192, 0, 2, 7] ∧
    (rvDnsDecodeRecord (sampleEnv cacheOk) zeroDnsData
      { headerCtx msgOneA 28 with msgCur := 22 }).2.2.msgCur = 42 ∧
    (rvDnsDecodeRecord (sampleEnv cacheOk) zeroDnsData
      { headerCtx msgOneA 28 with msgCur := 22 }).2.2.msgLen = 28 := by
  decide

theorem chainBytes_length (es : List ChainEntry) : (chainBytes es).length = entriesSize es := by
  induction es with
  | nil => rfl
  | cons e es ih =>
    simp only [chainBytes, List.length_append, entryBytes_length, ih, entriesSize,
      List.map_cons, List.sum_cons]

/-- `RvCnameChainAddEntry` either does what it does with a working allocator, or fails and
leaves the chain as it is. -/
theorem RvCnameChainAddEntry_cases (E : Env) (c : RvCnameChain) (name : Name) (nameSize : Nat)
    (flag : Bool) :
    RvCnameChainAddEntry E c name nameSize flag =
        RvCnameChainAddEntry (withWorkingAllocator E) c name nameSize flag ∨
    ((RvCnameChainAddEntry E c name nameSize flag).1 ≠ RV_OK ∧
      (RvCnameChainAddEntry E c name nameSize flag).2 = c ∧
      c.bufSize - c.nextFree < nameSize + 3 ∧
      (RvCnameChainAddEntry E c name nameSize flag).1 = E.RvMemoryAlloc (c.bufSize * 2)) := by
  by_cases h : (RvCnameChainAddEntry E c name nameSize flag).1 = RV_OK
  · exact Or.inl (RvCnameChainAddEntry_ok E c name nameSize flag h)
  · right
    refine ⟨h, ?_⟩
    unfold RvCnameChainAddEntry at h ⊢
    by_cases hsp : c.bufSize - c.nextFree < nameSize + 3
    · simp only [if_pos hsp] at h ⊢
      by_cases hs : E.RvMemoryAlloc (c.bufSize * 2) = RV_OK
      · simp only [hs, ne_eq, not_true_eq_false, if_false] at h
      · simp only [ne_eq, hs, not_false_eq_true, if_true]
        exact ⟨trivial, hsp, trivial⟩
    · simp only [if_neg hsp, ne_eq, not_true_eq_false, if_false] at h

/-- Setting the owner flag of the entry `RvCnameFind` returned keeps the invariant. -/
theorem ChainWF_mark (c : RvCnameChain) (owner : Name) (off : Nat) (h : ChainWF c)
    (hf : RvCnameFind c owner owner.length = some off) :
    ChainWF { c with buf := writeBytes c.buf off [1] } := by
  obtain ⟨es, hrep, hg, hp⟩ := h
  rw [RvCnameFind_rep c es owner hrep hg] at hf
  obtain ⟨⟨rest, hbuf⟩, hsz, hnf, hbs, h512⟩ := hrep
  have hw := writeBytes_markOwner owner rest es [] off (by simpa using hf)
  simp only [List.nil_append] at hw
  refine ⟨markOwner owner es, ⟨⟨rest, ?_⟩, ?_, ?_, ?_, h512⟩, markOwner_good owner es hg, ?_⟩
  · show writeBytes c.buf off [1] = _
    rw [hbuf, hw]
  · show c.chainSize = _
    rw [hsz, markOwner_length]
  · show c.nextFree = _
    rw [hnf, markOwner_bytes_length]
  · show c.bufSize = (writeBytes c.buf off [1]).length
    rw [hbuf, hw, List.length_append, markOwner_bytes_length, ← List.length_append, ← hbuf]
    exact hbs
  · rw [markOwner_names]
    exact hp

/-- Adding an entry for a name that `RvCnameFind` does not find keeps the invariant. -/
theorem ChainWF_addEntry (E : Env) (c : RvCnameChain) (name : Name) (flag : Bool)
    (h : ChainWF c) (hn : GoodName name)
    (hf : RvCnameFind c name name.length = none) :
    ChainWF (RvCnameChainAddEntry E c name name.length flag).2 := by
  rcases RvCnameChainAddEntry_cases E c name name.length flag with hc | ⟨-, hc, -, -⟩
  · rw [hc]
    obtain ⟨es, hrep, hg, hp⟩ := h
    rw [RvCnameFind_rep c es name hrep hg] at hf
    have hh := (entryOffset_none name es 0).1 hf
    obtain ⟨-, r2⟩ := RvCnameChainAddEntry_rep (withWorkingAllocator E) (fun _ => rfl) c es name
      flag hrep hn
    refine ⟨es ++ [(flag, name)], r2, ?_, ?_⟩
    · intro e he
      rcases List.mem_append.1 he with h1 | h1
      · exact hg e h1
      · simp only [List.mem_singleton] at h1
        rw [h1]; exact hn
    · rw [List.map_append, List.pairwise_append]
      refine ⟨hp, by simp, ?_⟩
      intro m hm x hx
      simp only [List.map_cons, List.map_nil, List.mem_singleton] at hx
      rw [hx]
      intro hk
      rw [hasName_eq_any] at hh
      have : ((es.map (fun e => e.2)).any (fun m => decide (lowerName m = lowerName name))) =
          true := List.any_eq_true.2 ⟨m, hm, by simpa using hk⟩
      rw [hh] at this
      cases this
  · rw [hc]
    exact h

/-- The second half of `RvCnameChainAdd`, for the alias, keeps the invariant. -/
theorem ChainWF_alias (E : Env) (c : RvCnameChain) (aliasName : Name) (h : ChainWF c)
    (ha : GoodName aliasName) :
    ChainWF (match RvCnameFind c aliasName aliasName.length with
      | some _ => (RV_OK, c)
      | none => RvCnameChainAddEntry E c aliasName aliasName.length false).2 := by
  cases hf : RvCnameFind c aliasName aliasName.length with
  | some off => exact h
  | none => exact ChainWF_addEntry E c aliasName false h ha hf

/-- `RvCnameChainAdd` keeps the invariant, whether it succeeds or not. -/
theorem ChainWF_add (E : Env) (c : RvCnameChain) (owner aliasName : Name) (h : ChainWF c)
    (ho : GoodName owner) (ha : GoodName aliasName) :
    ChainWF (RvCnameChainAdd E c owner aliasName).2 := by
  rw [RvCnameChainAdd_eq E c owner aliasName _ rfl]
  cases hf : RvCnameFind c owner owner.length with
  | some off =>
    simp only [ne_eq, not_true_eq_false, if_false]
    exact ChainWF_alias E _ aliasName (ChainWF_mark c owner off h hf) ha
  | none =>
    simp only []
    have h1 := ChainWF_addEntry E c owner true h ho hf
    by_cases hs : (RvCnameChainAddEntry E c owner owner.length true).1 = RV_OK
    · rw [if_neg (not_not.2 hs)]
      exact ChainWF_alias E _ aliasName h1 ha
    · rw [if_pos hs]
      exact h1

/-- The buffer size never decreases in `RvCnameChainAddEntry`. -/
theorem RvCnameChainAddEntry_bufSize (E : Env) (c : RvCnameChain) (name : Name)
    (nameSize : Nat) (flag : Bool) :
    c.bufSize ≤ (RvCnameChainAddEntry E c name nameSize flag).2.bufSize := by
  unfold RvCnameChainAddEntry
  simp only []
  split_ifs <;> simp only [] <;> omega

/-- The buffer size never decreases in `RvCnameChainAdd`. -/
theorem RvCnameChainAdd_bufSize (E : Env) (c : RvCnameChain) (owner aliasName : Name) :
    c.bufSize ≤ (RvCnameChainAdd E c owner aliasName).2.bufSize := by
  rw [RvCnameChainAdd_eq E c owner aliasName _ rfl]
  have second : ∀ c1 : RvCnameChain, c.bufSize ≤ c1.bufSize →
      c.bufSize ≤ (match RvCnameFind c1 aliasName aliasName.length with
        | some _ => (RV_OK, c1)
        | none => RvCnameChainAddEntry E c1 aliasName aliasName.length false).2.bufSize := by
    intro c1 h1
    cases RvCnameFind c1 aliasName aliasName.length with
    | some off => exact h1
    | none => exact h1.trans (RvCnameChainAddEntry_bufSize E c1 aliasName _ false)
  cases hf : RvCnameFind c owner owner.length with
  | some off =>
    simp only [ne_eq, not_true_eq_false, if_false]
    exact second _ (le_refl _)
  | none =>
    simp only []
    split_ifs
    · exact RvCnameChainAddEntry_bufSize E c owner _ true
    · exact second _ (RvCnameChainAddEntry_bufSize E c owner _ true)

theorem entriesSize_append (a b : List ChainEntry) :
    entriesSize (a ++ b) = entriesSize a + entriesSize b := by
  simp [entriesSize]

/-- What the buffer holds where entry `i` starts. -/
theorem ChainRep_entry (c : RvCnameChain) (es : List ChainEntry) (hrep : ChainRep c es)
    (i : Nat) (e : ChainEntry) (hi : es[i]? = some e) :
    ∃ t, c.buf.drop (entriesSize (es.take i)) = entryBytes e ++ t ∧
      entriesSize (es.take (i + 1)) = entriesSize (es.take i) + e.2.length + 3 := by
  obtain ⟨⟨rest, hbuf⟩, -, -, -, -⟩ := hrep
  have hlt : i < es.length := by
    by_contra hge
    rw [List.getElem?_eq_none (by omega)] at hi
    cases hi
  have he : es[i] = e := by
    rw [List.getElem?_eq_getElem hlt] at hi
    exact Option.some.inj hi
  have hsplit : es = es.take i ++ e :: es.drop (i + 1) := by
    rw [← he, ← List.drop_eq_getElem_cons hlt, List.take_append_drop]
  refine ⟨chainBytes (es.drop (i + 1)) ++ rest, ?_, ?_⟩
  · have hcb : chainBytes es =
        chainBytes (es.take i) ++ (entryBytes e ++ chainBytes (es.drop (i + 1))) := by
      conv_lhs => rw [hsplit]
      rw [chainBytes_append]
      rfl
    rw [hbuf, hcb, List.append_assoc, ← chainBytes_length, List.drop_left, List.append_assoc]
  · rw [List.take_succ, hi, entriesSize_append]
    simp [entriesSize]
    omega

/-- C37: the empty chain `RvCnameChainConstruct` builds satisfies the chain invariant, and
every `RvCnameChainAdd` of names of at most 255 octets keeps it, whether it succeeds or its
allocation fails.  Under the invariant the buffer starts with `chainSize` consecutive
entries, `nextFree` is the sum of length + 3 over them and at most `bufSize`, no two entries
hold names that are equal when compared case-insensitively, and the entry `i` is found by
stepping by length + 3 from the start: there lie its owner flag, its length and its name
with the terminating NUL. -/
theorem RvCnameChain_invariant (E : Env) :
    ChainWF RvCnameChainConstruct ∧
    (∀ (c : RvCnameChain) (owner aliasName : Name), ChainWF c → GoodName owner →
      GoodName aliasName → ChainWF (RvCnameChainAdd E c owner aliasName).2) ∧
    (∀ c : RvCnameChain, ChainWF c →
      ∃ (es : List ChainEntry) (rest : List Nat),
        c.buf = chainBytes es ++ rest ∧ c.chainSize = es.length ∧
        c.nextFree = entriesSize es ∧ c.nextFree ≤ c.bufSize ∧ c.bufSize = c.buf.length ∧
        (es.map (fun e => e.2)).Pairwise (fun m n => lowerName m ≠ lowerName n) ∧
        ∀ (i : Nat) (e : ChainEntry), es[i]? = some e →
          e.2.length ≤ 255 ∧
          byteAt c.buf (entriesSize (es.take i)) = (if e.1 then 1 else 0) ∧
          byteAt c.buf (entriesSize (es.take i) + 1) = e.2.length ∧
          cString c.buf (entriesSize (es.take i) + 2) = e.2 ∧
          entriesSize (es.take (i + 1)) = entriesSize (es.take i) + e.2.length + 3) := by
  refine ⟨⟨[], ChainRep_construct, fun e he => absurd he (by simp), by simp⟩, ?_, ?_⟩
  · intro c owner aliasName h ho ha
    exact ChainWF_add E c owner aliasName h ho ha
  · intro c h
    obtain ⟨es, hrep, hg, hp⟩ := h
    have hrep2 := hrep
    obtain ⟨⟨rest, hbuf⟩, hsz, hnf, hbs, -⟩ := hrep2
    refine ⟨es, rest, hbuf, hsz, ?_, ?_, hbs, hp, ?_⟩
    · rw [hnf, chainBytes_length]
    · rw [hnf, hbs, hbuf, List.length_append]
      omega
    · intro i e hi
      obtain ⟨t, h1, h2⟩ := ChainRep_entry c es hrep i e hi
      have hge := hg e (List.mem_iff_getElem?.2 ⟨i, hi⟩)
      obtain ⟨e1, e2, e3, -⟩ := entry_at c.buf _ e t h1 hge.1
      exact ⟨hge.1, e1, e2, cString_name c.buf _ e.2 t e3 hge.2, h2⟩

/-- C37 (witness): the chain after the pair `www.a` -> `b` has been added to the empty
chain satisfies the invariant. -/
theorem RvCnameChain_invariant_witness :
    ChainWF (RvCnameChainAdd (sampleEnv cacheOk) RvCnameChainConstruct
      [119, 119, 119, 46, 97] [98]).2 :=
  (RvCnameChain_invariant (sampleEnv cacheOk)).2.1 RvCnameChainConstruct
    [119, 119, 119, 46, 97] [98] (RvCnameChain_invariant (sampleEnv cacheOk)).1
    (by decide) (by decide)

/-- C38: for a chain that satisfies the invariant and a name of at most 255 octets,
`RvCnameChainAddEntry` leaves the buffer size as it is when at least length + 3 octets are
free; when fewer are free it asks for twice the size and, when the allocation succeeds, the
buffer has exactly twice the size; when the allocation fails it returns that status and
leaves the chain as it is.  When it succeeds the octets of the entries that were there are
the same, the new entry lies behind them and `nextFree` is within the buffer, so the entry
fits.  The buffer size is 512 at first, at least 512 under the invariant, and neither
`RvCnameChainAddEntry` nor `RvCnameChainAdd` decreases it. -/
theorem RvCnameChainAddEntry_growth (E : Env) (c : RvCnameChain) (name : Name) (flag : Bool)
    (h : ChainWF c) (hn : GoodName name) :
    RvCnameChainConstruct.bufSize = 512 ∧ 512 ≤ c.bufSize ∧
    c.bufSize ≤ (RvCnameChainAddEntry E c name name.length flag).2.bufSize ∧
    (¬ c.bufSize - c.nextFree < name.length + 3 →
      (RvCnameChainAddEntry E c name name.length flag).1 = RV_OK ∧
      (RvCnameChainAddEntry E c name name.length flag).2.bufSize = c.bufSize) ∧
    (c.bufSize - c.nextFree < name.length + 3 → E.RvMemoryAlloc (c.bufSize * 2) = RV_OK →
      (RvCnameChainAddEntry E c name name.length flag).1 = RV_OK ∧
      (RvCnameChainAddEntry E c name name.length flag).2.bufSize = c.bufSize * 2) ∧
    (c.bufSize - c.nextFree < name.length + 3 → E.RvMemoryAlloc (c.bufSize * 2) ≠ RV_OK →
      RvCnameChainAddEntry E c name name.length flag =
        (E.RvMemoryAlloc (c.bufSize * 2), c)) ∧
    ((RvCnameChainAddEntry E c name name.length flag).1 = RV_OK →
      (RvCnameChainAddEntry E c name name.length flag).2.buf.take c.nextFree =
        c.buf.take c.nextFree ∧
      (∃ t, (RvCnameChainAddEntry E c name name.length flag).2.buf.drop c.nextFree =
        entryBytes (flag, name) ++ t) ∧
      (RvCnameChainAddEntry E c name name.length flag).2.nextFree =
        c.nextFree + name.length + 3 ∧
      (RvCnameChainAddEntry E c name name.length flag).2.nextFree ≤
        (RvCnameChainAddEntry E c name name.length flag).2.bufSize ∧
      (RvCnameChainAddEntry E c name name.length flag).2.bufSize =
        (RvCnameChainAddEntry E c name name.length flag).2.buf.length) ∧
    (∀ owner aliasName : Name, c.bufSize ≤ (RvCnameChainAdd E c owner aliasName).2.bufSize) := by
  obtain ⟨es, hrep, hg, -⟩ := h
  refine ⟨rfl, hrep.2.2.2.2, RvCnameChainAddEntry_bufSize E c name _ flag, ?_, ?_, ?_, ?_,
    fun o a => RvCnameChainAdd_bufSize E c o a⟩
  · intro hsp
    unfold RvCnameChainAddEntry
    simp only [if_neg hsp, ne_eq, not_true_eq_false, if_false]
    exact ⟨trivial, trivial⟩
  · intro hsp hs
    unfold RvCnameChainAddEntry
    simp only [if_pos hsp, hs, ne_eq, not_true_eq_false, if_false]
    exact ⟨trivial, trivial⟩
  · intro hsp hs
    unfold RvCnameChainAddEntry
    simp only [if_pos hsp, ne_eq, hs, not_false_eq_true, if_true]
  · intro hok
    rw [RvCnameChainAddEntry_ok E c name name.length flag hok]
    obtain ⟨-, r2⟩ := RvCnameChainAddEntry_rep (withWorkingAllocator E) (fun _ => rfl) c es name
      flag hrep hn
    obtain ⟨⟨rest2, hbuf2⟩, -, hnf2, hbs2, -⟩ := r2
    obtain ⟨⟨rest, hbuf⟩, -, hnf, hbs, -⟩ := hrep
    rw [hbuf2, hnf2, hnf, hbs2, hbuf2, hbuf, chainBytes_append]
    refine ⟨?_, ⟨rest2, ?_⟩, ?_, ?_, rfl⟩
    · rw [List.append_assoc, List.take_left, List.take_left]
    · rw [List.append_assoc, List.drop_left]
      simp [chainBytes]
    · simp [chainBytes, entryBytes]
      omega
    · simp only [List.length_append]
      omega

/-- C38 (witness): the empty chain of 512 octets and the name `abc`: six octets are used and
the buffer still has 512 octets. -/
theorem RvCnameChainAddEntry_growth_witness :
    (RvCnameChainAddEntry (sampleEnv cacheOk) RvCnameChainConstruct [97, 98, 99] 3 true).1 =
      RV_OK ∧
    (RvCnameChainAddEntry (sampleEnv cacheOk) RvCnameChainConstruct [97, 98, 99] 3
      true).2.bufSize = RvCnameChainConstruct.bufSize :=
  (RvCnameChainAddEntry_growth (sampleEnv cacheOk) RvCnameChainConstruct [97, 98, 99] true
    ⟨[], ChainRep_construct, fun e he => absurd he (by simp), by simp⟩ (by decide)).2.2.2.1
    (by decide)

theorem rvDnsFindNxdomainTTL_loop_step (E : Env) (msg : List Nat) (msgLen k cur : Nat) :
    rvDnsFindNxdomainTTL.loop E msg msgLen (k + 1) cur =
      if E.ares_enc_length cur msg msgLen < 0 then none
      else if cur + (E.ares_enc_length cur msg msgLen).toNat + 10 > msgLen then none
      else if DNS_RR_TYPE msg (cur + (E.ares_enc_length cur msg msgLen).toNat) = T_SOA ∧
          DNS_RR_CLASS msg (cur + (E.ares_enc_length cur msg msgLen).toNat) = C_IN then
        if cur + (E.ares_enc_length cur msg msgLen).toNat +
            (10 + DNS_RR_LEN msg (cur + (E.ares_enc_length cur msg msgLen).toNat)) > msgLen
        then none
        else
          some (min (DNS_RR_TTL msg (cur + (E.ares_enc_length cur msg msgLen).toNat))
              (DNS__32BIT msg (cur + (E.ares_enc_length cur msg msgLen).toNat +
                (10 + DNS_RR_LEN msg (cur + (E.ares_enc_length cur msg msgLen).toNat)) - 4)),
            cur + (E.ares_enc_length cur msg msgLen).toNat +
              (10 + DNS_RR_LEN msg (cur + (E.ares_enc_length cur msg msgLen).toNat)) - 4)
      else
        rvDnsFindNxdomainTTL.loop E msg msgLen k
          (cur + (E.ares_enc_length cur msg msgLen).toNat +
            (DNS_RR_LEN msg (cur + (E.ares_enc_length cur msg msgLen).toNat) + 10)) := rfl

/-- The loop of `rvDnsFindNxdomainTTL` passes records that lie within the message and are
not SOA records of class IN. -/
theorem rvDnsFindNxdomainTTL_loop_skip (E : Env) (msg : List Nat) (msgLen : Nat) (k : Nat) :
    ∀ (recs : List AuthRecord) (cur : Nat), authLayout E msg msgLen cur recs = true →
      (∀ r ∈ recs, ¬ (r.type = T_SOA ∧ r.cls = C_IN)) →
      rvDnsFindNxdomainTTL.loop E msg msgLen (recs.length + k) cur =
        rvDnsFindNxdomainTTL.loop E msg msgLen k (authEnd cur recs) := by
  intro recs
  induction recs with
  | nil =>
    intro cur _ _
    simp [authEnd]
  | cons r rest ih =>
    intro cur hlay hno
    simp only [authLayout, Bool.and_eq_true, decide_eq_true_eq] at hlay
    obtain ⟨⟨⟨⟨⟨⟨⟨h1, h2⟩, h3⟩, h4⟩, h5⟩, h6⟩, h7⟩, h8⟩ := hlay
    have hneg : ¬ ((r.nameLen : Int) < 0) := by omega
    have hfit : ¬ (cur + r.nameLen + 10 > msgLen) := by omega
    have hs : ¬ (r.type = T_SOA ∧ r.cls = C_IN) := hno r (List.mem_cons_self _ _)
    rw [show (r :: rest).length + k = (rest.length + k) + 1 by simp; omega]
    rw [rvDnsFindNxdomainTTL_loop_step]
    simp only [h1, hneg, if_false, Int.toNat_ofNat, hfit, h2, h3, hs, h5]
    rw [show cur + r.nameLen + (r.rdata.length + 10) = cur + r.nameLen + 10 + r.rdata.length
      by omega]
    exact ih _ h8 (fun x hx => hno x (List.mem_cons_of_mem _ hx))

/-- C39 (counterexample): in the sample NXDOMAIN response the SOA record of the authority
section lies at the offsets 59 to 98.  `rvDnsFindNxdomainTTL` takes the TTL 120 from it and
leaves the cursor at 95, in front of the last four octets of the record; with a message
length of 70, which cuts the record in its fixed part, it returns 0 and leaves the cursor
at 59, in front of the record. -/
theorem rvDnsFindNxdomainTTL_cursor_not_behind :
    msgNxdomain.length = 99 ∧
    (rvDnsFindNxdomainTTL (sampleEnv cacheOk)
      { headerCtx msgNxdomain msgNxdomain.length with msgCur := 59 }).1 = 120 ∧
    (rvDnsFindNxdomainTTL (sampleEnv cacheOk)
      { headerCtx msgNxdomain msgNxdomain.length with msgCur := 59 }).2.msgCur = 95 ∧
    (rvDnsFindNxdomainTTL (sampleEnv cacheOk)
      { headerCtx msgNxdomain 70 with msgCur := 59 }).1 = 0 ∧
    (rvDnsFindNxdomainTTL (sampleEnv cacheOk)
      { headerCtx msgNxdomain 70 with msgCur := 59 }).2.msgCur = 59 := by
  decide

/-- C39 (amended): let the authority records `recs` lie one after the other within the
message from the cursor on, none of them an SOA record of class IN.  When they are all the
NSCOUNT records, `rvDnsFindNxdomainTTL` returns 0 and leaves the cursor behind the last of
them.  When more records are announced and the next one has an owner name that
`ares_enc_length` rejects, or a fixed part that extends past the message, or is an SOA
record of class IN whose RDATA extends past the message, it returns 0 and leaves the
context as it was. -/
theorem rvDnsFindNxdomainTTL_cursor (E : Env) (ctx : RvDecodeCtx) (recs : List AuthRecord)
    (hlay : authLayout E ctx.msgBody ctx.msgLen ctx.msgCur recs = true)
    (hno : ∀ r ∈ recs, ¬ (r.type = T_SOA ∧ r.cls = C_IN)) :
    (DNS_HEADER_NSCOUNT ctx.msgBody = recs.length →
      rvDnsFindNxdomainTTL E ctx =
        (0, { ctx with msgCur := authEnd ctx.msgCur recs })) ∧
    (recs.length < DNS_HEADER_NSCOUNT ctx.msgBody →
      E.ares_enc_length (authEnd ctx.msgCur recs) ctx.msgBody ctx.msgLen < 0 →
      rvDnsFindNxdomainTTL E ctx = (0, ctx)) ∧
    (∀ nameLen : Nat, recs.length < DNS_HEADER_NSCOUNT ctx.msgBody →
      E.ares_enc_length (authEnd ctx.msgCur recs) ctx.msgBody ctx.msgLen = (nameLen : Int) →
      authEnd ctx.msgCur recs + nameLen + 10 > ctx.msgLen →
      rvDnsFindNxdomainTTL E ctx = (0, ctx)) ∧
    (∀ nameLen : Nat, recs.length < DNS_HEADER_NSCOUNT ctx.msgBody →
      E.ares_enc_length (authEnd ctx.msgCur recs) ctx.msgBody ctx.msgLen = (nameLen : Int) →
      DNS_RR_TYPE ctx.msgBody (authEnd ctx.msgCur recs + nameLen) = T_SOA →
      DNS_RR_CLASS ctx.msgBody (authEnd ctx.msgCur recs + nameLen) = C_IN →
      authEnd ctx.msgCur recs + nameLen +
        (10 + DNS_RR_LEN ctx.msgBody (authEnd ctx.msgCur recs + nameLen)) > ctx.msgLen →
      rvDnsFindNxdomainTTL E ctx = (0, ctx)) := by
  have hskip := fun k => rvDnsFindNxdomainTTL_loop_skip E ctx.msgBody ctx.msgLen k recs
    ctx.msgCur hlay hno
  have hmore : ∀ n, recs.length < n → ∃ k, n = recs.length + (k + 1) := by
    intro n hn
    exact ⟨n - recs.length - 1, by omega⟩
  refine ⟨?_, ?_, ?_, ?_⟩
  · intro hns
    unfold rvDnsFindNxdomainTTL
    simp only []
    rw [hns, show recs.length = recs.length + 0 by rfl, hskip 0]
    rfl
  · intro hns hbad
    obtain ⟨k, hk⟩ := hmore _ hns
    unfold rvDnsFindNxdomainTTL
    simp only []
    rw [hk, hskip (k + 1), rvDnsFindNxdomainTTL_loop_step]
    simp only [hbad, if_true]
  · intro nameLen hns hlen hbad
    obtain ⟨k, hk⟩ := hmore _ hns
    have hneg : ¬ ((nameLen : Int) < 0) := by omega
    unfold rvDnsFindNxdomainTTL
    simp only []
    rw [hk, hskip (k + 1), rvDnsFindNxdomainTTL_loop_step]
    simp only [hlen, hneg, if_false, Int.toNat_ofNat, hbad, if_true]
  · intro nameLen hns hlen ht hc hbad
    obtain ⟨k, hk⟩ := hmore _ hns
    have hneg : ¬ ((nameLen : Int) < 0) := by omega
    unfold rvDnsFindNxdomainTTL
    simp only []
    rw [hk, hskip (k + 1), rvDnsFindNxdomainTTL_loop_step]
    simp only [hlen, hneg, if_false, Int.toNat_ofNat, ht, hc, and_self, if_true, hbad, ite_self]

/-- C39 (witness): the authority section of the sample response holds one NS record, which
ends at offset 40, the end of the message: the cursor is left at 40. -/
theorem rvDnsFindNxdomainTTL_cursor_witness :
    rvDnsFindNxdomainTTL (sampleEnv cacheOk)
      { headerCtx msgNsAuthority msgNsAuthority.length with msgCur := 23 } =
      (0, { { headerCtx msgNsAuthority msgNsAuthority.length with msgCur := 23 } with
        msgCur := authEnd 23 [⟨3, 2, 1, 300, [2, 110, 115, 0]⟩] }) ∧
    authEnd 23 [⟨3, 2, 1, 300, [2, 110, 115, 0]⟩] = 40 ∧ msgNsAuthority.length = 40 :=
  ⟨(rvDnsFindNxdomainTTL_cursor (sampleEnv cacheOk)
      { headerCtx msgNsAuthority msgNsAuthority.length with msgCur := 23 }
      [⟨3, 2, 1, 300, [2, 110, 115, 0]⟩] (by decide) (by decide)).1 (by decide),
    by decide, by decide⟩

/-- The index the loop of `RvDnsSearchGetNextDomain` stops at, when it stops below the
bound, is one of a suffix that fits behind the name. -/
theorem RvDnsSearchGetNextDomain_loop_fits (S : SearchEnv) (engine : RvDnsSearchEngine)
    (nameLen domainMask : Nat) :
    ∀ (k i bit : Nat),
      RvDnsSearchGetNextDomain.loop S engine nameLen domainMask k i bit < i + k →
      nameLen + (engine.domains.getD
        (RvDnsSearchGetNextDomain.loop S engine nameLen domainMask k i bit) []).length + 1 <
          MAX_DOMAIN_SIZE S := by
  intro k
  induction k with
  | zero =>
    intro i bit h
    simp only [RvDnsSearchGetNextDomain.loop] at h
    omega
  | succ k ih =>
    intro i bit h
    unfold RvDnsSearchGetNextDomain.loop at h ⊢
    by_cases h1 : domainMask &&& bit = 0
    · rw [if_pos h1] at h ⊢
      exact ih _ _ (by omega)
    · rw [if_neg h1] at h ⊢
      by_cases h2 : nameLen + (engine.domains.getD i []).length + 1 ≥ MAX_DOMAIN_SIZE S
      · rw [if_pos h2] at h ⊢
        exact ih _ _ (by omega)
      · rw [if_neg h2]
        omega

/-- The suffix `RvDnsSearchGetNextDomain` returns fits behind the name. -/
theorem RvDnsSearchGetNextDomain_fits (S : SearchEnv) (engine : RvDnsSearchEngine)
    (nameLen : Nat) (q : rvSearchQuery) (d : Name)
    (hd : (RvDnsSearchGetNextDomain S engine nameLen q).1 = some d) :
    nameLen + d.length + 1 < MAX_DOMAIN_SIZE S := by
  unfold RvDnsSearchGetNextDomain at hd
  simp only [] at hd
  by_cases hi : RvDnsSearchGetNextDomain.loop S engine nameLen q.domainMask
      (engine.ndomains - q.next_domain) q.next_domain ((1 <<< q.next_domain) % 2 ^ 32) ≥
        engine.ndomains
  · rw [if_pos hi] at hd
    cases hd
  · rw [if_neg hi] at hd
    simp only [Option.some.injEq] at hd
    rw [← hd]
    apply RvDnsSearchGetNextDomain_loop_fits
    by_cases hle : q.next_domain ≤ engine.ndomains
    · omega
    · exfalso
      apply hi
      rw [show engine.ndomains - q.next_domain = 0 by omega]
      simp only [RvDnsSearchGetNextDomain.loop]
      omega

/-- The `RvSnprintf` of the sample environment writes a string that is shorter than the
buffer whole and returns its length. -/
theorem sampleSearchEnv_snprintf (n : Nat) (s : Name) (h : s.length < n) :
    sampleSearchEnv.RvSnprintf n s = ((s.length : Int), s) := by
  show ((s.length : Int), s.take (n - 1)) = ((s.length : Int), s)
  rw [List.take_of_length_le (by omega)]

/-- C40: let `RvSnprintf` write a string that is shorter than the buffer whole and return
its length, as `snprintf` does.  For every name and every suffix that
`RvDnsSearchGetNextDomain` returns for the length of the name, name, dot and suffix take
fewer than `MAX_DOMAIN_SIZE` octets, and `rvDnsCatDomain` into a buffer of `MAX_DOMAIN_SIZE`
octets (256 for `MAXCDNAME` = 255) returns `RV_OK` and leaves name, dot and suffix in the
buffer. -/
theorem rvDnsCatDomain_next_domain_fits (S : SearchEnv) (engine : RvDnsSearchEngine)
    (dnsName : Name) (q : rvSearchQuery) (d : Name)
    (hsn : ∀ (n : Nat) (s : Name), s.length < n → S.RvSnprintf n s = ((s.length : Int), s))
    (hd : (RvDnsSearchGetNextDomain S engine dnsName.length q).1 = some d) :
    (dnsName ++ [46] ++ d).length < MAX_DOMAIN_SIZE S ∧
    rvDnsCatDomain S dnsName d (MAX_DOMAIN_SIZE S) = (RV_OK, dnsName ++ [46] ++ d) ∧
    (S.MAXCDNAME = 255 → MAX_DOMAIN_SIZE S = 256) := by
  have hfit := RvDnsSearchGetNextDomain_fits S engine dnsName.length q d hd
  have hlen : (dnsName ++ [46] ++ d).length < MAX_DOMAIN_SIZE S := by
    simp only [List.length_append, List.length_singleton]
    omega
  refine ⟨hlen, ?_, ?_⟩
  · unfold rvDnsCatDomain
    simp only []
    rw [hsn _ _ hlen]
    simp only []
    rw [if_neg]
    rintro (h | h)
    · omega
    · have : (dnsName ++ [46] ++ d).length = MAX_DOMAIN_SIZE S := by exact_mod_cast h
      omega
  · intro h
    unfold MAX_DOMAIN_SIZE
    rw [h]

/-- C40 (witness): for `web` and the suffixes `corp`, `example.com` with mask 7 the first
suffix returned is `corp`, and `rvDnsCatDomain` leaves `web.corp`. -/
theorem rvDnsCatDomain_next_domain_fits_witness :
    rvDnsCatDomain sampleSearchEnv nameWeb [99, 111, 114, 112]
      (MAX_DOMAIN_SIZE sampleSearchEnv) =
      (RV_OK, nameWeb ++ [46] ++ [99, 111, 114, 112]) :=
  (rvDnsCatDomain_next_domain_fits sampleSearchEnv (sampleEngine sampleSuffixes 1) nameWeb
    (RvDnsSearchSetMask (sampleEnv cacheOk) zeroSearchQuery 7) [99, 111, 114, 112]
    sampleSearchEnv_snprintf (by decide)).2.1

/-- C33: the engine has the suffixes `corp` and `example.com` and `ndots` 1; the name `a.b`
has one dot, so the search tries it as is first.  With the mask 6, whose as-is bit is clear,
and a buffer of 512 octets `rvDnsSearch` takes the suffix-search path, lays its block and
returns `RV_OK` without a call of `ares_query`: no attempt is in flight.  With the mask 7 it
queries `a.b`. -/
theorem rvDnsSearch_accepts_without_query :
    rvDnsSearch.single sampleSearchEnv (sampleEngine sampleSuffixes 1) nameAB 6 = false ∧
    (rvDnsSearch (sampleEnv cacheOk) sampleSearchEnv (sampleEngine sampleSuffixes 1) 1 nameAB 6
      0 512 zeroSearchQuery 77 1 []).status = RV_OK ∧
    (rvDnsSearch (sampleEnv cacheOk) sampleSearchEnv (sampleEngine sampleSuffixes 1) 1 nameAB 6
      0 512 zeroSearchQuery 77 1 []).trace = [] ∧
    (rvDnsSearch (sampleEnv cacheOk) sampleSearchEnv (sampleEngine sampleSuffixes 1) 1 nameAB 6
      0 512 zeroSearchQuery 77 1 []).squery.isSome = true ∧
    queriesOf (rvDnsSearch (sampleEnv cacheOk) sampleSearchEnv (sampleEngine sampleSuffixes 1)
      1 nameAB 7 0 512 zeroSearchQuery 77 1 []).trace = [nameAB] := by
  decide

theorem lockedPhase_engine (lockStatus : Int) (nservers : Nat) (op : EngineOp) :
    ∀ e ∈ lockedPhase lockStatus nservers op, isEngineOp e = true := by
  intro e he
  unfold lockedPhase at he
  simp only [List.mem_append, List.mem_cons, List.mem_singleton, List.mem_map, List.mem_range,
    List.not_mem_nil, or_false] at he
  rcases he with (h | ⟨i, -, h⟩) | h | h | h <;> subst h <;> rfl

theorem callbacksOf_engine (l : List Event) (h : ∀ e ∈ l, isEngineOp e = true) :
    callbacksOf l = [] := by
  induction l with
  | nil => rfl
  | cons e l ih =>
    have he := h e (List.mem_cons_self _ _)
    cases e <;> simp [isEngineOp] at he
    simp only [callbacksOf]
    exact ih (fun x hx => h x (List.mem_cons_of_mem _ hx))

/-- The events `rvAresResetServers2` adds: one callback per query. -/
theorem rvAresResetServers2_events (E : Env) (D : SendEnv) (dnsEngine : RvDnsEngine)
    (searchQueryAt : List Event → Nat → rvSearchQuery) (dnsData0 : RvDnsData) :
    ∀ (qs : List rvQuery) (trace : List Event),
      ∃ cbs : List Event,
        rvAresResetServers2 E D dnsEngine searchQueryAt dnsData0 qs trace = trace ++ cbs ∧
        cbs.length = qs.length ∧ (∀ e ∈ cbs, isCallback e = true) ∧
        callbacksOf cbs = List.replicate qs.length (canceledRecord E D dnsData0) ∧
        cbs.map (fun e => match e with
          | Event.callback _ queryId _ _ => queryId
          | _ => 0) = qs.map (fun q => q.user_qid) := by
  intro qs
  induction qs with
  | nil =>
    intro trace
    exact ⟨[], by simp [rvAresResetServers2], rfl, by simp, rfl, rfl⟩
  | cons q0 rest ih =>
    intro trace
    obtain ⟨cbs, h1, h2, h3, h4, h5⟩ :=
      ih (rvAresResetServers2.body E D dnsEngine searchQueryAt dnsData0 q0 trace)
    have hb := rvAresResetServers2_body_eq E D dnsEngine searchQueryAt dnsData0 q0 trace
    generalize hctx : (if q0.user_callback = AresCallback.rvDnsSearchCallback then
      (searchQueryAt trace q0.user_arg).context else q0.user_arg) = ctx at hb
    generalize hret : userCallback dnsEngine q0.newRecordCB trace ctx q0.user_qid
      { dnsData0 with
        dataType := E.RV_DNS_STATUS_TYPE
        data := .status D.RV_DNS_QUERY_CANCELED
        queryType := 0 } = ret at hb
    rw [hb] at h1
    refine ⟨Event.callback ctx q0.user_qid (canceledRecord E D dnsData0) ret :: cbs,
      ?_, ?_, ?_, ?_, ?_⟩
    · unfold rvAresResetServers2
      rw [hb, h1, List.append_assoc]
      rfl
    · simp [h2]
    · intro e he
      rcases List.mem_cons.1 he with h | h
      · rw [h]; rfl
      · exact h3 e h
    · simp [callbacksOf, h4, List.replicate_succ]
    · simp [h5]

theorem rvAresResetServers2_guard (E : Env) (D : SendEnv) (dnsEngine : RvDnsEngine)
    (searchQueryAt : List Event → Nat → rvSearchQuery) (dnsData0 : RvDnsData)
    (qs : List rvQuery) (trace : List Event) :
    (if !qs.isEmpty then rvAresResetServers2 E D dnsEngine searchQueryAt dnsData0 qs trace
      else trace) = rvAresResetServers2 E D dnsEngine searchQueryAt dnsData0 qs trace := by
  cases qs with
  | nil => rfl
  | cons q qs => rfl

theorem RvAresSetParams_options_reset (C : ConfigEnv) (timeoutInSec nTries : Int)
    (dnsServList : List Nat) (nServers : Int) (dnsDomains : Option (List Name))
    (nDomains : Int) (options0 : ares_options) :
    (RvAresSetParams.options C timeoutInSec nTries (some dnsServList) nServers dnsDomains
      nDomains options0).1 = true := by
  unfold RvAresSetParams.options
  cases dnsDomains <;> rfl

/-- The events of `RvAresSetParams` with a server list. -/
theorem RvAresSetParams_servers (E : Env) (D : SendEnv) (C : ConfigEnv)
    (dnsEngine : RvDnsEngine) (nservers : Nat) (timeoutInSec nTries : Int)
    (dnsServList : List Nat) (nServers : Int) (dnsDomains : Option (List Name))
    (nDomains : Int) (options0 : ares_options)
    (searchQueryAt : List Event → Nat → rvSearchQuery) (dnsData0 : RvDnsData)
    (trace : List Event) :
    (RvAresSetParams E D C dnsEngine nservers timeoutInSec nTries (some dnsServList) nServers
      dnsDomains nDomains options0 searchQueryAt dnsData0 trace).2 =
      rvAresResetServers2 E D dnsEngine searchQueryAt dnsData0
        (C.ares_cancel_queries (trace ++ [Event.engine (.lockGet (C.RvLockGet trace))] ++
          (List.range nservers).map (fun i => Event.engine (.closeSockets i))))
        (trace ++ lockedPhase (C.RvLockGet trace) nservers
          (.setOptions
            (RvAresSetParams.options C timeoutInSec nTries (some dnsServList) nServers
              dnsDomains nDomains options0).2.2
            (C.ares_set_options
              (trace ++ [Event.engine (.lockGet (C.RvLockGet trace))] ++
                (List.range nservers).map (fun i => Event.engine (.closeSockets i)) ++
                [Event.engine .cancelQueries])
              (RvAresSetParams.options C timeoutInSec nTries (some dnsServList) nServers
                dnsDomains nDomains options0).2.1
              (RvAresSetParams.options C timeoutInSec nTries (some dnsServList) nServers
                dnsDomains nDomains options0).2.2))) := by
  unfold RvAresSetParams
  simp only [RvAresSetParams_options_reset, rvAresResetServers1, if_true,
    rvAresResetServers2_guard]
  split_ifs <;>
    simp only [lockedPhase, List.append_assoc, List.cons_append, List.nil_append,
      List.singleton_append]

/-- The events of `RvAresConfigure` with the servers flag. -/
theorem RvAresConfigure_servers (E : Env) (D : SendEnv) (C : ConfigEnv)
    (dnsEngine : RvDnsEngine) (nservers : Nat) (configType : Nat)
    (searchQueryAt : List Event → Nat → rvSearchQuery) (dnsData0 : RvDnsData)
    (trace : List Event) (hflag : configType &&& C.RV_DNS_SERVERS ≠ 0) :
    (RvAresConfigure E D C dnsEngine nservers configType searchQueryAt dnsData0 trace).2 =
      rvAresResetServers2 E D dnsEngine searchQueryAt dnsData0
        (C.ares_cancel_queries (trace ++ [Event.engine (.lockGet (C.RvLockGet trace))] ++
          (List.range nservers).map (fun i => Event.engine (.closeSockets i))))
        (trace ++ lockedPhase (C.RvLockGet trace) nservers
          (.configure configType
            (RvAresConfigure E D C dnsEngine nservers configType searchQueryAt dnsData0
              trace).1)) := by
  unfold RvAresConfigure
  simp only [rvAresResetServers1, if_pos hflag, rvAresResetServers2_guard]
  simp only [lockedPhase, List.append_assoc, List.cons_append, List.nil_append,
    List.singleton_append]

/-- C31 (counterexample): two queries are in flight, with the ids 5 and 6, and two servers
are configured.  The events of `RvAresSetParams` with a server list, up to its return, are
the lock, the closing of the sockets, the cancelling, `ares_set_options`, the release of
the lock and then the two callbacks with the cancelled record: the callbacks are invoked by
the call itself, before it returns.  The same holds for `RvAresConfigure` with the servers
flag. -/
theorem RvAresSetParams_callbacks_before_return :
    RvAresSetParams (sampleEnv cacheOk) (sampleSendEnv 0 none) (sampleConfigEnv sampleCancelled 0)
      ⟨cbOk⟩ 2 (-1) (-1) (some [1]) 1 none 0 zeroOptions sampleBlocks zeroDnsData [] =
      (0, [Event.engine (.lockGet 0), Event.engine (.closeSockets 0),
        Event.engine (.closeSockets 1), Event.engine .cancelQueries,
        Event.engine (.setOptions 64 0), Event.engine .lockRelease,
        Event.callback 77 5 (canceledRecord (sampleEnv cacheOk) (sampleSendEnv 0 none)
          zeroDnsData) 0,
        Event.callback 88 6 (canceledRecord (sampleEnv cacheOk) (sampleSendEnv 0 none)
          zeroDnsData) 0]) ∧
    callbacksOf (RvAresConfigure (sampleEnv cacheOk) (sampleSendEnv 0 none)
      (sampleConfigEnv sampleCancelled 0) ⟨cbOk⟩ 2 1 sampleBlocks zeroDnsData []).2 =
      [canceledRecord (sampleEnv cacheOk) (sampleSendEnv 0 none) zeroDnsData,
        canceledRecord (sampleEnv cacheOk) (sampleSendEnv 0 none) zeroDnsData] := by
  decide

/-- C31 (amended): let `qs` be the queries `ares_cancel_queries` cancels.  The events of
`RvAresSetParams` with a server list, and of `RvAresConfigure` with the servers flag, up to
the return of the call are: `RvLockGet`, the closing of the sockets of every server, the
cancelling of the queries, `ares_set_options` or `ares_configure`, `RvLockRelease`, and
behind the release one callback per cancelled query, in the order of `qs`, with the id of
the query and the cancelled record.  No callback lies between `RvLockGet` and
`RvLockRelease`; all callbacks lie behind `RvLockRelease` and before the return. -/
theorem RvAresSetParams_callbacks_after_release (E : Env) (D : SendEnv) (C : ConfigEnv)
    (dnsEngine : RvDnsEngine) (nservers : Nat)
    (searchQueryAt : List Event → Nat → rvSearchQuery) (dnsData0 : RvDnsData)
    (trace : List Event) (qs : List rvQuery)
    (hqs : qs = C.ares_cancel_queries (trace ++ [Event.engine (.lockGet (C.RvLockGet trace))] ++
      (List.range nservers).map (fun i => Event.engine (.closeSockets i)))) :
    (∀ (timeoutInSec nTries : Int) (dnsServList : List Nat) (nServers : Int)
      (dnsDomains : Option (List Name)) (nDomains : Int) (options0 : ares_options),
      ∃ (op : EngineOp) (cbs : List Event),
        (RvAresSetParams E D C dnsEngine nservers timeoutInSec nTries (some dnsServList)
          nServers dnsDomains nDomains options0 searchQueryAt dnsData0 trace).2 =
          trace ++ lockedPhase (C.RvLockGet trace) nservers op ++ cbs ∧
        cbs.length = qs.length ∧ (∀ e ∈ cbs, isCallback e = true) ∧
        callbacksOf cbs = List.replicate qs.length (canceledRecord E D dnsData0) ∧
        cbs.map (fun e => match e with
          | Event.callback _ queryId _ _ => queryId
          | _ => 0) = qs.map (fun q => q.user_qid)) ∧
    (∀ configType : Nat, configType &&& C.RV_DNS_SERVERS ≠ 0 →
      ∃ (op : EngineOp) (cbs : List Event),
        (RvAresConfigure E D C dnsEngine nservers configType searchQueryAt dnsData0 trace).2 =
          trace ++ lockedPhase (C.RvLockGet trace) nservers op ++ cbs ∧
        cbs.length = qs.length ∧ (∀ e ∈ cbs, isCallback e = true) ∧
        callbacksOf cbs = List.replicate qs.length (canceledRecord E D dnsData0) ∧
        cbs.map (fun e => match e with
          | Event.callback _ queryId _ _ => queryId
          | _ => 0) = qs.map (fun q => q.user_qid)) ∧
    (∀ op : EngineOp,
      lockedPhase (C.RvLockGet trace) nservers op =
        [Event.engine (.lockGet (C.RvLockGet trace))] ++
          (List.range nservers).map (fun i => Event.engine (.closeSockets i)) ++
          [Event.engine .cancelQueries, Event.engine op, Event.engine .lockRelease] ∧
      (∀ e ∈ lockedPhase (C.RvLockGet trace) nservers op, isEngineOp e = true) ∧
      callbacksOf (lockedPhase (C.RvLockGet trace) nservers op) = []) := by
  refine ⟨?_, ?_, ?_⟩
  · intro timeoutInSec nTries dnsServList nServers dnsDomains nDomains options0
    rw [RvAresSetParams_servers, ← hqs]
    obtain ⟨cbs, h1, h2, h3, h4, h5⟩ := rvAresResetServers2_events E D dnsEngine searchQueryAt
      dnsData0 qs (trace ++ lockedPhase (C.RvLockGet trace) nservers
        (.setOptions
          (RvAresSetParams.options C timeoutInSec nTries (some dnsServList) nServers
            dnsDomains nDomains options0).2.2
          (C.ares_set_options
            (trace ++ [Event.engine (.lockGet (C.RvLockGet trace))] ++
              (List.range nservers).map (fun i => Event.engine (.closeSockets i)) ++
              [Event.engine .cancelQueries])
            (RvAresSetParams.options C timeoutInSec nTries (some dnsServList) nServers
              dnsDomains nDomains options0).2.1
            (RvAresSetParams.options C timeoutInSec nTries (some dnsServList) nServers
              dnsDomains nDomains options0).2.2)))
    exact ⟨_, cbs, h1, h2, h3, h4, h5⟩
  · intro configType hflag
    rw [RvAresConfigure_servers E D C dnsEngine nservers configType searchQueryAt dnsData0 trace
      hflag, ← hqs]
    obtain ⟨cbs, h1, h2, h3, h4, h5⟩ := rvAresResetServers2_events E D dnsEngine searchQueryAt
      dnsData0 qs (trace ++ lockedPhase (C.RvLockGet trace) nservers
        (.configure configType
          (RvAresConfigure E D C dnsEngine nservers configType searchQueryAt dnsData0
            trace).1))
    exact ⟨_, cbs, h1, h2, h3, h4, h5⟩
  · intro op
    exact ⟨rfl, lockedPhase_engine _ _ _, callbacksOf_engine _ (lockedPhase_engine _ _ _)⟩

/-- C31 (witness): two queries in flight and two servers: `RvAresSetParams` with a server
list adds the six events of the locked phase and two callbacks behind them. -/
theorem RvAresSetParams_callbacks_after_release_witness :
    ∃ (op : EngineOp) (cbs : List Event),
      (RvAresSetParams (sampleEnv cacheOk) (sampleSendEnv 0 none)
        (sampleConfigEnv sampleCancelled 0) ⟨cbOk⟩ 2 (-1) (-1) (some [1]) 1 none 0 zeroOptions
        sampleBlocks zeroDnsData []).2 = [] ++ lockedPhase 0 2 op ++ cbs ∧
      cbs.length = 2 :=
  ((RvAresSetParams_callbacks_after_release (sampleEnv cacheOk) (sampleSendEnv 0 none)
    (sampleConfigEnv sampleCancelled 0) ⟨cbOk⟩ 2 sampleBlocks zeroDnsData [] sampleCancelled
    rfl).1 (-1) (-1) [1] 1 none 0 zeroOptions).elim
    (fun op h => h.elim (fun cbs h2 => ⟨op, cbs, h2.1, h2.2.1⟩))

/-- C32: when `RvAresCancelQuery` gets the lock it asks the cache first; when the cache
answers `RV_DNS_ERROR_CACHE_NOTFOUND` it asks the resolver next and returns the status of
the resolver, otherwise it does not ask the resolver and returns the status of the cache;
then it releases the lock.  When it does not get the lock it returns the status of the lock
and asks neither.  In no case does it invoke a callback. -/
theorem RvAresCancelQuery_cache_first (C : ConfigEnv) (queryId : Nat) (trace : List Event)
    (cs ts : Int)
    (hcs : cs = C.RvAresCacheCltCancelQuery
      (trace ++ [Event.engine (.lockGet (C.RvLockGet trace))]) queryId)
    (hts : ts = C.ares_cancel_query
      (trace ++ [Event.engine (.lockGet (C.RvLockGet trace))] ++
        [Event.engine (.cacheCancel queryId cs)]) queryId) :
    (C.RvLockGet trace = RV_OK → cs = C.RV_DNS_ERROR_CACHE_NOTFOUND →
      RvAresCancelQuery C queryId trace =
        (ts, trace ++ [Event.engine (.lockGet RV_OK), Event.engine (.cacheCancel queryId cs),
          Event.engine (.cancelQuery queryId ts), Event.engine .lockRelease])) ∧
    (C.RvLockGet trace = RV_OK → cs ≠ C.RV_DNS_ERROR_CACHE_NOTFOUND →
      RvAresCancelQuery C queryId trace =
        (cs, trace ++ [Event.engine (.lockGet RV_OK), Event.engine (.cacheCancel queryId cs),
          Event.engine .lockRelease])) ∧
    (C.RvLockGet trace ≠ RV_OK →
      RvAresCancelQuery C queryId trace =
        (C.RvLockGet trace, trace ++ [Event.engine (.lockGet (C.RvLockGet trace))])) ∧
    callbacksOf (RvAresCancelQuery C queryId trace).2 = callbacksOf trace := by
  subst hts
  subst hcs
  refine ⟨?_, ?_, ?_, ?_⟩
  · intro hl hc
    unfold RvAresCancelQuery
    simp only [hl, ne_eq, not_true_eq_false, if_false] at hc ⊢
    rw [if_pos hc]
    simp
  · intro hl hc
    unfold RvAresCancelQuery
    simp only [hl, ne_eq, not_true_eq_false, if_false] at hc ⊢
    rw [if_neg hc]
    simp
  · intro hl
    unfold RvAresCancelQuery
    simp only [ne_eq, hl, not_false_eq_true, if_true]
  · unfold RvAresCancelQuery
    simp only []
    split_ifs <;> simp [callbacksOf_append, callbacksOf]

/-- C32 (witness): the cache does not know the id 9 (status -13): the resolver is asked and
its status 0 is returned. -/
theorem RvAresCancelQuery_cache_first_witness :
    RvAresCancelQuery (sampleConfigEnv [] (-13)) 9 [] =
      (0, [] ++ [Event.engine (.lockGet RV_OK), Event.engine (.cacheCancel 9 (-13)),
        Event.engine (.cancelQuery 9 0), Event.engine .lockRelease]) :=
  (RvAresCancelQuery_cache_first (sampleConfigEnv [] (-13)) 9 [] (-13) 0 (by decide)
    (by decide)).1 (by decide) (by decide)

end RvAres
